import Mathlib

/-!
# The Lua code generator (`lcode.c`): line information, registers, constant pool

A shallow embedding of the parts of `src/lcode.c` that record per-instruction
line information, allocate registers and intern constants, followed by the
theorems that settle the properties stated about them.

Conventions of the embedding

* The function-under-construction state `FuncState` gathers the fields of the
  C `FuncState`, of its prototype `fs->f` and of the scanner table `fs->ls->h`
  that the embedded functions read or write.
* A C array that is grown on demand (`luaM_growvector`) is a total function
  `Nat → α`; the fields `pc`, `nk`, `nabslineinfo` say how much of it is in use.
  Allocation is assumed to succeed.
* `lu_byte` fields (`iwthabs`, `freereg`, `nactvar`, `maxstacksize`) are `Nat`
  with an explicit `% 256` at every store; source lines and register operands
  are `Int`; a `lua_Integer` is an `Int` kept within 64 bits.
* `lua_assert` is compiled out in the C build, so an assertion never changes
  the state; where a property depends on one it appears as a hypothesis.
* A function that can raise a syntax error returns `Except String _`.
-/

namespace LCode

/-! ## Constants -/

/-- Maximum number of registers in a Lua function (`lcode.c`, line 34). -/
def MAXREGS : Nat := 255

/-- MAXimum number of successive Instructions WiTHout ABSolute line
information (`lcode.c`, line 313). -/
def MAXIWTHABS : Nat := 120

/-- Limit for the difference between lines in relative line info
(`lcode.c`, line 318). -/
def LIMLINEDIFF : Int := 0x80

/-- Modelled from the spec: the macro `ABSLINEINFO` is defined outside
`lcode.c`; the specification gives the reserved byte as `-0x80`. -/
def ABSLINEINFO : Int := -0x80

/-- The conversion of an `int` to `lu_byte` (`cast_byte`, and every store into
a `lu_byte` field). -/
def cast_byte (x : Int) : Nat := (x % 256).toNat

/-- The conversion of an `int` to the signed byte type `ls_byte` of the
`lineinfo` array. -/
def cast_ls_byte (x : Int) : Int := (x + 128) % 256 - 128

/-- Store `v` at index `i` of a grown-on-demand array. -/
def setAt {α : Type} (a : Nat → α) (i : Nat) (v : α) : Nat → α :=
  fun j => if j = i then v else a j

/-! ## Values -/

/-- Modelled from the spec: the float type `lua_Number` (a C double) is
declared outside `lcode.c`. A double is described by what it denotes: a finite
value (the rational it is equal to; zero is `+0.0`), the negative zero, an
infinity or a NaN. Every double is one of these. -/
inductive lua_Number where
  | fin (q : ℚ)
  | negzero
  | inf (negative : Bool)
  | nan
  deriving DecidableEq

/-- Modelled from the spec: a string object (`TString`, declared outside
`lcode.c`): its variant (short or long, fixed when the string is created) and
its contents. -/
structure TString where
  isshort : Bool
  contents : String
  deriving DecidableEq

/-- Modelled from the spec: the variant tags (`ttypetag`, declared outside
`lcode.c`) of the tagged values that occur here; an integer and a float have
different tags. -/
inductive TypeTag where
  | LUA_TNIL
  | LUA_TBOOLEAN
  | LUA_TNUMINT
  | LUA_TNUMFLT
  | LUA_TSHRSTR
  | LUA_TLNGSTR
  | LUA_TLIGHTUSERDATA
  | LUA_TTABLE
  deriving DecidableEq

/-- Modelled from the spec: a tagged value (`TValue`, declared outside
`lcode.c`). A light userdata is the address it holds, a table is the address
of the table object. -/
inductive TValue where
  | nil
  | boolean (b : Bool)
  | integer (i : Int)
  | float (n : lua_Number)
  | string (s : TString)
  | lightuserdata (p : Nat)
  | table (addr : Nat)
  deriving DecidableEq

/-- Modelled from the spec: the variant tag of a value (the macro `ttypetag`
is defined outside `lcode.c`). -/
def ttypetag : TValue → TypeTag
  | .nil => .LUA_TNIL
  | .boolean _ => .LUA_TBOOLEAN
  | .integer _ => .LUA_TNUMINT
  | .float _ => .LUA_TNUMFLT
  | .string s => if s.isshort then .LUA_TSHRSTR else .LUA_TLNGSTR
  | .lightuserdata _ => .LUA_TLIGHTUSERDATA
  | .table _ => .LUA_TTABLE

/-- Modelled from the spec: the smallest `lua_Integer`, a 64-bit integer. -/
def LUA_MININTEGER : Int := -(2 ^ 63)

/-- Modelled from the spec: the largest `lua_Integer`, a 64-bit integer. -/
def LUA_MAXINTEGER : Int := 2 ^ 63 - 1

/-- Modelled from the spec: `luai_numeq`, the C comparison `==` of two
doubles, is not part of `lcode.c`. A NaN is equal to nothing, the two zeros
are equal, any other two doubles are equal when they are the same value. -/
def luai_numeq : lua_Number → lua_Number → Bool
  | .nan, _ => false
  | _, .nan => false
  | .negzero, .fin q => decide (q = 0)
  | .fin q, .negzero => decide (q = 0)
  | a, b => decide (a = b)

/-- Modelled from the spec: `luaV_flttointeger` (mode "exact") is not part of
`lcode.c`. A float converts to an integer exactly when it has an integral
value that fits a `lua_Integer`. -/
def luaV_flttointeger : lua_Number → Option Int
  | .fin q =>
    if q.den = 1 ∧ LUA_MININTEGER ≤ q.num ∧ q.num ≤ LUA_MAXINTEGER then some q.num
    else none
  | .negzero => some 0
  | .inf _ => none
  | .nan => none

/-- Modelled from the spec: `luaV_rawequalobj` is not part of `lcode.c`.
Raw equality of two values: values of different variants are equal only when
they are an integer and a float of the same mathematical value (which is why
`addk` compares the tags as well); values of the same variant are equal when
their contents are. -/
def luaV_rawequalobj (t1 t2 : TValue) : Bool :=
  match t1, t2 with
  | .nil, .nil => true
  | .boolean a, .boolean b => decide (a = b)
  | .integer a, .integer b => decide (a = b)
  | .float a, .float b => luai_numeq a b
  | .integer a, .float b => decide (luaV_flttointeger b = some a)
  | .float a, .integer b => decide (luaV_flttointeger a = some b)
  | .string a, .string b => decide (a = b)
  | .lightuserdata p, .lightuserdata q => decide (p = q)
  | .table a, .table b => decide (a = b)
  | _, _ => false

/-- Modelled from the spec: the interning table (`Table`, `ltable.c`) is an
external collaborator; the specification describes it as a mapping from keys
to indices. It is the address of the table object together with the value
stored under each key (`nil` for a key that is absent). -/
structure Table where
  addr : Nat
  slot : TValue → TValue

/-- Modelled from the spec: the key under which the table files a value. Keys
are identified up to raw equality, so a float key with an integral value is
the integer key of that value; a nil or NaN key cannot be used to create an
entry. -/
def luaH_mainkey : TValue → Except String TValue
  | .nil => .error "table index is nil"
  | .float n =>
    match luaV_flttointeger n with
    | some i => .ok (.integer i)
    | none => if n = .nan then .error "table index is NaN" else .ok (.float n)
  | key => .ok key

/-- Modelled from the spec: `luaH_set` (`ltable.c`) returns the slot of `key`,
creating it (holding nil) when the key is absent. The slot is named by the
key it is filed under. -/
def luaH_set (_t : Table) (key : TValue) : Except String TValue :=
  luaH_mainkey key

/-- Write through a slot returned by `luaH_set` (`setivalue(idx, k)`). -/
def Table.store (t : Table) (slotkey : TValue) (v : TValue) : Table :=
  { t with slot := fun k => if k = slotkey then v else t.slot k }

/-! ## Expression descriptors -/

/-- Modelled from the spec: the kinds of expression descriptors (`expkind`,
declared outside `lcode.c`), under the names that `lcode.c` uses. -/
inductive expkind where
  | VVOID | VNIL | VTRUE | VFALSE | VK | VKFLT | VKINT | VNONRELOC | VLOCAL
  | VUPVAL | VINDEXED | VINDEXUP | VINDEXI | VINDEXSTR | VJMP | VRELOC | VCALL
  | VVARARG
  deriving DecidableEq

/-- Modelled from the spec: an expression descriptor (`expdesc`, declared
outside `lcode.c`): its kind, its payload (the members of the C union `u` are
separate fields; `var_idx` is `u.var.idx`, the index of a local variable or
upvalue) and the heads `t` and `f` of its two jump lists. -/
structure expdesc where
  k : expkind
  info : Int
  ival : Int
  nval : lua_Number
  ind_idx : Int
  ind_t : Nat
  t : Int
  f : Int
  var_idx : Nat := 0

/-! ## The function state -/

/-- A 32-bit instruction word. -/
abbrev Instruction := Nat

/-- Modelled from the spec: one `(pc, line)` anchor of the `abslineinfo`
array (`AbsLineInfo`, declared outside `lcode.c`). -/
structure AbsLineInfo where
  pc : Nat
  line : Int
  deriving DecidableEq

/-- Modelled from the spec: the state of the function under construction
(`FuncState` and `Proto`, declared outside `lcode.c`): the fields of
`FuncState`, of the prototype `fs->f` and of the scanner (`fs->ls->h`,
`fs->ls->lastline`) that the functions below use. `vardesc` stands for the
parser's `getvardesc`: the compile-time constant value of the variable behind
an upvalue index, when the parser knows a variable description for it. -/
structure FuncState where
  code : Nat → Instruction
  lineinfo : Nat → Int
  abslineinfo : Nat → AbsLineInfo
  k : Nat → TValue
  maxstacksize : Nat
  pc : Nat
  lasttarget : Int
  previousline : Int
  nk : Nat
  nabslineinfo : Nat
  nactvar : Nat
  freereg : Nat
  iwthabs : Nat
  h : Table
  lastline : Int := 0
  needclose : Nat := 0
  is_vararg : Nat := 0
  numparams : Nat := 0
  vardesc : Nat → Option TValue := fun _ => none

/-- Modelled from the spec: the fresh state of a function defined at line
`linedefined` (set up by the parser, outside `lcode.c`): no instruction, no
constant, no absolute line entry, `previousline` the line of the definition,
`iwthabs = 0`, and an empty key-to-index table. -/
def open_func (linedefined : Int) : FuncState where
  code := fun _ => 0
  lineinfo := fun _ => 0
  abslineinfo := fun _ => ⟨0, 0⟩
  k := fun _ => .nil
  maxstacksize := 2
  pc := 0
  lasttarget := 0
  previousline := linedefined
  nk := 0
  nabslineinfo := 0
  nactvar := 0
  freereg := 0
  iwthabs := 0
  h := ⟨0, fun _ => .nil⟩

/-! ## Line information (`lcode.c`, lines 308-389 and 1645-1652) -/

/-- Save line info for a new instruction (`savelineinfo`). The instruction is
the last one coded, at `fs->pc - 1`. The counter `iwthabs` is incremented by
the second operand of `||`, so only when the first operand is false. -/
def savelineinfo (fs : FuncState) (line : Int) : FuncState :=
  let linedif := line - fs.previousline
  let pc := fs.pc - 1
  let far : Bool := decide (LIMLINEDIFF ≤ |linedif|)
  let many : Bool := !far && decide (MAXIWTHABS < fs.iwthabs)
  let fs1 : FuncState :=
    if far then fs else { fs with iwthabs := (fs.iwthabs + 1) % 256 }
  if far || many then
    { fs1 with
      abslineinfo := setAt fs1.abslineinfo fs1.nabslineinfo ⟨pc, line⟩
      nabslineinfo := fs1.nabslineinfo + 1
      iwthabs := 0
      lineinfo := setAt fs1.lineinfo pc (cast_ls_byte ABSLINEINFO)
      previousline := line }
  else
    { fs1 with
      lineinfo := setAt fs1.lineinfo pc (cast_ls_byte linedif)
      previousline := line }

/-- Remove line information from the last instruction
(`removelastlineinfo`). -/
def removelastlineinfo (fs : FuncState) : FuncState :=
  let pc := fs.pc - 1
  if fs.lineinfo pc ≠ ABSLINEINFO then
    { fs with
      previousline := fs.previousline - fs.lineinfo pc
      iwthabs := (fs.iwthabs + 255) % 256 }
  else
    { fs with
      nabslineinfo := fs.nabslineinfo - 1
      iwthabs := (MAXIWTHABS + 1) % 256 }

/-- Remove the last instruction created (`removelastinstruction`). -/
def removelastinstruction (fs : FuncState) : FuncState :=
  let fs1 := removelastlineinfo fs
  { fs1 with pc := fs1.pc - 1 }

/-- Emit instruction `i` (`luaK_code`); `lastline` is `fs->ls->lastline`, the
current source line kept by the scanner. Returns the new state and the
position of the instruction. -/
def luaK_code (fs : FuncState) (lastline : Int) (i : Instruction) : FuncState × Nat :=
  let fs1 : FuncState := { fs with code := setAt fs.code fs.pc i, pc := fs.pc + 1 }
  let fs2 := savelineinfo fs1 lastline
  (fs2, fs2.pc - 1)

/-- Change the line information of the last instruction (`luaK_fixline`). -/
def luaK_fixline (fs : FuncState) (line : Int) : FuncState :=
  savelineinfo (removelastlineinfo fs) line

/-- Emit a sequence of instructions, each with the source line current when
it is emitted (repeated `luaK_code`). -/
def emitAll (fs : FuncState) : List (Instruction × Int) → FuncState
  | [] => fs
  | x :: xs => emitAll (luaK_code fs x.2 x.1).1 xs

/-- Modelled from the spec: the reader of the line-info format lives in the
debug module, outside `lcode.c`. It starts from the line where the function is
defined, adds each signed delta, and at each `ABSLINEINFO` sentinel takes the
line of the next unused `abslineinfo` record, whose `pc` must be the index of
that instruction. The result after `n` instructions is the line reached and
the number of records used, or `none` when a sentinel has no matching
record. -/
def decodeLines (lineinfo : Nat → Int) (abslineinfo : Nat → AbsLineInfo)
    (nabslineinfo : Nat) (linedefined : Int) : Nat → Option (Int × Nat)
  | 0 => some (linedefined, 0)
  | n + 1 =>
    match decodeLines lineinfo abslineinfo nabslineinfo linedefined n with
    | none => none
    | some (line, used) =>
      if lineinfo n = ABSLINEINFO then
        if used < nabslineinfo ∧ (abslineinfo used).pc = n then
          some ((abslineinfo used).line, used + 1)
        else none
      else some (line + lineinfo n, used)

/-- The source line that a reader reconstructs for instruction `i`. -/
def decodedLine (fs : FuncState) (linedefined : Int) (i : Nat) : Option Int :=
  (decodeLines fs.lineinfo fs.abslineinfo fs.nabslineinfo linedefined (i + 1)).map Prod.fst

/-! ## Registers (`lcode.c`, lines 461-530) -/

/-- Check register-stack level, keeping track of its maximum size in field
`maxstacksize` (`luaK_checkstack`). -/
def luaK_checkstack (fs : FuncState) (n : Int) : Except String FuncState :=
  let newstack : Int := (fs.freereg : Int) + n
  if newstack > (fs.maxstacksize : Int) then
    if newstack ≥ (MAXREGS : Int) then
      .error "function or expression needs too many registers"
    else .ok { fs with maxstacksize := cast_byte newstack }
  else .ok fs

/-- Reserve `n` registers in register stack (`luaK_reserveregs`). -/
def luaK_reserveregs (fs : FuncState) (n : Int) : Except String FuncState :=
  match luaK_checkstack fs n with
  | .error msg => .error msg
  | .ok fs1 => .ok { fs1 with freereg := cast_byte ((fs1.freereg : Int) + n) }

/-- Free register `reg`, if it is neither a constant index nor a local
variable (`freereg`). The `lua_assert(reg == fs->freereg)` that follows the
decrement does not change the state. -/
def freereg (fs : FuncState) (reg : Int) : FuncState :=
  if reg ≥ (fs.nactvar : Int) then { fs with freereg := (fs.freereg + 255) % 256 }
  else fs

/-- Free two registers in proper order (`freeregs`). -/
def freeregs (fs : FuncState) (r1 r2 : Int) : FuncState :=
  if r1 > r2 then freereg (freereg fs r1) r2
  else freereg (freereg fs r2) r1

/-- Free register used by expression `e`, if any (`freeexp`). -/
def freeexp (fs : FuncState) (e : expdesc) : FuncState :=
  if e.k = .VNONRELOC then freereg fs e.info else fs

/-- Free registers used by expressions `e1` and `e2` (if any) in proper order
(`freeexps`). -/
def freeexps (fs : FuncState) (e1 e2 : expdesc) : FuncState :=
  let r1 : Int := if e1.k = .VNONRELOC then e1.info else -1
  let r2 : Int := if e2.k = .VNONRELOC then e2.info else -1
  freeregs fs r1 r2

/-- The function `freereg` with its assertion executed, as in a build that
defines `lua_assert`: next to the new state, whether
`lua_assert(reg == fs->freereg)` held; `true` when the assertion is not
reached. -/
def freeregAssert (fs : FuncState) (reg : Int) : FuncState × Bool :=
  if reg ≥ (fs.nactvar : Int) then
    let fs1 : FuncState := { fs with freereg := (fs.freereg + 255) % 256 }
    (fs1, decide (reg = (fs1.freereg : Int)))
  else (fs, true)

/-- The function `freeregs` over `freeregAssert`: the two calls of `freereg`
in the order of the source; the boolean tells whether the assertion held in
both calls. -/
def freeregsAssert (fs : FuncState) (r1 r2 : Int) : FuncState × Bool :=
  if r1 > r2 then
    let a := freeregAssert fs r1
    let b := freeregAssert a.1 r2
    (b.1, a.2 && b.2)
  else
    let a := freeregAssert fs r2
    let b := freeregAssert a.1 r1
    (b.1, a.2 && b.2)

/-- The function `freeexp` over `freeregAssert`. -/
def freeexpAssert (fs : FuncState) (e : expdesc) : FuncState × Bool :=
  if e.k = .VNONRELOC then freeregAssert fs e.info else (fs, true)

/-- The function `freeexps` over `freeregsAssert`. -/
def freeexpsAssert (fs : FuncState) (e1 e2 : expdesc) : FuncState × Bool :=
  let r1 : Int := if e1.k = .VNONRELOC then e1.info else -1
  let r2 : Int := if e2.k = .VNONRELOC then e2.info else -1
  freeregsAssert fs r1 r2

/-- The register invariant: `nactvar ≤ freereg ≤ maxstacksize ≤ 255`. -/
def RegInv (fs : FuncState) : Prop :=
  fs.nactvar ≤ fs.freereg ∧ fs.freereg ≤ fs.maxstacksize ∧ fs.maxstacksize ≤ 255

/-- The register `reg` may be freed: it is below `nactvar` (a local variable,
or no register at all) or it is the topmost register in use. -/
def Freeable (fs : FuncState) (reg : Int) : Prop :=
  reg < (fs.nactvar : Int) ∨ reg = (fs.freereg : Int) - 1

/-! ## Constant pool (`lcode.c`, lines 533-619) -/

/-- The conversion of a `lua_Integer` to `size_t` (`cast_sizet`), with a
`size_t` of 64 bits. -/
def cast_sizet (n : Int) : Nat := (n % 2 ^ 64).toNat

/-- Add constant `v` to the list of constants, using `key` to index the
scanner table that caches the position of constants (`addk`). Returns the new
state and the index of the constant. -/
def addk (fs : FuncState) (key v : TValue) : Except String (FuncState × Nat) :=
  match luaH_set fs.h key with
  | .error msg => .error msg
  | .ok idx =>
    let reuse : Option Nat :=
      match fs.h.slot idx with
      | .integer k =>
        if k < (fs.nk : Int) ∧ ttypetag (fs.k k.toNat) = ttypetag v ∧
            luaV_rawequalobj (fs.k k.toNat) v = true
        then some k.toNat else none
      | _ => none
    match reuse with
    | some k => .ok (fs, k)
    | none =>
      let k := fs.nk
      .ok ({ fs with
              h := fs.h.store idx (.integer (k : Int))
              k := setAt fs.k k v
              nk := fs.nk + 1 }, k)

/-- Add a string to list of constants and return its index
(`luaK_stringK`). -/
def luaK_stringK (fs : FuncState) (s : TString) : Except String (FuncState × Nat) :=
  addk fs (.string s) (.string s)

/-- Add an integer to list of constants and return its index (`luaK_intK`);
the key is a light userdata made of the integer. -/
def luaK_intK (fs : FuncState) (n : Int) : Except String (FuncState × Nat) :=
  addk fs (.lightuserdata (cast_sizet n)) (.integer n)

/-- Add a float to list of constants and return its index
(`luaK_numberK`). -/
def luaK_numberK (fs : FuncState) (r : lua_Number) : Except String (FuncState × Nat) :=
  addk fs (.float r) (.float r)

/-- Add a boolean to list of constants and return its index (`boolK`). -/
def boolK (fs : FuncState) (b : Bool) : Except String (FuncState × Nat) :=
  addk fs (.boolean b) (.boolean b)

/-- Add nil to list of constants and return its index (`nilK`); the key is
the scanner table itself. -/
def nilK (fs : FuncState) : Except String (FuncState × Nat) :=
  addk fs (.table fs.h.addr) .nil

/-- One constant addition, by any of the five entry points. -/
inductive KOp where
  | stringK (s : TString)
  | intK (n : Int)
  | numberK (r : lua_Number)
  | boolK (b : Bool)
  | nilK

/-- The constant that an addition adds. -/
def KOp.value : KOp → TValue
  | .stringK s => .string s
  | .intK n => .integer n
  | .numberK r => .float r
  | .boolK b => .boolean b
  | .nilK => .nil

/-- Run one constant addition. -/
def KOp.run (fs : FuncState) : KOp → Except String (FuncState × Nat)
  | .stringK s => luaK_stringK fs s
  | .intK n => luaK_intK fs n
  | .numberK r => luaK_numberK fs r
  | .boolK b => LCode.boolK fs b
  | .nilK => LCode.nilK fs

/-- An addition the code generator can receive: an integer is a
`lua_Integer`, a float constant is not a NaN (numerals are never NaN and
constant folding refuses to produce one). -/
def KOp.wellformed : KOp → Prop
  | .intK n => LUA_MININTEGER ≤ n ∧ n ≤ LUA_MAXINTEGER
  | .numberK r => r ≠ .nan
  | _ => True

/-- Run a sequence of constant additions, stopping at the first error. -/
def addAll (fs : FuncState) : List KOp → Except String FuncState
  | [] => .ok fs
  | op :: ops =>
    match op.run fs with
    | .error msg => .error msg
    | .ok (fs1, _) => addAll fs1 ops

/-- Two values are the same constant: same tag and raw-equal value, the test
that `addk` applies to a pool entry and the value to add. -/
def SameConstant (a b : TValue) : Prop :=
  ttypetag a = ttypetag b ∧ luaV_rawequalobj a b = true

/-! ## Predicates and inputs used by the theorems -/

/-- The line-info invariant: a reader that decodes all `pc` instructions
arrives at `previousline` and has used all `nabslineinfo` records. -/
def LineInv (linedefined : Int) (fs : FuncState) : Prop :=
  decodeLines fs.lineinfo fs.abslineinfo fs.nabslineinfo linedefined fs.pc
    = some (fs.previousline, fs.nabslineinfo)

/-- Instructions on the lines `l + d`, `l + 2 d`, ..., `l + n d`. -/
def linesFrom (l d : Int) : Nat → List (Instruction × Int)
  | 0 => []
  | n + 1 => (0, l + d) :: linesFrom (l + d) d n

/-- Both registers handed to `freeregs` may be freed, each at the moment it
is freed: the larger one first, then the smaller one. -/
def FreeablePair (fs : FuncState) (r1 r2 : Int) : Prop :=
  Freeable fs (max r1 r2) ∧ Freeable (freereg fs (max r1 r2)) (min r1 r2)

/-- The slot of the scanner table under which `addk` files the constant `v`:
the key chosen by the entry point that adds `v`, as the table files it. -/
def constSlot (haddr : Nat) : TValue → TValue
  | .nil => .table haddr
  | .integer n => .lightuserdata (cast_sizet n)
  | .float r =>
    match luaV_flttointeger r with
    | some i => .integer i
    | none => .float r
  | v => v

/-- The values that the five entry points put in the pool: nil, a boolean, a
`lua_Integer`, a float that is not a NaN, a string. -/
def IsConstant : TValue → Prop
  | .nil => True
  | .boolean _ => True
  | .integer n => LUA_MININTEGER ≤ n ∧ n ≤ LUA_MAXINTEGER
  | .float r => r ≠ .nan
  | .string _ => True
  | _ => False

/-- The invariant that ties the pool to the scanner table: the slot of every
constant of the pool holds the index of that constant, and every index held
by the table is an index of the pool. -/
def PoolInv (fs : FuncState) : Prop :=
  (∀ i, i < fs.nk → IsConstant (fs.k i) ∧
    fs.h.slot (constSlot fs.h.addr (fs.k i)) = .integer (i : Int)) ∧
  (∀ key j, fs.h.slot key = .integer j → 0 ≤ j ∧ j < (fs.nk : Int))

/-- The key that each entry point hands to `addk`. -/
def KOp.key (haddr : Nat) : KOp → TValue
  | .stringK s => .string s
  | .intK n => .lightuserdata (cast_sizet n)
  | .numberK r => .float r
  | .boolK b => .boolean b
  | .nilK => .table haddr

/-! ## Instruction format (macros of the opcode header, outside `lcode.c`) -/

/-- Modelled from the spec: the opcodes are a closed set enumerated outside
`lcode.c`; an opcode is its number in that enumeration (7 bits). `lcode.c`
relies on the order of the enumeration only inside the families of
arithmetic, constant-operand, immediate-operand and comparison opcodes. -/
abbrev OpCode := Nat

/-- Modelled from the spec: opcode `MOVE`. -/
def OP_MOVE : OpCode := 0
/-- Modelled from the spec: opcode `LOADI`. -/
def OP_LOADI : OpCode := 1
/-- Modelled from the spec: opcode `LOADF`. -/
def OP_LOADF : OpCode := 2
/-- Modelled from the spec: opcode `LOADK`. -/
def OP_LOADK : OpCode := 3
/-- Modelled from the spec: opcode `LOADKX`. -/
def OP_LOADKX : OpCode := 4
/-- Modelled from the spec: opcode `LOADBOOL`. -/
def OP_LOADBOOL : OpCode := 5
/-- Modelled from the spec: opcode `LOADNIL`. -/
def OP_LOADNIL : OpCode := 6
/-- Modelled from the spec: opcode `GETUPVAL`. -/
def OP_GETUPVAL : OpCode := 7
/-- Modelled from the spec: opcode `SETUPVAL`. -/
def OP_SETUPVAL : OpCode := 8
/-- Modelled from the spec: opcode `GETTABUP`. -/
def OP_GETTABUP : OpCode := 9
/-- Modelled from the spec: opcode `GETTABLE`. -/
def OP_GETTABLE : OpCode := 10
/-- Modelled from the spec: opcode `GETI`. -/
def OP_GETI : OpCode := 11
/-- Modelled from the spec: opcode `GETFIELD`. -/
def OP_GETFIELD : OpCode := 12
/-- Modelled from the spec: opcode `SETTABUP`. -/
def OP_SETTABUP : OpCode := 13
/-- Modelled from the spec: opcode `SETTABLE`. -/
def OP_SETTABLE : OpCode := 14
/-- Modelled from the spec: opcode `SETI`. -/
def OP_SETI : OpCode := 15
/-- Modelled from the spec: opcode `SETFIELD`. -/
def OP_SETFIELD : OpCode := 16
/-- Modelled from the spec: opcode `NEWTABLE`. -/
def OP_NEWTABLE : OpCode := 17
/-- Modelled from the spec: opcode `SELF`. -/
def OP_SELF : OpCode := 18
/-- Modelled from the spec: opcode `ADDI`, first of the arithmetic opcodes
with an immediate operand (same order as `ADD` ... `IDIV`). -/
def OP_ADDI : OpCode := 19
/-- Modelled from the spec: opcode `ADDK`, first of the arithmetic opcodes
with a constant operand (same order as `ADD` ... `IDIV`). -/
def OP_ADDK : OpCode := 26
/-- Modelled from the spec: opcode `BANDK`, first of the bitwise opcodes with
a constant operand (same order as `BAND`, `BOR`, `BXOR`). -/
def OP_BANDK : OpCode := 33
/-- Modelled from the spec: opcode `SHRI`. -/
def OP_SHRI : OpCode := 36
/-- Modelled from the spec: opcode `SHLI`. -/
def OP_SHLI : OpCode := 37
/-- Modelled from the spec: opcode `ADD`, first of the binary opcodes over
registers, in the order of the binary operators: `ADD`, `SUB`, `MUL`, `MOD`,
`POW`, `DIV`, `IDIV`, `BAND`, `BOR`, `BXOR`, `SHL`, `SHR`. -/
def OP_ADD : OpCode := 38
/-- Modelled from the spec: opcode `BAND`. -/
def OP_BAND : OpCode := 45
/-- Modelled from the spec: opcode `SHL`. -/
def OP_SHL : OpCode := 48
/-- Modelled from the spec: opcode `SHR`. -/
def OP_SHR : OpCode := 49
/-- Modelled from the spec: opcode `UNM`, first of the unary opcodes, in the
order of the unary operators: `UNM`, `BNOT`, `NOT`, `LEN`. -/
def OP_UNM : OpCode := 50
/-- Modelled from the spec: opcode `NOT`. -/
def OP_NOT : OpCode := 52
/-- Modelled from the spec: opcode `CONCAT`. -/
def OP_CONCAT : OpCode := 54
/-- Modelled from the spec: opcode `JMP`. -/
def OP_JMP : OpCode := 57
/-- Modelled from the spec: opcode `EQ`, followed by `LT` and `LE`. -/
def OP_EQ : OpCode := 58
/-- Modelled from the spec: opcode `LT`. -/
def OP_LT : OpCode := 59
/-- Modelled from the spec: opcode `LE`. -/
def OP_LE : OpCode := 60
/-- Modelled from the spec: opcode `EQK`. -/
def OP_EQK : OpCode := 61
/-- Modelled from the spec: opcode `EQI`. -/
def OP_EQI : OpCode := 62
/-- Modelled from the spec: opcode `LTI`, followed by `LEI`. -/
def OP_LTI : OpCode := 63
/-- Modelled from the spec: opcode `LEI`. -/
def OP_LEI : OpCode := 64
/-- Modelled from the spec: opcode `GTI`. -/
def OP_GTI : OpCode := 65
/-- Modelled from the spec: opcode `GEI`. -/
def OP_GEI : OpCode := 66
/-- Modelled from the spec: opcode `TEST`. -/
def OP_TEST : OpCode := 67
/-- Modelled from the spec: opcode `TESTSET`. -/
def OP_TESTSET : OpCode := 68
/-- Modelled from the spec: opcode `CALL`. -/
def OP_CALL : OpCode := 69
/-- Modelled from the spec: opcode `TAILCALL`. -/
def OP_TAILCALL : OpCode := 70
/-- Modelled from the spec: opcode `RETURN`. -/
def OP_RETURN : OpCode := 71
/-- Modelled from the spec: opcode `RETURN0`. -/
def OP_RETURN0 : OpCode := 72
/-- Modelled from the spec: opcode `RETURN1`. -/
def OP_RETURN1 : OpCode := 73
/-- Modelled from the spec: opcode `SETLIST`. -/
def OP_SETLIST : OpCode := 81
/-- Modelled from the spec: opcode `VARARG`. -/
def OP_VARARG : OpCode := 83
/-- Modelled from the spec: opcode `EXTRAARG`. -/
def OP_EXTRAARG : OpCode := 85

/-- Modelled from the spec: the test-mode opcodes, whose next instruction
must be a jump (`testTMode`): the comparisons, `TEST` and `TESTSET`. -/
def testTMode (o : OpCode) : Bool :=
  decide (o ∈ [OP_EQ, OP_LT, OP_LE, OP_EQK, OP_EQI, OP_LTI, OP_LEI, OP_GTI, OP_GEI,
    OP_TEST, OP_TESTSET])

/-- Modelled from the spec: largest value of operand `A` (8 bits). -/
def MAXARG_A : Nat := 255
/-- Modelled from the spec: largest value of operand `B` (8 bits). -/
def MAXARG_B : Nat := 255
/-- Modelled from the spec: largest value of operand `C` (8 bits). -/
def MAXARG_C : Nat := 255
/-- Modelled from the spec: largest value of operand `Bx` (17 bits). -/
def MAXARG_Bx : Nat := 2 ^ 17 - 1
/-- Modelled from the spec: largest value of operand `Ax` (25 bits). -/
def MAXARG_Ax : Nat := 2 ^ 25 - 1
/-- Modelled from the spec: largest value of operand `sJ` (25 bits). -/
def MAXARG_sJ : Nat := 2 ^ 25 - 1
/-- Modelled from the spec: bias of the signed operand `sBx` (half the
maximum of `Bx`). -/
def OFFSET_sBx : Nat := 2 ^ 16 - 1
/-- Modelled from the spec: bias of the signed operand `sJ`. -/
def OFFSET_sJ : Nat := 2 ^ 24 - 1
/-- Modelled from the spec: bias of the signed operand `sC`. -/
def OFFSET_sC : Nat := 127
/-- Modelled from the spec: largest constant index that fits an R/K
operand. -/
def MAXINDEXRK : Nat := 255
/-- Modelled from the spec: the value that stands for "no register". -/
def NO_REG : Int := 255
/-- Modelled from the spec: the value that ends a jump list (`NO_JUMP`). -/
def NO_JUMP : Int := -1
/-- Modelled from the spec: the number of results that stands for "all of
them" (`LUA_MULTRET`). -/
def LUA_MULTRET : Int := -1

/-- Modelled from the spec: read the field of `size` bits at bit `pos` of an
instruction (`getarg`). -/
def getarg (i : Instruction) (pos size : Nat) : Nat := i / 2 ^ pos % 2 ^ size

/-- Modelled from the spec: write `v`, reduced to `size` bits, into the field
at bit `pos` of an instruction and leave the other bits (`setarg`). -/
def setarg (i : Instruction) (v : Int) (pos size : Nat) : Instruction :=
  i - getarg i pos size * 2 ^ pos + (v % 2 ^ size).toNat * 2 ^ pos

/-- Modelled from the spec: the opcode, in the lowest 7 bits. -/
def GET_OPCODE (i : Instruction) : OpCode := getarg i 0 7
/-- Modelled from the spec: replace the opcode. -/
def SET_OPCODE (i : Instruction) (o : OpCode) : Instruction := setarg i o 0 7
/-- Modelled from the spec: operand `A`, 8 bits above the opcode. -/
def GETARG_A (i : Instruction) : Int := getarg i 7 8
/-- Modelled from the spec: replace operand `A`. -/
def SETARG_A (i : Instruction) (v : Int) : Instruction := setarg i v 7 8
/-- Modelled from the spec: operand `k`, 1 bit above `A`. -/
def GETARG_k (i : Instruction) : Int := getarg i 15 1
/-- Modelled from the spec: replace operand `k`. -/
def SETARG_k (i : Instruction) (v : Int) : Instruction := setarg i v 15 1
/-- Modelled from the spec: operand `B`, 8 bits above `k`. -/
def GETARG_B (i : Instruction) : Int := getarg i 16 8
/-- Modelled from the spec: replace operand `B`. -/
def SETARG_B (i : Instruction) (v : Int) : Instruction := setarg i v 16 8
/-- Modelled from the spec: operand `C`, the highest 8 bits. -/
def GETARG_C (i : Instruction) : Int := getarg i 24 8
/-- Modelled from the spec: replace operand `C`. -/
def SETARG_C (i : Instruction) (v : Int) : Instruction := setarg i v 24 8
/-- Modelled from the spec: operand `Bx`, the 17 bits above `A`. -/
def GETARG_Bx (i : Instruction) : Int := getarg i 15 17
/-- Modelled from the spec: operand `sBx`, `Bx` read as a signed value. -/
def GETARG_sBx (i : Instruction) : Int := (getarg i 15 17 : Int) - OFFSET_sBx
/-- Modelled from the spec: operand `Ax`, the 25 bits above the opcode. -/
def GETARG_Ax (i : Instruction) : Int := getarg i 7 25
/-- Modelled from the spec: operand `sJ`, the 25 bits above the opcode read
as a signed value. -/
def GETARG_sJ (i : Instruction) : Int := (getarg i 7 25 : Int) - OFFSET_sJ
/-- Modelled from the spec: replace operand `sJ` by the signed value `j`. -/
def SETARG_sJ (i : Instruction) (j : Int) : Instruction :=
  setarg i (j + OFFSET_sJ) 7 25

/-- Modelled from the spec: pack an instruction of format ABC with its `k`
bit; each operand is reduced to its field (the callers assert that it
fits). -/
def CREATE_ABCk (o : OpCode) (a b c k : Int) : Instruction :=
  o % 2 ^ 7 + (a % 2 ^ 8).toNat * 2 ^ 7 + (k % 2).toNat * 2 ^ 15
    + (b % 2 ^ 8).toNat * 2 ^ 16 + (c % 2 ^ 8).toNat * 2 ^ 24

/-- Modelled from the spec: pack an instruction of format ABx. -/
def CREATE_ABx (o : OpCode) (a bc : Int) : Instruction :=
  o % 2 ^ 7 + (a % 2 ^ 8).toNat * 2 ^ 7 + (bc % 2 ^ 17).toNat * 2 ^ 15

/-- Modelled from the spec: pack an instruction of format Ax. -/
def CREATE_Ax (o : OpCode) (a : Int) : Instruction :=
  o % 2 ^ 7 + (a % 2 ^ 25).toNat * 2 ^ 7

/-- Modelled from the spec: pack an instruction of format sJ from the biased
jump `j`; the `k` bit is or-ed into the word at the position of `k`. -/
def CREATE_sJ (o : OpCode) (j k : Int) : Instruction :=
  (o % 2 ^ 7 + (j % 2 ^ 25).toNat * 2 ^ 7) ||| ((k % 2).toNat * 2 ^ 15)

/-- The instruction that `previousinstruction` returns when there may be a
jump target in between: the word with all bits set (`-1`). -/
def invalidinstruction : Instruction := 2 ^ 32 - 1

/-- The instruction that the expression designates (`getinstruction`). -/
def getinstruction (fs : FuncState) (e : expdesc) : Instruction :=
  fs.code e.info.toNat

/-- Replace the instruction that the expression designates. -/
def setinstruction (fs : FuncState) (e : expdesc) (i : Instruction) : FuncState :=
  { fs with code := setAt fs.code e.info.toNat i }

/-! ## Emitting instructions and jump lists (`lcode.c`, lines 37-305 and 392-458) -/

/-- The error value that stands for a loop of the C code that does not
terminate (a jump list that never reaches `NO_JUMP`). A jump list has at most
`pc` nodes, so the loops over a list are run for at most `pc` nodes. -/
def nontermination : String := "(the loop does not terminate)"

/-- The macro `hasjumps`. -/
def hasjumps (e : expdesc) : Bool := decide (e.t ≠ e.f)

/-- If expression is a numeric constant, gives its value (`luaK_tonumeral`);
`some v` stands for the result 1 with `v` stored, `none` for the result 0.
`wantvalue` is false when the C caller passes `NULL` for `v`; the result for
`VKINT` and `VKFLT` is then only used as a boolean. -/
def luaK_tonumeral (fs : FuncState) (e : expdesc) (wantvalue : Bool) : Option TValue :=
  if hasjumps e then none
  else
    match e.k with
    | .VKINT => some (.integer e.ival)
    | .VKFLT => some (.float e.nval)
    | .VUPVAL =>
      match fs.vardesc e.var_idx with
      | some v => if wantvalue ∧ v ≠ .nil then some v else none
      | none => none
    | _ => none

/-- If expression `e` is a constant, change `e` to represent the constant
value (`const2exp`); the boolean is the result of the C function. -/
def const2exp (fs : FuncState) (e : expdesc) : expdesc × Bool :=
  match fs.vardesc e.var_idx with
  | some (.integer i) => ({ e with k := .VKINT, ival := i }, true)
  | some (.float n) => ({ e with k := .VKFLT, nval := n }, true)
  | _ => (e, false)

/-- Return the previous instruction of the current code, or an invalid
instruction when there may be a jump target in between
(`previousinstruction`). -/
def previousinstruction (fs : FuncState) : Instruction :=
  if (fs.pc : Int) > fs.lasttarget then fs.code (fs.pc - 1)
  else invalidinstruction

/-- Format and emit an `iABC` instruction (`luaK_codeABCk`). -/
def luaK_codeABCk (fs : FuncState) (o : OpCode) (a b c k : Int) : FuncState × Int :=
  let r := luaK_code fs fs.lastline (CREATE_ABCk o a b c k)
  (r.1, (r.2 : Int))

/-- The macro `luaK_codeABC`. -/
def luaK_codeABC (fs : FuncState) (o : OpCode) (a b c : Int) : FuncState × Int :=
  luaK_codeABCk fs o a b c 0

/-- Format and emit an `iABx` instruction (`luaK_codeABx`). -/
def luaK_codeABx (fs : FuncState) (o : OpCode) (a bc : Int) : FuncState × Int :=
  let r := luaK_code fs fs.lastline (CREATE_ABx o a bc)
  (r.1, (r.2 : Int))

/-- Format and emit an `iAsBx` instruction (`luaK_codeAsBx`). -/
def luaK_codeAsBx (fs : FuncState) (o : OpCode) (a bc : Int) : FuncState × Int :=
  let b := bc + OFFSET_sBx
  let r := luaK_code fs fs.lastline (CREATE_ABx o a b)
  (r.1, (r.2 : Int))

/-- Format and emit an `isJ` instruction (`codesJ`). -/
def codesJ (fs : FuncState) (o : OpCode) (sj k : Int) : FuncState × Int :=
  let j := sj + OFFSET_sJ
  let r := luaK_code fs fs.lastline (CREATE_sJ o j k)
  (r.1, (r.2 : Int))

/-- Emit an "extra argument" instruction (`codeextraarg`). -/
def codeextraarg (fs : FuncState) (a : Int) : FuncState × Int :=
  let r := luaK_code fs fs.lastline (CREATE_Ax OP_EXTRAARG a)
  (r.1, (r.2 : Int))

/-- Emit a "load constant" instruction, using either `OP_LOADK` or an
`OP_LOADKX` instruction with "extra argument" (`luaK_codek`). -/
def luaK_codek (fs : FuncState) (reg k : Int) : FuncState × Int :=
  if k ≤ MAXARG_Bx then luaK_codeABx fs OP_LOADK reg k
  else
    let r := luaK_codeABx fs OP_LOADKX reg 0
    ((codeextraarg r.1 k).1, r.2)

/-- Create a `OP_LOADNIL` instruction, but try to optimize: if the previous
instruction is also `OP_LOADNIL` and ranges are compatible, adjust range of
previous instruction instead of emitting a new one (`luaK_nil`). -/
def luaK_nil (fs : FuncState) (frm n : Int) : FuncState :=
  let l := frm + n - 1
  let previous := previousinstruction fs
  if GET_OPCODE previous = OP_LOADNIL then
    let pfrom := GETARG_A previous
    let pl := pfrom + GETARG_B previous
    if (pfrom ≤ frm ∧ frm ≤ pl + 1) ∨ (frm ≤ pfrom ∧ pfrom ≤ l + 1) then
      let frm1 := if pfrom < frm then pfrom else frm
      let l1 := if pl > l then pl else l
      { fs with
        code := setAt fs.code (fs.pc - 1) (SETARG_B (SETARG_A previous frm1) (l1 - frm1)) }
    else (luaK_codeABC fs OP_LOADNIL frm (n - 1) 0).1
  else (luaK_codeABC fs OP_LOADNIL frm (n - 1) 0).1

/-- Gets the destination address of a jump instruction (`getjump`). -/
def getjump (fs : FuncState) (pc : Int) : Int :=
  let offset := GETARG_sJ (fs.code pc.toNat)
  if offset = NO_JUMP then NO_JUMP
  else (pc + 1) + offset

/-- Fix jump instruction at position `pc` to jump to `dest` (`fixjump`). -/
def fixjump (fs : FuncState) (pc dest : Int) : Except String FuncState :=
  let jmp := fs.code pc.toNat
  let offset := dest - (pc + 1)
  if ¬ (-(OFFSET_sJ : Int) ≤ offset ∧ offset ≤ (MAXARG_sJ : Int) - OFFSET_sJ) then
    .error "control structure too long"
  else .ok { fs with code := setAt fs.code pc.toNat (SETARG_sJ jmp offset) }

/-- The function `fixjump` again, with the state in which the error leaves the
function kept next to the message: the range of the offset is checked before
the instruction is written, so the error is raised in the state given. -/
def fixjumpRaise (fs : FuncState) (pc dest : Int) : Except (String × FuncState) FuncState :=
  let jmp := fs.code pc.toNat
  let offset := dest - (pc + 1)
  if ¬ (-(OFFSET_sJ : Int) ≤ offset ∧ offset ≤ (MAXARG_sJ : Int) - OFFSET_sJ) then
    .error ("control structure too long", fs)
  else .ok { fs with code := setAt fs.code pc.toNat (SETARG_sJ jmp offset) }

/-- The loop of `luaK_concat` that finds the last element of a list, run for
at most `fuel` elements. -/
def lastjump (fs : FuncState) : Nat → Int → Option Int
  | 0, _ => none
  | fuel + 1, list =>
    let next := getjump fs list
    if next ≠ NO_JUMP then lastjump fs fuel next else some list

/-- Concatenate jump-list `l2` into jump-list `l1` (`luaK_concat`); the
second component is the new value of `*l1`. -/
def luaK_concat (fs : FuncState) (l1 l2 : Int) : Except String (FuncState × Int) :=
  if l2 = NO_JUMP then .ok (fs, l1)
  else if l1 = NO_JUMP then .ok (fs, l2)
  else
    match lastjump fs fs.pc l1 with
    | none => .error nontermination
    | some list =>
      match fixjump fs list l2 with
      | .error msg => .error msg
      | .ok fs1 => .ok (fs1, l1)

/-- Create a jump instruction and return its position (`luaK_jump`). -/
def luaK_jump (fs : FuncState) : FuncState × Int :=
  codesJ fs OP_JMP NO_JUMP 0

/-- Code a `return` instruction (`luaK_ret`). -/
def luaK_ret (fs : FuncState) (first nret : Int) : FuncState :=
  let op := if nret = 0 then OP_RETURN0 else if nret = 1 then OP_RETURN1 else OP_RETURN
  (luaK_codeABC fs op first (nret + 1) 0).1

/-- Code a "conditional jump", that is, a test or comparison opcode followed
by a jump; return the jump position (`condjump`). -/
def condjump (fs : FuncState) (op : OpCode) (a b c k : Int) : FuncState × Int :=
  luaK_jump (luaK_codeABCk fs op a b c k).1

/-- Returns current `pc` and marks it as a jump target (`luaK_getlabel`). -/
def luaK_getlabel (fs : FuncState) : FuncState × Int :=
  ({ fs with lasttarget := fs.pc }, fs.pc)

/-- Returns the position of the instruction "controlling" a given jump, or
the jump itself if it is unconditional (`getjumpcontrol`). -/
def getjumpcontrol (fs : FuncState) (pc : Int) : Int :=
  if pc ≥ 1 ∧ testTMode (GET_OPCODE (fs.code (pc - 1).toNat)) = true then pc - 1
  else pc

/-- Patch destination register for a TESTSET instruction
(`patchtestreg`); the boolean is the result of the C function. -/
def patchtestreg (fs : FuncState) (node reg : Int) : FuncState × Bool :=
  let p := getjumpcontrol fs node
  let i := fs.code p.toNat
  if GET_OPCODE i ≠ OP_TESTSET then (fs, false)
  else if reg ≠ NO_REG ∧ reg ≠ GETARG_B i then
    ({ fs with code := setAt fs.code p.toNat (SETARG_A i reg) }, true)
  else
    let test := CREATE_ABCk OP_TEST (GETARG_B i) 0 0 (GETARG_k i)
    ({ fs with code := setAt fs.code p.toNat test }, true)

/-- The loop of `removevalues`, run for at most `fuel` elements. -/
def removevaluesLoop : Nat → FuncState → Int → Option FuncState
  | fuel, fs, list =>
    if list = NO_JUMP then some fs
    else
      match fuel with
      | 0 => none
      | fuel + 1 =>
        let fs1 := (patchtestreg fs list NO_REG).1
        removevaluesLoop fuel fs1 (getjump fs1 list)

/-- Traverse a list of tests ensuring no one produces a value
(`removevalues`). -/
def removevalues (fs : FuncState) (list : Int) : Except String FuncState :=
  match removevaluesLoop fs.pc fs list with
  | none => .error nontermination
  | some fs1 => .ok fs1

/-- The loop of `patchlistaux`, run for at most `fuel` elements. -/
def patchlistauxLoop : Nat → FuncState → Int → Int → Int → Int →
    Except String FuncState
  | fuel, fs, list, vtarget, reg, dtarget =>
    if list = NO_JUMP then .ok fs
    else
      match fuel with
      | 0 => .error nontermination
      | fuel + 1 =>
        let next := getjump fs list
        let r := patchtestreg fs list reg
        match (if r.2 then fixjump r.1 list vtarget else fixjump r.1 list dtarget) with
        | .error msg => .error msg
        | .ok fs1 => patchlistauxLoop fuel fs1 next vtarget reg dtarget

/-- Traverse a list of tests, patching their destination address and
registers (`patchlistaux`). -/
def patchlistaux (fs : FuncState) (list vtarget reg dtarget : Int) :
    Except String FuncState :=
  patchlistauxLoop fs.pc fs list vtarget reg dtarget

/-- Patch all jumps in `list` to jump to `target` (`luaK_patchlist`). -/
def luaK_patchlist (fs : FuncState) (list target : Int) : Except String FuncState :=
  patchlistaux fs list target NO_REG target

/-- Patch all jumps in `list` to the current position, marked as a jump
target (`luaK_patchtohere`). -/
def luaK_patchtohere (fs : FuncState) (list : Int) : Except String FuncState :=
  let hr := luaK_getlabel fs
  luaK_patchlist hr.1 list hr.2

/-! ## Loading constants and discharging expressions (`lcode.c`, lines 622-957) -/

/-- The conversion of a `lua_Integer` to `int` (`cast_int`), 32 bits. -/
def cast_int (x : Int) : Int := (x + 2 ^ 31) % 2 ^ 32 - 2 ^ 31

/-- The conversion of an `int` to `short`, the type of `u.ind.idx`. -/
def cast_short (x : Int) : Int := (x + 2 ^ 15) % 2 ^ 16 - 2 ^ 15

/-- Check whether `i` can be stored in an `sC` operand (`fitsC`). -/
def fitsC (i : Int) : Bool :=
  decide (-(OFFSET_sC : Int) ≤ i ∧ i ≤ (MAXARG_C : Int) - OFFSET_sC)

/-- Check whether `i` can be stored in an `sBx` operand (`fitsBx`). -/
def fitsBx (i : Int) : Bool :=
  decide (-(OFFSET_sBx : Int) ≤ i ∧ i ≤ (MAXARG_Bx : Int) - OFFSET_sBx)

/-- Load the integer `i` into register `reg` (`luaK_int`). -/
def luaK_int (fs : FuncState) (reg i : Int) : Except String FuncState :=
  if fitsBx i then .ok (luaK_codeAsBx fs OP_LOADI reg (cast_int i)).1
  else
    match luaK_intK fs i with
    | .error msg => .error msg
    | .ok (fs1, k) => .ok (luaK_codek fs1 reg k).1

/-- The float `f` as an integer that fits `sBx`, when it is one (`floatI`). -/
def floatI (f : lua_Number) : Option Int :=
  match luaV_flttointeger f with
  | some fi => if fitsBx fi then some fi else none
  | none => none

/-- Load the float `f` into register `reg` (`luaK_float`). -/
def luaK_float (fs : FuncState) (reg : Int) (f : lua_Number) : Except String FuncState :=
  match floatI f with
  | some fi => .ok (luaK_codeAsBx fs OP_LOADF reg (cast_int fi)).1
  | none =>
    match luaK_numberK fs f with
    | .error msg => .error msg
    | .ok (fs1, k) => .ok (luaK_codek fs1 reg k).1

/-- Fix an expression to return one result (`luaK_setoneret`). -/
def luaK_setoneret (fs : FuncState) (e : expdesc) : FuncState × expdesc :=
  if e.k = .VCALL then
    (fs, { e with k := .VNONRELOC, info := GETARG_A (getinstruction fs e) })
  else if e.k = .VVARARG then
    (setinstruction fs e (SETARG_C (getinstruction fs e) 2), { e with k := .VRELOC })
  else (fs, e)

/-- Ensure that expression `e` is not a variable
(`luaK_dischargevars`). -/
def luaK_dischargevars (fs : FuncState) (e : expdesc) : FuncState × expdesc :=
  match e.k with
  | .VLOCAL => (fs, { e with info := e.var_idx, k := .VNONRELOC })
  | .VUPVAL =>
    let c := const2exp fs e
    if ¬ c.2 then
      let r := luaK_codeABC fs OP_GETUPVAL 0 e.var_idx 0
      (r.1, { e with info := r.2, k := .VRELOC })
    else (fs, c.1)
  | .VINDEXUP =>
    let r := luaK_codeABC fs OP_GETTABUP 0 e.ind_t e.ind_idx
    (r.1, { e with info := r.2, k := .VRELOC })
  | .VINDEXI =>
    let fs1 := freereg fs e.ind_t
    let r := luaK_codeABC fs1 OP_GETI 0 e.ind_t e.ind_idx
    (r.1, { e with info := r.2, k := .VRELOC })
  | .VINDEXSTR =>
    let fs1 := freereg fs e.ind_t
    let r := luaK_codeABC fs1 OP_GETFIELD 0 e.ind_t e.ind_idx
    (r.1, { e with info := r.2, k := .VRELOC })
  | .VINDEXED =>
    let fs1 := freeregs fs e.ind_t e.ind_idx
    let r := luaK_codeABC fs1 OP_GETTABLE 0 e.ind_t e.ind_idx
    (r.1, { e with info := r.2, k := .VRELOC })
  | .VVARARG => luaK_setoneret fs e
  | .VCALL => luaK_setoneret fs e
  | _ => (fs, e)

/-- Ensures expression value is in register `reg`, making `e` a
non-relocatable expression (`discharge2reg`). -/
def discharge2reg (fs : FuncState) (e : expdesc) (reg : Int) :
    Except String (FuncState × expdesc) :=
  let d := luaK_dischargevars fs e
  let fs := d.1
  let e := d.2
  let done (fs : FuncState) : Except String (FuncState × expdesc) :=
    .ok (fs, { e with info := reg, k := .VNONRELOC })
  match e.k with
  | .VNIL => done (luaK_nil fs reg 1)
  | .VFALSE => done (luaK_codeABC fs OP_LOADBOOL reg 0 0).1
  | .VTRUE => done (luaK_codeABC fs OP_LOADBOOL reg 1 0).1
  | .VK => done (luaK_codek fs reg e.info).1
  | .VKFLT =>
    match luaK_float fs reg e.nval with
    | .error msg => .error msg
    | .ok fs1 => done fs1
  | .VKINT =>
    match luaK_int fs reg e.ival with
    | .error msg => .error msg
    | .ok fs1 => done fs1
  | .VRELOC => done (setinstruction fs e (SETARG_A (getinstruction fs e) reg))
  | .VNONRELOC =>
    if reg ≠ e.info then done (luaK_codeABC fs OP_MOVE reg e.info 0).1
    else done fs
  | _ => .ok (fs, e)

/-- Ensures expression value is in any register (`discharge2anyreg`). -/
def discharge2anyreg (fs : FuncState) (e : expdesc) :
    Except String (FuncState × expdesc) :=
  if e.k ≠ .VNONRELOC then
    match luaK_reserveregs fs 1 with
    | .error msg => .error msg
    | .ok fs1 => discharge2reg fs1 e ((fs1.freereg : Int) - 1)
  else .ok (fs, e)

/-- Emit a `LOADBOOL` that may be a jump target (`code_loadbool`). -/
def code_loadbool (fs : FuncState) (a b jump : Int) : FuncState × Int :=
  luaK_codeABC (luaK_getlabel fs).1 OP_LOADBOOL a b jump

/-- The loop of `need_value`, run for at most `fuel` elements. -/
def need_valueLoop (fs : FuncState) : Nat → Int → Option Bool
  | fuel, list =>
    if list = NO_JUMP then some false
    else
      match fuel with
      | 0 => none
      | fuel + 1 =>
        let i := fs.code (getjumpcontrol fs list).toNat
        if GET_OPCODE i ≠ OP_TESTSET then some true
        else need_valueLoop fs fuel (getjump fs list)

/-- Check whether list has any jump that does not produce a value
(`need_value`). -/
def need_value (fs : FuncState) (list : Int) : Except String Bool :=
  match need_valueLoop fs fs.pc list with
  | none => .error nontermination
  | some b => .ok b

/-- The block of `exp2reg` that is run when the expression has jumps: emit
the two `LOADBOOL` if some jump needs a value, then patch the two lists to the
final position or to the loads. -/
def exp2regJumps (fs : FuncState) (e : expdesc) (reg : Int) : Except String FuncState :=
  match need_value fs e.t with
  | .error msg => .error msg
  | .ok nt =>
    match (if nt then .ok true else need_value fs e.f) with
    | .error msg => .error msg
    | .ok nv =>
      let loads : Except String (FuncState × Int × Int) :=
        if nv then
          let fj := if e.k = .VJMP then (fs, NO_JUMP) else luaK_jump fs
          let lf := code_loadbool fj.1 reg 0 1
          let lt := code_loadbool lf.1 reg 1 0
          match luaK_patchtohere lt.1 fj.2 with
          | .error msg => .error msg
          | .ok fs1 => .ok (fs1, lf.2, lt.2)
        else .ok (fs, NO_JUMP, NO_JUMP)
      match loads with
      | .error msg => .error msg
      | .ok (fs1, p_f, p_t) =>
        let final := luaK_getlabel fs1
        match patchlistaux final.1 e.f final.2 reg p_f with
        | .error msg => .error msg
        | .ok fs2 => patchlistaux fs2 e.t final.2 reg p_t

/-- Ensures final expression result (which includes results from its jump
lists) is in register `reg` (`exp2reg`). -/
def exp2reg (fs : FuncState) (e : expdesc) (reg : Int) :
    Except String (FuncState × expdesc) :=
  match discharge2reg fs e reg with
  | .error msg => .error msg
  | .ok (fs1, e1) =>
    let joined : Except String (FuncState × expdesc) :=
      if e1.k = .VJMP then
        match luaK_concat fs1 e1.t e1.info with
        | .error msg => .error msg
        | .ok (fs2, t1) => .ok (fs2, { e1 with t := t1 })
      else .ok (fs1, e1)
    match joined with
    | .error msg => .error msg
    | .ok (fs2, e2) =>
      match (if hasjumps e2 then exp2regJumps fs2 e2 reg else .ok fs2) with
      | .error msg => .error msg
      | .ok fs3 =>
        .ok (fs3, { e2 with f := NO_JUMP, t := NO_JUMP, info := reg, k := .VNONRELOC })

/-- Ensures final expression result is in next available register
(`luaK_exp2nextreg`). -/
def luaK_exp2nextreg (fs : FuncState) (e : expdesc) :
    Except String (FuncState × expdesc) :=
  let d := luaK_dischargevars fs e
  let fs1 := freeexp d.1 d.2
  match luaK_reserveregs fs1 1 with
  | .error msg => .error msg
  | .ok fs2 => exp2reg fs2 d.2 ((fs2.freereg : Int) - 1)

/-- Ensures final expression result is in some (any) register; the register
that the C function returns is `info` of the resulting expression
(`luaK_exp2anyreg`). -/
def luaK_exp2anyreg (fs : FuncState) (e : expdesc) :
    Except String (FuncState × expdesc) :=
  let d := luaK_dischargevars fs e
  let fs := d.1
  let e := d.2
  if e.k = .VNONRELOC then
    if ¬ hasjumps e then .ok (fs, e)
    else if e.info ≥ (fs.nactvar : Int) then exp2reg fs e e.info
    else luaK_exp2nextreg fs e
  else luaK_exp2nextreg fs e

/-- Ensures final expression result is either in a register or in an upvalue
(`luaK_exp2anyregup`). -/
def luaK_exp2anyregup (fs : FuncState) (e : expdesc) :
    Except String (FuncState × expdesc) :=
  if e.k ≠ .VUPVAL ∨ hasjumps e then luaK_exp2anyreg fs e
  else .ok (fs, e)

/-- Ensures final expression result is either in a register or it is a
constant (`luaK_exp2val`). -/
def luaK_exp2val (fs : FuncState) (e : expdesc) :
    Except String (FuncState × expdesc) :=
  if hasjumps e then luaK_exp2anyreg fs e
  else .ok (luaK_dischargevars fs e)

/-- Try to make `e` a K expression with an index in the range of R/K
indices; the boolean is the result (`luaK_exp2K`). -/
def luaK_exp2K (fs : FuncState) (e : expdesc) :
    Except String (FuncState × expdesc × Bool) :=
  if ¬ hasjumps e then
    let toInt (r : Except String (FuncState × Nat)) : Except String (FuncState × Int) :=
      match r with
      | .error msg => .error msg
      | .ok (fs1, k) => .ok (fs1, (k : Int))
    let moved : Option (Except String (FuncState × Int)) :=
      match e.k with
      | .VTRUE => some (toInt (boolK fs true))
      | .VFALSE => some (toInt (boolK fs false))
      | .VNIL => some (toInt (nilK fs))
      | .VKINT => some (toInt (luaK_intK fs e.ival))
      | .VKFLT => some (toInt (luaK_numberK fs e.nval))
      | .VK => some (.ok (fs, e.info))
      | _ => none
    match moved with
    | none => .ok (fs, e, false)
    | some (.error msg) => .error msg
    | some (.ok (fs1, info)) =>
      if info ≤ MAXINDEXRK then .ok (fs1, { e with k := .VK, info := info }, true)
      else .ok (fs1, e, false)
  else .ok (fs, e, false)

/-- Ensures final expression result is in a valid R/K index; the boolean
tells whether the expression is K (`luaK_exp2RK`). -/
def luaK_exp2RK (fs : FuncState) (e : expdesc) :
    Except String (FuncState × expdesc × Bool) :=
  match luaK_exp2K fs e with
  | .error msg => .error msg
  | .ok (fs1, e1, true) => .ok (fs1, e1, true)
  | .ok (fs1, e1, false) =>
    match luaK_exp2anyreg fs1 e1 with
    | .error msg => .error msg
    | .ok (fs2, e2) => .ok (fs2, e2, false)

/-! ## Conditions, indexing and operators (`lcode.c`, lines 960-1642) -/

/-- Emit an instruction whose argument C is a register or a constant
(`codeABRK`). -/
def codeABRK (fs : FuncState) (o : OpCode) (a b : Int) (ec : expdesc) :
    Except String (FuncState × expdesc) :=
  match luaK_exp2RK fs ec with
  | .error msg => .error msg
  | .ok (fs1, ec1, k) =>
    .ok ((luaK_codeABCk fs1 o a b ec1.info (if k then 1 else 0)).1, ec1)

/-- Negate condition `e`, where `e` is a comparison (`negatecondition`). -/
def negatecondition (fs : FuncState) (e : expdesc) : FuncState :=
  let p := getjumpcontrol fs e.info
  let i := fs.code p.toNat
  { fs with code := setAt fs.code p.toNat (SETARG_k i (((GETARG_k i).toNat ^^^ 1 : Nat) : Int)) }

/-- Emit instruction to jump if `e` is `cond`; return the expression and the
jump position (`jumponcond`). -/
def jumponcond (fs : FuncState) (e : expdesc) (cond : Int) :
    Except String (FuncState × expdesc × Int) :=
  let ie := getinstruction fs e
  if e.k = .VRELOC ∧ GET_OPCODE ie = OP_NOT then
    let fs1 := removelastinstruction fs
    let r := condjump fs1 OP_TEST (GETARG_B ie) 0 0 (if cond = 0 then 1 else 0)
    .ok (r.1, e, r.2)
  else
    match discharge2anyreg fs e with
    | .error msg => .error msg
    | .ok (fs1, e1) =>
      let fs2 := freeexp fs1 e1
      let r := condjump fs2 OP_TESTSET NO_REG e1.info 0 cond
      .ok (r.1, e1, r.2)

/-- Emit code to go through if `e` is true, jump otherwise
(`luaK_goiftrue`). -/
def luaK_goiftrue (fs : FuncState) (e : expdesc) :
    Except String (FuncState × expdesc) :=
  let d := luaK_dischargevars fs e
  let jumped : Except String (FuncState × expdesc × Int) :=
    match d.2.k with
    | .VJMP => .ok (negatecondition d.1 d.2, d.2, d.2.info)
    | .VK | .VKFLT | .VKINT | .VTRUE => .ok (d.1, d.2, NO_JUMP)
    | _ => jumponcond d.1 d.2 0
  match jumped with
  | .error msg => .error msg
  | .ok (fs1, e1, pc) =>
    match luaK_concat fs1 e1.f pc with
    | .error msg => .error msg
    | .ok (fs2, f1) =>
      match luaK_patchtohere fs2 e1.t with
      | .error msg => .error msg
      | .ok fs3 => .ok (fs3, { e1 with f := f1, t := NO_JUMP })

/-- Emit code to go through if `e` is false, jump otherwise
(`luaK_goiffalse`). -/
def luaK_goiffalse (fs : FuncState) (e : expdesc) :
    Except String (FuncState × expdesc) :=
  let d := luaK_dischargevars fs e
  let jumped : Except String (FuncState × expdesc × Int) :=
    match d.2.k with
    | .VJMP => .ok (d.1, d.2, d.2.info)
    | .VNIL | .VFALSE => .ok (d.1, d.2, NO_JUMP)
    | _ => jumponcond d.1 d.2 1
  match jumped with
  | .error msg => .error msg
  | .ok (fs1, e1, pc) =>
    match luaK_concat fs1 e1.t pc with
    | .error msg => .error msg
    | .ok (fs2, t1) =>
      match luaK_patchtohere fs2 e1.f with
      | .error msg => .error msg
      | .ok fs3 => .ok (fs3, { e1 with t := t1, f := NO_JUMP })

/-- Code `not e`, doing constant folding (`codenot`). -/
def codenot (fs : FuncState) (e : expdesc) : Except String (FuncState × expdesc) :=
  let d := luaK_dischargevars fs e
  let switched : Except String (FuncState × expdesc) :=
    match d.2.k with
    | .VNIL | .VFALSE => .ok (d.1, { d.2 with k := .VTRUE })
    | .VK | .VKFLT | .VKINT | .VTRUE => .ok (d.1, { d.2 with k := .VFALSE })
    | .VJMP => .ok (negatecondition d.1 d.2, d.2)
    | .VRELOC | .VNONRELOC =>
      match discharge2anyreg d.1 d.2 with
      | .error msg => .error msg
      | .ok (fs1, e1) =>
        let fs2 := freeexp fs1 e1
        let r := luaK_codeABC fs2 OP_NOT 0 e1.info 0
        .ok (r.1, { e1 with info := r.2, k := .VRELOC })
    | _ => .ok (d.1, d.2)
  match switched with
  | .error msg => .error msg
  | .ok (fs1, e1) =>
    let e2 := { e1 with f := e1.t, t := e1.f }
    match removevalues fs1 e2.f with
    | .error msg => .error msg
    | .ok fs2 =>
      match removevalues fs2 e2.t with
      | .error msg => .error msg
      | .ok fs3 => .ok (fs3, e2)

/-- Check whether expression `e` is a small literal string (`isKstr`). -/
def isKstr (fs : FuncState) (e : expdesc) : Bool :=
  decide (e.k = .VK ∧ ¬ hasjumps e = true ∧ e.info ≤ MAXARG_B ∧
    ttypetag (fs.k e.info.toNat) = .LUA_TSHRSTR)

/-- Check whether expression `e` is a literal integer (`luaK_isKint`). -/
def luaK_isKint (e : expdesc) : Bool :=
  decide (e.k = .VKINT ∧ ¬ hasjumps e = true)

/-- The conversion of a `lua_Integer` to `lua_Unsigned` (`l_castS2U`). -/
def l_castS2U (i : Int) : Int := i % 2 ^ 64

/-- Check whether expression `e` is a literal integer in proper range to fit
in register C (`isCint`). -/
def isCint (e : expdesc) : Bool :=
  luaK_isKint e && decide (l_castS2U e.ival ≤ l_castS2U MAXARG_C)

/-- Check whether expression `e` is a literal integer in proper range to fit
in register sC (`isSCint`). -/
def isSCint (e : expdesc) : Bool :=
  luaK_isKint e && fitsC e.ival

/-- Check whether expression `e` is a literal integer or float in proper
range to fit in a register (`isSCnumber`). The arguments `i` and `isfloat`
are the values that the variables of the caller hold before the call; the
result is the value returned and the values they hold after it. -/
def isSCnumber (e : expdesc) (i isfloat : Int) : Bool × Int × Int :=
  let step : Option (Int × Int) :=
    if e.k = .VKINT then some (e.ival, isfloat)
    else if e.k = .VKFLT then
      match luaV_flttointeger e.nval with
      | some fi => if fitsBx fi then some (fi, 1) else none
      | none => none
    else none
  match step with
  | none =>
    let i1 := if e.k = .VKFLT then (luaV_flttointeger e.nval).getD i else i
    (false, i1, isfloat)
  | some (i1, isfloat1) =>
    if ¬ hasjumps e = true ∧ fitsC i1 = true then (true, i1 + OFFSET_sC, isfloat1)
    else (false, i1, isfloat1)

/-- Create expression `t[k]` (`luaK_indexed`); the result is the new state
and the new values of `t` and `k`. -/
def luaK_indexed (fs : FuncState) (t k : expdesc) :
    Except String (FuncState × expdesc × expdesc) :=
  let moved : Except String (FuncState × expdesc) :=
    if t.k = .VUPVAL ∧ ¬ isKstr fs k = true then luaK_exp2anyreg fs t
    else .ok (fs, t)
  match moved with
  | .error msg => .error msg
  | .ok (fs, t) =>
    if t.k = .VUPVAL then
      .ok (fs, { t with ind_t := t.var_idx, ind_idx := cast_short k.info, k := .VINDEXUP }, k)
    else
      let tr : Nat := cast_byte (if t.k = .VLOCAL then (t.var_idx : Int) else t.info)
      let t := { t with ind_t := tr }
      if isKstr fs k then
        .ok (fs, { t with ind_idx := cast_short k.info, k := .VINDEXSTR }, k)
      else if isCint k then
        .ok (fs, { t with ind_idx := cast_short (cast_int k.ival), k := .VINDEXI }, k)
      else
        match luaK_exp2anyreg fs k with
        | .error msg => .error msg
        | .ok (fs1, k1) =>
          .ok (fs1, { t with ind_idx := cast_short k1.info, k := .VINDEXED }, k1)

/-- Modelled from the spec: the binary operators of the parser (`BinOpr`,
declared outside `lcode.c`). -/
inductive BinOpr where
  | OPR_ADD | OPR_SUB | OPR_MUL | OPR_MOD | OPR_POW | OPR_DIV | OPR_IDIV
  | OPR_BAND | OPR_BOR | OPR_BXOR | OPR_SHL | OPR_SHR
  | OPR_CONCAT
  | OPR_EQ | OPR_LT | OPR_LE
  | OPR_NE | OPR_GT | OPR_GE
  | OPR_AND | OPR_OR
  | OPR_NOBINOPR
  deriving DecidableEq

/-- Modelled from the spec: the number of a binary operator in its
enumeration; the arithmetic operators come first, in the order of the
arithmetic opcodes and of the `LUA_OP` codes. -/
def BinOpr.toNat : BinOpr → Nat
  | .OPR_ADD => 0 | .OPR_SUB => 1 | .OPR_MUL => 2 | .OPR_MOD => 3 | .OPR_POW => 4
  | .OPR_DIV => 5 | .OPR_IDIV => 6
  | .OPR_BAND => 7 | .OPR_BOR => 8 | .OPR_BXOR => 9 | .OPR_SHL => 10 | .OPR_SHR => 11
  | .OPR_CONCAT => 12
  | .OPR_EQ => 13 | .OPR_LT => 14 | .OPR_LE => 15
  | .OPR_NE => 16 | .OPR_GT => 17 | .OPR_GE => 18
  | .OPR_AND => 19 | .OPR_OR => 20
  | .OPR_NOBINOPR => 21

/-- Modelled from the spec: the unary operators of the parser (`UnOpr`,
declared outside `lcode.c`). -/
inductive UnOpr where
  | OPR_MINUS | OPR_BNOT | OPR_NOT | OPR_LEN | OPR_NOUNOPR
  deriving DecidableEq

/-- Modelled from the spec: the number of a unary operator in its
enumeration. -/
def UnOpr.toNat : UnOpr → Nat
  | .OPR_MINUS => 0 | .OPR_BNOT => 1 | .OPR_NOT => 2 | .OPR_LEN => 3
  | .OPR_NOUNOPR => 4

/-- Modelled from the spec: code of the arithmetic operation `+`. -/
def LUA_OPADD : Nat := 0
/-- Modelled from the spec: code of the arithmetic operation `-`. -/
def LUA_OPSUB : Nat := 1
/-- Modelled from the spec: code of the arithmetic operation `*`. -/
def LUA_OPMUL : Nat := 2
/-- Modelled from the spec: code of the arithmetic operation `%`. -/
def LUA_OPMOD : Nat := 3
/-- Modelled from the spec: code of the arithmetic operation `^`. -/
def LUA_OPPOW : Nat := 4
/-- Modelled from the spec: code of the arithmetic operation `/`. -/
def LUA_OPDIV : Nat := 5
/-- Modelled from the spec: code of the arithmetic operation `//`. -/
def LUA_OPIDIV : Nat := 6
/-- Modelled from the spec: code of the bitwise operation `&`. -/
def LUA_OPBAND : Nat := 7
/-- Modelled from the spec: code of the bitwise operation `|`. -/
def LUA_OPBOR : Nat := 8
/-- Modelled from the spec: code of the bitwise operation `~` (binary). -/
def LUA_OPBXOR : Nat := 9
/-- Modelled from the spec: code of the bitwise operation `<<`. -/
def LUA_OPSHL : Nat := 10
/-- Modelled from the spec: code of the bitwise operation `>>`. -/
def LUA_OPSHR : Nat := 11
/-- Modelled from the spec: code of the unary minus. -/
def LUA_OPUNM : Nat := 12
/-- Modelled from the spec: code of the bitwise not. -/
def LUA_OPBNOT : Nat := 13

/-- Modelled from the spec: the conversion of a number to an integer without
string coercion (`tointegerns`): an integer is itself, a float converts when
it has an integral value. -/
def tointegerns : TValue → Option Int
  | .integer i => some i
  | .float f => luaV_flttointeger f
  | _ => none

/-- Modelled from the spec: `nvalue(v) != 0`, the test that the number `v`
is not zero, as floats (both zeros are zero, a NaN is not). -/
def nvalue_ne_zero : TValue → Bool
  | .integer i => decide (i ≠ 0)
  | .float f => !luai_numeq f (.fin 0)
  | _ => true

/-- Return false if folding can raise an error (`validop`). -/
def validop (op : Nat) (v1 v2 : TValue) : Bool :=
  if op = LUA_OPBAND ∨ op = LUA_OPBOR ∨ op = LUA_OPBXOR ∨ op = LUA_OPSHL ∨ op = LUA_OPSHR
      ∨ op = LUA_OPBNOT then
    (tointegerns v1).isSome && (tointegerns v2).isSome
  else if op = LUA_OPDIV ∨ op = LUA_OPIDIV ∨ op = LUA_OPMOD then
    nvalue_ne_zero v2
  else true

/-- Try to "constant-fold" an operation; the boolean is the result and the
expression is the new value of `e1` (`constfolding`). The arithmetic of the
runtime, `luaO_rawarith`, is not part of `lcode.c` and is a parameter. -/
def constfolding (luaO_rawarith : Nat → TValue → TValue → TValue) (fs : FuncState)
    (op : Nat) (e1 e2 : expdesc) : expdesc × Bool :=
  match luaK_tonumeral fs e1 true, luaK_tonumeral fs e2 true with
  | some v1, some v2 =>
    if ¬ validop op v1 v2 then (e1, false)
    else
      match luaO_rawarith op v1 v2 with
      | .integer i => ({ e1 with k := .VKINT, ival := i }, true)
      | .float n =>
        if n = .nan ∨ luai_numeq n (.fin 0) = true then (e1, false)
        else ({ e1 with k := .VKFLT, nval := n }, true)
      | _ => (e1, false)
  | _, _ => (e1, false)

/-- Emit code for unary expressions that "produce values"
(`codeunexpval`). -/
def codeunexpval (fs : FuncState) (op : OpCode) (e : expdesc) (line : Int) :
    Except String (FuncState × expdesc) :=
  match luaK_exp2anyreg fs e with
  | .error msg => .error msg
  | .ok (fs1, e1) =>
    let fs2 := freeexp fs1 e1
    let r := luaK_codeABC fs2 op 0 e1.info 0
    .ok (luaK_fixline r.1 line, { e1 with info := r.2, k := .VRELOC })

/-- Emit code for binary expressions that "produce values"
(`finishbinexpval`). -/
def finishbinexpval (fs : FuncState) (e1 e2 : expdesc) (op : OpCode) (v2 k line : Int) :
    Except String (FuncState × expdesc) :=
  match luaK_exp2anyreg fs e1 with
  | .error msg => .error msg
  | .ok (fs1, e1a) =>
    let r := luaK_codeABCk fs1 op 0 e1a.info v2 k
    let fs2 := freeexps r.1 e1a e2
    .ok (luaK_fixline fs2 line, { e1a with info := r.2, k := .VRELOC })

/-- Emit code for binary expressions that "produce values" over two
registers (`codebinexpval`). -/
def codebinexpval (fs : FuncState) (op : OpCode) (e1 e2 : expdesc) (line : Int) :
    Except String (FuncState × expdesc × expdesc) :=
  match luaK_exp2anyreg fs e2 with
  | .error msg => .error msg
  | .ok (fs1, e2a) =>
    match finishbinexpval fs1 e1 e2a op e2a.info 0 line with
    | .error msg => .error msg
    | .ok (fs2, e1a) => .ok (fs2, e1a, e2a)

/-- Code binary operators with immediate operands (`codebini`). -/
def codebini (fs : FuncState) (op : OpCode) (e1 e2 : expdesc) (k line : Int) :
    Except String (FuncState × expdesc) :=
  let v2 := cast_int e2.ival + OFFSET_sC
  finishbinexpval fs e1 e2 op v2 k line

/-- Code arithmetic operators; if second operand is a constant in the proper
range, use variant opcodes with immediate operands or K operands
(`codearith`). -/
def codearith (fs : FuncState) (op : OpCode) (e1 e2 : expdesc) (flip line : Int) :
    Except String (FuncState × expdesc × expdesc) :=
  if isSCint e2 then
    match codebini fs (op - OP_ADD + OP_ADDI) e1 e2 flip line with
    | .error msg => .error msg
    | .ok (fs1, e1a) => .ok (fs1, e1a, e2)
  else
    let tryK : Except String (FuncState × expdesc × Bool) :=
      if (luaK_tonumeral fs e2 false).isSome then luaK_exp2K fs e2
      else .ok (fs, e2, false)
    match tryK with
    | .error msg => .error msg
    | .ok (fs1, e2a, true) =>
      match finishbinexpval fs1 e1 e2a (op - OP_ADD + OP_ADDK) e2a.info flip line with
      | .error msg => .error msg
      | .ok (fs2, e1a) => .ok (fs2, e1a, e2a)
    | .ok (fs1, e2a, false) =>
      if flip ≠ 0 then codebinexpval fs1 op e2a e1 line
      else codebinexpval fs1 op e1 e2a line

/-- Code commutative operators; if first operand is a numeric constant,
change order of operands to try to use an immediate or K operator
(`codecommutative`). -/
def codecommutative (fs : FuncState) (op : OpCode) (e1 e2 : expdesc) (line : Int) :
    Except String (FuncState × expdesc × expdesc) :=
  if (luaK_tonumeral fs e1 false).isSome then codearith fs op e2 e1 1 line
  else codearith fs op e1 e2 0 line

/-- Code bitwise operations (`codebitwise`). -/
def codebitwise (fs : FuncState) (opr : BinOpr) (e1 e2 : expdesc) (line : Int) :
    Except String (FuncState × expdesc × expdesc) :=
  let finish (fs : FuncState) (e1 e2 : expdesc) (inv : Int) :
      Except String (FuncState × expdesc × expdesc) :=
    match finishbinexpval fs e1 e2 (opr.toNat - BinOpr.OPR_BAND.toNat + OP_BANDK)
        e2.info inv line with
    | .error msg => .error msg
    | .ok (fs1, e1a) => .ok (fs1, e1a, e2)
  let first : Except String (FuncState × expdesc × Bool) :=
    if e1.k = .VKINT then luaK_exp2RK fs e1 else .ok (fs, e1, false)
  match first with
  | .error msg => .error msg
  | .ok (fs1, e1a, true) => finish fs1 e2 e1a 1
  | .ok (fs1, e1a, false) =>
    let second : Except String (FuncState × expdesc × Bool) :=
      if e2.k = .VKINT then luaK_exp2RK fs1 e2 else .ok (fs1, e2, false)
    match second with
    | .error msg => .error msg
    | .ok (fs2, e2a, true) => finish fs2 e1a e2a 0
    | .ok (fs2, e2a, false) =>
      codebinexpval fs2 (opr.toNat - BinOpr.OPR_BAND.toNat + OP_BAND) e1a e2a line

/-- Code shift operators (`codeshift`). -/
def codeshift (fs : FuncState) (op : OpCode) (e1 e2 : expdesc) (line : Int) :
    Except String (FuncState × expdesc × expdesc) :=
  if isSCint e2 then
    let changed : expdesc × Int :=
      if op = OP_SHL then ({ e2 with ival := -e2.ival }, 1) else (e2, 0)
    match codebini fs OP_SHRI e1 changed.1 changed.2 line with
    | .error msg => .error msg
    | .ok (fs1, e1a) => .ok (fs1, e1a, changed.1)
  else codebinexpval fs op e1 e2 line

/-- Emit code for order comparisons (`codeorder`). -/
def codeorder (fs : FuncState) (op : OpCode) (e1 e2 : expdesc) :
    Except String (FuncState × expdesc × expdesc) := do
  let s2 := isSCnumber e2 0 0
  let (fs, e1, e2, r1, r2, op, isfloat) ←
    if s2.1 then do
      let (fs1, e1a) ← luaK_exp2anyreg fs e1
      pure (fs1, e1a, e2, e1a.info, cast_int s2.2.1, op - OP_LT + OP_LTI, s2.2.2)
    else
      let s1 := isSCnumber e1 s2.2.1 s2.2.2
      if s1.1 then do
        let (fs1, e2a) ← luaK_exp2anyreg fs e2
        pure (fs1, e1, e2a, e2a.info, cast_int s1.2.1,
          (if op = OP_LT then OP_GTI else OP_GEI), s1.2.2)
      else do
        let (fs1, e1a) ← luaK_exp2anyreg fs e1
        let (fs2, e2a) ← luaK_exp2anyreg fs1 e2
        pure (fs2, e1a, e2a, e1a.info, e2a.info, op, s1.2.2)
  let fs := freeexps fs e1 e2
  let r := condjump fs op r1 r2 isfloat 1
  pure (r.1, { e1 with info := r.2, k := .VJMP }, e2)

/-- Emit code for equality comparisons (`codeeq`). -/
def codeeq (fs : FuncState) (opr : BinOpr) (e1 e2 : expdesc) :
    Except String (FuncState × expdesc × expdesc) := do
  let (e1, e2) := if e1.k ≠ .VNONRELOC then (e2, e1) else (e1, e2)
  let (fs, e1) ← luaK_exp2anyreg fs e1
  let r1 := e1.info
  let s2 := isSCnumber e2 0 0
  let (fs, e2, op, r2) ←
    if s2.1 then pure (fs, e2, OP_EQI, cast_int s2.2.1)
    else do
      let (fs1, e2a, isk) ← luaK_exp2RK fs e2
      if isk then pure (fs1, e2a, OP_EQK, e2a.info)
      else do
        let (fs2, e2b) ← luaK_exp2anyreg fs1 e2a
        pure (fs2, e2b, OP_EQ, e2b.info)
  let fs := freeexps fs e1 e2
  let r := condjump fs op r1 r2 s2.2.2 (if opr = .OPR_EQ then 1 else 0)
  pure (r.1, { e1 with info := r.2, k := .VJMP }, e2)

/-- Apply prefix operation `op` to expression `e` (`luaK_prefix`). -/
def luaK_prefix (luaO_rawarith : Nat → TValue → TValue → TValue) (fs : FuncState)
    (op : UnOpr) (e : expdesc) (line : Int) : Except String (FuncState × expdesc) :=
  let ef : expdesc := ⟨.VKINT, 0, 0, .fin 0, 0, 0, NO_JUMP, NO_JUMP, 0⟩
  match op with
  | .OPR_MINUS | .OPR_BNOT =>
    let c := constfolding luaO_rawarith fs (op.toNat + LUA_OPUNM) e ef
    if c.2 then .ok (fs, c.1)
    else codeunexpval fs (op.toNat + OP_UNM) e line
  | .OPR_LEN => codeunexpval fs (op.toNat + OP_UNM) e line
  | .OPR_NOT => codenot fs e
  | _ => .ok (fs, e)

/-- Process 1st operand `v` of binary operation `op` before reading 2nd
operand (`luaK_infix`). -/
def luaK_infix (fs : FuncState) (op : BinOpr) (v : expdesc) :
    Except String (FuncState × expdesc) :=
  let d := luaK_dischargevars fs v
  let fs := d.1
  let v := d.2
  match op with
  | .OPR_AND => luaK_goiftrue fs v
  | .OPR_OR => luaK_goiffalse fs v
  | .OPR_CONCAT => luaK_exp2nextreg fs v
  | .OPR_ADD | .OPR_SUB | .OPR_MUL | .OPR_DIV | .OPR_IDIV | .OPR_MOD | .OPR_POW
  | .OPR_BAND | .OPR_BOR | .OPR_BXOR | .OPR_SHL | .OPR_SHR =>
    if ¬ (luaK_tonumeral fs v false).isSome then luaK_exp2anyreg fs v
    else .ok (fs, v)
  | .OPR_EQ | .OPR_NE =>
    if ¬ (luaK_tonumeral fs v false).isSome then
      match luaK_exp2RK fs v with
      | .error msg => .error msg
      | .ok (fs1, v1, _) => .ok (fs1, v1)
    else .ok (fs, v)
  | .OPR_LT | .OPR_LE | .OPR_GT | .OPR_GE =>
    if ¬ (isSCnumber v 0 0).1 then luaK_exp2anyreg fs v
    else .ok (fs, v)
  | _ => .ok (fs, v)

/-- Create code for `(e1 .. e2)` (`codeconcat`). -/
def codeconcat (fs : FuncState) (e1 e2 : expdesc) (line : Int) : FuncState :=
  let ie2 := previousinstruction fs
  if GET_OPCODE ie2 = OP_CONCAT then
    let n := GETARG_B ie2
    let fs1 := freeexp fs e2
    { fs1 with
      code := setAt fs1.code (fs1.pc - 1) (SETARG_B (SETARG_A ie2 e1.info) (n + 1)) }
  else
    let fs1 := (luaK_codeABC fs OP_CONCAT e1.info 2 0).1
    luaK_fixline (freeexp fs1 e2) line

/-- Finalize code for binary operation, after reading 2nd operand
(`luaK_posfix`); the result is the new state and the new values of `e1` and
`e2`. -/
def luaK_posfix (luaO_rawarith : Nat → TValue → TValue → TValue) (fs : FuncState)
    (opr : BinOpr) (e1 e2 : expdesc) (line : Int) :
    Except String (FuncState × expdesc × expdesc) :=
  let d := luaK_dischargevars fs e2
  let fs := d.1
  let e2 := d.2
  let folded (op : Nat) (otherwise : Except String (FuncState × expdesc × expdesc)) :
      Except String (FuncState × expdesc × expdesc) :=
    let c := constfolding luaO_rawarith fs op e1 e2
    if c.2 then .ok (fs, c.1, e2) else otherwise
  match opr with
  | .OPR_AND =>
    match luaK_concat fs e2.f e1.f with
    | .error msg => .error msg
    | .ok (fs1, f1) => .ok (fs1, { e2 with f := f1 }, { e2 with f := f1 })
  | .OPR_OR =>
    match luaK_concat fs e2.t e1.t with
    | .error msg => .error msg
    | .ok (fs1, t1) => .ok (fs1, { e2 with t := t1 }, { e2 with t := t1 })
  | .OPR_CONCAT =>
    match luaK_exp2nextreg fs e2 with
    | .error msg => .error msg
    | .ok (fs1, e2a) => .ok (codeconcat fs1 e1 e2a line, e1, e2a)
  | .OPR_ADD | .OPR_MUL =>
    folded (opr.toNat + LUA_OPADD) (codecommutative fs (opr.toNat + OP_ADD) e1 e2 line)
  | .OPR_SUB | .OPR_DIV | .OPR_IDIV | .OPR_MOD | .OPR_POW =>
    folded (opr.toNat + LUA_OPADD) (codearith fs (opr.toNat + OP_ADD) e1 e2 0 line)
  | .OPR_BAND | .OPR_BOR | .OPR_BXOR =>
    folded (opr.toNat + LUA_OPADD) (codebitwise fs opr e1 e2 line)
  | .OPR_SHL =>
    folded LUA_OPSHL
      (if isSCint e1 then
        match codebini fs OP_SHLI e2 e1 1 line with
        | .error msg => .error msg
        | .ok (fs1, e1a) => .ok (fs1, e1a, e1)
      else codeshift fs OP_SHL e1 e2 line)
  | .OPR_SHR => folded LUA_OPSHR (codeshift fs OP_SHR e1 e2 line)
  | .OPR_EQ | .OPR_NE => codeeq fs opr e1 e2
  | .OPR_LT | .OPR_LE =>
    codeorder fs (opr.toNat - BinOpr.OPR_EQ.toNat + OP_EQ) e1 e2
  | .OPR_GT | .OPR_GE =>
    codeorder fs (opr.toNat - BinOpr.OPR_NE.toNat + OP_EQ) e2 e1
  | _ => .ok (fs, e1, e2)

/-! ## Final pass (`lcode.c`, lines 1678-1726) -/

/-- The loop of `finaltarget`, for `count` more iterations. -/
def finaltargetLoop (code : Nat → Instruction) : Nat → Int → Int
  | 0, i => i
  | count + 1, i =>
    let pc := code i.toNat
    if GET_OPCODE pc ≠ OP_JMP then i
    else finaltargetLoop code count (i + (GETARG_sJ pc + 1))

/-- Return the final target of a jump, skipping jumps to jumps, in at most
100 steps (`finaltarget`). -/
def finaltarget (code : Nat → Instruction) (i : Int) : Int :=
  finaltargetLoop code 100 i

/-- The cases `OP_RETURN0`, `OP_RETURN1`, `OP_RETURN` and `OP_TAILCALL` of the
switch of `luaK_finish`: the new value of the instruction `pc`; an instruction
with another opcode is left as it is. -/
def finishReturn (fs : FuncState) (pc : Instruction) : Instruction :=
  let extra : Bool := decide (fs.needclose ≠ 0 ∨ fs.is_vararg ≠ 0)
  let ret (pc : Instruction) : Instruction :=
    SETARG_k (SETARG_C pc (if fs.is_vararg ≠ 0 then (fs.numparams : Int) + 1 else 0)) 1
  if GET_OPCODE pc = OP_RETURN0 ∨ GET_OPCODE pc = OP_RETURN1 then
    if ¬ extra then pc
    else ret (SET_OPCODE pc OP_RETURN)
  else if GET_OPCODE pc = OP_RETURN ∨ GET_OPCODE pc = OP_TAILCALL then
    if extra then ret pc
    else pc
  else pc

/-- The body of the loop of `luaK_finish` for the instruction at `i`: the
case `OP_JMP` of the switch, and the other cases, which rewrite the
instruction in place. -/
def finishInstruction (fs : FuncState) (i : Nat) : Except String FuncState :=
  let pc := fs.code i
  if GET_OPCODE pc = OP_JMP then
    fixjump fs i (finaltarget fs.code i)
  else .ok { fs with code := setAt fs.code i (finishReturn fs pc) }

/-- The loop of `luaK_finish`: `n` more instructions, starting at `i`. -/
def finishFrom : Nat → Nat → FuncState → Except String FuncState
  | 0, _, fs => .ok fs
  | n + 1, i, fs =>
    match finishInstruction fs i with
    | .error msg => .error msg
    | .ok fs1 => finishFrom n (i + 1) fs1

/-- Do a final pass over the code of a function, doing small peephole
optimizations and adjustments (`luaK_finish`). -/
def luaK_finish (fs : FuncState) : Except String FuncState :=
  finishFrom fs.pc 0 fs

/-! ## Frame conditions used by the theorems -/

/-- The state `fs1` differs from `fs` at most in the instructions. -/
def CodeOnly (fs fs1 : FuncState) : Prop :=
  fs1 = { fs with code := fs1.code }

/-- The constant pool of `fs1` has a short string only where the pool of `fs`
has the same entry. -/
def KeepsStrings (fs fs1 : FuncState) : Prop :=
  ∀ j, ttypetag (fs1.k j) = .LUA_TSHRSTR → fs1.k j = fs.k j

/-- The code of `fs1` is the code of `fs` followed by the comparison
`op a b c k` and by a jump; the constant pool is the same. -/
def EmitsComparison (fs fs1 : FuncState) (op : OpCode) (a b c k : Int) : Prop :=
  fs1.pc = fs.pc + 2 ∧
  GET_OPCODE (fs1.code fs.pc) = op ∧ GETARG_A (fs1.code fs.pc) = a ∧
  GETARG_B (fs1.code fs.pc) = b ∧ GETARG_C (fs1.code fs.pc) = c ∧
  GETARG_k (fs1.code fs.pc) = k ∧
  GET_OPCODE (fs1.code (fs.pc + 1)) = OP_JMP ∧
  (∀ j, j < fs.pc → fs1.code j = fs.code j) ∧ fs1.k = fs.k ∧ fs1.nk = fs.nk

/-- The value of the integer `x` in wrap-around 64-bit arithmetic: the
`lua_Integer` congruent to `x` modulo `2 ^ 64`. -/
def wrap64 (x : Int) : Int := (x + 2 ^ 63) % 2 ^ 64 - 2 ^ 63

/-- What the theorems on constant folding assume of the arithmetic of the
runtime (`luaO_rawarith`, outside `lcode.c`): on two integers, `+`, `-` and
`*` give the integer result in wrap-around 64-bit arithmetic. -/
def WrapsIntegers (luaO_rawarith : Nat → TValue → TValue → TValue) : Prop :=
  ∀ a b : Int,
    luaO_rawarith LUA_OPADD (.integer a) (.integer b) = .integer (wrap64 (a + b)) ∧
    luaO_rawarith LUA_OPSUB (.integer a) (.integer b) = .integer (wrap64 (a - b)) ∧
    luaO_rawarith LUA_OPMUL (.integer a) (.integer b) = .integer (wrap64 (a * b))

/-- Modelled from the spec: the arithmetic of the runtime restricted to two
integer operands and the operations `+`, `-` and `*`, which wrap around in 64
bits; every other case is left out and gives nil, a result that
`constfolding` does not fold. -/
def integerArith (op : Nat) (v1 v2 : TValue) : TValue :=
  match v1, v2 with
  | .integer a, .integer b =>
    if op = LUA_OPADD then .integer (wrap64 (a + b))
    else if op = LUA_OPSUB then .integer (wrap64 (a - b))
    else if op = LUA_OPMUL then .integer (wrap64 (a * b))
    else .nil
  | _, _ => .nil

/-- The jump list that starts at `l` in the code of `fs` visits the nodes
`ns`, in this order, and then ends with `NO_JUMP`; every node is a position of
the code. -/
def JumpList (fs : FuncState) : Int → List Int → Prop
  | l, [] => l = NO_JUMP
  | l, n :: ns => l = n ∧ 0 ≤ n ∧ n < (fs.pc : Int) ∧ JumpList fs (getjump fs n) ns

/-- Every jump among the first `pc` instructions of `code` has its target
among these instructions. -/
def JumpsInside (code : Nat → Instruction) (pc : Nat) : Prop :=
  ∀ i, i < pc → GET_OPCODE (code i) = OP_JMP →
    0 ≤ (i : Int) + (GETARG_sJ (code i) + 1) ∧ (i : Int) + (GETARG_sJ (code i) + 1) < (pc : Int)

/-- The code of `fs1` differs from the code of `fs` at most in instructions
that are `TESTSET` in `fs`; nothing else differs. -/
def OnlyTestsets (fs fs1 : FuncState) : Prop :=
  CodeOnly fs fs1 ∧ ∀ j, GET_OPCODE (fs.code j) ≠ OP_TESTSET → fs1.code j = fs.code j

/-- The states reachable from the fresh state of a function defined at line
`linedefined` by `luaK_code`, `luaK_fixline` and `removelastinstruction`; the
last two act on the last instruction, so there must be one. -/
inductive LineReachable (linedefined : Int) : FuncState → Prop
  | fresh : LineReachable linedefined (open_func linedefined)
  | code (fs : FuncState) (lastline : Int) (i : Instruction) :
      LineReachable linedefined fs → LineReachable linedefined (luaK_code fs lastline i).1
  | fixline (fs : FuncState) (line : Int) :
      LineReachable linedefined fs → 0 < fs.pc → LineReachable linedefined (luaK_fixline fs line)
  | removelast (fs : FuncState) :
      LineReachable linedefined fs → 0 < fs.pc →
      LineReachable linedefined (removelastinstruction fs)

/-- The invariant that ties `abslineinfo` to `lineinfo` over the first `n`
instructions: every absolute entry is for one of these instructions, whose
`lineinfo` byte is `ABSLINEINFO`; the entries are in increasing order of `pc`;
and every instruction whose byte is `ABSLINEINFO` has an entry. -/
def AbsInv (n : Nat) (fs : FuncState) : Prop :=
  (∀ j, j < fs.nabslineinfo →
    (fs.abslineinfo j).pc < n ∧ fs.lineinfo (fs.abslineinfo j).pc = ABSLINEINFO) ∧
  (∀ j k, j < k → k < fs.nabslineinfo → (fs.abslineinfo j).pc < (fs.abslineinfo k).pc) ∧
  (∀ i, i < n → fs.lineinfo i = ABSLINEINFO →
    ∃ j, j < fs.nabslineinfo ∧ (fs.abslineinfo j).pc = i)

/-- Modelled from the spec: the relation that an order comparison instruction
tests between the value `a` of its register A and the value `b` of its second
operand (a register for `LT` and `LE`, the immediate for `LTI`, `LEI`, `GTI`
and `GEI`), over the integers. -/
def orderReading (op : OpCode) (a b : Int) : Bool :=
  if op = OP_LT ∨ op = OP_LTI then decide (a < b)
  else if op = OP_LE ∨ op = OP_LEI then decide (a ≤ b)
  else if op = OP_GTI then decide (a > b)
  else if op = OP_GEI then decide (a ≥ b)
  else false

/-- Modelled from the spec: the meaning of the source comparison `v1 opr v2`
over the integers, for the four order operators. -/
def sourceOrder (opr : BinOpr) (v1 v2 : Int) : Bool :=
  match opr with
  | .OPR_LT => decide (v1 < v2)
  | .OPR_LE => decide (v1 ≤ v2)
  | .OPR_GT => decide (v1 > v2)
  | .OPR_GE => decide (v1 ≥ v2)
  | _ => false

/-! ## Lemmas on line information -/

theorem cast_ls_byte_of_small (d : Int) (h1 : -128 ≤ d) (h2 : d < 128) :
    cast_ls_byte d = d := by
  unfold cast_ls_byte
  omega

theorem setAt_same {α : Type} (a : Nat → α) (i : Nat) (v : α) : setAt a i v i = v := by
  simp [setAt]

theorem setAt_other {α : Type} (a : Nat → α) (i j : Nat) (v : α) (h : j ≠ i) :
    setAt a i v j = a j := by
  simp [setAt, h]

/-- The absolute branch of `savelineinfo`. -/
theorem savelineinfo_abs (fs : FuncState) (line : Int)
    (h : 128 ≤ |line - fs.previousline| ∨ 120 < fs.iwthabs) :
    savelineinfo fs line =
      { fs with
        abslineinfo := setAt fs.abslineinfo fs.nabslineinfo ⟨fs.pc - 1, line⟩
        nabslineinfo := fs.nabslineinfo + 1
        iwthabs := 0
        lineinfo := setAt fs.lineinfo (fs.pc - 1) ABSLINEINFO
        previousline := line } := by
  have hc : cast_ls_byte ABSLINEINFO = ABSLINEINFO := by
    unfold cast_ls_byte ABSLINEINFO; omega
  by_cases hfar : (128 : Int) ≤ |line - fs.previousline|
  · simp [savelineinfo, LIMLINEDIFF, hfar, hc]
  · have hm : 120 < fs.iwthabs := by
      rcases h with h | h
      · exact absurd h hfar
      · exact h
    simp [savelineinfo, LIMLINEDIFF, MAXIWTHABS, hfar, hm, hc]

/-- The relative branch of `savelineinfo`. -/
theorem savelineinfo_rel (fs : FuncState) (line : Int)
    (h1 : |line - fs.previousline| < 128) (h2 : fs.iwthabs ≤ 120) :
    savelineinfo fs line =
      { fs with
        iwthabs := fs.iwthabs + 1
        lineinfo := setAt fs.lineinfo (fs.pc - 1) (line - fs.previousline)
        previousline := line } := by
  have hb := abs_lt.mp h1
  have hc : cast_ls_byte (line - fs.previousline) = line - fs.previousline :=
    cast_ls_byte_of_small _ (by omega) (by omega)
  have hfar : ¬ (128 : Int) ≤ |line - fs.previousline| := by omega
  have hm : ¬ 120 < fs.iwthabs := by omega
  have hw : (fs.iwthabs + 1) % 256 = fs.iwthabs + 1 := by omega
  simp [savelineinfo, LIMLINEDIFF, MAXIWTHABS, hfar, hm, hc, hw]

theorem decodeLines_succ_some {li : Nat → Int} {ab : Nat → AbsLineInfo} {nabs : Nat}
    {l0 : Int} {n : Nat} {r : Int × Nat}
    (h : decodeLines li ab nabs l0 (n + 1) = some r) :
    ∃ r0, decodeLines li ab nabs l0 n = some r0 := by
  cases hd : decodeLines li ab nabs l0 n with
  | none => simp [decodeLines, hd] at h
  | some r0 => exact ⟨r0, rfl⟩

theorem decodeLines_some_of_le {li : Nat → Int} {ab : Nat → AbsLineInfo} {nabs : Nat}
    {l0 : Int} {m : Nat} {r : Int × Nat}
    (h : decodeLines li ab nabs l0 m = some r) (n : Nat) (hn : n ≤ m) :
    ∃ r0, decodeLines li ab nabs l0 n = some r0 := by
  induction m generalizing r with
  | zero =>
    have : n = 0 := by omega
    subst this
    exact ⟨r, h⟩
  | succ m ih =>
    rcases Nat.lt_or_ge n (m + 1) with hlt | hge
    · obtain ⟨r1, hr1⟩ := decodeLines_succ_some h
      exact ih hr1 (by omega)
    · have : n = m + 1 := by omega
      subst this
      exact ⟨r, h⟩

theorem decodeLines_used_le {li : Nat → Int} {ab : Nat → AbsLineInfo} {nabs : Nat}
    {l0 : Int} {n : Nat} {r : Int × Nat}
    (h : decodeLines li ab nabs l0 n = some r) : r.2 ≤ nabs := by
  induction n generalizing r with
  | zero =>
    simp [decodeLines] at h
    subst h
    simp
  | succ n ih =>
    cases hd : decodeLines li ab nabs l0 n with
    | none => simp [decodeLines, hd] at h
    | some r0 =>
      obtain ⟨line, used⟩ := r0
      have hu : used ≤ nabs := ih hd
      simp only [decodeLines, hd] at h
      split at h
      · split at h
        · rename_i hc
          simp at h
          subst h
          simp
          omega
        · simp at h
      · simp at h
        subst h
        simpa using hu

/-- Decoding the first `n` instructions only looks at the first `n` bytes of
`lineinfo` and at the records in use. -/
theorem decodeLines_congr {li li2 : Nat → Int} {ab ab2 : Nat → AbsLineInfo}
    {nabs nabs2 : Nat} {l0 : Int} {n : Nat} {r : Int × Nat}
    (h : decodeLines li ab nabs l0 n = some r)
    (hli : ∀ j, j < n → li2 j = li j) (hab : ∀ j, j < nabs → ab2 j = ab j)
    (hn : nabs ≤ nabs2) :
    decodeLines li2 ab2 nabs2 l0 n = some r := by
  induction n generalizing r with
  | zero => simpa [decodeLines] using h
  | succ n ih =>
    cases hd : decodeLines li ab nabs l0 n with
    | none => simp [decodeLines, hd] at h
    | some r0 =>
      obtain ⟨line, used⟩ := r0
      have h2 := ih hd (fun j hj => hli j (by omega))
      simp only [decodeLines, hd] at h
      simp only [decodeLines, h2, hli n (by omega)]
      split at h
      · rename_i hs
        split at h
        · rename_i hc
          have hu : used < nabs2 := by omega
          simp [hs, hab used hc.1, hc.2, hu]
          simpa using h
        · simp at h
      · rename_i hs
        simp [hs]
        simpa using h

/-- What `savelineinfo` does to the reader: when the first `p` instructions
decode to the line `l` with all records used, and `l` is `previousline`
unless an absolute entry is forced, the state after `savelineinfo` decodes
instruction `p` to `line` and the earlier instructions as before. -/
theorem savelineinfo_decode (l0 : Int) (fs : FuncState) (line : Int) (p : Nat) (l : Int)
    (hpc : fs.pc = p + 1)
    (hd : decodeLines fs.lineinfo fs.abslineinfo fs.nabslineinfo l0 p
      = some (l, fs.nabslineinfo))
    (hl : l = fs.previousline ∨ 120 < fs.iwthabs) :
    LineInv l0 (savelineinfo fs line) ∧
    (savelineinfo fs line).pc = fs.pc ∧
    (savelineinfo fs line).code = fs.code ∧
    (savelineinfo fs line).previousline = line ∧
    ∀ n r, n ≤ p →
      decodeLines fs.lineinfo fs.abslineinfo fs.nabslineinfo l0 n = some r →
      decodeLines (savelineinfo fs line).lineinfo (savelineinfo fs line).abslineinfo
        (savelineinfo fs line).nabslineinfo l0 n = some r := by
  have hp1 : fs.pc - 1 = p := by omega
  by_cases habs : 128 ≤ |line - fs.previousline| ∨ 120 < fs.iwthabs
  · rw [savelineinfo_abs fs line habs]
    have frame : ∀ n r, n ≤ p →
        decodeLines fs.lineinfo fs.abslineinfo fs.nabslineinfo l0 n = some r →
        decodeLines (setAt fs.lineinfo (fs.pc - 1) ABSLINEINFO)
          (setAt fs.abslineinfo fs.nabslineinfo ⟨fs.pc - 1, line⟩)
          (fs.nabslineinfo + 1) l0 n = some r := by
      intro n r hn hr
      refine decodeLines_congr hr ?_ ?_ (by omega)
      · intro j hj
        exact setAt_other _ _ _ _ (by omega)
      · intro j hj
        exact setAt_other _ _ _ _ (by omega)
    refine ⟨?_, rfl, rfl, rfl, frame⟩
    have h0 := frame p _ (le_refl p) hd
    rw [hp1] at h0
    simp only [LineInv, hpc, decodeLines, Nat.add_sub_cancel]
    rw [h0]
    simp [setAt_same]
  · have hfar : |line - fs.previousline| < 128 := by
      by_contra hc
      exact habs (Or.inl (by omega))
    have hm : fs.iwthabs ≤ 120 := by
      by_contra hc
      exact habs (Or.inr (by omega))
    have hle : l = fs.previousline := by
      rcases hl with h | h
      · exact h
      · omega
    rw [savelineinfo_rel fs line hfar hm]
    have frame : ∀ n r, n ≤ p →
        decodeLines fs.lineinfo fs.abslineinfo fs.nabslineinfo l0 n = some r →
        decodeLines (setAt fs.lineinfo (fs.pc - 1) (line - fs.previousline))
          fs.abslineinfo fs.nabslineinfo l0 n = some r := by
      intro n r hn hr
      refine decodeLines_congr hr ?_ (fun j _ => rfl) (le_refl _)
      intro j hj
      exact setAt_other _ _ _ _ (by omega)
    refine ⟨?_, rfl, rfl, rfl, frame⟩
    have h0 := frame p _ (le_refl p) hd
    have hb := abs_lt.mp hfar
    have hne : line - fs.previousline ≠ ABSLINEINFO := by
      unfold ABSLINEINFO
      omega
    rw [hp1] at h0
    simp only [LineInv, hpc, decodeLines, Nat.add_sub_cancel]
    rw [h0]
    simp [setAt_same, hne, hle]

/-- Emitting an instruction keeps the line-info invariant, gives the new
instruction the current line and leaves the decoding of the earlier ones. -/
theorem luaK_code_decode (l0 : Int) (fs : FuncState) (line : Int) (i : Instruction)
    (hinv : LineInv l0 fs) :
    LineInv l0 (luaK_code fs line i).1 ∧
    (luaK_code fs line i).1.pc = fs.pc + 1 ∧
    (luaK_code fs line i).1.previousline = line ∧
    ∀ n r, n ≤ fs.pc →
      decodeLines fs.lineinfo fs.abslineinfo fs.nabslineinfo l0 n = some r →
      decodeLines (luaK_code fs line i).1.lineinfo (luaK_code fs line i).1.abslineinfo
        (luaK_code fs line i).1.nabslineinfo l0 n = some r := by
  have h := savelineinfo_decode l0
    { fs with code := setAt fs.code fs.pc i, pc := fs.pc + 1 } line fs.pc fs.previousline
    rfl hinv (Or.inl rfl)
  obtain ⟨h1, h2, _, h4, h5⟩ := h
  exact ⟨h1, h2, h4, h5⟩

theorem LineInv_open_func (l0 : Int) : LineInv l0 (open_func l0) := by
  simp [LineInv, open_func, decodeLines]

/-- Emitting a sequence of instructions from a state that satisfies the
line-info invariant. -/
theorem emitAll_decode (l0 : Int) (xs : List (Instruction × Int)) (fs : FuncState)
    (hinv : LineInv l0 fs) :
    (emitAll fs xs).pc = fs.pc + xs.length ∧
    LineInv l0 (emitAll fs xs) ∧
    (∀ n r, n ≤ fs.pc →
      decodeLines fs.lineinfo fs.abslineinfo fs.nabslineinfo l0 n = some r →
      decodeLines (emitAll fs xs).lineinfo (emitAll fs xs).abslineinfo
        (emitAll fs xs).nabslineinfo l0 n = some r) ∧
    ∀ j (hj : j < xs.length),
      decodedLine (emitAll fs xs) l0 (fs.pc + j) = some (xs.get ⟨j, hj⟩).2 := by
  induction xs generalizing fs with
  | nil =>
    refine ⟨by simp [emitAll], by simpa [emitAll] using hinv, ?_, ?_⟩
    · intro n r _ hr
      simpa [emitAll] using hr
    · intro j hj
      simp at hj
  | cons x xs ih =>
    obtain ⟨c1, c2, c3, c4⟩ := luaK_code_decode l0 fs x.2 x.1 hinv
    obtain ⟨i1, i2, i3, i4⟩ := ih (luaK_code fs x.2 x.1).1 c1
    simp only [emitAll]
    refine ⟨?_, i2, ?_, ?_⟩
    · rw [i1, c2]
      simp
      omega
    · intro n r hn hr
      exact i3 n r (by omega) (c4 n r hn hr)
    · intro j hj
      cases j with
      | zero =>
        have h1 : decodeLines (luaK_code fs x.2 x.1).1.lineinfo
            (luaK_code fs x.2 x.1).1.abslineinfo (luaK_code fs x.2 x.1).1.nabslineinfo l0
            (fs.pc + 1) = some (x.2, (luaK_code fs x.2 x.1).1.nabslineinfo) := by
          have := c1
          simp only [LineInv, c2, c3] at this
          exact this
        have h2 := i3 (fs.pc + 1) _ (by omega) h1
        simp [decodedLine, h2]
      | succ j =>
        have h1 := i4 j (by simpa using hj)
        rw [c2] at h1
        have e : fs.pc + (j + 1) = fs.pc + 1 + j := by omega
        rw [e]
        simpa using h1

/-- C4: for every sequence of instructions emitted with luaK_code from a fresh
function state (previousline the line of the definition, iwthabs 0, no
abslineinfo entry), whatever the source lines, the reader that accumulates
the deltas and takes the line of the matching abslineinfo record at each
ABSLINEINFO sentinel reconstructs, for every instruction index below pc, the
line that was current when that instruction was emitted. -/
theorem lineinfo_reconstructs_emitted_lines (linedefined : Int)
    (xs : List (Instruction × Int)) (i : Nat) (hi : i < xs.length) :
    (emitAll (open_func linedefined) xs).pc = xs.length ∧
    decodedLine (emitAll (open_func linedefined) xs) linedefined i
      = some (xs.get ⟨i, hi⟩).2 := by
  obtain ⟨h1, _, _, h4⟩ :=
    emitAll_decode linedefined xs (open_func linedefined) (LineInv_open_func linedefined)
  refine ⟨by simpa [open_func] using h1, ?_⟩
  have := h4 i hi
  simpa [open_func] using this

/-- Witness for C4: three instructions on lines 5, 300 and 7 of a function
defined at line 1; the second one (an absolute entry) decodes to 300. -/
theorem lineinfo_reconstructs_emitted_lines_witness :
    (emitAll (open_func 1) [(0, 5), (0, 300), (0, 7)]).pc = 3 ∧
    decodedLine (emitAll (open_func 1) [(0, 5), (0, 300), (0, 7)]) 1 1 = some 300 :=
  lineinfo_reconstructs_emitted_lines 1 [(0, 5), (0, 300), (0, 7)] 1 (by decide)

/-- Decoding only looks at the records it uses. -/
theorem decodeLines_congr_used {li li2 : Nat → Int} {ab ab2 : Nat → AbsLineInfo}
    {nabs nabs2 : Nat} {l0 : Int} {n : Nat} {r : Int × Nat}
    (h : decodeLines li ab nabs l0 n = some r)
    (hli : ∀ j, j < n → li2 j = li j) (hab : ∀ j, j < r.2 → ab2 j = ab j)
    (hn : r.2 ≤ nabs2) :
    decodeLines li2 ab2 nabs2 l0 n = some r := by
  induction n generalizing r with
  | zero => simpa [decodeLines] using h
  | succ n ih =>
    cases hd : decodeLines li ab nabs l0 n with
    | none => simp [decodeLines, hd] at h
    | some r0 =>
      obtain ⟨line, used⟩ := r0
      simp only [decodeLines, hd] at h
      split at h
      · rename_i hs
        split at h
        · rename_i hc
          simp at h
          subst h
          simp at hab hn
          have h2 := ih hd (fun j hj => hli j (by omega))
            (fun j hj => hab j (by simp at hj; omega)) (by simp; omega)
          simp only [decodeLines, h2, hli n (by omega)]
          have hu : used < nabs2 := by omega
          simp [hs, hab used (by omega), hc.2, hu]
        · simp at h
      · rename_i hs
        simp at h
        subst h
        simp at hab hn
        have h2 := ih hd (fun j hj => hli j (by omega))
          (fun j hj => hab j (by simpa using hj)) (by simpa using hn)
        simp only [decodeLines, h2, hli n (by omega)]
        simp [hs]

/-- The number of records used grows with the number of instructions
decoded. -/
theorem decodeLines_used_mono {li : Nat → Int} {ab : Nat → AbsLineInfo} {nabs : Nat}
    {l0 : Int} {n m : Nat} {r r2 : Int × Nat}
    (h : decodeLines li ab nabs l0 n = some r)
    (h2 : decodeLines li ab nabs l0 m = some r2) (hnm : n ≤ m) : r.2 ≤ r2.2 := by
  induction m generalizing r2 with
  | zero =>
    have : n = 0 := by omega
    subst this
    rw [h] at h2
    simp at h2
    subst h2
    exact le_refl _
  | succ m ih =>
    rcases Nat.lt_or_ge n (m + 1) with hlt | hge
    · cases hd : decodeLines li ab nabs l0 m with
      | none => simp [decodeLines, hd] at h2
      | some r0 =>
        obtain ⟨line, used⟩ := r0
        have h3 := ih hd (by omega)
        simp only [decodeLines, hd] at h2
        split at h2
        · split at h2
          · simp at h2
            subst h2
            simp at h3 ⊢
            omega
          · simp at h2
        · simp at h2
          subst h2
          simpa using h3
    · have : n = m + 1 := by omega
      subst this
      rw [h] at h2
      simp at h2
      subst h2
      exact le_refl _

/-- What `luaK_fixline` does to the reader, in any state that satisfies the
line-info invariant and holds at least one instruction. -/
theorem luaK_fixline_decode (l0 : Int) (fs : FuncState) (line : Int) (p : Nat)
    (hinv : LineInv l0 fs) (hpc : fs.pc = p + 1) :
    LineInv l0 (luaK_fixline fs line) ∧
    (luaK_fixline fs line).pc = fs.pc ∧
    (luaK_fixline fs line).code = fs.code ∧
    (luaK_fixline fs line).previousline = line ∧
    ∀ n r, n ≤ p →
      decodeLines fs.lineinfo fs.abslineinfo fs.nabslineinfo l0 n = some r →
      decodeLines (luaK_fixline fs line).lineinfo (luaK_fixline fs line).abslineinfo
        (luaK_fixline fs line).nabslineinfo l0 n = some r := by
  have hp1 : fs.pc - 1 = p := by omega
  have hfull : decodeLines fs.lineinfo fs.abslineinfo fs.nabslineinfo l0 (p + 1)
      = some (fs.previousline, fs.nabslineinfo) := by
    have := hinv
    simp only [LineInv, hpc] at this
    exact this
  obtain ⟨r0, hr0⟩ := decodeLines_succ_some hfull
  obtain ⟨l, u⟩ := r0
  have hstep := hfull
  simp only [decodeLines, hr0] at hstep
  by_cases hrel : fs.lineinfo p ≠ ABSLINEINFO
  · simp only [hrel, if_false] at hstep
    simp at hstep
    obtain ⟨e1, e2⟩ := hstep
    have hrm : removelastlineinfo fs =
        { fs with
          previousline := fs.previousline - fs.lineinfo p
          iwthabs := (fs.iwthabs + 255) % 256 } := by
      simp [removelastlineinfo, hp1, hrel]
    have key := savelineinfo_decode l0 (removelastlineinfo fs) line p l
      (by rw [hrm]; exact hpc)
      (by rw [hrm]; simpa [e2] using hr0)
      (Or.inl (by rw [hrm]; simp; omega))
    unfold luaK_fixline
    obtain ⟨k1, k2, k3, k4, k5⟩ := key
    refine ⟨k1, ?_, ?_, k4, ?_⟩
    · rw [k2, hrm]
    · rw [k3, hrm]
    · intro n r hn hr
      exact k5 n r hn (by rw [hrm]; exact hr)
  · have habs : fs.lineinfo p = ABSLINEINFO := by
      by_contra hc
      exact hrel hc
    simp only [habs, if_true] at hstep
    split at hstep
    · rename_i hc
      simp at hstep
      obtain ⟨_, e2⟩ := hstep
      have hrm : removelastlineinfo fs =
          { fs with
            nabslineinfo := fs.nabslineinfo - 1
            iwthabs := (MAXIWTHABS + 1) % 256 } := by
        simp [removelastlineinfo, hp1, habs]
      have hu : fs.nabslineinfo - 1 = u := by omega
      have hd1 : decodeLines fs.lineinfo fs.abslineinfo u l0 p = some (l, u) :=
        decodeLines_congr_used hr0 (fun _ _ => rfl) (fun _ _ => rfl) (le_refl _)
      have key := savelineinfo_decode l0 (removelastlineinfo fs) line p l
        (by rw [hrm]; exact hpc)
        (by rw [hrm]; simpa [hu] using hd1)
        (Or.inr (by rw [hrm]; simp [MAXIWTHABS]))
      unfold luaK_fixline
      obtain ⟨k1, k2, k3, k4, k5⟩ := key
      refine ⟨k1, ?_, ?_, k4, ?_⟩
      · rw [k2, hrm]
      · rw [k3, hrm]
      · intro n r hn hr
        refine k5 n r hn ?_
        rw [hrm]
        simp only [hu]
        have hm := decodeLines_used_mono hr hr0 hn
        exact decodeLines_congr_used hr (fun _ _ => rfl) (fun _ _ => rfl) hm
    · simp at hstep

/-- C8: in every state with at least one instruction reached by emitting
instructions from a fresh function state, luaK_fixline(line) makes the decoded
line of the last instruction equal to line and leaves the decoded line of
every earlier instruction, the code array and pc unchanged, whether the last
instruction had relative or absolute line information. -/
theorem luaK_fixline_changes_last_line_only (linedefined : Int)
    (xs : List (Instruction × Int)) (line : Int) (hpc : 1 ≤ xs.length) :
    (luaK_fixline (emitAll (open_func linedefined) xs) line).pc
      = (emitAll (open_func linedefined) xs).pc ∧
    (luaK_fixline (emitAll (open_func linedefined) xs) line).code
      = (emitAll (open_func linedefined) xs).code ∧
    decodedLine (luaK_fixline (emitAll (open_func linedefined) xs) line) linedefined
      (xs.length - 1) = some line ∧
    ∀ i (hi : i < xs.length - 1),
      decodedLine (luaK_fixline (emitAll (open_func linedefined) xs) line) linedefined i
        = some (xs.get ⟨i, by omega⟩).2 := by
  obtain ⟨h1, h2, _, h4⟩ :=
    emitAll_decode linedefined xs (open_func linedefined) (LineInv_open_func linedefined)
  have hpc2 : (emitAll (open_func linedefined) xs).pc = (xs.length - 1) + 1 := by
    rw [h1]
    simp [open_func]
    omega
  obtain ⟨f1, f2, f3, f4, f5⟩ :=
    luaK_fixline_decode linedefined (emitAll (open_func linedefined) xs) line
      (xs.length - 1) h2 hpc2
  refine ⟨f2, f3, ?_, ?_⟩
  · have := f1
    simp only [LineInv, f2, hpc2, f4] at this
    simp [decodedLine, this]
  · intro i hi
    have hold := h4 i (by omega)
    simp only [open_func, Nat.zero_add] at hold
    simp only [decodedLine] at hold ⊢
    cases hd : decodeLines (emitAll (open_func linedefined) xs).lineinfo
        (emitAll (open_func linedefined) xs).abslineinfo
        (emitAll (open_func linedefined) xs).nabslineinfo linedefined (i + 1) with
    | none =>
      simp only [open_func] at hd
      rw [hd] at hold
      simp at hold
    | some r =>
      have hnew := f5 (i + 1) r (by omega) hd
      simp only [open_func] at hd
      rw [hd] at hold
      rw [hnew]
      exact hold

/-- Witness for C8: the last of three instructions (lines 5, 7, 300) has
absolute line information; fixing its line to 9 changes only its line. -/
theorem luaK_fixline_changes_last_line_only_witness :
    (luaK_fixline (emitAll (open_func 1) [(0, 5), (0, 7), (0, 300)]) 9).pc
      = (emitAll (open_func 1) [(0, 5), (0, 7), (0, 300)]).pc ∧
    (luaK_fixline (emitAll (open_func 1) [(0, 5), (0, 7), (0, 300)]) 9).code
      = (emitAll (open_func 1) [(0, 5), (0, 7), (0, 300)]).code ∧
    decodedLine (luaK_fixline (emitAll (open_func 1) [(0, 5), (0, 7), (0, 300)]) 9) 1 2
      = some 9 ∧
    decodedLine (luaK_fixline (emitAll (open_func 1) [(0, 5), (0, 7), (0, 300)]) 9) 1 1
      = some 7 :=
  have h := luaK_fixline_changes_last_line_only 1 [(0, 5), (0, 7), (0, 300)] 9 (by decide)
  ⟨h.1, h.2.1, h.2.2.1, h.2.2.2 1 (by decide)⟩

theorem emitAll_cons (fs : FuncState) (x : Instruction × Int)
    (xs : List (Instruction × Int)) :
    emitAll fs (x :: xs) = emitAll (luaK_code fs x.2 x.1).1 xs := rfl

theorem emitAll_append (fs : FuncState) (xs ys : List (Instruction × Int)) :
    emitAll fs (xs ++ ys) = emitAll (emitAll fs xs) ys := by
  induction xs generalizing fs with
  | nil => simp [emitAll]
  | cons x xs ih => simp [emitAll, ih]

theorem linesFrom_add (l d : Int) (n m : Nat) :
    linesFrom l d (n + m) = linesFrom l d n ++ linesFrom (l + d * n) d m := by
  induction n generalizing l with
  | zero => simp [linesFrom]
  | succ n ih =>
    have e : n + 1 + m = (n + m) + 1 := by omega
    rw [e]
    have e2 : l + d + d * (n : Int) = l + d * ((n : Int) + 1) := by ring
    simp only [linesFrom, ih, List.cons_append]
    push_cast
    rw [e2]

/-- A run of instructions whose line delta is small and that does not
exhaust the counter is stored as deltas. -/
theorem emitAll_relative_run (d : Int) (hd : |d| < 128) (n : Nat) (fs : FuncState)
    (h : fs.iwthabs + n ≤ 121) :
    (emitAll fs (linesFrom fs.previousline d n)).pc = fs.pc + n ∧
    (emitAll fs (linesFrom fs.previousline d n)).iwthabs = fs.iwthabs + n ∧
    (emitAll fs (linesFrom fs.previousline d n)).previousline = fs.previousline + d * n ∧
    (emitAll fs (linesFrom fs.previousline d n)).nabslineinfo = fs.nabslineinfo ∧
    (emitAll fs (linesFrom fs.previousline d n)).abslineinfo = fs.abslineinfo ∧
    (∀ j, j < fs.pc → (emitAll fs (linesFrom fs.previousline d n)).lineinfo j
      = fs.lineinfo j) ∧
    (∀ j, fs.pc ≤ j → j < fs.pc + n →
      (emitAll fs (linesFrom fs.previousline d n)).lineinfo j = d) := by
  induction n generalizing fs with
  | zero =>
    refine ⟨by simp [linesFrom, emitAll], by simp [linesFrom, emitAll],
      by simp [linesFrom, emitAll], by simp [linesFrom, emitAll],
      by simp [linesFrom, emitAll], by simp [linesFrom, emitAll], ?_⟩
    intro j h1 h2
    omega
  | succ n ih =>
    have hstep : (luaK_code fs (fs.previousline + d) 0).1 =
        { fs with
          code := setAt fs.code fs.pc 0
          pc := fs.pc + 1
          iwthabs := fs.iwthabs + 1
          lineinfo := setAt fs.lineinfo fs.pc d
          previousline := fs.previousline + d } := by
      simp only [luaK_code]
      rw [savelineinfo_rel _ _ (by simpa using hd) (by simp; omega)]
      simp
    simp only [linesFrom, emitAll]
    rw [hstep]
    obtain ⟨i1, i2, i3, i4, i5, i6, i7⟩ := ih
      { fs with
        code := setAt fs.code fs.pc 0
        pc := fs.pc + 1
        iwthabs := fs.iwthabs + 1
        lineinfo := setAt fs.lineinfo fs.pc d
        previousline := fs.previousline + d } (by simp; omega)
    simp only at i1 i2 i3 i4 i5 i6 i7
    refine ⟨by rw [i1]; omega, by rw [i2]; omega, ?_, i4, i5, ?_, ?_⟩
    · rw [i3]
      push_cast
      ring
    · intro j hj
      rw [i6 j (by omega)]
      exact setAt_other _ _ _ _ (by omega)
    · intro j h1 h2
      rcases Nat.eq_or_lt_of_le h1 with e | hlt
      · subst e
        rw [i6 _ (by omega)]
        exact setAt_same _ _ _
      · exact i7 j (by omega) (by omega)

/-- An instruction emitted when the line delta is large or the counter is
above its maximum gets absolute line information. -/
theorem luaK_code_abs (fs : FuncState) (line : Int) (i : Instruction)
    (h : 128 ≤ |line - fs.previousline| ∨ 120 < fs.iwthabs) :
    (luaK_code fs line i).1.pc = fs.pc + 1 ∧
    (luaK_code fs line i).1.iwthabs = 0 ∧
    (luaK_code fs line i).1.previousline = line ∧
    (luaK_code fs line i).1.nabslineinfo = fs.nabslineinfo + 1 ∧
    (luaK_code fs line i).1.abslineinfo
      = setAt fs.abslineinfo fs.nabslineinfo ⟨fs.pc, line⟩ ∧
    (luaK_code fs line i).1.lineinfo = setAt fs.lineinfo fs.pc ABSLINEINFO := by
  simp only [luaK_code]
  rw [savelineinfo_abs _ _ (by simpa using h)]
  simp

/-- C7 (what the code does): from a fresh function state, 200 instructions
whose line rises by one each time produce exactly one abslineinfo entry; it
belongs to the instruction of index 121 (the 122nd), which follows 121
instructions stored as deltas, and every other lineinfo byte is the delta 1. -/
theorem two_hundred_lines_anchor_at_121 (linedefined : Int) :
    (emitAll (open_func linedefined) (linesFrom linedefined 1 200)).pc = 200 ∧
    (emitAll (open_func linedefined) (linesFrom linedefined 1 200)).nabslineinfo = 1 ∧
    (emitAll (open_func linedefined) (linesFrom linedefined 1 200)).abslineinfo 0
      = ⟨121, linedefined + 122⟩ ∧
    (List.range 200).map
        (emitAll (open_func linedefined) (linesFrom linedefined 1 200)).lineinfo
      = (List.range 200).map (fun j => if j = 121 then ABSLINEINFO else 1) := by
  have hd : |(1 : Int)| < 128 := by norm_num
  have split1 : linesFrom linedefined 1 200
      = linesFrom linedefined 1 121
        ++ (0, linedefined + 122) :: linesFrom (linedefined + 122) 1 78 := by
    have e := linesFrom_add linedefined 1 121 79
    have e1 : linedefined + 1 * ((121 : Nat) : Int) + 1 = linedefined + 122 := by
      push_cast
      ring
    have e2 : linesFrom (linedefined + 1 * ((121 : Nat) : Int)) 1 79
        = (0, linedefined + 1 * ((121 : Nat) : Int) + 1)
          :: linesFrom (linedefined + 1 * ((121 : Nat) : Int) + 1) 1 78 := rfl
    rw [e2, e1] at e
    exact e
  rw [split1, emitAll_append, emitAll_cons]
  obtain ⟨a1, a2, a3, a4, a5, a6, a7⟩ :=
    emitAll_relative_run 1 hd 121 (open_func linedefined) (by simp [open_func])
  simp only [open_func] at a1 a2 a3 a4 a5 a6 a7
  simp only [open_func]
  generalize emitAll _ (linesFrom linedefined 1 121) = fs1 at *
  obtain ⟨b1, b2, b3, b4, b5, b6⟩ :=
    luaK_code_abs fs1 (linedefined + 122) 0 (Or.inr (by omega))
  generalize (luaK_code fs1 (linedefined + 122) 0).1 = fs2 at *
  obtain ⟨c1, c2, c3, c4, c5, c6, c7⟩ :=
    emitAll_relative_run 1 hd 78 fs2 (by omega)
  rw [b3] at c1 c2 c3 c4 c5 c6 c7
  generalize emitAll fs2 (linesFrom (linedefined + 122) 1 78) = fs3 at *
  refine ⟨by omega, by omega, ?_, ?_⟩
  · rw [c5, b5, a4, a1]
    exact setAt_same _ _ _
  · apply List.map_congr_left
    intro j hj
    have hj2 : j < 200 := List.mem_range.mp hj
    rcases Nat.lt_trichotomy j 121 with h | h | h
    · have hne : j ≠ 121 := by omega
      rw [c6 j (by omega), b6, setAt_other _ _ _ _ (by omega), a7 j (by omega) (by omega)]
      simp [hne]
    · subst h
      rw [c6 _ (by omega), b6, a1]
      simp [setAt]
    · have hne : j ≠ 121 := by omega
      rw [c7 j (by omega) (by omega)]
      simp [hne]

/-- C5 (what the code does): in a function defined at line 0, instruction 0
on line 200 receives absolute line information; the 121 instructions that
follow on the same line, the one emitted after 120 relative ones included,
all receive the relative byte 0 and no abslineinfo entry is added; only the
instruction after those 121 receives the absolute marker. -/
theorem absolute_marker_after_121_relative :
    (List.range 122).map (emitAll (open_func 0) ((0, 200) :: linesFrom 200 0 121)).lineinfo
      = (List.range 122).map (fun j => if j = 0 then ABSLINEINFO else 0) ∧
    (emitAll (open_func 0) ((0, 200) :: linesFrom 200 0 121)).nabslineinfo = 1 ∧
    (emitAll (open_func 0) ((0, 200) :: linesFrom 200 0 121)).iwthabs = 121 ∧
    (luaK_code (emitAll (open_func 0) ((0, 200) :: linesFrom 200 0 121)) 200 0).1.lineinfo 122
      = ABSLINEINFO := by
  have hd : |(0 : Int)| < 128 := by norm_num
  rw [emitAll_cons]
  obtain ⟨b1, b2, b3, b4, b5, b6⟩ :=
    luaK_code_abs (open_func 0) 200 0 (Or.inl (by norm_num [open_func]))
  generalize (luaK_code (open_func 0) 200 0).1 = fs1 at *
  simp only [open_func] at b1 b4 b5 b6
  obtain ⟨c1, c2, c3, c4, c5, c6, c7⟩ :=
    emitAll_relative_run 0 hd 121 fs1 (by omega)
  rw [b3] at c1 c2 c3 c4 c5 c6 c7
  generalize emitAll fs1 (linesFrom 200 0 121) = fs2 at *
  obtain ⟨d1, d2, d3, d4, d5, d6⟩ :=
    luaK_code_abs fs2 200 0 (Or.inr (by omega))
  refine ⟨?_, by omega, by omega, ?_⟩
  · apply List.map_congr_left
    intro j hj
    have hj2 : j < 122 := List.mem_range.mp hj
    rcases Nat.eq_zero_or_pos j with h | h
    · subst h
      rw [c6 0 (by omega), b6]
      simp [setAt]
    · have hne : j ≠ 0 := by omega
      rw [c7 j (by omega) (by omega)]
      simp [hne]
  · rw [d6, c1, b1]
    exact setAt_same _ _ _

/-- C6: savelineinfo writes the ABSLINEINFO sentinel, appends the entry
(pc, line) to abslineinfo and resets iwthabs to 0 whenever the absolute value
of the line delta is at least 128 (so for a delta of exactly +128 or -128),
whatever the value of iwthabs; and the byte it stores is either the sentinel
or, for a relative entry, the delta itself, which lies in [-127, 127] and so
is not the sentinel. -/
theorem savelineinfo_large_delta_absolute (fs : FuncState) (line : Int) :
    (128 ≤ |line - fs.previousline| →
      (savelineinfo fs line).lineinfo (fs.pc - 1) = ABSLINEINFO ∧
      (savelineinfo fs line).nabslineinfo = fs.nabslineinfo + 1 ∧
      (savelineinfo fs line).abslineinfo
        = setAt fs.abslineinfo fs.nabslineinfo ⟨fs.pc - 1, line⟩ ∧
      (savelineinfo fs line).iwthabs = 0) ∧
    (((savelineinfo fs line).lineinfo (fs.pc - 1) = ABSLINEINFO ∧
        (savelineinfo fs line).nabslineinfo = fs.nabslineinfo + 1) ∨
      ((savelineinfo fs line).lineinfo (fs.pc - 1) = line - fs.previousline ∧
        -127 ≤ (savelineinfo fs line).lineinfo (fs.pc - 1) ∧
        (savelineinfo fs line).lineinfo (fs.pc - 1) ≤ 127 ∧
        (savelineinfo fs line).lineinfo (fs.pc - 1) ≠ ABSLINEINFO ∧
        (savelineinfo fs line).nabslineinfo = fs.nabslineinfo)) := by
  constructor
  · intro h
    rw [savelineinfo_abs fs line (Or.inl h)]
    exact ⟨setAt_same _ _ _, rfl, rfl, rfl⟩
  · by_cases habs : 128 ≤ |line - fs.previousline| ∨ 120 < fs.iwthabs
    · left
      rw [savelineinfo_abs fs line habs]
      exact ⟨setAt_same _ _ _, rfl⟩
    · right
      have hfar : |line - fs.previousline| < 128 := by
        by_contra hc
        exact habs (Or.inl (by omega))
      have hm : fs.iwthabs ≤ 120 := by
        by_contra hc
        exact habs (Or.inr (by omega))
      have hb := abs_lt.mp hfar
      have hs : setAt fs.lineinfo (fs.pc - 1) (line - fs.previousline) (fs.pc - 1)
          = line - fs.previousline := setAt_same _ _ _
      rw [savelineinfo_rel fs line hfar hm]
      dsimp only
      rw [hs]
      refine ⟨rfl, by omega, by omega, ?_, rfl⟩
      unfold ABSLINEINFO
      omega

/-- Witness for C6: a delta of exactly +128 (line 138 after line 10) and a
delta of exactly -128 (line 372 after line 500). -/
theorem savelineinfo_large_delta_absolute_witness :
    ((savelineinfo { open_func 10 with pc := 1, iwthabs := 5 } 138).lineinfo 0 = ABSLINEINFO ∧
      (savelineinfo { open_func 10 with pc := 1, iwthabs := 5 } 138).nabslineinfo = 1 ∧
      (savelineinfo { open_func 10 with pc := 1, iwthabs := 5 } 138).iwthabs = 0) ∧
    ((savelineinfo { open_func 500 with pc := 1, iwthabs := 5 } 372).lineinfo 0 = ABSLINEINFO ∧
      (savelineinfo { open_func 500 with pc := 1, iwthabs := 5 } 372).nabslineinfo = 1 ∧
      (savelineinfo { open_func 500 with pc := 1, iwthabs := 5 } 372).iwthabs = 0) :=
  have h1 := (savelineinfo_large_delta_absolute
    { open_func 10 with pc := 1, iwthabs := 5 } 138).1 (by norm_num [open_func])
  have h2 := (savelineinfo_large_delta_absolute
    { open_func 500 with pc := 1, iwthabs := 5 } 372).1 (by norm_num [open_func])
  ⟨⟨h1.1, h1.2.1, h1.2.2.2⟩, ⟨h2.1, h2.2.1, h2.2.2.2⟩⟩

/-! ## Registers -/

/-- C9 counterexample: in the fresh state freereg + 255 = 255 does not exceed
MAXREGS, yet luaK_reserveregs(255) raises the syntax error. -/
theorem luaK_reserveregs_rejects_255 :
    ((open_func 0).freereg : Int) + 255 ≤ (MAXREGS : Int) ∧
    luaK_reserveregs (open_func 0) 255
      = .error "function or expression needs too many registers" := by
  constructor
  · simp [open_func, MAXREGS]
  · simp [luaK_reserveregs, luaK_checkstack, open_func, MAXREGS]

/-- C9 (amended): in a state whose maxstacksize is below MAXREGS (255), which
luaK_checkstack maintains, luaK_reserveregs(n) with n >= 0 succeeds exactly
when freereg + n < MAXREGS, that is freereg + n <= 254, and otherwise raises
the syntax error "function or expression needs too many registers"; on
success freereg is increased by n, maxstacksize becomes the maximum of its old
value and the new freereg (still below MAXREGS), and nothing else changes. -/
theorem luaK_reserveregs_succeeds_below_MAXREGS (fs : FuncState) (n : Int) (hn : 0 ≤ n)
    (hmax : fs.maxstacksize < MAXREGS) :
    ((fs.freereg : Int) + n < (MAXREGS : Int) →
      luaK_reserveregs fs n = .ok
        { fs with
          maxstacksize := max fs.maxstacksize ((fs.freereg : Int) + n).toNat
          freereg := ((fs.freereg : Int) + n).toNat } ∧
      max fs.maxstacksize ((fs.freereg : Int) + n).toNat < MAXREGS ∧
      ((((fs.freereg : Int) + n).toNat : Nat) : Int) = (fs.freereg : Int) + n) ∧
    (¬ ((fs.freereg : Int) + n < (MAXREGS : Int)) →
      luaK_reserveregs fs n
        = .error "function or expression needs too many registers") := by
  unfold MAXREGS at hmax ⊢
  constructor
  · intro h
    refine ⟨?_, by omega, by omega⟩
    by_cases hgt : (fs.freereg : Int) + n > (fs.maxstacksize : Int)
    · have h1 : cast_byte ((fs.freereg : Int) + n) = ((fs.freereg : Int) + n).toNat := by
        unfold cast_byte
        omega
      have h2 : max fs.maxstacksize ((fs.freereg : Int) + n).toNat
          = ((fs.freereg : Int) + n).toNat := by omega
      have h3 : ¬ ((fs.freereg : Int) + n ≥ ((255 : Nat) : Int)) := by omega
      simp only [luaK_reserveregs, luaK_checkstack, MAXREGS, hgt, h3, if_true, if_false,
        h1, h2]
    · have h1 : cast_byte ((fs.freereg : Int) + n) = ((fs.freereg : Int) + n).toNat := by
        unfold cast_byte
        omega
      have h2 : max fs.maxstacksize ((fs.freereg : Int) + n).toNat = fs.maxstacksize := by
        omega
      simp only [luaK_reserveregs, luaK_checkstack, hgt, if_false, h1, h2]
  · intro h
    have hgt : (fs.freereg : Int) + n > (fs.maxstacksize : Int) := by omega
    have h3 : (fs.freereg : Int) + n ≥ ((255 : Nat) : Int) := by omega
    simp only [luaK_reserveregs, luaK_checkstack, MAXREGS, hgt, h3, if_true]

/-- Witness for C9 (amended): reserving 3 registers in the fresh state. -/
theorem luaK_reserveregs_succeeds_below_MAXREGS_witness :
    luaK_reserveregs (open_func 0) 3 = .ok
      { open_func 0 with
        maxstacksize := max (open_func 0).maxstacksize (((open_func 0).freereg : Int) + 3).toNat
        freereg := (((open_func 0).freereg : Int) + 3).toNat } :=
  ((luaK_reserveregs_succeeds_below_MAXREGS (open_func 0) 3 (by decide)
    (by decide)).1 (by decide)).1

theorem luaK_checkstack_inv (fs fs2 : FuncState) (n : Int) (h : RegInv fs)
    (hok : luaK_checkstack fs n = .ok fs2) :
    RegInv fs2 ∧ fs.maxstacksize ≤ fs2.maxstacksize ∧ fs2.freereg = fs.freereg ∧
    fs2.nactvar = fs.nactvar ∧
    ((fs.freereg : Int) + n ≤ (fs2.maxstacksize : Int)) := by
  obtain ⟨h1, h2, h3⟩ := h
  unfold luaK_checkstack at hok
  by_cases hgt : (fs.freereg : Int) + n > (fs.maxstacksize : Int)
  · by_cases hbig : (fs.freereg : Int) + n ≥ (MAXREGS : Int)
    · simp [hgt, hbig] at hok
    · simp only [hgt, hbig, if_true, if_false] at hok
      injection hok with hok
      subst hok
      unfold MAXREGS at hbig
      have hc : ((cast_byte ((fs.freereg : Int) + n) : Nat) : Int) = (fs.freereg : Int) + n := by
        unfold cast_byte
        omega
      refine ⟨⟨h1, ?_, ?_⟩, ?_, rfl, rfl, ?_⟩
      · show fs.freereg ≤ cast_byte ((fs.freereg : Int) + n)
        omega
      · show cast_byte ((fs.freereg : Int) + n) ≤ 255
        omega
      · show fs.maxstacksize ≤ cast_byte ((fs.freereg : Int) + n)
        omega
      · show (fs.freereg : Int) + n ≤ ((cast_byte ((fs.freereg : Int) + n) : Nat) : Int)
        omega
  · simp only [hgt, if_false] at hok
    injection hok with hok
    subst hok
    exact ⟨⟨h1, h2, h3⟩, le_refl _, rfl, rfl, by omega⟩

theorem freereg_inv (fs : FuncState) (reg : Int) (h : RegInv fs) (hf : Freeable fs reg) :
    RegInv (freereg fs reg) ∧ (freereg fs reg).maxstacksize = fs.maxstacksize ∧
    (freereg fs reg).nactvar = fs.nactvar := by
  obtain ⟨h1, h2, h3⟩ := h
  unfold freereg
  by_cases hge : reg ≥ (fs.nactvar : Int)
  · have hreg : reg = (fs.freereg : Int) - 1 := by
      rcases hf with hf | hf
      · omega
      · exact hf
    rw [if_pos hge]
    refine ⟨⟨?_, ?_, h3⟩, rfl, rfl⟩
    · show fs.nactvar ≤ (fs.freereg + 255) % 256
      omega
    · show (fs.freereg + 255) % 256 ≤ fs.maxstacksize
      omega
  · rw [if_neg hge]
    exact ⟨⟨h1, h2, h3⟩, rfl, rfl⟩

theorem freeregs_inv (fs : FuncState) (r1 r2 : Int) (h : RegInv fs)
    (hf : FreeablePair fs r1 r2) :
    RegInv (freeregs fs r1 r2) ∧ (freeregs fs r1 r2).maxstacksize = fs.maxstacksize := by
  obtain ⟨hf1, hf2⟩ := hf
  unfold freeregs
  by_cases hgt : r1 > r2
  · have e1 : max r1 r2 = r1 := by omega
    have e2 : min r1 r2 = r2 := by omega
    rw [e1] at hf1 hf2
    rw [e2] at hf2
    obtain ⟨a1, a2, _⟩ := freereg_inv fs r1 h hf1
    obtain ⟨b1, b2, _⟩ := freereg_inv (freereg fs r1) r2 a1 hf2
    simp only [hgt, if_true]
    exact ⟨b1, by rw [b2, a2]⟩
  · have e1 : max r1 r2 = r2 := by omega
    have e2 : min r1 r2 = r1 := by omega
    rw [e1] at hf1 hf2
    rw [e2] at hf2
    obtain ⟨a1, a2, _⟩ := freereg_inv fs r2 h hf1
    obtain ⟨b1, b2, _⟩ := freereg_inv (freereg fs r2) r1 a1 hf2
    simp only [hgt, if_false]
    exact ⟨b1, by rw [b2, a2]⟩

/-- C10: the register invariant nactvar <= freereg <= maxstacksize <= 255 is
preserved by every successful luaK_checkstack and luaK_reserveregs call with
n >= 0, and by freereg, freeregs, freeexp and freeexps whenever each register
freed is, at the moment it is freed, below nactvar or the topmost one
(freereg - 1); maxstacksize never decreases. -/
theorem register_invariant_preserved (fs : FuncState) (h : RegInv fs) (n : Int)
    (hn : 0 ≤ n) (reg r1 r2 : Int) (e e1 e2 : expdesc) :
    (∀ fs2, luaK_checkstack fs n = .ok fs2 →
      RegInv fs2 ∧ fs.maxstacksize ≤ fs2.maxstacksize) ∧
    (∀ fs2, luaK_reserveregs fs n = .ok fs2 →
      RegInv fs2 ∧ fs.maxstacksize ≤ fs2.maxstacksize) ∧
    (Freeable fs reg →
      RegInv (freereg fs reg) ∧ fs.maxstacksize ≤ (freereg fs reg).maxstacksize) ∧
    (FreeablePair fs r1 r2 →
      RegInv (freeregs fs r1 r2) ∧ fs.maxstacksize ≤ (freeregs fs r1 r2).maxstacksize) ∧
    ((e.k = .VNONRELOC → Freeable fs e.info) →
      RegInv (freeexp fs e) ∧ fs.maxstacksize ≤ (freeexp fs e).maxstacksize) ∧
    (FreeablePair fs (if e1.k = .VNONRELOC then e1.info else -1)
        (if e2.k = .VNONRELOC then e2.info else -1) →
      RegInv (freeexps fs e1 e2) ∧ fs.maxstacksize ≤ (freeexps fs e1 e2).maxstacksize) := by
  refine ⟨?_, ?_, ?_, ?_, ?_, ?_⟩
  · intro fs2 hok
    obtain ⟨a1, a2, _⟩ := luaK_checkstack_inv fs fs2 n h hok
    exact ⟨a1, a2⟩
  · intro fs2 hok
    unfold luaK_reserveregs at hok
    cases hc : luaK_checkstack fs n with
    | error msg => simp [hc] at hok
    | ok fs1 =>
      obtain ⟨a1, a2, a3, a4, a5⟩ := luaK_checkstack_inv fs fs1 n h hc
      simp only [hc] at hok
      injection hok with hok
      subst hok
      obtain ⟨b1, b2, b3⟩ := a1
      obtain ⟨c1, c2, c3⟩ := h
      have hcast : ((cast_byte ((fs1.freereg : Int) + n) : Nat) : Int)
          = (fs.freereg : Int) + n := by
        unfold cast_byte
        rw [a3]
        omega
      refine ⟨⟨?_, ?_, b3⟩, a2⟩
      · show fs1.nactvar ≤ cast_byte ((fs1.freereg : Int) + n)
        omega
      · show cast_byte ((fs1.freereg : Int) + n) ≤ fs1.maxstacksize
        omega
  · intro hf
    obtain ⟨a1, a2, _⟩ := freereg_inv fs reg h hf
    exact ⟨a1, by rw [a2]⟩
  · intro hf
    obtain ⟨a1, a2⟩ := freeregs_inv fs r1 r2 h hf
    exact ⟨a1, by rw [a2]⟩
  · intro hf
    unfold freeexp
    by_cases hk : e.k = .VNONRELOC
    · obtain ⟨a1, a2, _⟩ := freereg_inv fs e.info h (hf hk)
      simp only [hk, if_true]
      exact ⟨a1, by rw [a2]⟩
    · simp only [hk, if_false]
      exact ⟨h, le_refl _⟩
  · intro hf
    obtain ⟨a1, a2⟩ := freeregs_inv fs _ _ h hf
    unfold freeexps
    exact ⟨a1, by rw [a2]⟩

/-- Witness for C10: with one local variable and the registers 1 and 2 in
use as temporaries, reserving two registers, freeing the topmost register and
freeing the two temporaries all keep the invariant. -/
theorem register_invariant_preserved_witness :
    RegInv { open_func 0 with nactvar := 1, freereg := 3, maxstacksize := 3 } ∧
    RegInv { open_func 0 with nactvar := 1, freereg := 5, maxstacksize := 5 } ∧
    RegInv (freereg { open_func 0 with nactvar := 1, freereg := 3, maxstacksize := 3 } 2) ∧
    RegInv (freeregs { open_func 0 with nactvar := 1, freereg := 3, maxstacksize := 3 } 1 2) :=
  have hinv : RegInv { open_func 0 with nactvar := 1, freereg := 3, maxstacksize := 3 } := by
    simp [RegInv, open_func]
  have h := register_invariant_preserved
    { open_func 0 with nactvar := 1, freereg := 3, maxstacksize := 3 } hinv 2 (by decide)
    2 1 2 ⟨.VNIL, 0, 0, .negzero, 0, 0, -1, -1, 0⟩ ⟨.VNIL, 0, 0, .negzero, 0, 0, -1, -1, 0⟩
    ⟨.VNIL, 0, 0, .negzero, 0, 0, -1, -1, 0⟩
  ⟨hinv,
    (h.2.1 { open_func 0 with nactvar := 1, freereg := 5, maxstacksize := 5 }
      (by simp [luaK_reserveregs, luaK_checkstack, open_func, MAXREGS, cast_byte])).1,
    (h.2.2.1 (by simp [Freeable, open_func])).1,
    (h.2.2.2.1 (by simp [FreeablePair, Freeable, freereg, open_func])).1⟩

/-! ## Constant pool -/

theorem cast_sizet_inj (a b : Int) (ha : LUA_MININTEGER ≤ a ∧ a ≤ LUA_MAXINTEGER)
    (hb : LUA_MININTEGER ≤ b ∧ b ≤ LUA_MAXINTEGER) (h : cast_sizet a = cast_sizet b) : a = b := by
  unfold cast_sizet at h
  unfold LUA_MININTEGER LUA_MAXINTEGER at ha hb
  norm_num at ha hb h
  omega

theorem flttointeger_fin_zero : luaV_flttointeger (.fin 0) = some 0 := by
  simp [luaV_flttointeger, LUA_MININTEGER, LUA_MAXINTEGER]

theorem flttointeger_fin_some (q : ℚ) (i : Int) (h : luaV_flttointeger (.fin q) = some i) :
    q = (i : ℚ) := by
  simp only [luaV_flttointeger] at h
  split_ifs at h with hc
  simp at h
  subst h
  exact (Rat.den_eq_one_iff q |>.mp hc.1).symm

theorem float_slot_iff (a b : lua_Number) (ha : a ≠ .nan) (hb : b ≠ .nan) :
    (match luaV_flttointeger a with
      | some i => TValue.integer i
      | none => TValue.float a) =
    (match luaV_flttointeger b with
      | some i => TValue.integer i
      | none => TValue.float b) ↔ luai_numeq a b = true := by
  cases a with
  | nan => exact absurd rfl ha
  | negzero =>
    cases b with
    | nan => exact absurd rfl hb
    | negzero => simp [luaV_flttointeger, luai_numeq]
    | inf s => simp [luaV_flttointeger, luai_numeq]
    | fin q =>
      cases hq : luaV_flttointeger (.fin q) with
      | none =>
        have hne : q ≠ 0 := by
          intro h0
          subst h0
          rw [flttointeger_fin_zero] at hq
          simp at hq
        simp [luaV_flttointeger, luai_numeq, hne]
      | some i =>
        have e := flttointeger_fin_some q i hq
        simp only [luaV_flttointeger, luai_numeq]
        subst e
        simp
        constructor
        · intro h
          exact h.symm
        · intro h
          exact h.symm
  | inf s =>
    cases b with
    | nan => exact absurd rfl hb
    | negzero => simp [luaV_flttointeger, luai_numeq]
    | inf s2 => simp [luaV_flttointeger, luai_numeq]
    | fin q =>
      cases hq : luaV_flttointeger (.fin q) with
      | none => simp [luaV_flttointeger, luai_numeq]
      | some i => simp [luaV_flttointeger, luai_numeq]
  | fin p =>
    cases b with
    | nan => exact absurd rfl hb
    | negzero =>
      cases hp : luaV_flttointeger (.fin p) with
      | none =>
        have hne : p ≠ 0 := by
          intro h0
          subst h0
          rw [flttointeger_fin_zero] at hp
          simp at hp
        simp [luaV_flttointeger, luai_numeq, hne]
      | some i =>
        have e := flttointeger_fin_some p i hp
        simp only [luaV_flttointeger, luai_numeq]
        subst e
        simp
    | inf s2 =>
      cases hp : luaV_flttointeger (.fin p) with
      | none => simp [luaV_flttointeger, luai_numeq]
      | some i => simp [luaV_flttointeger, luai_numeq]
    | fin q =>
      cases hp : luaV_flttointeger (.fin p) with
      | none =>
        cases hq : luaV_flttointeger (.fin q) with
        | none => simp [luai_numeq]
        | some j =>
          have hne : p ≠ q := by
            intro h0
            subst h0
            rw [hp] at hq
            simp at hq
          simp [luai_numeq, hne]
      | some i =>
        cases hq : luaV_flttointeger (.fin q) with
        | none =>
          have hne : p ≠ q := by
            intro h0
            subst h0
            rw [hp] at hq
            simp at hq
          simp [luai_numeq, hne]
        | some j =>
          have e1 := flttointeger_fin_some p i hp
          have e2 := flttointeger_fin_some q j hq
          subst e1 e2
          simp [luai_numeq]


theorem constSlot_eq_iff (a : Nat) (v w : TValue) (hv : IsConstant v) (hw : IsConstant w) :
    constSlot a v = constSlot a w ↔ SameConstant v w := by
  cases v <;> cases w <;>
    simp [constSlot, SameConstant, ttypetag, luaV_rawequalobj, IsConstant] at *
  all_goals first
    | exact float_slot_iff _ _ hv hw
    | exact ⟨fun h => cast_sizet_inj _ _ hv hw h, fun h => by rw [h]⟩
    | (intro h; rw [h])
    | (split <;> simp)

theorem KOp.run_eq (fs : FuncState) (op : KOp) :
    op.run fs = addk fs (op.key fs.h.addr) op.value := by
  cases op <;> rfl

theorem KOp.value_isConstant (op : KOp) (h : op.wellformed) : IsConstant op.value := by
  cases op <;> simp_all [KOp.wellformed, KOp.value, IsConstant]

theorem KOp.luaH_set_key (t : Table) (op : KOp) (h : op.wellformed) :
    luaH_set t (op.key t.addr) = .ok (constSlot t.addr op.value) := by
  cases op with
  | numberK r =>
    simp only [KOp.wellformed] at h
    simp only [luaH_set, KOp.key, luaH_mainkey, KOp.value, constSlot]
    cases luaV_flttointeger r <;> simp [h]
  | stringK s => rfl
  | intK n => rfl
  | boolK b => rfl
  | nilK => rfl

theorem SameConstant_refl (v : TValue) (hv : IsConstant v) : SameConstant v v :=
  (constSlot_eq_iff 0 v v hv hv).mp rfl

/-- The two outcomes of `addk` in a state that satisfies the pool invariant:
the constant is in the pool and its index is returned with the state
unchanged, or it is not and it is appended. -/
theorem addk_spec (fs : FuncState) (key v : TValue) (hinv : PoolInv fs)
    (hv : IsConstant v) (hkey : luaH_set fs.h key = .ok (constSlot fs.h.addr v)) :
    (∃ i, i < fs.nk ∧ SameConstant (fs.k i) v ∧ addk fs key v = .ok (fs, i)) ∨
    ((∀ i, i < fs.nk → ¬ SameConstant (fs.k i) v) ∧
      addk fs key v = .ok
        ({ fs with
            h := fs.h.store (constSlot fs.h.addr v) (.integer (fs.nk : Int))
            k := setAt fs.k fs.nk v
            nk := fs.nk + 1 }, fs.nk)) := by
  obtain ⟨inv1, inv2⟩ := hinv
  have hmiss : ∀ i, i < fs.nk → SameConstant (fs.k i) v →
      fs.h.slot (constSlot fs.h.addr v) = .integer (i : Int) := by
    intro i hi hs
    obtain ⟨c1, c2⟩ := inv1 i hi
    rw [← (constSlot_eq_iff fs.h.addr _ _ c1 hv).mpr hs]
    exact c2
  have hnone : (∀ j, fs.h.slot (constSlot fs.h.addr v) ≠ .integer j) →
      (∀ i, i < fs.nk → ¬ SameConstant (fs.k i) v) := by
    intro hn i hi hs
    exact hn _ (hmiss i hi hs)
  unfold addk
  rw [hkey]
  dsimp only
  cases hslot : fs.h.slot (constSlot fs.h.addr v) with
  | integer j =>
    obtain ⟨j0, j1⟩ := inv2 _ j hslot
    by_cases hc : j < (fs.nk : Int) ∧ ttypetag (fs.k j.toNat) = ttypetag v ∧
        luaV_rawequalobj (fs.k j.toNat) v = true
    · left
      refine ⟨j.toNat, by omega, ⟨hc.2.1, hc.2.2⟩, ?_⟩
      simp only [hc, and_self, if_true]
    · right
      constructor
      · intro i hi hs
        have e := hmiss i hi hs
        rw [hslot] at e
        injection e with e
        subst e
        apply hc
        simp only [Int.toNat_ofNat]
        exact ⟨j1, hs.1, hs.2⟩
      · simp only [hc, if_false]
  | nil => exact Or.inr ⟨hnone (by intro j; rw [hslot]; simp), rfl⟩
  | boolean b => exact Or.inr ⟨hnone (by intro j; rw [hslot]; simp), rfl⟩
  | float r => exact Or.inr ⟨hnone (by intro j; rw [hslot]; simp), rfl⟩
  | string s => exact Or.inr ⟨hnone (by intro j; rw [hslot]; simp), rfl⟩
  | lightuserdata q => exact Or.inr ⟨hnone (by intro j; rw [hslot]; simp), rfl⟩
  | table a => exact Or.inr ⟨hnone (by intro j; rw [hslot]; simp), rfl⟩

theorem PoolInv_open_func (l0 : Int) : PoolInv (open_func l0) := by
  constructor
  · intro i hi
    simp [open_func] at hi
  · intro key j hj
    simp [open_func] at hj

theorem PoolInv_append (fs : FuncState) (v : TValue) (hinv : PoolInv fs)
    (hv : IsConstant v) (hnew : ∀ i, i < fs.nk → ¬ SameConstant (fs.k i) v) :
    PoolInv
      { fs with
        h := fs.h.store (constSlot fs.h.addr v) (.integer (fs.nk : Int))
        k := setAt fs.k fs.nk v
        nk := fs.nk + 1 } := by
  obtain ⟨inv1, inv2⟩ := hinv
  constructor
  · intro i hi
    show IsConstant (setAt fs.k fs.nk v i) ∧
      (if constSlot fs.h.addr (setAt fs.k fs.nk v i) = constSlot fs.h.addr v
        then TValue.integer (fs.nk : Int)
        else fs.h.slot (constSlot fs.h.addr (setAt fs.k fs.nk v i))) = .integer (i : Int)
    have hi2 : i < fs.nk + 1 := hi
    rcases Nat.lt_or_ge i fs.nk with hlt | hge
    · obtain ⟨c1, c2⟩ := inv1 i hlt
      rw [setAt_other _ _ _ _ (by omega)]
      have hne : constSlot fs.h.addr (fs.k i) ≠ constSlot fs.h.addr v := by
        intro e
        exact hnew i hlt ((constSlot_eq_iff _ _ _ c1 hv).mp e)
      rw [if_neg hne]
      exact ⟨c1, c2⟩
    · have e : i = fs.nk := by omega
      subst e
      rw [setAt_same]
      simp [hv]
  · intro key j hj
    have hj2 : (if key = constSlot fs.h.addr v then TValue.integer (fs.nk : Int)
        else fs.h.slot key) = .integer j := hj
    show 0 ≤ j ∧ j < ((fs.nk + 1 : Nat) : Int)
    by_cases hk : key = constSlot fs.h.addr v
    · rw [if_pos hk] at hj2
      injection hj2 with hj2
      omega
    · rw [if_neg hk] at hj2
      have := inv2 key j hj2
      omega

/-- One constant addition in a state that satisfies the pool invariant. -/
theorem KOp.run_spec (fs : FuncState) (op : KOp) (hinv : PoolInv fs)
    (hop : op.wellformed) :
    ∃ fs1 i, op.run fs = .ok (fs1, i) ∧ PoolInv fs1 ∧ i < fs1.nk ∧
      SameConstant (fs1.k i) op.value ∧ fs.nk ≤ fs1.nk ∧
      (∀ j, j < fs.nk → fs1.k j = fs.k j) ∧
      ((∃ j, j < fs.nk ∧ SameConstant (fs.k j) op.value) → fs1 = fs) ∧
      ((∀ j, j < fs.nk → ¬ SameConstant (fs.k j) op.value) →
        i = fs.nk ∧ fs1.nk = fs.nk + 1 ∧ fs1.k fs.nk = op.value) := by
  have hv := KOp.value_isConstant op hop
  rw [KOp.run_eq]
  rcases addk_spec fs (op.key fs.h.addr) op.value hinv hv (KOp.luaH_set_key fs.h op hop)
    with ⟨i, hi, hs, hrun⟩ | ⟨hnew, hrun⟩
  · refine ⟨fs, i, hrun, hinv, hi, hs, le_refl _, fun _ _ => rfl, fun _ => rfl, ?_⟩
    intro hno
    exact absurd hs (hno i hi)
  · refine ⟨_, _, hrun, PoolInv_append fs op.value hinv hv hnew, ?_, ?_, ?_, ?_, ?_, ?_⟩
    · show fs.nk < fs.nk + 1
      omega
    · show SameConstant (setAt fs.k fs.nk op.value fs.nk) op.value
      rw [setAt_same]
      exact SameConstant_refl _ hv
    · show fs.nk ≤ fs.nk + 1
      omega
    · intro j hj
      exact setAt_other _ _ _ _ (by omega)
    · intro ⟨j, hj, hs⟩
      exact absurd hs (hnew j hj)
    · intro _
      exact ⟨rfl, rfl, setAt_same _ _ _⟩

/-- A sequence of well-formed constant additions never fails, keeps the pool
invariant and only appends to the pool. -/
theorem addAll_spec (ops : List KOp) (fs : FuncState) (hinv : PoolInv fs)
    (hops : ∀ o ∈ ops, o.wellformed) :
    ∃ fs2, addAll fs ops = .ok fs2 ∧ PoolInv fs2 ∧ fs.nk ≤ fs2.nk ∧
      (∀ j, j < fs.nk → fs2.k j = fs.k j) := by
  induction ops generalizing fs with
  | nil => exact ⟨fs, rfl, hinv, le_refl _, fun _ _ => rfl⟩
  | cons op ops ih =>
    obtain ⟨fs1, i, hrun, hinv1, _, _, hle, hk, _, _⟩ :=
      KOp.run_spec fs op hinv (hops op (List.mem_cons_self _ _))
    obtain ⟨fs2, hall, hinv2, hle2, hk2⟩ :=
      ih fs1 hinv1 (fun o ho => hops o (List.mem_cons_of_mem _ ho))
    refine ⟨fs2, ?_, hinv2, by omega, ?_⟩
    · simp only [addAll, hrun]
      exact hall
    · intro j hj
      rw [hk2 j (by omega), hk j hj]

theorem SameConstant_integer (x : TValue) (n : Int) (h : SameConstant x (.integer n)) :
    x = .integer n := by
  cases x <;> simp_all [SameConstant, ttypetag, luaV_rawequalobj]

theorem SameConstant_float_tag (x : TValue) (r : lua_Number)
    (h : SameConstant x (.float r)) : ttypetag x = .LUA_TNUMFLT := by
  rw [h.1]
  rfl

theorem flttointeger_wellformed (r : lua_Number) (n : Int)
    (h : luaV_flttointeger r = some n) :
    (KOp.intK n).wellformed ∧ (KOp.numberK r).wellformed := by
  cases r with
  | nan => simp [luaV_flttointeger] at h
  | inf s => simp [luaV_flttointeger] at h
  | negzero =>
    simp [luaV_flttointeger] at h
    subst h
    simp [KOp.wellformed, LUA_MININTEGER, LUA_MAXINTEGER]
  | fin q =>
    simp only [luaV_flttointeger] at h
    split_ifs at h with hc
    simp at h
    subst h
    simp [KOp.wellformed, hc.2.1, hc.2.2]

/-- Adding `a` and then `b`, two well-formed constants of different tags, in
a state that satisfies the pool invariant. -/
theorem add_two_tags (fs : FuncState) (a b : KOp) (hinv : PoolInv fs)
    (ha : a.wellformed) (hb : b.wellformed)
    (htag : ttypetag a.value ≠ ttypetag b.value) :
    ∃ fs1 i fs2 j, a.run fs = .ok (fs1, i) ∧ b.run fs1 = .ok (fs2, j) ∧ i ≠ j ∧
      i < fs2.nk ∧ j < fs2.nk ∧ SameConstant (fs2.k i) a.value ∧
      SameConstant (fs2.k j) b.value := by
  obtain ⟨fs1, i, r1, inv1, i1, s1, _, _, _, _⟩ := KOp.run_spec fs a hinv ha
  obtain ⟨fs2, j, r2, inv2, j2, s2, le2, k2, _, _⟩ := KOp.run_spec fs1 b inv1 hb
  have si : SameConstant (fs2.k i) a.value := by
    rw [k2 i i1]
    exact s1
  refine ⟨fs1, i, fs2, j, r1, r2, ?_, by omega, j2, si, s2⟩
  intro e
  subst e
  apply htag
  rw [← si.1, ← s2.1]

/-- C2: adding the integer n (luaK_intK) and a float of the same mathematical
value (luaK_numberK), such as 1 and 1.0, to the pool of the same function, in
either order, returns two different indices; the entry at the first one is the
integer n, integer-tagged, and the entry at the other one is float-tagged and
raw-equal to the float: neither addition reuses the entry of the other. -/
theorem integer_and_float_get_distinct_entries (linedefined : Int) (ops : List KOp)
    (hops : ∀ o ∈ ops, o.wellformed) (n : Int) (r : lua_Number)
    (hsame : luaV_flttointeger r = some n) :
    ∃ fs, addAll (open_func linedefined) ops = .ok fs ∧
      (∃ fs1 i fs2 j, luaK_intK fs n = .ok (fs1, i) ∧ luaK_numberK fs1 r = .ok (fs2, j) ∧
        i ≠ j ∧ i < fs2.nk ∧ j < fs2.nk ∧ fs2.k i = .integer n ∧
        ttypetag (fs2.k j) = .LUA_TNUMFLT ∧
        luaV_rawequalobj (fs2.k j) (.float r) = true) ∧
      (∃ fs1 j fs2 i, luaK_numberK fs r = .ok (fs1, j) ∧ luaK_intK fs1 n = .ok (fs2, i) ∧
        i ≠ j ∧ i < fs2.nk ∧ j < fs2.nk ∧ fs2.k i = .integer n ∧
        ttypetag (fs2.k j) = .LUA_TNUMFLT ∧
        luaV_rawequalobj (fs2.k j) (.float r) = true) := by
  obtain ⟨fs, hall, hinv, _, _⟩ :=
    addAll_spec ops (open_func linedefined) (PoolInv_open_func linedefined) hops
  obtain ⟨wi, wr⟩ := flttointeger_wellformed r n hsame
  refine ⟨fs, hall, ?_, ?_⟩
  · obtain ⟨fs1, i, fs2, j, r1, r2, hne, hi, hj, si, sj⟩ :=
      add_two_tags fs (.intK n) (.numberK r) hinv wi wr (by simp [KOp.value, ttypetag])
    exact ⟨fs1, i, fs2, j, r1, r2, hne, hi, hj, SameConstant_integer _ _ si,
      SameConstant_float_tag _ _ sj, sj.2⟩
  · obtain ⟨fs1, j, fs2, i, r1, r2, hne, hj, hi, sj, si⟩ :=
      add_two_tags fs (.numberK r) (.intK n) hinv wr wi (by simp [KOp.value, ttypetag])
    exact ⟨fs1, j, fs2, i, r1, r2, fun e => hne e.symm, hi, hj, SameConstant_integer _ _ si,
      SameConstant_float_tag _ _ sj, sj.2⟩

/-- Witness for C2: the integer 1 and the float 1.0, after nil and 7 were added. -/
theorem integer_and_float_get_distinct_entries_witness :
    ∃ fs, addAll (open_func 0) [.nilK, .intK 7] = .ok fs ∧
      (∃ fs1 i fs2 j, luaK_intK fs 1 = .ok (fs1, i) ∧
        luaK_numberK fs1 (.fin 1) = .ok (fs2, j) ∧
        i ≠ j ∧ i < fs2.nk ∧ j < fs2.nk ∧ fs2.k i = .integer 1 ∧
        ttypetag (fs2.k j) = .LUA_TNUMFLT ∧
        luaV_rawequalobj (fs2.k j) (.float (.fin 1)) = true) ∧
      (∃ fs1 j fs2 i, luaK_numberK fs (.fin 1) = .ok (fs1, j) ∧
        luaK_intK fs1 1 = .ok (fs2, i) ∧
        i ≠ j ∧ i < fs2.nk ∧ j < fs2.nk ∧ fs2.k i = .integer 1 ∧
        ttypetag (fs2.k j) = .LUA_TNUMFLT ∧
        luaV_rawequalobj (fs2.k j) (.float (.fin 1)) = true) :=
  integer_and_float_get_distinct_entries 0 [.nilK, .intK 7]
    (by simp [KOp.wellformed, LUA_MININTEGER, LUA_MAXINTEGER]) 1 (.fin 1)
    (by simp [luaV_flttointeger, LUA_MININTEGER, LUA_MAXINTEGER])

/-- What `savelineinfo` leaves unchanged. -/
theorem savelineinfo_frame (fs : FuncState) (line : Int) :
    (savelineinfo fs line).code = fs.code ∧ (savelineinfo fs line).pc = fs.pc ∧
    (savelineinfo fs line).k = fs.k ∧ (savelineinfo fs line).nk = fs.nk ∧
    (savelineinfo fs line).h = fs.h ∧ (savelineinfo fs line).freereg = fs.freereg ∧
    (savelineinfo fs line).nactvar = fs.nactvar ∧
    (savelineinfo fs line).maxstacksize = fs.maxstacksize ∧
    (savelineinfo fs line).lasttarget = fs.lasttarget ∧
    (savelineinfo fs line).lastline = fs.lastline ∧
    (savelineinfo fs line).needclose = fs.needclose ∧
    (savelineinfo fs line).is_vararg = fs.is_vararg ∧
    (savelineinfo fs line).numparams = fs.numparams ∧
    (savelineinfo fs line).vardesc = fs.vardesc := by
  unfold savelineinfo
  dsimp only
  split_ifs <;> simp

/-- What `luaK_code` does to the fields other than the line information. -/
theorem luaK_code_frame (fs : FuncState) (line : Int) (i : Instruction) :
    (luaK_code fs line i).1.code = setAt fs.code fs.pc i ∧
    (luaK_code fs line i).1.pc = fs.pc + 1 ∧
    (luaK_code fs line i).2 = fs.pc ∧
    (luaK_code fs line i).1.k = fs.k ∧ (luaK_code fs line i).1.nk = fs.nk ∧
    (luaK_code fs line i).1.h = fs.h ∧ (luaK_code fs line i).1.freereg = fs.freereg ∧
    (luaK_code fs line i).1.nactvar = fs.nactvar ∧
    (luaK_code fs line i).1.maxstacksize = fs.maxstacksize ∧
    (luaK_code fs line i).1.lasttarget = fs.lasttarget ∧
    (luaK_code fs line i).1.lastline = fs.lastline ∧
    (luaK_code fs line i).1.needclose = fs.needclose ∧
    (luaK_code fs line i).1.is_vararg = fs.is_vararg ∧
    (luaK_code fs line i).1.numparams = fs.numparams ∧
    (luaK_code fs line i).1.vardesc = fs.vardesc := by
  obtain ⟨h1, h2, h3, h4, h5, h6, h7, h8, h9, h10, h11, h12, h13, h14⟩ :=
    savelineinfo_frame { fs with code := setAt fs.code fs.pc i, pc := fs.pc + 1 } line
  simp only [luaK_code]
  refine ⟨h1, h2, ?_, h3, h4, h5, h6, h7, h8, h9, h10, h11, h12, h13, h14⟩
  rw [h2]
  simp

@[simp]
theorem luaK_code_code (fs : FuncState) (line : Int) (i : Instruction) :
    (luaK_code fs line i).1.code = setAt fs.code fs.pc i :=
  (luaK_code_frame fs line i).1

@[simp]
theorem luaK_code_pc (fs : FuncState) (line : Int) (i : Instruction) :
    (luaK_code fs line i).1.pc = fs.pc + 1 :=
  (luaK_code_frame fs line i).2.1

@[simp]
theorem luaK_code_k (fs : FuncState) (line : Int) (i : Instruction) :
    (luaK_code fs line i).1.k = fs.k :=
  (luaK_code_frame fs line i).2.2.2.1

@[simp]
theorem luaK_code_nk (fs : FuncState) (line : Int) (i : Instruction) :
    (luaK_code fs line i).1.nk = fs.nk :=
  (luaK_code_frame fs line i).2.2.2.2.1

@[simp]
theorem luaK_code_h (fs : FuncState) (line : Int) (i : Instruction) :
    (luaK_code fs line i).1.h = fs.h :=
  (luaK_code_frame fs line i).2.2.2.2.2.1

@[simp]
theorem luaK_code_freereg (fs : FuncState) (line : Int) (i : Instruction) :
    (luaK_code fs line i).1.freereg = fs.freereg :=
  (luaK_code_frame fs line i).2.2.2.2.2.2.1

@[simp]
theorem luaK_code_nactvar (fs : FuncState) (line : Int) (i : Instruction) :
    (luaK_code fs line i).1.nactvar = fs.nactvar :=
  (luaK_code_frame fs line i).2.2.2.2.2.2.2.1

@[simp]
theorem luaK_code_maxstacksize (fs : FuncState) (line : Int) (i : Instruction) :
    (luaK_code fs line i).1.maxstacksize = fs.maxstacksize :=
  (luaK_code_frame fs line i).2.2.2.2.2.2.2.2.1

@[simp]
theorem luaK_code_lasttarget (fs : FuncState) (line : Int) (i : Instruction) :
    (luaK_code fs line i).1.lasttarget = fs.lasttarget :=
  (luaK_code_frame fs line i).2.2.2.2.2.2.2.2.2.1

@[simp]
theorem luaK_code_lastline (fs : FuncState) (line : Int) (i : Instruction) :
    (luaK_code fs line i).1.lastline = fs.lastline :=
  (luaK_code_frame fs line i).2.2.2.2.2.2.2.2.2.2.1

@[simp]
theorem luaK_code_needclose (fs : FuncState) (line : Int) (i : Instruction) :
    (luaK_code fs line i).1.needclose = fs.needclose :=
  (luaK_code_frame fs line i).2.2.2.2.2.2.2.2.2.2.2.1

@[simp]
theorem luaK_code_is_vararg (fs : FuncState) (line : Int) (i : Instruction) :
    (luaK_code fs line i).1.is_vararg = fs.is_vararg :=
  (luaK_code_frame fs line i).2.2.2.2.2.2.2.2.2.2.2.2.1

@[simp]
theorem luaK_code_numparams (fs : FuncState) (line : Int) (i : Instruction) :
    (luaK_code fs line i).1.numparams = fs.numparams :=
  (luaK_code_frame fs line i).2.2.2.2.2.2.2.2.2.2.2.2.2.1

@[simp]
theorem luaK_code_vardesc (fs : FuncState) (line : Int) (i : Instruction) :
    (luaK_code fs line i).1.vardesc = fs.vardesc :=
  (luaK_code_frame fs line i).2.2.2.2.2.2.2.2.2.2.2.2.2.2

@[simp]
theorem luaK_code_snd (fs : FuncState) (line : Int) (i : Instruction) :
    (luaK_code fs line i).2 = fs.pc :=
  (luaK_code_frame fs line i).2.2.1

/-! ## Instruction fields -/

theorem GET_OPCODE_CREATE_ABCk (o : OpCode) (a b c k : Int) :
    GET_OPCODE (CREATE_ABCk o a b c k) = o % 128 := by
  unfold GET_OPCODE CREATE_ABCk getarg
  simp only [Nat.reducePow, Int.reducePow]
  show @Eq Nat _ _
  omega

theorem GETARG_A_CREATE_ABCk (o : OpCode) (a b c k : Int) :
    GETARG_A (CREATE_ABCk o a b c k) = a % 256 := by
  unfold GETARG_A CREATE_ABCk getarg
  simp only [Nat.reducePow, Int.reducePow]
  omega

theorem GETARG_B_CREATE_ABCk (o : OpCode) (a b c k : Int) :
    GETARG_B (CREATE_ABCk o a b c k) = b % 256 := by
  unfold GETARG_B CREATE_ABCk getarg
  simp only [Nat.reducePow, Int.reducePow]
  omega

theorem GETARG_C_CREATE_ABCk (o : OpCode) (a b c k : Int) :
    GETARG_C (CREATE_ABCk o a b c k) = c % 256 := by
  unfold GETARG_C CREATE_ABCk getarg
  simp only [Nat.reducePow, Int.reducePow]
  omega

theorem GETARG_k_CREATE_ABCk (o : OpCode) (a b c k : Int) :
    GETARG_k (CREATE_ABCk o a b c k) = k % 2 := by
  unfold GETARG_k CREATE_ABCk getarg
  simp only [Nat.reducePow, Int.reducePow]
  omega

theorem GET_OPCODE_CREATE_ABx (o : OpCode) (a bc : Int) :
    GET_OPCODE (CREATE_ABx o a bc) = o % 128 := by
  unfold GET_OPCODE CREATE_ABx getarg
  simp only [Nat.reducePow, Int.reducePow]
  show @Eq Nat _ _
  omega

theorem GETARG_A_CREATE_ABx (o : OpCode) (a bc : Int) :
    GETARG_A (CREATE_ABx o a bc) = a % 256 := by
  unfold GETARG_A CREATE_ABx getarg
  simp only [Nat.reducePow, Int.reducePow]
  omega

theorem GETARG_Bx_CREATE_ABx (o : OpCode) (a bc : Int) :
    GETARG_Bx (CREATE_ABx o a bc) = bc % 131072 := by
  unfold GETARG_Bx CREATE_ABx getarg
  simp only [Nat.reducePow, Int.reducePow]
  omega

theorem GETARG_sBx_CREATE_ABx (o : OpCode) (a i : Int) (h1 : -65535 ≤ i) (h2 : i ≤ 65536) :
    GETARG_sBx (CREATE_ABx o a (i + OFFSET_sBx)) = i := by
  unfold GETARG_sBx CREATE_ABx getarg OFFSET_sBx
  simp only [Nat.reducePow, Int.reducePow]
  omega

theorem GET_OPCODE_CREATE_Ax (o : OpCode) (a : Int) :
    GET_OPCODE (CREATE_Ax o a) = o % 128 := by
  unfold GET_OPCODE CREATE_Ax getarg
  simp only [Nat.reducePow, Int.reducePow]
  show @Eq Nat _ _
  omega

theorem GETARG_Ax_CREATE_Ax (o : OpCode) (a : Int) :
    GETARG_Ax (CREATE_Ax o a) = a % 33554432 := by
  unfold GETARG_Ax CREATE_Ax getarg
  simp only [Nat.reducePow, Int.reducePow]
  omega

theorem CREATE_sJ_zero (o : OpCode) (j : Int) :
    CREATE_sJ o j 0 = o % 128 + (j % 33554432).toNat * 128 := by
  unfold CREATE_sJ
  simp

theorem GET_OPCODE_CREATE_sJ (o : OpCode) (j : Int) :
    GET_OPCODE (CREATE_sJ o j 0) = o % 128 := by
  rw [CREATE_sJ_zero]
  unfold GET_OPCODE getarg
  simp only [Nat.reducePow, Int.reducePow]
  show @Eq Nat _ _
  omega

theorem GETARG_sJ_CREATE_sJ (o : OpCode) (sj : Int) (h1 : -(OFFSET_sJ : Int) ≤ sj)
    (h2 : sj ≤ (MAXARG_sJ : Int) - OFFSET_sJ) :
    GETARG_sJ (CREATE_sJ o (sj + OFFSET_sJ) 0) = sj := by
  rw [CREATE_sJ_zero]
  unfold GETARG_sJ getarg
  unfold OFFSET_sJ MAXARG_sJ at *
  simp only [Nat.reducePow, Int.reducePow] at *
  omega

theorem GET_OPCODE_SETARG_A (i : Instruction) (v : Int) :
    GET_OPCODE (SETARG_A i v) = GET_OPCODE i := by
  unfold GET_OPCODE SETARG_A setarg getarg
  simp only [Nat.reducePow, Int.reducePow]
  show @Eq Nat _ _
  omega

theorem GETARG_A_SETARG_A (i : Instruction) (v : Int) :
    GETARG_A (SETARG_A i v) = v % 256 := by
  unfold GETARG_A SETARG_A setarg getarg
  simp only [Nat.reducePow, Int.reducePow]
  omega

theorem GETARG_B_SETARG_A (i : Instruction) (v : Int) :
    GETARG_B (SETARG_A i v) = GETARG_B i := by
  unfold GETARG_B SETARG_A setarg getarg
  simp only [Nat.reducePow, Int.reducePow]
  omega

theorem GETARG_C_SETARG_A (i : Instruction) (v : Int) :
    GETARG_C (SETARG_A i v) = GETARG_C i := by
  unfold GETARG_C SETARG_A setarg getarg
  simp only [Nat.reducePow, Int.reducePow]
  omega

theorem GETARG_k_SETARG_A (i : Instruction) (v : Int) :
    GETARG_k (SETARG_A i v) = GETARG_k i := by
  unfold GETARG_k SETARG_A setarg getarg
  simp only [Nat.reducePow, Int.reducePow]
  omega

theorem GET_OPCODE_SETARG_B (i : Instruction) (v : Int) :
    GET_OPCODE (SETARG_B i v) = GET_OPCODE i := by
  unfold GET_OPCODE SETARG_B setarg getarg
  simp only [Nat.reducePow, Int.reducePow]
  show @Eq Nat _ _
  omega

theorem GETARG_A_SETARG_B (i : Instruction) (v : Int) :
    GETARG_A (SETARG_B i v) = GETARG_A i := by
  unfold GETARG_A SETARG_B setarg getarg
  simp only [Nat.reducePow, Int.reducePow]
  omega

theorem GETARG_B_SETARG_B (i : Instruction) (v : Int) :
    GETARG_B (SETARG_B i v) = v % 256 := by
  unfold GETARG_B SETARG_B setarg getarg
  simp only [Nat.reducePow, Int.reducePow]
  omega

theorem GETARG_C_SETARG_B (i : Instruction) (v : Int) :
    GETARG_C (SETARG_B i v) = GETARG_C i := by
  unfold GETARG_C SETARG_B setarg getarg
  simp only [Nat.reducePow, Int.reducePow]
  omega

theorem GETARG_k_SETARG_B (i : Instruction) (v : Int) :
    GETARG_k (SETARG_B i v) = GETARG_k i := by
  unfold GETARG_k SETARG_B setarg getarg
  simp only [Nat.reducePow, Int.reducePow]
  omega

/-! ## Loading integers -/

/-- The two outcomes of `addk`, in any state: the state is unchanged and the
entry at the index returned, at most `nk`, is the same constant, or the constant
is appended at `nk`. -/
theorem addk_cases (fs fs1 : FuncState) (key v : TValue) (k : Nat)
    (h : addk fs key v = .ok (fs1, k)) :
    (fs1 = fs ∧ k ≤ fs.nk ∧ SameConstant (fs.k k) v) ∨
    (∃ idx, fs1 = { fs with
        h := fs.h.store idx (.integer (fs.nk : Int))
        k := setAt fs.k fs.nk v
        nk := fs.nk + 1 } ∧ k = fs.nk) := by
  unfold addk at h
  cases hset : luaH_set fs.h key with
  | error msg => simp [hset] at h
  | ok idx =>
    simp only [hset] at h
    split at h
    · rename_i kk hk
      injection h with h
      injection h with h1 h2
      left
      subst h1 h2
      refine ⟨rfl, ?_⟩
      split at hk
      · rename_i kz hz
        split at hk
        · rename_i hc
          injection hk with hk
          subst hk
          refine ⟨?_, hc.2.1, hc.2.2⟩
          have := hc.1
          omega
        · simp at hk
      · simp at hk
    · injection h with h
      injection h with h1 h2
      right
      exact ⟨idx, h1.symm, h2.symm⟩

/-- Adding an integer constant always succeeds; it changes only the pool and
the scanner table, and the entry at the index returned is the integer. -/
theorem luaK_intK_spec (fs : FuncState) (i : Int) :
    ∃ fsk k, luaK_intK fs i = .ok (fsk, k) ∧ fsk.k k = .integer i ∧ k ≤ fs.nk ∧
      (∀ j, j < fs.nk → fsk.k j = fs.k j) ∧ fs.nk ≤ fsk.nk ∧ fsk.nk ≤ fs.nk + 1 ∧
      fsk.code = fs.code ∧ fsk.pc = fs.pc ∧ fsk.lastline = fs.lastline ∧
      fsk.freereg = fs.freereg ∧ fsk.nactvar = fs.nactvar ∧
      fsk.maxstacksize = fs.maxstacksize ∧ fsk.lasttarget = fs.lasttarget := by
  have hex : ∃ r, luaK_intK fs i = .ok r := by
    unfold luaK_intK addk
    simp only [luaH_set, luaH_mainkey]
    split <;> exact ⟨_, rfl⟩
  obtain ⟨⟨fsk, k⟩, hr⟩ := hex
  refine ⟨fsk, k, hr, ?_⟩
  rcases addk_cases fs fsk _ _ k hr with ⟨e, hlt, hs⟩ | ⟨idx, e, hk⟩
  · subst e
    exact ⟨SameConstant_integer _ _ hs, hlt, fun _ _ => rfl, le_refl _, Nat.le_succ _,
      rfl, rfl, rfl, rfl, rfl, rfl, rfl⟩
  · subst e hk
    refine ⟨setAt_same _ _ _, le_refl _, ?_, Nat.le_succ _, le_refl _,
      rfl, rfl, rfl, rfl, rfl, rfl, rfl⟩
    intro j hj
    exact setAt_other _ _ _ _ (by omega)

/-- C12 counterexample: 65536 is outside the range of absolute value at most
OFFSET_sBx = 65535, yet luaK_int loads it with LOADI and adds nothing to the
constant pool. -/
theorem luaK_int_loads_65536_with_LOADI :
    ¬ (|(65536 : Int)| ≤ (OFFSET_sBx : Int)) ∧
    ∃ fs1, luaK_int (open_func 0) 0 65536 = .ok fs1 ∧ fs1.pc = 1 ∧ fs1.nk = 0 ∧
      GET_OPCODE (fs1.code 0) = OP_LOADI ∧ GETARG_A (fs1.code 0) = 0 ∧
      GETARG_sBx (fs1.code 0) = 65536 := by
  constructor
  · simp [OFFSET_sBx]
  · refine ⟨(luaK_codeAsBx (open_func 0) OP_LOADI 0 (cast_int 65536)).1, ?_, ?_, ?_, ?_, ?_, ?_⟩
    · simp [luaK_int, fitsBx, OFFSET_sBx, MAXARG_Bx]
    · simp [luaK_codeAsBx, open_func]
    · simp [luaK_codeAsBx, open_func]
    · have e : cast_int 65536 = 65536 := by unfold cast_int; norm_num
      simp only [luaK_codeAsBx, luaK_code_code, e]
      simp only [open_func, setAt_same]
      rw [GET_OPCODE_CREATE_ABx]
      rfl
    · have e : cast_int 65536 = 65536 := by unfold cast_int; norm_num
      simp only [luaK_codeAsBx, luaK_code_code, e]
      simp only [open_func, setAt_same]
      rw [GETARG_A_CREATE_ABx]
      rfl
    · have e : cast_int 65536 = 65536 := by unfold cast_int; norm_num
      simp only [luaK_codeAsBx, luaK_code_code, e]
      simp only [open_func, setAt_same]
      exact GETARG_sBx_CREATE_ABx _ _ _ (by norm_num) (by norm_num)

/-- C12 (amended): luaK_int(reg, i) emits LOADI reg, i exactly when
-OFFSET_sBx <= i <= MAXARG_Bx - OFFSET_sBx, that is -65535 <= i <= 65536, and
then leaves the constant pool alone; for every integer i outside that range it
adds i to the constant pool (or finds it there) at some index k and emits
LOADK reg, k, or LOADKX reg followed by EXTRAARG k when k exceeds MAXARG_Bx.
The register is a valid operand A and the pool holds at most MAXARG_Ax
constants. -/
theorem luaK_int_LOADI_iff_fits_sBx (fs : FuncState) (reg i : Int)
    (hreg : 0 ≤ reg ∧ reg ≤ (MAXARG_A : Int)) (hnk : fs.nk ≤ MAXARG_Ax) :
    (-(OFFSET_sBx : Int) ≤ i ∧ i ≤ (MAXARG_Bx : Int) - OFFSET_sBx →
      ∃ fs1, luaK_int fs reg i = .ok fs1 ∧ fs1.pc = fs.pc + 1 ∧
        fs1.nk = fs.nk ∧ fs1.k = fs.k ∧
        (∀ j, j ≠ fs.pc → fs1.code j = fs.code j) ∧
        GET_OPCODE (fs1.code fs.pc) = OP_LOADI ∧ GETARG_A (fs1.code fs.pc) = reg ∧
        GETARG_sBx (fs1.code fs.pc) = i) ∧
    (¬ (-(OFFSET_sBx : Int) ≤ i ∧ i ≤ (MAXARG_Bx : Int) - OFFSET_sBx) →
      ∃ fs1 k, luaK_int fs reg i = .ok fs1 ∧ k ≤ fs.nk ∧ fs1.k k = .integer i ∧
        (∀ j, j < fs.nk → fs1.k j = fs.k j) ∧ fs.nk ≤ fs1.nk ∧ fs1.nk ≤ fs.nk + 1 ∧
        (∀ j, j < fs.pc ∨ fs1.pc ≤ j → fs1.code j = fs.code j) ∧
        GETARG_A (fs1.code fs.pc) = reg ∧
        (k ≤ MAXARG_Bx → fs1.pc = fs.pc + 1 ∧
          GET_OPCODE (fs1.code fs.pc) = OP_LOADK ∧ GETARG_Bx (fs1.code fs.pc) = k) ∧
        (MAXARG_Bx < k → fs1.pc = fs.pc + 2 ∧
          GET_OPCODE (fs1.code fs.pc) = OP_LOADKX ∧
          GET_OPCODE (fs1.code (fs.pc + 1)) = OP_EXTRAARG ∧
          GETARG_Ax (fs1.code (fs.pc + 1)) = k)) := by
  obtain ⟨hr0, hr1⟩ := hreg
  unfold MAXARG_A at hr1
  constructor
  · intro hfit
    have hf : fitsBx i = true := by simpa [fitsBx] using hfit
    have hc : cast_int i = i := by
      unfold cast_int
      unfold OFFSET_sBx MAXARG_Bx at hfit
      simp only [Nat.reducePow, Int.reducePow] at hfit ⊢
      omega
    refine ⟨(luaK_codeAsBx fs OP_LOADI reg (cast_int i)).1, ?_, ?_, ?_, ?_, ?_, ?_, ?_, ?_⟩
    · simp [luaK_int, hf]
    · simp [luaK_codeAsBx]
    · simp [luaK_codeAsBx]
    · simp [luaK_codeAsBx]
    · intro j hj
      simp only [luaK_codeAsBx, luaK_code_code]
      exact setAt_other _ _ _ _ hj
    · simp only [luaK_codeAsBx, luaK_code_code, setAt_same]
      rw [GET_OPCODE_CREATE_ABx]
      rfl
    · simp only [luaK_codeAsBx, luaK_code_code, setAt_same]
      rw [GETARG_A_CREATE_ABx]
      omega
    · simp only [luaK_codeAsBx, luaK_code_code, setAt_same, hc]
      unfold OFFSET_sBx MAXARG_Bx at hfit
      simp only [Nat.reducePow] at hfit
      exact GETARG_sBx_CREATE_ABx _ _ _ (by omega) (by omega)
  · intro hfit
    have hf : fitsBx i = false := by simpa [fitsBx] using hfit
    obtain ⟨fsk, k, hk, hkk, hklt, hkold, hnk1, hnk2, hcode, hpc, -⟩ := luaK_intK_spec fs i
    have hkA : k ≤ 2 ^ 25 - 1 := by
      unfold MAXARG_Ax at hnk
      omega
    simp only [Nat.reducePow] at hkA
    refine ⟨(luaK_codek fsk reg k).1, k, ?_, ?_, ?_, ?_, ?_, ?_, ?_, ?_, ?_, ?_⟩
    · simp [luaK_int, hf, hk]
    · exact hklt
    · unfold luaK_codek
      split <;> simp [luaK_codeABx, codeextraarg, hkk]
    · intro j hj
      unfold luaK_codek
      split <;> simp [luaK_codeABx, codeextraarg, hkold j hj]
    · unfold luaK_codek
      split <;> simp [luaK_codeABx, codeextraarg, hnk1]
    · unfold luaK_codek
      split <;> simp [luaK_codeABx, codeextraarg, hnk2]
    · intro j hj
      unfold luaK_codek at hj ⊢
      split at hj
      · rename_i hle
        simp only [hle, if_true]
        simp only [luaK_codeABx, luaK_code_code, luaK_code_pc, hpc, hcode] at hj ⊢
        exact setAt_other _ _ _ _ (by omega)
      · rename_i hle
        simp only [hle, if_false]
        simp only [luaK_codeABx, codeextraarg, luaK_code_code, luaK_code_pc, hpc, hcode] at hj ⊢
        rw [setAt_other _ _ _ _ (by omega), setAt_other _ _ _ _ (by omega)]
    · unfold luaK_codek
      split
      · simp only [luaK_codeABx, luaK_code_code, hpc, setAt_same]
        rw [GETARG_A_CREATE_ABx]
        omega
      · simp only [luaK_codeABx, codeextraarg, luaK_code_code, luaK_code_pc, hpc]
        rw [setAt_other _ _ _ _ (by omega), setAt_same, GETARG_A_CREATE_ABx]
        omega
    · intro hle
      have hle2 : (k : Int) ≤ (MAXARG_Bx : Int) := by exact_mod_cast hle
      unfold luaK_codek
      simp only [hle2, if_true]
      simp only [luaK_codeABx, luaK_code_code, luaK_code_pc, hpc, setAt_same]
      refine ⟨trivial, ?_, ?_⟩
      · rw [GET_OPCODE_CREATE_ABx]
        rfl
      · rw [GETARG_Bx_CREATE_ABx]
        unfold MAXARG_Bx at hle
        simp only [Nat.reducePow] at hle
        omega
    · intro hgt
      have hgt2 : ¬ ((k : Int) ≤ (MAXARG_Bx : Int)) := by
        have : ¬ (k ≤ MAXARG_Bx) := by omega
        exact_mod_cast this
      unfold luaK_codek
      simp only [hgt2, if_false]
      simp only [luaK_codeABx, codeextraarg, luaK_code_code, luaK_code_pc, hpc, setAt_same]
      refine ⟨trivial, ?_, ?_, ?_⟩
      · rw [setAt_other _ _ _ _ (by omega), setAt_same, GET_OPCODE_CREATE_ABx]
        rfl
      · rw [GET_OPCODE_CREATE_Ax]
        rfl
      · rw [GETARG_Ax_CREATE_Ax]
        omega

/-- Witness for C12 (amended): loading 100000 into register 0 of the fresh
state goes through the constant pool. -/
theorem luaK_int_LOADI_iff_fits_sBx_witness :
    ∃ fs1 k, luaK_int (open_func 0) 0 100000 = .ok fs1 ∧ k ≤ (open_func 0).nk ∧
      fs1.k k = .integer 100000 ∧
      (k ≤ MAXARG_Bx → fs1.pc = (open_func 0).pc + 1 ∧
        GET_OPCODE (fs1.code (open_func 0).pc) = OP_LOADK ∧
        GETARG_Bx (fs1.code (open_func 0).pc) = k) := by
  obtain ⟨fs1, k, h1, h2, h3, -, -, -, -, -, h4, -⟩ :=
    (luaK_int_LOADI_iff_fits_sBx (open_func 0) 0 100000 (by decide) (by decide)).2 (by decide)
  exact ⟨fs1, k, h1, h2, h3, h4⟩

/-! ## Loading nil -/

theorem GET_OPCODE_invalidinstruction : GET_OPCODE invalidinstruction ≠ OP_LOADNIL := by
  unfold GET_OPCODE getarg invalidinstruction OP_LOADNIL
  norm_num

/-- What `luaK_nil` does: it merges the new range into a previous `LOADNIL`
that no jump targets and whose range overlaps or is adjacent, or else emits
one `LOADNIL`. -/
theorem luaK_nil_spec (fs : FuncState) (frm n : Int)
    (hn : 1 ≤ n) (hfrm : 0 ≤ frm) (hl : frm + n - 1 ≤ (MAXARG_A : Int))
    (_hlt : 0 ≤ fs.lasttarget)
    (hprev : (fs.pc : Int) > fs.lasttarget → GET_OPCODE (fs.code (fs.pc - 1)) = OP_LOADNIL →
      GETARG_A (fs.code (fs.pc - 1)) + GETARG_B (fs.code (fs.pc - 1)) ≤ (MAXARG_A : Int)) :
    ((fs.pc : Int) > fs.lasttarget ∧ GET_OPCODE (fs.code (fs.pc - 1)) = OP_LOADNIL ∧
        frm ≤ GETARG_A (fs.code (fs.pc - 1)) + GETARG_B (fs.code (fs.pc - 1)) + 1 ∧
        GETARG_A (fs.code (fs.pc - 1)) ≤ frm + n - 1 + 1 →
      (luaK_nil fs frm n).pc = fs.pc ∧
      (∀ j, j ≠ fs.pc - 1 → (luaK_nil fs frm n).code j = fs.code j) ∧
      GET_OPCODE ((luaK_nil fs frm n).code (fs.pc - 1)) = OP_LOADNIL ∧
      GETARG_A ((luaK_nil fs frm n).code (fs.pc - 1))
        = min (GETARG_A (fs.code (fs.pc - 1))) frm ∧
      GETARG_A ((luaK_nil fs frm n).code (fs.pc - 1))
          + GETARG_B ((luaK_nil fs frm n).code (fs.pc - 1))
        = max (GETARG_A (fs.code (fs.pc - 1)) + GETARG_B (fs.code (fs.pc - 1)))
            (frm + n - 1) ∧
      GETARG_C ((luaK_nil fs frm n).code (fs.pc - 1)) = GETARG_C (fs.code (fs.pc - 1)) ∧
      GETARG_k ((luaK_nil fs frm n).code (fs.pc - 1)) = GETARG_k (fs.code (fs.pc - 1)) ∧
      ∀ r : Int,
        (GETARG_A ((luaK_nil fs frm n).code (fs.pc - 1)) ≤ r ∧
          r ≤ GETARG_A ((luaK_nil fs frm n).code (fs.pc - 1))
            + GETARG_B ((luaK_nil fs frm n).code (fs.pc - 1))) ↔
        ((GETARG_A (fs.code (fs.pc - 1)) ≤ r ∧
          r ≤ GETARG_A (fs.code (fs.pc - 1)) + GETARG_B (fs.code (fs.pc - 1))) ∨
         (frm ≤ r ∧ r ≤ frm + n - 1))) ∧
    (¬ ((fs.pc : Int) > fs.lasttarget ∧ GET_OPCODE (fs.code (fs.pc - 1)) = OP_LOADNIL ∧
        frm ≤ GETARG_A (fs.code (fs.pc - 1)) + GETARG_B (fs.code (fs.pc - 1)) + 1 ∧
        GETARG_A (fs.code (fs.pc - 1)) ≤ frm + n - 1 + 1) →
      (luaK_nil fs frm n).pc = fs.pc + 1 ∧
      (∀ j, j ≠ fs.pc → (luaK_nil fs frm n).code j = fs.code j) ∧
      GET_OPCODE ((luaK_nil fs frm n).code fs.pc) = OP_LOADNIL ∧
      GETARG_A ((luaK_nil fs frm n).code fs.pc) = frm ∧
      GETARG_B ((luaK_nil fs frm n).code fs.pc) = n - 1 ∧
      GETARG_C ((luaK_nil fs frm n).code fs.pc) = 0 ∧
      GETARG_k ((luaK_nil fs frm n).code fs.pc) = 0) := by
  have hemit : ∀ fs1, fs1 = (luaK_codeABC fs OP_LOADNIL frm (n - 1) 0).1 →
      fs1.pc = fs.pc + 1 ∧
      (∀ j, j ≠ fs.pc → fs1.code j = fs.code j) ∧
      GET_OPCODE (fs1.code fs.pc) = OP_LOADNIL ∧
      GETARG_A (fs1.code fs.pc) = frm ∧
      GETARG_B (fs1.code fs.pc) = n - 1 ∧
      GETARG_C (fs1.code fs.pc) = 0 ∧
      GETARG_k (fs1.code fs.pc) = 0 := by
    intro fs1 e
    subst e
    unfold MAXARG_A at hl
    simp only [luaK_codeABC, luaK_codeABCk, luaK_code_code, luaK_code_pc, setAt_same]
    refine ⟨trivial, fun j hj => setAt_other _ _ _ _ hj, ?_, ?_, ?_, ?_, ?_⟩
    · rw [GET_OPCODE_CREATE_ABCk]
      rfl
    · rw [GETARG_A_CREATE_ABCk]
      omega
    · rw [GETARG_B_CREATE_ABCk]
      omega
    · rw [GETARG_C_CREATE_ABCk]
      rfl
    · rw [GETARG_k_CREATE_ABCk]
      rfl
  have hA0 : 0 ≤ GETARG_A (fs.code (fs.pc - 1)) := by
    unfold GETARG_A
    exact Int.natCast_nonneg _
  have hB0 : 0 ≤ GETARG_B (fs.code (fs.pc - 1)) := by
    unfold GETARG_B
    exact Int.natCast_nonneg _
  unfold MAXARG_A at hl hprev
  constructor
  · rintro ⟨hpc, hop, hc1, hc2⟩
    have hprev := hprev hpc hop
    have hprevI : previousinstruction fs = fs.code (fs.pc - 1) := by
      simp [previousinstruction, hpc]
    have hcond : (GETARG_A (fs.code (fs.pc - 1)) ≤ frm ∧
          frm ≤ GETARG_A (fs.code (fs.pc - 1)) + GETARG_B (fs.code (fs.pc - 1)) + 1) ∨
        (frm ≤ GETARG_A (fs.code (fs.pc - 1)) ∧
          GETARG_A (fs.code (fs.pc - 1)) ≤ frm + n - 1 + 1) := by
      omega
    have e : luaK_nil fs frm n = { fs with
        code := setAt fs.code (fs.pc - 1)
          (SETARG_B (SETARG_A (fs.code (fs.pc - 1))
            (if GETARG_A (fs.code (fs.pc - 1)) < frm then GETARG_A (fs.code (fs.pc - 1))
              else frm))
            ((if GETARG_A (fs.code (fs.pc - 1)) + GETARG_B (fs.code (fs.pc - 1))
                  > frm + n - 1
                then GETARG_A (fs.code (fs.pc - 1)) + GETARG_B (fs.code (fs.pc - 1))
                else frm + n - 1)
              - (if GETARG_A (fs.code (fs.pc - 1)) < frm then GETARG_A (fs.code (fs.pc - 1))
                  else frm))) } := by
      unfold luaK_nil
      simp only [hprevI, hop, hcond, if_true]
    rw [e]
    simp only [setAt_same]
    rw [GET_OPCODE_SETARG_B, GET_OPCODE_SETARG_A, GETARG_A_SETARG_B, GETARG_A_SETARG_A,
      GETARG_B_SETARG_B, GETARG_C_SETARG_B, GETARG_C_SETARG_A, GETARG_k_SETARG_B,
      GETARG_k_SETARG_A]
    refine ⟨trivial, fun j hj => setAt_other _ _ _ _ hj, hop, ?_, ?_, rfl, rfl, ?_⟩
    · split_ifs <;> omega
    · split_ifs <;> omega
    · intro r
      split_ifs <;> omega
  · intro hnot
    apply hemit
    unfold luaK_nil
    by_cases hpc : (fs.pc : Int) > fs.lasttarget
    · have hprevI : previousinstruction fs = fs.code (fs.pc - 1) := by
        simp [previousinstruction, hpc]
      rw [hprevI]
      by_cases hop : GET_OPCODE (fs.code (fs.pc - 1)) = OP_LOADNIL
      · have hcond : ¬ ((GETARG_A (fs.code (fs.pc - 1)) ≤ frm ∧
              frm ≤ GETARG_A (fs.code (fs.pc - 1)) + GETARG_B (fs.code (fs.pc - 1)) + 1) ∨
            (frm ≤ GETARG_A (fs.code (fs.pc - 1)) ∧
              GETARG_A (fs.code (fs.pc - 1)) ≤ frm + n - 1 + 1)) := by
          have hnot2 : ¬ (frm ≤ GETARG_A (fs.code (fs.pc - 1))
              + GETARG_B (fs.code (fs.pc - 1)) + 1 ∧
              GETARG_A (fs.code (fs.pc - 1)) ≤ frm + n - 1 + 1) := fun h =>
            hnot ⟨hpc, hop, h.1, h.2⟩
          omega
        simp only [hop, hcond, if_true, if_false]
      · simp only [hop, if_false]
    · have hprevI : previousinstruction fs = invalidinstruction := by
        simp [previousinstruction, hpc]
      rw [hprevI]
      simp only [GET_OPCODE_invalidinstruction, if_false]

/-- C14: luaK_nil(from, n) with n >= 1 over registers (0 <= from and
from + n - 1 <= MAXARG_A). When the previous instruction is a LOADNIL covering
registers [pfrom, pl] that no jump targets (pc > lasttarget) and the new range
[from, from+n-1] overlaps or is adjacent to it, no instruction is emitted and
that LOADNIL is rewritten in place: it starts at the lower of the two starts,
ends at the higher of the two ends, and the registers it sets to nil are
exactly those of the union of the two ranges. In every other case exactly one
new instruction LOADNIL from, n-1 is emitted. In particular a previous
LOADNIL r, 0 followed by luaK_nil(r+1, 1) becomes the single instruction
LOADNIL r, 1. The state is one in which lasttarget is not negative and in
which the previous instruction, when it is a LOADNIL that no jump targets,
covers registers only (its A + B is at most MAXARG_A); nothing is assumed of a
previous instruction that is not a LOADNIL. -/
theorem luaK_nil_merges_with_previous_LOADNIL (fs : FuncState) (frm n : Int)
    (hn : 1 ≤ n) (hfrm : 0 ≤ frm) (hl : frm + n - 1 ≤ (MAXARG_A : Int))
    (_hlt : 0 ≤ fs.lasttarget)
    (hprev : (fs.pc : Int) > fs.lasttarget → GET_OPCODE (fs.code (fs.pc - 1)) = OP_LOADNIL →
      GETARG_A (fs.code (fs.pc - 1)) + GETARG_B (fs.code (fs.pc - 1)) ≤ (MAXARG_A : Int)) :
    ((fs.pc : Int) > fs.lasttarget ∧ GET_OPCODE (fs.code (fs.pc - 1)) = OP_LOADNIL ∧
        frm ≤ GETARG_A (fs.code (fs.pc - 1)) + GETARG_B (fs.code (fs.pc - 1)) + 1 ∧
        GETARG_A (fs.code (fs.pc - 1)) ≤ frm + n - 1 + 1 →
      (luaK_nil fs frm n).pc = fs.pc ∧
      (∀ j, j ≠ fs.pc - 1 → (luaK_nil fs frm n).code j = fs.code j) ∧
      GET_OPCODE ((luaK_nil fs frm n).code (fs.pc - 1)) = OP_LOADNIL ∧
      GETARG_A ((luaK_nil fs frm n).code (fs.pc - 1))
        = min (GETARG_A (fs.code (fs.pc - 1))) frm ∧
      GETARG_A ((luaK_nil fs frm n).code (fs.pc - 1))
          + GETARG_B ((luaK_nil fs frm n).code (fs.pc - 1))
        = max (GETARG_A (fs.code (fs.pc - 1)) + GETARG_B (fs.code (fs.pc - 1)))
            (frm + n - 1) ∧
      GETARG_C ((luaK_nil fs frm n).code (fs.pc - 1)) = GETARG_C (fs.code (fs.pc - 1)) ∧
      GETARG_k ((luaK_nil fs frm n).code (fs.pc - 1)) = GETARG_k (fs.code (fs.pc - 1)) ∧
      ∀ r : Int,
        (GETARG_A ((luaK_nil fs frm n).code (fs.pc - 1)) ≤ r ∧
          r ≤ GETARG_A ((luaK_nil fs frm n).code (fs.pc - 1))
            + GETARG_B ((luaK_nil fs frm n).code (fs.pc - 1))) ↔
        ((GETARG_A (fs.code (fs.pc - 1)) ≤ r ∧
          r ≤ GETARG_A (fs.code (fs.pc - 1)) + GETARG_B (fs.code (fs.pc - 1))) ∨
         (frm ≤ r ∧ r ≤ frm + n - 1))) ∧
    (¬ ((fs.pc : Int) > fs.lasttarget ∧ GET_OPCODE (fs.code (fs.pc - 1)) = OP_LOADNIL ∧
        frm ≤ GETARG_A (fs.code (fs.pc - 1)) + GETARG_B (fs.code (fs.pc - 1)) + 1 ∧
        GETARG_A (fs.code (fs.pc - 1)) ≤ frm + n - 1 + 1) →
      (luaK_nil fs frm n).pc = fs.pc + 1 ∧
      (∀ j, j ≠ fs.pc → (luaK_nil fs frm n).code j = fs.code j) ∧
      GET_OPCODE ((luaK_nil fs frm n).code fs.pc) = OP_LOADNIL ∧
      GETARG_A ((luaK_nil fs frm n).code fs.pc) = frm ∧
      GETARG_B ((luaK_nil fs frm n).code fs.pc) = n - 1 ∧
      GETARG_C ((luaK_nil fs frm n).code fs.pc) = 0 ∧
      GETARG_k ((luaK_nil fs frm n).code fs.pc) = 0) ∧
    ((fs.pc : Int) > fs.lasttarget → GET_OPCODE (fs.code (fs.pc - 1)) = OP_LOADNIL →
      GETARG_B (fs.code (fs.pc - 1)) = 0 → frm = GETARG_A (fs.code (fs.pc - 1)) + 1 → n = 1 →
      (luaK_nil fs frm n).pc = fs.pc ∧
      GET_OPCODE ((luaK_nil fs frm n).code (fs.pc - 1)) = OP_LOADNIL ∧
      GETARG_A ((luaK_nil fs frm n).code (fs.pc - 1)) = GETARG_A (fs.code (fs.pc - 1)) ∧
      GETARG_B ((luaK_nil fs frm n).code (fs.pc - 1)) = 1) := by
  obtain ⟨p1, p2⟩ := luaK_nil_spec fs frm n hn hfrm hl _hlt hprev
  refine ⟨p1, p2, ?_⟩
  intro hpc hop hB hf hn1
  obtain ⟨q1, -, q2, q3, q4, -⟩ := p1 ⟨hpc, hop, by omega, by omega⟩
  refine ⟨q1, q2, ?_, ?_⟩
  · rw [q3]
    omega
  · rw [q3, hB] at q4
    omega

/-- Witness for C14: in a state whose last instruction is LOADNIL 0, 0 (and is
no jump target), luaK_nil(1, 1) emits nothing and the instruction becomes
LOADNIL 0, 1; in a state whose last instruction is LOADI 1, -1, which is not a
LOADNIL, luaK_nil(0, 1) emits the new instruction LOADNIL 0, 0. -/
theorem luaK_nil_merges_with_previous_LOADNIL_witness :
    ((luaK_nil (luaK_nil (open_func 0) 0 1) 1 1).pc = 1 ∧
      GET_OPCODE ((luaK_nil (luaK_nil (open_func 0) 0 1) 1 1).code 0) = OP_LOADNIL ∧
      GETARG_A ((luaK_nil (luaK_nil (open_func 0) 0 1) 1 1).code 0) = 0 ∧
      GETARG_A ((luaK_nil (luaK_nil (open_func 0) 0 1) 1 1).code 0)
        + GETARG_B ((luaK_nil (luaK_nil (open_func 0) 0 1) 1 1).code 0) = 1) ∧
    ((luaK_nil (luaK_codeAsBx (open_func 0) OP_LOADI 1 (-1)).1 0 1).pc = 2 ∧
      GET_OPCODE ((luaK_nil (luaK_codeAsBx (open_func 0) OP_LOADI 1 (-1)).1 0 1).code 1)
        = OP_LOADNIL ∧
      GETARG_A ((luaK_nil (luaK_codeAsBx (open_func 0) OP_LOADI 1 (-1)).1 0 1).code 1) = 0 ∧
      GETARG_B ((luaK_nil (luaK_codeAsBx (open_func 0) OP_LOADI 1 (-1)).1 0 1).code 1) = 0) := by
  have h0 := (luaK_nil_merges_with_previous_LOADNIL (open_func 0) 0 1 (by decide) (by decide)
    (by decide) (by decide) (fun _ _ => by decide)).2.1 (by decide)
  obtain ⟨p0, -, o0, a0, b0, -, -⟩ := h0
  have hpc : (luaK_nil (open_func 0) 0 1).pc = 1 := p0
  have hlast : (luaK_nil (open_func 0) 0 1).lasttarget = 0 := by
    simp [luaK_nil, previousinstruction, open_func, GET_OPCODE_invalidinstruction,
      luaK_codeABC, luaK_codeABCk]
  have hcode0 : (open_func 0).pc = 0 := rfl
  rw [hcode0] at o0 a0 b0
  have h1 := (luaK_nil_merges_with_previous_LOADNIL (luaK_nil (open_func 0) 0 1) 1 1
    (by decide) (by decide) (by decide) (by rw [hlast])
    (fun _ _ => by rw [hpc]; simp only [Nat.sub_self, a0, b0]; decide)).1
    (by
      rw [hpc, hlast]
      simp only [Nat.sub_self, a0, b0, o0]
      decide)
  rw [hpc] at h1
  simp only [Nat.sub_self, a0, b0] at h1
  obtain ⟨q0, -, q1, q2, q3, -⟩ := h1
  have hop : GET_OPCODE ((luaK_codeAsBx (open_func 0) OP_LOADI 1 (-1)).1.code
      ((luaK_codeAsBx (open_func 0) OP_LOADI 1 (-1)).1.pc - 1)) ≠ OP_LOADNIL := by
    decide
  have h2 := (luaK_nil_merges_with_previous_LOADNIL
    (luaK_codeAsBx (open_func 0) OP_LOADI 1 (-1)).1 0 1 (by decide) (by decide) (by decide)
    (by decide) (fun _ h => absurd h hop)).2.1 (fun h => hop h.2.1)
  obtain ⟨r0, -, r1, r2, r3, -, -⟩ := h2
  exact ⟨⟨q0, q1, by simpa using q2, by simpa using q3⟩, r0, r1, r2, r3⟩

/-! ## Frame lemmas -/

theorem CodeOnly.refl (fs : FuncState) : CodeOnly fs fs := rfl

theorem CodeOnly.trans {fs fs1 fs2 : FuncState} (h1 : CodeOnly fs fs1)
    (h2 : CodeOnly fs1 fs2) : CodeOnly fs fs2 := by
  unfold CodeOnly at *
  rw [h2, h1]

theorem CodeOnly.setcode (fs : FuncState) (c : Nat → Instruction) :
    CodeOnly fs { fs with code := c } := rfl

theorem CodeOnly.eq {fs fs1 : FuncState} (h : CodeOnly fs fs1) :
    fs1 = { fs with code := fs1.code } := h

theorem CodeOnly.pc {fs fs1 : FuncState} (h : CodeOnly fs fs1) : fs1.pc = fs.pc := by
  have e := h.eq
  rw [e]

theorem CodeOnly.k {fs fs1 : FuncState} (h : CodeOnly fs fs1) : fs1.k = fs.k := by
  have e := h.eq
  rw [e]

theorem CodeOnly.nk {fs fs1 : FuncState} (h : CodeOnly fs fs1) : fs1.nk = fs.nk := by
  have e := h.eq
  rw [e]

theorem CodeOnly.freereg {fs fs1 : FuncState} (h : CodeOnly fs fs1) :
    fs1.freereg = fs.freereg := by
  have e := h.eq
  rw [e]

theorem CodeOnly.nactvar {fs fs1 : FuncState} (h : CodeOnly fs fs1) :
    fs1.nactvar = fs.nactvar := by
  have e := h.eq
  rw [e]

theorem CodeOnly.lasttarget {fs fs1 : FuncState} (h : CodeOnly fs fs1) :
    fs1.lasttarget = fs.lasttarget := by
  have e := h.eq
  rw [e]

theorem fixjump_CodeOnly {fs fs1 : FuncState} {pc dest : Int}
    (h : fixjump fs pc dest = .ok fs1) : CodeOnly fs fs1 := by
  unfold fixjump at h
  dsimp only at h
  split at h
  · cases h
  · injection h with h
    subst h
    rfl

theorem patchtestreg_CodeOnly (fs : FuncState) (node reg : Int) :
    CodeOnly fs (patchtestreg fs node reg).1 := by
  unfold patchtestreg
  dsimp only
  split_ifs <;> rfl

theorem patchlistauxLoop_CodeOnly (fuel : Nat) :
    ∀ (fs fs1 : FuncState) (list vtarget reg dtarget : Int),
      patchlistauxLoop fuel fs list vtarget reg dtarget = .ok fs1 → CodeOnly fs fs1 := by
  induction fuel with
  | zero =>
    intro fs fs1 list vtarget reg dtarget h
    unfold patchlistauxLoop at h
    split at h
    · injection h with h
      subst h
      rfl
    · cases h
  | succ n ih =>
    intro fs fs1 list vtarget reg dtarget h
    unfold patchlistauxLoop at h
    split at h
    · injection h with h
      subst h
      rfl
    · dsimp only at h
      split at h
      · cases h
      · rename_i fs2 hfix
        have h2 : CodeOnly (patchtestreg fs list reg).1 fs2 := by
          split at hfix
          · exact fixjump_CodeOnly hfix
          · exact fixjump_CodeOnly hfix
        exact (patchtestreg_CodeOnly fs list reg).trans (h2.trans (ih _ _ _ _ _ _ h))

theorem patchlistaux_CodeOnly {fs fs1 : FuncState} {list vtarget reg dtarget : Int}
    (h : patchlistaux fs list vtarget reg dtarget = .ok fs1) : CodeOnly fs fs1 :=
  patchlistauxLoop_CodeOnly _ _ _ _ _ _ _ h

theorem luaK_concat_CodeOnly {fs fs1 : FuncState} {l1 l2 r : Int}
    (h : luaK_concat fs l1 l2 = .ok (fs1, r)) : CodeOnly fs fs1 := by
  unfold luaK_concat at h
  split at h
  · injection h with h
    injection h with h _
    subst h
    rfl
  · split at h
    · injection h with h
      injection h with h _
      subst h
      rfl
    · split at h
      · cases h
      · split at h
        · cases h
        · rename_i hfix
          injection h with h
          injection h with h _
          subst h
          exact fixjump_CodeOnly hfix

theorem removevaluesLoop_CodeOnly (fuel : Nat) :
    ∀ (fs fs1 : FuncState) (list : Int),
      removevaluesLoop fuel fs list = some fs1 → CodeOnly fs fs1 := by
  induction fuel with
  | zero =>
    intro fs fs1 list h
    unfold removevaluesLoop at h
    split at h
    · injection h with h
      subst h
      rfl
    · cases h
  | succ n ih =>
    intro fs fs1 list h
    unfold removevaluesLoop at h
    split at h
    · injection h with h
      subst h
      rfl
    · dsimp only at h
      exact (patchtestreg_CodeOnly fs list NO_REG).trans (ih _ _ _ h)

theorem removevalues_CodeOnly {fs fs1 : FuncState} {list : Int}
    (h : removevalues fs list = .ok fs1) : CodeOnly fs fs1 := by
  unfold removevalues at h
  split at h
  · cases h
  · rename_i hl
    injection h with h
    subst h
    exact removevaluesLoop_CodeOnly _ _ _ _ hl

/-! ## The constant pool under discharging -/

theorem KeepsStrings.same (fs : FuncState) : KeepsStrings fs fs := fun _ _ => rfl

theorem KeepsStrings.chain {fs fs1 fs2 : FuncState} (h1 : KeepsStrings fs fs1)
    (h2 : KeepsStrings fs1 fs2) : KeepsStrings fs fs2 := by
  intro j hj
  have e2 := h2 j hj
  rw [e2] at hj ⊢
  exact h1 j hj

theorem KeepsStrings.of_k_eq {fs fs1 : FuncState} (h : fs1.k = fs.k) :
    KeepsStrings fs fs1 := by
  intro j _
  rw [h]

theorem addk_keeps {fs fs1 : FuncState} {key v : TValue} {k : Nat}
    (hv : ttypetag v ≠ .LUA_TSHRSTR) (h : addk fs key v = .ok (fs1, k)) :
    KeepsStrings fs fs1 := by
  rcases addk_cases fs fs1 key v k h with ⟨e, -, -⟩ | ⟨idx, e, -⟩
  · subst e
    exact KeepsStrings.same _
  · subst e
    intro j hj
    by_cases hjn : j = fs.nk
    · subst hjn
      simp only [setAt_same] at hj
      exact absurd hj hv
    · exact setAt_other _ _ _ _ hjn

@[simp]
theorem luaK_codeABCk_k (fs : FuncState) (o : OpCode) (a b c k : Int) :
    (luaK_codeABCk fs o a b c k).1.k = fs.k := by
  simp [luaK_codeABCk]

@[simp]
theorem luaK_codeABC_k (fs : FuncState) (o : OpCode) (a b c : Int) :
    (luaK_codeABC fs o a b c).1.k = fs.k := by
  simp [luaK_codeABC]

@[simp]
theorem luaK_codeABx_k (fs : FuncState) (o : OpCode) (a bc : Int) :
    (luaK_codeABx fs o a bc).1.k = fs.k := by
  simp [luaK_codeABx]

@[simp]
theorem luaK_codeAsBx_k (fs : FuncState) (o : OpCode) (a bc : Int) :
    (luaK_codeAsBx fs o a bc).1.k = fs.k := by
  simp [luaK_codeAsBx]

@[simp]
theorem codesJ_k (fs : FuncState) (o : OpCode) (sj k : Int) :
    (codesJ fs o sj k).1.k = fs.k := by
  simp [codesJ]

@[simp]
theorem codeextraarg_k (fs : FuncState) (a : Int) :
    (codeextraarg fs a).1.k = fs.k := by
  simp [codeextraarg]

@[simp]
theorem luaK_codek_k (fs : FuncState) (reg k : Int) :
    (luaK_codek fs reg k).1.k = fs.k := by
  unfold luaK_codek
  split <;> simp

@[simp]
theorem luaK_nil_k (fs : FuncState) (frm n : Int) : (luaK_nil fs frm n).k = fs.k := by
  unfold luaK_nil
  dsimp only
  split_ifs <;> simp

@[simp]
theorem freereg_k (fs : FuncState) (reg : Int) : (freereg fs reg).k = fs.k := by
  unfold freereg
  split <;> rfl

@[simp]
theorem freeregs_k (fs : FuncState) (r1 r2 : Int) : (freeregs fs r1 r2).k = fs.k := by
  unfold freeregs
  split <;> simp

@[simp]
theorem freeexp_k (fs : FuncState) (e : expdesc) : (freeexp fs e).k = fs.k := by
  unfold freeexp
  split <;> simp

@[simp]
theorem luaK_jump_k (fs : FuncState) : (luaK_jump fs).1.k = fs.k := by
  simp [luaK_jump]

@[simp]
theorem code_loadbool_k (fs : FuncState) (a b jump : Int) :
    (code_loadbool fs a b jump).1.k = fs.k := by
  simp [code_loadbool, luaK_getlabel]

theorem luaK_reserveregs_k {fs fs1 : FuncState} {n : Int}
    (h : luaK_reserveregs fs n = .ok fs1) : fs1.k = fs.k := by
  unfold luaK_reserveregs at h
  split at h
  · cases h
  · rename_i fsc hc
    injection h with h
    subst h
    show fsc.k = fs.k
    unfold luaK_checkstack at hc
    dsimp only at hc
    split_ifs at hc
    all_goals
      injection hc with hc
      subst hc
      rfl

theorem luaK_int_keeps {fs fs1 : FuncState} {reg i : Int}
    (h : luaK_int fs reg i = .ok fs1) : KeepsStrings fs fs1 := by
  unfold luaK_int at h
  split at h
  · injection h with h
    subst h
    exact KeepsStrings.of_k_eq (by simp)
  · split at h
    · cases h
    · rename_i fsk k hk
      injection h with h
      subst h
      exact (addk_keeps (by simp [ttypetag]) hk).chain (KeepsStrings.of_k_eq (by simp))

theorem luaK_float_keeps {fs fs1 : FuncState} {reg : Int} {f : lua_Number}
    (h : luaK_float fs reg f = .ok fs1) : KeepsStrings fs fs1 := by
  unfold luaK_float at h
  split at h
  · injection h with h
    subst h
    exact KeepsStrings.of_k_eq (by simp)
  · split at h
    · cases h
    · rename_i fsk k hk
      injection h with h
      subst h
      exact (addk_keeps (by simp [ttypetag]) hk).chain (KeepsStrings.of_k_eq (by simp))

@[simp]
theorem luaK_setoneret_k (fs : FuncState) (e : expdesc) :
    (luaK_setoneret fs e).1.k = fs.k := by
  unfold luaK_setoneret
  split_ifs <;> rfl

@[simp]
theorem luaK_dischargevars_k (fs : FuncState) (e : expdesc) :
    (luaK_dischargevars fs e).1.k = fs.k := by
  unfold luaK_dischargevars
  split <;> try simp
  split <;> simp

theorem discharge2reg_keeps {fs fs1 : FuncState} {e e1 : expdesc} {reg : Int}
    (h : discharge2reg fs e reg = .ok (fs1, e1)) : KeepsStrings fs fs1 := by
  unfold discharge2reg at h
  dsimp only at h
  have hd : KeepsStrings fs (luaK_dischargevars fs e).1 := KeepsStrings.of_k_eq (by simp)
  refine hd.chain ?_
  split at h
  all_goals first
    | (injection h with h
       injection h with h _
       subst h
       exact KeepsStrings.of_k_eq (by simp [setinstruction]))
    | skip
  · split at h
    · cases h
    · rename_i hf
      injection h with h
      injection h with h _
      subst h
      exact luaK_float_keeps hf
  · split at h
    · cases h
    · rename_i hf
      injection h with h
      injection h with h _
      subst h
      exact luaK_int_keeps hf
  · split at h
    all_goals
      injection h with h
      injection h with h _
      subst h
      exact KeepsStrings.of_k_eq (by simp)

theorem luaK_patchtohere_CodeOnly {fs fs1 : FuncState} {list : Int}
    (h : luaK_patchtohere fs list = .ok fs1) :
    CodeOnly { fs with lasttarget := fs.pc } fs1 := by
  unfold luaK_patchtohere luaK_patchlist at h
  exact patchlistaux_CodeOnly h

theorem exp2regJumps_k {fs fs1 : FuncState} {e : expdesc} {reg : Int}
    (h : exp2regJumps fs e reg = .ok fs1) : fs1.k = fs.k := by
  unfold exp2regJumps at h
  split at h
  · cases h
  · split at h
    · cases h
    · dsimp only at h
      split at h
      · cases h
      · rename_i fsl p_f p_t hloads
        have hl : fsl.k = fs.k := by
          split at hloads
          · split at hloads
            · cases hloads
            · rename_i fsp hp
              injection hloads with hloads
              injection hloads with hloads _
              subst hloads
              rw [(luaK_patchtohere_CodeOnly hp).k]
              simp only [code_loadbool_k]
              split <;> simp
          · injection hloads with hloads
            injection hloads with hloads _
            rw [hloads]
        split at h
        · cases h
        · rename_i fs2 h2
          rw [(patchlistaux_CodeOnly h).k, (patchlistaux_CodeOnly h2).k]
          exact hl

theorem exp2reg_spec {fs fs1 : FuncState} {e e1 : expdesc} {reg : Int}
    (h : exp2reg fs e reg = .ok (fs1, e1)) :
    e1.k = .VNONRELOC ∧ e1.info = reg ∧ e1.t = NO_JUMP ∧ e1.f = NO_JUMP ∧
    KeepsStrings fs fs1 := by
  unfold exp2reg at h
  split at h
  · cases h
  · rename_i fsd ed hd
    dsimp only at h
    split at h
    · cases h
    · rename_i fsj ej hj
      have hjk : fsj.k = fsd.k := by
        split at hj
        · split at hj
          · cases hj
          · rename_i hc
            injection hj with hj
            injection hj with hj _
            subst hj
            exact (luaK_concat_CodeOnly hc).k
        · injection hj with hj
          injection hj with hj _
          rw [hj]
      split at h
      · cases h
      · rename_i fs3 h3
        have h3k : fs3.k = fsj.k := by
          split at h3
          · exact exp2regJumps_k h3
          · injection h3 with h3
            rw [h3]
        injection h with h
        injection h with ha hb
        subst ha hb
        refine ⟨rfl, rfl, rfl, rfl, ?_⟩
        exact (discharge2reg_keeps hd).chain (KeepsStrings.of_k_eq (by rw [h3k, hjk]))

theorem luaK_exp2nextreg_spec {fs fs1 : FuncState} {e e1 : expdesc}
    (h : luaK_exp2nextreg fs e = .ok (fs1, e1)) :
    e1.k = .VNONRELOC ∧ e1.t = NO_JUMP ∧ e1.f = NO_JUMP ∧ KeepsStrings fs fs1 := by
  unfold luaK_exp2nextreg at h
  dsimp only at h
  split at h
  · cases h
  · rename_i fs2 hr
    obtain ⟨h1, -, h3, h4, h5⟩ := exp2reg_spec h
    refine ⟨h1, h3, h4, KeepsStrings.chain (KeepsStrings.of_k_eq ?_) h5⟩
    rw [luaK_reserveregs_k hr]
    simp

theorem luaK_exp2anyreg_spec {fs fs1 : FuncState} {e e1 : expdesc}
    (h : luaK_exp2anyreg fs e = .ok (fs1, e1)) :
    e1.k = .VNONRELOC ∧ e1.t = e1.f ∧ KeepsStrings fs fs1 := by
  unfold luaK_exp2anyreg at h
  dsimp only at h
  have hd : KeepsStrings fs (luaK_dischargevars fs e).1 := KeepsStrings.of_k_eq (by simp)
  split at h
  · rename_i hk
    split at h
    · rename_i hj
      injection h with h
      injection h with ha hb
      subst ha hb
      refine ⟨hk, ?_, hd⟩
      simpa [hasjumps] using hj
    · split at h
      · obtain ⟨h1, -, h3, h4, h5⟩ := exp2reg_spec h
        exact ⟨h1, by rw [h3, h4], hd.chain h5⟩
      · obtain ⟨h1, h3, h4, h5⟩ := luaK_exp2nextreg_spec h
        exact ⟨h1, by rw [h3, h4], hd.chain h5⟩
  · obtain ⟨h1, h3, h4, h5⟩ := luaK_exp2nextreg_spec h
    exact ⟨h1, by rw [h3, h4], hd.chain h5⟩

/-! ## Indexing -/

theorem isCint_iff (e : expdesc)
    (hival : LUA_MININTEGER ≤ e.ival ∧ e.ival ≤ LUA_MAXINTEGER) :
    isCint e = true ↔
      (e.k = .VKINT ∧ hasjumps e = false ∧ 0 ≤ e.ival ∧ e.ival ≤ (MAXARG_C : Int)) := by
  unfold LUA_MININTEGER LUA_MAXINTEGER at hival
  unfold isCint luaK_isKint l_castS2U MAXARG_C
  simp only [Bool.and_eq_true, decide_eq_true_eq, Bool.not_eq_true]
  simp only [Nat.reducePow, Int.reducePow, Nat.cast_ofNat] at hival ⊢
  constructor
  · rintro ⟨⟨h1, h2⟩, h3⟩
    refine ⟨h1, h2, ?_, ?_⟩ <;> omega
  · rintro ⟨h1, h2, h3, h4⟩
    refine ⟨⟨h1, h2⟩, ?_⟩
    omega

theorem isKstr_keeps {fs fs1 : FuncState} (h : KeepsStrings fs fs1) (k : expdesc)
    (hk : isKstr fs k = false) : isKstr fs1 k = false := by
  by_contra hc
  have hc1 : isKstr fs1 k = true := by simpa using hc
  unfold isKstr at hc1 hk
  simp only [decide_eq_true_eq, decide_eq_false_iff_not] at hc1 hk
  apply hk
  refine ⟨hc1.1, hc1.2.1, hc1.2.2.1, ?_⟩
  rw [← h _ hc1.2.2.2]
  exact hc1.2.2.2

/-- C11: luaK_indexed(t, k), with the integer payload of k in the range of
lua_Integer. Whenever it returns, the kind of the result is VINDEXUP iff t is
an upvalue and k is a short-string constant (kind VK, no jumps, pool index <=
MAXARG_B, entry a short string); otherwise the kind is VINDEXSTR iff k is such
a constant, VINDEXI iff k is an integer literal without jumps with value in
[0, MAXARG_C], and VINDEXED in every other case, with k then forced into a
register, which is the index; a negative literal or one above MAXARG_C is
never VINDEXI. It does return, in the same state, when no register is needed:
t is not an upvalue or k is a short-string constant, and k is a short-string
constant, an integer literal in [0, MAXARG_C], or a register without jumps. -/
theorem luaK_indexed_chooses_kind (fs : FuncState) (t k : expdesc)
    (hival : LUA_MININTEGER ≤ k.ival ∧ k.ival ≤ LUA_MAXINTEGER) :
    (isKstr fs k = true ↔
      (k.k = .VK ∧ hasjumps k = false ∧ k.info ≤ (MAXARG_B : Int) ∧
        ttypetag (fs.k k.info.toNat) = .LUA_TSHRSTR)) ∧
    (∀ fs1 t1 k1, luaK_indexed fs t k = .ok (fs1, t1, k1) →
      (t1.k = .VINDEXUP ↔ (t.k = .VUPVAL ∧ isKstr fs k = true)) ∧
      (t1.k = .VINDEXSTR ↔ (t.k ≠ .VUPVAL ∧ isKstr fs k = true)) ∧
      (t1.k = .VINDEXI ↔ (isKstr fs k = false ∧ k.k = .VKINT ∧ hasjumps k = false ∧
          0 ≤ k.ival ∧ k.ival ≤ (MAXARG_C : Int))) ∧
      (t1.k = .VINDEXED ↔ (isKstr fs k = false ∧ ¬ (k.k = .VKINT ∧ hasjumps k = false ∧
          0 ≤ k.ival ∧ k.ival ≤ (MAXARG_C : Int)))) ∧
      (t1.k = .VINDEXUP ∨ t1.k = .VINDEXSTR ∨ t1.k = .VINDEXI ∨ t1.k = .VINDEXED) ∧
      (t1.k = .VINDEXUP → fs1 = fs ∧ k1 = k ∧ t1.ind_t = t.var_idx ∧
          t1.ind_idx = cast_short k.info) ∧
      (t1.k = .VINDEXSTR → fs1 = fs ∧ k1 = k ∧ t1.ind_idx = cast_short k.info) ∧
      (t1.k = .VINDEXI → k1 = k ∧ t1.ind_idx = k.ival) ∧
      (t1.k = .VINDEXED → k1.k = .VNONRELOC ∧ hasjumps k1 = false ∧
          t1.ind_idx = cast_short k1.info) ∧
      (k.k = .VKINT → (k.ival < 0 ∨ (MAXARG_C : Int) < k.ival) → t1.k ≠ .VINDEXI)) ∧
    ((t.k ≠ .VUPVAL ∨ isKstr fs k = true) →
      (isKstr fs k = true ∨
        (k.k = .VKINT ∧ hasjumps k = false ∧ 0 ≤ k.ival ∧ k.ival ≤ (MAXARG_C : Int)) ∨
        (k.k = .VNONRELOC ∧ hasjumps k = false)) →
      ∃ t1, luaK_indexed fs t k = .ok (fs, t1, k)) := by
  have hcint := isCint_iff k hival
  refine ⟨?_, ?_, ?_⟩
  · unfold isKstr
    simp
  · intro fs1 t1 k1 hok
    -- the literal stored in `ind_idx` is the value itself
    have hidx : isCint k = true → cast_short (cast_int k.ival) = k.ival := by
      intro hc
      obtain ⟨-, -, h0, h1⟩ := hcint.1 hc
      unfold MAXARG_C at h1
      unfold cast_short cast_int
      simp only [Nat.reducePow, Int.reducePow]
      omega
    -- what the second half of the function does, from any state
    have second : ∀ (fsm : FuncState) (tm : expdesc), tm.k ≠ .VUPVAL →
        isKstr fsm k = isKstr fs k → (isKstr fs k = true → fsm = fs) →
        (if isKstr fsm k = true then
            (.ok (fsm, { tm with
              ind_t := cast_byte (if tm.k = .VLOCAL then (tm.var_idx : Int) else tm.info)
              ind_idx := cast_short k.info, k := .VINDEXSTR }, k) :
              Except String (FuncState × expdesc × expdesc))
          else if isCint k = true then
            .ok (fsm, { tm with
              ind_t := cast_byte (if tm.k = .VLOCAL then (tm.var_idx : Int) else tm.info)
              ind_idx := cast_short (cast_int k.ival), k := .VINDEXI }, k)
          else
            match luaK_exp2anyreg fsm k with
            | .error msg => .error msg
            | .ok (fs2, k2) =>
              .ok (fs2, { tm with
                ind_t := cast_byte (if tm.k = .VLOCAL then (tm.var_idx : Int) else tm.info)
                ind_idx := cast_short k2.info, k := .VINDEXED }, k2)) = .ok (fs1, t1, k1) →
        (t1.k = .VINDEXSTR ↔ isKstr fs k = true) ∧
        (t1.k = .VINDEXI ↔ (isKstr fs k = false ∧ isCint k = true)) ∧
        (t1.k = .VINDEXED ↔ (isKstr fs k = false ∧ isCint k = false)) ∧
        t1.k ≠ .VINDEXUP ∧
        (t1.k = .VINDEXSTR → fs1 = fs ∧ k1 = k ∧ t1.ind_idx = cast_short k.info) ∧
        (t1.k = .VINDEXI → k1 = k ∧ t1.ind_idx = k.ival) ∧
        (t1.k = .VINDEXED → k1.k = .VNONRELOC ∧ hasjumps k1 = false ∧
          t1.ind_idx = cast_short k1.info) := by
      intro fsm tm _ hks hfs h
      rw [hks] at h
      by_cases hs : isKstr fs k = true
      · simp only [hs, if_true] at h
        injection h with h
        injection h with h1 h2
        injection h2 with h2 h3
        subst h1 h2 h3
        simp [hs, hfs hs]
      · have hs2 : isKstr fs k = false := by simpa using hs
        simp only [hs2, Bool.false_eq_true, if_false] at h
        by_cases hc : isCint k = true
        · simp only [hc, if_true] at h
          injection h with h
          injection h with h1 h2
          injection h2 with h2 h3
          subst h1 h2 h3
          simp [hs2, hc, hidx hc]
        · have hc2 : isCint k = false := by simpa using hc
          simp only [hc2, Bool.false_eq_true, if_false] at h
          split at h
          · cases h
          · rename_i fs2 k2 hany
            injection h with h
            injection h with h1 h2
            injection h2 with h2 h3
            subst h1 h2 h3
            obtain ⟨hk2, htf, -⟩ := luaK_exp2anyreg_spec hany
            simp [hs2, hc2, hk2, hasjumps, htf]
    unfold luaK_indexed at hok
    dsimp only at hok
    have fin : ∀ (hup : t1.k = .VINDEXUP ↔ (t.k = .VUPVAL ∧ isKstr fs k = true))
        (hstr : t1.k = .VINDEXSTR ↔ (t.k ≠ .VUPVAL ∧ isKstr fs k = true))
        (hi : t1.k = .VINDEXI ↔ (isKstr fs k = false ∧ isCint k = true))
        (hed : t1.k = .VINDEXED ↔ (isKstr fs k = false ∧ isCint k = false))
        (hall : t1.k = .VINDEXUP ∨ t1.k = .VINDEXSTR ∨ t1.k = .VINDEXI ∨ t1.k = .VINDEXED)
        (h1 : t1.k = .VINDEXUP → fs1 = fs ∧ k1 = k ∧ t1.ind_t = t.var_idx ∧
          t1.ind_idx = cast_short k.info)
        (h2 : t1.k = .VINDEXSTR → fs1 = fs ∧ k1 = k ∧ t1.ind_idx = cast_short k.info)
        (h3 : t1.k = .VINDEXI → k1 = k ∧ t1.ind_idx = k.ival)
        (h4 : t1.k = .VINDEXED → k1.k = .VNONRELOC ∧ hasjumps k1 = false ∧
          t1.ind_idx = cast_short k1.info),
        (t1.k = .VINDEXUP ↔ (t.k = .VUPVAL ∧ isKstr fs k = true)) ∧
        (t1.k = .VINDEXSTR ↔ (t.k ≠ .VUPVAL ∧ isKstr fs k = true)) ∧
        (t1.k = .VINDEXI ↔ (isKstr fs k = false ∧ k.k = .VKINT ∧ hasjumps k = false ∧
            0 ≤ k.ival ∧ k.ival ≤ (MAXARG_C : Int))) ∧
        (t1.k = .VINDEXED ↔ (isKstr fs k = false ∧ ¬ (k.k = .VKINT ∧ hasjumps k = false ∧
            0 ≤ k.ival ∧ k.ival ≤ (MAXARG_C : Int)))) ∧
        (t1.k = .VINDEXUP ∨ t1.k = .VINDEXSTR ∨ t1.k = .VINDEXI ∨ t1.k = .VINDEXED) ∧
        (t1.k = .VINDEXUP → fs1 = fs ∧ k1 = k ∧ t1.ind_t = t.var_idx ∧
            t1.ind_idx = cast_short k.info) ∧
        (t1.k = .VINDEXSTR → fs1 = fs ∧ k1 = k ∧ t1.ind_idx = cast_short k.info) ∧
        (t1.k = .VINDEXI → k1 = k ∧ t1.ind_idx = k.ival) ∧
        (t1.k = .VINDEXED → k1.k = .VNONRELOC ∧ hasjumps k1 = false ∧
            t1.ind_idx = cast_short k1.info) ∧
        (k.k = .VKINT → (k.ival < 0 ∨ (MAXARG_C : Int) < k.ival) → t1.k ≠ .VINDEXI) := by
      intro hup hstr hi hed hall h1 h2 h3 h4
      have hi2 : t1.k = .VINDEXI ↔ (isKstr fs k = false ∧ k.k = .VKINT ∧
          hasjumps k = false ∧ 0 ≤ k.ival ∧ k.ival ≤ (MAXARG_C : Int)) := by
        rw [hi, hcint]
      refine ⟨hup, hstr, hi2, ?_, hall, h1, h2, h3, h4, ?_⟩
      · rw [hed, ← hcint]
        simp
      · intro _ hr hh
        have := (hi2.1 hh).2.2.2
        omega
    by_cases hup : t.k = .VUPVAL
    · by_cases hs : isKstr fs k = true
      · -- an upvalue indexed by a short string
        simp only [hup, hs, not_true_eq_false, and_false, if_false, if_true] at hok
        injection hok with hok
        injection hok with e1 e2
        injection e2 with e2 e3
        subst e1 e2 e3
        apply fin <;> simp [hup, hs]
      · -- an upvalue indexed by anything else goes to a register first
        have hs2 : isKstr fs k = false := by simpa using hs
        simp only [hup, hs, not_false_eq_true, and_self, if_true] at hok
        split at hok
        · cases hok
        · rename_i fsm tm hm
          obtain ⟨hmk, -, hkeep⟩ := luaK_exp2anyreg_spec hm
          have hnup : tm.k ≠ .VUPVAL := by rw [hmk]; decide
          simp only [hnup, if_false] at hok
          have hks : isKstr fsm k = isKstr fs k := by
            rw [hs2]
            exact isKstr_keeps hkeep k hs2
          obtain ⟨s1, s2, s3, s4, s5, s6, s7⟩ :=
            second fsm tm hnup hks (fun h => absurd h hs) hok
          apply fin
          · simp [s4, hs2]
          · simp [s1, hs2, hup]
          · exact s2
          · exact s3
          · by_cases hc : isCint k = true
            · exact Or.inr (Or.inr (Or.inl (s2.2 ⟨hs2, hc⟩)))
            · exact Or.inr (Or.inr (Or.inr (s3.2 ⟨hs2, by simpa using hc⟩)))
          · intro h
            exact absurd h s4
          · exact s5
          · exact s6
          · exact s7
    · -- the table is in a register
      simp only [hup, false_and, if_false] at hok
      obtain ⟨s1, s2, s3, s4, s5, s6, s7⟩ := second fs t hup rfl (fun _ => rfl) hok
      apply fin
      · simp [s4, hup]
      · simp [s1, hup]
      · exact s2
      · exact s3
      · by_cases hs : isKstr fs k = true
        · exact Or.inr (Or.inl (s1.2 hs))
        · have hs2 : isKstr fs k = false := by simpa using hs
          by_cases hc : isCint k = true
          · exact Or.inr (Or.inr (Or.inl (s2.2 ⟨hs2, hc⟩)))
          · exact Or.inr (Or.inr (Or.inr (s3.2 ⟨hs2, by simpa using hc⟩)))
      · intro h
        exact absurd h s4
      · exact s5
      · exact s6
      · exact s7
  · intro h1 h2
    unfold luaK_indexed
    dsimp only
    have hmoved : ¬ (t.k = .VUPVAL ∧ ¬ isKstr fs k = true) := by
      rintro ⟨ha, hb⟩
      rcases h1 with h1 | h1
      · exact h1 ha
      · exact hb h1
    simp only [hmoved, if_false]
    by_cases hup : t.k = .VUPVAL
    · simp only [hup, if_true]
      exact ⟨_, rfl⟩
    · simp only [hup, if_false]
      by_cases hs : isKstr fs k = true
      · simp only [hs, if_true]
        exact ⟨_, rfl⟩
      · simp only [hs, if_false]
        by_cases hc : isCint k = true
        · simp only [hc, if_true]
          exact ⟨_, rfl⟩
        · simp only [hc, if_false]
          rcases h2 with h2 | h2 | h2
          · exact absurd h2 hs
          · exact absurd (hcint.2 h2) hc
          · have hany : luaK_exp2anyreg fs k = .ok (fs, k) := by
              unfold luaK_exp2anyreg luaK_dischargevars
              simp [h2.1, h2.2]
            simp only [hany]
            exact ⟨_, rfl⟩

/-- Witness for C11: the table in register 0 indexed by the literal 5, and by
the literal -1. -/
theorem luaK_indexed_chooses_kind_witness :
    (∃ t1, luaK_indexed (open_func 0) ⟨.VNONRELOC, 0, 0, .negzero, 0, 0, -1, -1, 0⟩
        ⟨.VKINT, 0, 5, .negzero, 0, 0, -1, -1, 0⟩
      = .ok (open_func 0, t1, ⟨.VKINT, 0, 5, .negzero, 0, 0, -1, -1, 0⟩) ∧
      t1.k = .VINDEXI) ∧
    (∀ fs1 t1 k1, luaK_indexed (open_func 0) ⟨.VNONRELOC, 0, 0, .negzero, 0, 0, -1, -1, 0⟩
        ⟨.VKINT, 0, -1, .negzero, 0, 0, -1, -1, 0⟩ = .ok (fs1, t1, k1) →
      t1.k ≠ .VINDEXI) := by
  constructor
  · have h := luaK_indexed_chooses_kind (open_func 0)
      ⟨.VNONRELOC, 0, 0, .negzero, 0, 0, -1, -1, 0⟩
      ⟨.VKINT, 0, 5, .negzero, 0, 0, -1, -1, 0⟩ (by decide)
    obtain ⟨t1, ht1⟩ := h.2.2 (Or.inl (by decide)) (Or.inr (Or.inl (by decide)))
    refine ⟨t1, ht1, ?_⟩
    exact ((h.2.1 _ _ _ ht1).2.2.1).2 ⟨by simp [isKstr], by decide⟩
  · intro fs1 t1 k1 hok
    have h := luaK_indexed_chooses_kind (open_func 0)
      ⟨.VNONRELOC, 0, 0, .negzero, 0, 0, -1, -1, 0⟩
      ⟨.VKINT, 0, -1, .negzero, 0, 0, -1, -1, 0⟩ (by decide)
    exact (h.2.1 _ _ _ hok).2.2.2.2.2.2.2.2.2 rfl (Or.inl (by decide))

/-! ## Comparisons -/

@[simp]
theorem freereg_code (fs : FuncState) (reg : Int) : (freereg fs reg).code = fs.code := by
  unfold freereg
  split <;> rfl

@[simp]
theorem freereg_pc (fs : FuncState) (reg : Int) : (freereg fs reg).pc = fs.pc := by
  unfold freereg
  split <;> rfl

@[simp]
theorem freereg_lastline (fs : FuncState) (reg : Int) :
    (freereg fs reg).lastline = fs.lastline := by
  unfold freereg
  split <;> rfl

@[simp]
theorem freereg_nk (fs : FuncState) (reg : Int) : (freereg fs reg).nk = fs.nk := by
  unfold freereg
  split <;> rfl

@[simp]
theorem freeregs_code (fs : FuncState) (r1 r2 : Int) :
    (freeregs fs r1 r2).code = fs.code := by
  unfold freeregs
  split <;> simp

@[simp]
theorem freeregs_pc (fs : FuncState) (r1 r2 : Int) : (freeregs fs r1 r2).pc = fs.pc := by
  unfold freeregs
  split <;> simp

@[simp]
theorem freeregs_lastline (fs : FuncState) (r1 r2 : Int) :
    (freeregs fs r1 r2).lastline = fs.lastline := by
  unfold freeregs
  split <;> simp

@[simp]
theorem freeregs_nk (fs : FuncState) (r1 r2 : Int) : (freeregs fs r1 r2).nk = fs.nk := by
  unfold freeregs
  split <;> simp

@[simp]
theorem freeexps_code (fs : FuncState) (e1 e2 : expdesc) :
    (freeexps fs e1 e2).code = fs.code := by
  simp [freeexps]

@[simp]
theorem freeexps_pc (fs : FuncState) (e1 e2 : expdesc) :
    (freeexps fs e1 e2).pc = fs.pc := by
  simp [freeexps]

@[simp]
theorem freeexps_k (fs : FuncState) (e1 e2 : expdesc) :
    (freeexps fs e1 e2).k = fs.k := by
  simp [freeexps]

@[simp]
theorem freeexps_nk (fs : FuncState) (e1 e2 : expdesc) :
    (freeexps fs e1 e2).nk = fs.nk := by
  simp [freeexps]

/-- What `condjump` emits: the test at `pc` and a jump with no target at
`pc + 1`, whose position it returns. -/
theorem condjump_spec (fs : FuncState) (op : OpCode) (a b c k : Int) :
    (condjump fs op a b c k).1.pc = fs.pc + 2 ∧
    (condjump fs op a b c k).2 = (fs.pc : Int) + 1 ∧
    (condjump fs op a b c k).1.code fs.pc = CREATE_ABCk op a b c k ∧
    (condjump fs op a b c k).1.code (fs.pc + 1)
      = CREATE_sJ OP_JMP (NO_JUMP + (OFFSET_sJ : Int)) 0 ∧
    (∀ j, j ≠ fs.pc → j ≠ fs.pc + 1 → (condjump fs op a b c k).1.code j = fs.code j) ∧
    (condjump fs op a b c k).1.k = fs.k ∧ (condjump fs op a b c k).1.nk = fs.nk := by
  unfold condjump luaK_jump codesJ luaK_codeABCk
  simp only [luaK_code_code, luaK_code_pc, luaK_code_snd, luaK_code_k, luaK_code_nk,
    setAt_same]
  refine ⟨trivial, ?_, ?_, trivial, ?_, trivial, trivial⟩
  · push_cast
    rfl
  · rw [setAt_other _ _ _ _ (by omega), setAt_same]
  · intro j h1 h2
    rw [setAt_other _ _ _ _ h2, setAt_other _ _ _ _ h1]

/-- An expression in a register and without jumps is left alone by
`luaK_exp2anyreg`. -/
theorem luaK_exp2anyreg_VNONRELOC (fs : FuncState) (e : expdesc) (hk : e.k = .VNONRELOC)
    (hj : hasjumps e = false) : luaK_exp2anyreg fs e = .ok (fs, e) := by
  unfold luaK_exp2anyreg luaK_dischargevars
  simp [hk, hj]

/-- An integer literal without jumps is loaded by `luaK_exp2anyreg` into a
fresh register with `luaK_int`. -/
theorem luaK_exp2anyreg_VKINT (fs : FuncState) (e : expdesc) (hk : e.k = .VKINT)
    (hj : hasjumps e = false) :
    luaK_exp2anyreg fs e =
      match luaK_reserveregs fs 1 with
      | .error msg => .error msg
      | .ok fs2 =>
        match luaK_int fs2 ((fs2.freereg : Int) - 1) e.ival with
        | .error msg => .error msg
        | .ok fs3 =>
          .ok (fs3, { e with f := NO_JUMP, t := NO_JUMP, info := (fs2.freereg : Int) - 1,
                             k := .VNONRELOC }) := by
  have hd : luaK_dischargevars fs e = (fs, e) := by
    unfold luaK_dischargevars
    simp [hk]
  have hf : freeexp fs e = fs := by
    unfold freeexp
    simp [hk]
  unfold luaK_exp2anyreg luaK_exp2nextreg
  simp only [hd, hk, hf]
  simp only [reduceCtorEq, if_false]
  cases hr : luaK_reserveregs fs 1 with
  | error msg => rfl
  | ok fs2 =>
    simp only
    have hd2 : luaK_dischargevars fs2 e = (fs2, e) := by
      unfold luaK_dischargevars
      simp [hk]
    unfold exp2reg discharge2reg
    simp only [hd2, hk]
    cases hi : luaK_int fs2 ((fs2.freereg : Int) - 1) e.ival with
    | error msg => rfl
    | ok fs3 =>
      have hj2 : e.t = e.f := by simpa [hasjumps] using hj
      simp [hasjumps, hj2]

theorem isSCnumber_VKINT (e : expdesc) (i0 f0 : Int) (hk : e.k = .VKINT)
    (hj : hasjumps e = false) :
    isSCnumber e i0 f0 =
      if fitsC e.ival = true then (true, e.ival + OFFSET_sC, f0) else (false, e.ival, f0) := by
  unfold isSCnumber
  simp [hk, hj]

theorem isSCnumber_VNONRELOC (e : expdesc) (i0 f0 : Int) (hk : e.k = .VNONRELOC) :
    isSCnumber e i0 f0 = (false, i0, f0) := by
  unfold isSCnumber
  simp [hk]

theorem condjump_emits (fs fs0 : FuncState) (op : OpCode) (a b c k : Int)
    (hcode : fs.code = fs0.code) (hpc : fs.pc = fs0.pc) (hk : fs.k = fs0.k)
    (hnk : fs.nk = fs0.nk) (hop : op < 128) (ha : 0 ≤ a ∧ a ≤ 255) (hb : 0 ≤ b ∧ b ≤ 255)
    (hc : 0 ≤ c ∧ c ≤ 255) (hkk : k = 0 ∨ k = 1) :
    EmitsComparison fs0 (condjump fs op a b c k).1 op a b c k ∧
    (condjump fs op a b c k).2 = (fs0.pc : Int) + 1 := by
  obtain ⟨h1, h2, h3, h4, h5, h6, h7⟩ := condjump_spec fs op a b c k
  rw [hpc] at h1 h2 h3 h4 h5
  rw [hcode] at h5
  refine ⟨⟨h1, ?_, ?_, ?_, ?_, ?_, ?_, ?_, by rw [h6, hk], by rw [h7, hnk]⟩, h2⟩
  · rw [h3, GET_OPCODE_CREATE_ABCk]
    exact Nat.mod_eq_of_lt hop
  · rw [h3, GETARG_A_CREATE_ABCk]
    omega
  · rw [h3, GETARG_B_CREATE_ABCk]
    omega
  · rw [h3, GETARG_C_CREATE_ABCk]
    omega
  · rw [h3, GETARG_k_CREATE_ABCk]
    omega
  · rw [h4, GET_OPCODE_CREATE_sJ]
    rfl
  · intro j hj
    exact h5 j (by omega) (by omega)

theorem luaK_reserveregs_one (fs : FuncState) (h : fs.freereg + 1 < MAXREGS) :
    ∃ fs2, luaK_reserveregs fs 1 = .ok fs2 ∧ fs2.freereg = fs.freereg + 1 ∧
      fs2.code = fs.code ∧ fs2.pc = fs.pc ∧ fs2.k = fs.k ∧ fs2.nk = fs.nk ∧
      fs2.nactvar = fs.nactvar ∧ fs2.lastline = fs.lastline ∧
      fs2.lasttarget = fs.lasttarget ∧ fs2.h = fs.h := by
  unfold MAXREGS at h
  have hc : cast_byte ((fs.freereg : Int) + 1) = fs.freereg + 1 := by
    unfold cast_byte
    omega
  unfold luaK_reserveregs luaK_checkstack
  dsimp only
  split_ifs with h1 h2
  · exfalso
    unfold MAXREGS at h2
    omega
  · exact ⟨_, rfl, hc, rfl, rfl, rfl, rfl, rfl, rfl, rfl, rfl⟩
  · exact ⟨_, rfl, hc, rfl, rfl, rfl, rfl, rfl, rfl, rfl, rfl⟩

theorem luaK_int_ok (fs : FuncState) (reg i : Int) : ∃ fs1, luaK_int fs reg i = .ok fs1 := by
  unfold luaK_int
  split
  · exact ⟨_, rfl⟩
  · obtain ⟨fsk, k, hk, -⟩ := luaK_intK_spec fs i
    rw [hk]
    exact ⟨_, rfl⟩

theorem luaK_int_freereg {fs fs1 : FuncState} {reg i : Int}
    (h : luaK_int fs reg i = .ok fs1) : fs1.freereg = fs.freereg ∧ fs1.nactvar = fs.nactvar := by
  unfold luaK_int at h
  split at h
  · injection h with h
    subst h
    simp [luaK_codeAsBx]
  · obtain ⟨fsk, k, hk, -, -, -, -, -, -, -, -, hf, hn, -⟩ := luaK_intK_spec fs i
    rw [hk] at h
    injection h with h
    subst h
    unfold luaK_codek
    split <;> simp [luaK_codeABx, codeextraarg, hf, hn]
theorem codeorder_imm_right (fs : FuncState) (op : OpCode) (x lit : expdesc)
    (hx : x.k = .VNONRELOC) (hxj : hasjumps x = false)
    (hl : lit.k = .VKINT) (hlj : hasjumps lit = false) (hfit : fitsC lit.ival = true) :
    codeorder fs op x lit = .ok
      ((condjump (freeexps fs x lit) (op - OP_LT + OP_LTI) x.info
          (cast_int (lit.ival + OFFSET_sC)) 0 1).1,
        { x with info := (condjump (freeexps fs x lit) (op - OP_LT + OP_LTI) x.info
          (cast_int (lit.ival + OFFSET_sC)) 0 1).2, k := .VJMP }, lit) := by
  unfold codeorder
  simp only [isSCnumber_VKINT lit 0 0 hl hlj, hfit, if_true,
    luaK_exp2anyreg_VNONRELOC fs x hx hxj, bind, Except.bind, pure, Except.pure]

theorem codeorder_imm_left (fs : FuncState) (op : OpCode) (x lit : expdesc)
    (hx : x.k = .VNONRELOC) (hxj : hasjumps x = false)
    (hl : lit.k = .VKINT) (hlj : hasjumps lit = false) (hfit : fitsC lit.ival = true) :
    codeorder fs op lit x = .ok
      ((condjump (freeexps fs lit x) (if op = OP_LT then OP_GTI else OP_GEI) x.info
          (cast_int (lit.ival + OFFSET_sC)) 0 1).1,
        { lit with info := (condjump (freeexps fs lit x)
          (if op = OP_LT then OP_GTI else OP_GEI) x.info
          (cast_int (lit.ival + OFFSET_sC)) 0 1).2, k := .VJMP }, x) := by
  unfold codeorder
  simp only [isSCnumber_VKINT lit 0 0 hl hlj, isSCnumber_VNONRELOC x 0 0 hx, hfit, if_true,
    luaK_exp2anyreg_VNONRELOC fs x hx hxj, bind, Except.bind, pure, Except.pure]
  simp

theorem codeorder_reg_right (fs fs2 fs3 : FuncState) (op : OpCode) (x lit : expdesc)
    (hx : x.k = .VNONRELOC) (hxj : hasjumps x = false)
    (hl : lit.k = .VKINT) (hlj : hasjumps lit = false) (hfit : fitsC lit.ival = false)
    (h2 : luaK_reserveregs fs 1 = .ok fs2)
    (h3 : luaK_int fs2 ((fs2.freereg : Int) - 1) lit.ival = .ok fs3) :
    codeorder fs op x lit = .ok
      ((condjump (freeexps fs3 x { lit with f := NO_JUMP, t := NO_JUMP, info := (fs2.freereg : Int) - 1, k := .VNONRELOC }) op x.info
          ((fs2.freereg : Int) - 1) 0 1).1,
        { x with info := (condjump (freeexps fs3 x { lit with f := NO_JUMP, t := NO_JUMP, info := (fs2.freereg : Int) - 1, k := .VNONRELOC }) op x.info
          ((fs2.freereg : Int) - 1) 0 1).2, k := .VJMP },
        { lit with f := NO_JUMP, t := NO_JUMP, info := (fs2.freereg : Int) - 1, k := .VNONRELOC }) := by
  unfold codeorder
  simp only [isSCnumber_VKINT lit 0 0 hl hlj, isSCnumber_VNONRELOC x _ _ hx, hfit,
    luaK_exp2anyreg_VNONRELOC fs x hx hxj, luaK_exp2anyreg_VKINT fs lit hl hlj, h2, h3,
    bind, Except.bind, pure, Except.pure]
  simp

theorem codeorder_reg_left (fs fs2 fs3 : FuncState) (op : OpCode) (x lit : expdesc)
    (hx : x.k = .VNONRELOC) (hxj : hasjumps x = false)
    (hl : lit.k = .VKINT) (hlj : hasjumps lit = false) (hfit : fitsC lit.ival = false)
    (h2 : luaK_reserveregs fs 1 = .ok fs2)
    (h3 : luaK_int fs2 ((fs2.freereg : Int) - 1) lit.ival = .ok fs3) :
    codeorder fs op lit x = .ok
      ((condjump (freeexps fs3 { lit with f := NO_JUMP, t := NO_JUMP, info := (fs2.freereg : Int) - 1, k := .VNONRELOC } x) op
          ((fs2.freereg : Int) - 1) x.info 0 1).1,
        { lit with f := NO_JUMP, t := NO_JUMP, info := (condjump (freeexps fs3 { lit with f := NO_JUMP, t := NO_JUMP, info := (fs2.freereg : Int) - 1, k := .VNONRELOC } x) op
          ((fs2.freereg : Int) - 1) x.info 0 1).2, k := .VJMP }, x) := by
  unfold codeorder
  simp only [isSCnumber_VKINT lit _ _ hl hlj, isSCnumber_VNONRELOC x _ _ hx, hfit,
    luaK_exp2anyreg_VNONRELOC _ x hx hxj, luaK_exp2anyreg_VKINT fs lit hl hlj, h2, h3,
    bind, Except.bind, pure, Except.pure]
  simp

theorem luaK_exp2RK_VKINT (fs fsk : FuncState) (idx : Nat) (lit : expdesc)
    (hl : lit.k = .VKINT) (hlj : hasjumps lit = false)
    (hk : luaK_intK fs lit.ival = .ok (fsk, idx)) :
    luaK_exp2RK fs lit =
      if (idx : Int) ≤ (MAXINDEXRK : Int) then
        .ok (fsk, { lit with k := .VK, info := (idx : Int) }, true)
      else
        match luaK_exp2anyreg fsk lit with
        | .error msg => .error msg
        | .ok (fs2, e2) => .ok (fs2, e2, false) := by
  unfold luaK_exp2RK luaK_exp2K
  simp only [hlj, hl, hk, Bool.false_eq_true, not_false_eq_true, if_true]
  by_cases h : (idx : Int) ≤ (MAXINDEXRK : Int)
  · simp only [h, if_true]
  · simp only [h, if_false]

theorem codeeq_swap (fs : FuncState) (opr : BinOpr) (x lit : expdesc)
    (hx : x.k = .VNONRELOC) (hl : lit.k = .VKINT) :
    codeeq fs opr lit x = codeeq fs opr x lit := by
  unfold codeeq
  simp [hx, hl]

theorem codeeq_imm (fs : FuncState) (opr : BinOpr) (x lit : expdesc)
    (hx : x.k = .VNONRELOC) (hxj : hasjumps x = false)
    (hl : lit.k = .VKINT) (hlj : hasjumps lit = false) (hfit : fitsC lit.ival = true) :
    codeeq fs opr x lit = .ok
      ((condjump (freeexps fs x lit) OP_EQI x.info (cast_int (lit.ival + OFFSET_sC)) 0
          (if opr = .OPR_EQ then 1 else 0)).1,
        { x with info := (condjump (freeexps fs x lit) OP_EQI x.info
          (cast_int (lit.ival + OFFSET_sC)) 0 (if opr = .OPR_EQ then 1 else 0)).2, k := .VJMP },
        lit) := by
  unfold codeeq
  simp only [hx, ne_eq, not_true_eq_false, if_false, isSCnumber_VKINT lit 0 0 hl hlj, hfit,
    if_true, luaK_exp2anyreg_VNONRELOC fs x hx hxj, bind, Except.bind, pure, Except.pure]

theorem codeeq_K (fs fsk : FuncState) (idx : Nat) (opr : BinOpr) (x lit : expdesc)
    (hx : x.k = .VNONRELOC) (hxj : hasjumps x = false)
    (hl : lit.k = .VKINT) (hlj : hasjumps lit = false) (hfit : fitsC lit.ival = false)
    (hk : luaK_intK fs lit.ival = .ok (fsk, idx)) (hidx : (idx : Int) ≤ (MAXINDEXRK : Int)) :
    codeeq fs opr x lit = .ok
      ((condjump (freeexps fsk x { lit with k := .VK, info := (idx : Int) }) OP_EQK x.info
          (idx : Int) 0 (if opr = .OPR_EQ then 1 else 0)).1,
        { x with info := (condjump (freeexps fsk x { lit with k := .VK, info := (idx : Int) })
          OP_EQK x.info (idx : Int) 0 (if opr = .OPR_EQ then 1 else 0)).2, k := .VJMP },
        { lit with k := .VK, info := (idx : Int) }) := by
  unfold codeeq
  simp only [hx, ne_eq, not_true_eq_false, if_false, isSCnumber_VKINT lit 0 0 hl hlj, hfit,
    luaK_exp2anyreg_VNONRELOC fs x hx hxj, luaK_exp2RK_VKINT fs fsk idx lit hl hlj hk, hidx,
    if_true, bind, Except.bind, pure, Except.pure]
  simp

theorem codeeq_reg (fs fsk fs2 fs3 : FuncState) (idx : Nat) (opr : BinOpr) (x lit : expdesc)
    (hx : x.k = .VNONRELOC) (hxj : hasjumps x = false)
    (hl : lit.k = .VKINT) (hlj : hasjumps lit = false) (hfit : fitsC lit.ival = false)
    (hk : luaK_intK fs lit.ival = .ok (fsk, idx)) (hidx : ¬ (idx : Int) ≤ (MAXINDEXRK : Int))
    (h2 : luaK_reserveregs fsk 1 = .ok fs2)
    (h3 : luaK_int fs2 ((fs2.freereg : Int) - 1) lit.ival = .ok fs3) :
    codeeq fs opr x lit = .ok
      ((condjump (freeexps fs3 x { lit with f := NO_JUMP, t := NO_JUMP, info := (fs2.freereg : Int) - 1, k := .VNONRELOC }) OP_EQ x.info
          ((fs2.freereg : Int) - 1) 0 (if opr = .OPR_EQ then 1 else 0)).1,
        { x with info := (condjump (freeexps fs3 x { lit with f := NO_JUMP, t := NO_JUMP, info := (fs2.freereg : Int) - 1, k := .VNONRELOC })
          OP_EQ x.info ((fs2.freereg : Int) - 1) 0 (if opr = .OPR_EQ then 1 else 0)).2, k := .VJMP },
        { lit with f := NO_JUMP, t := NO_JUMP, info := (fs2.freereg : Int) - 1, k := .VNONRELOC }) := by
  have hreg : luaK_exp2anyreg fs3 { lit with f := NO_JUMP, t := NO_JUMP, info := (fs2.freereg : Int) - 1, k := .VNONRELOC }
      = .ok (fs3, { lit with f := NO_JUMP, t := NO_JUMP, info := (fs2.freereg : Int) - 1, k := .VNONRELOC }) :=
    luaK_exp2anyreg_VNONRELOC _ _ rfl (by simp [hasjumps])
  unfold codeeq
  simp only [hx, ne_eq, not_true_eq_false, if_false, isSCnumber_VKINT lit 0 0 hl hlj, hfit,
    luaK_exp2anyreg_VNONRELOC fs x hx hxj, luaK_exp2RK_VKINT fs fsk idx lit hl hlj hk, hidx,
    luaK_exp2anyreg_VKINT fsk lit hl hlj, h2, h3, hreg,
    bind, Except.bind, pure, Except.pure]
  simp

/-- C13 counterexample: the literal -128 has absolute value 128 =
MAXARG_C - OFFSET_sC, yet for x < -128 (x the local in register 0) codeorder
loads the literal into register 1 with LOADI and emits the register
comparison LT 0 1 followed by a jump; no immediate opcode is used. -/
theorem codeorder_compares_minus_128_in_register :
    |(-128 : Int)| ≤ (MAXARG_C : Int) - OFFSET_sC ∧
    ∃ fs1 e1 e2, codeorder { open_func 0 with freereg := 1, nactvar := 1 } OP_LT
        ⟨.VNONRELOC, 0, 0, .negzero, 0, 0, -1, -1, 0⟩
        ⟨.VKINT, 0, -128, .negzero, 0, 0, -1, -1, 0⟩ = .ok (fs1, e1, e2) ∧
      fs1.pc = 3 ∧
      GET_OPCODE (fs1.code 0) = OP_LOADI ∧ GETARG_A (fs1.code 0) = 1 ∧
      GETARG_sBx (fs1.code 0) = -128 ∧
      GET_OPCODE (fs1.code 1) = OP_LT ∧ GETARG_A (fs1.code 1) = 0 ∧
      GETARG_B (fs1.code 1) = 1 ∧ GET_OPCODE (fs1.code 2) = OP_JMP := by
  constructor
  · decide
  · obtain ⟨fs2, h2, hfr, hcode, hpc, hk, hnk, -⟩ :=
      luaK_reserveregs_one { open_func 0 with freereg := 1, nactvar := 1 } (by decide)
    have hfr2 : (fs2.freereg : Int) - 1 = 1 := by
      rw [hfr]
      rfl
    have hpc2 : fs2.pc = 0 := hpc
    have h3 : luaK_int fs2 ((fs2.freereg : Int) - 1) (-128)
        = .ok (luaK_codeAsBx fs2 OP_LOADI 1 (-128)).1 := by
      rw [hfr2]
      unfold luaK_int
      have hf : fitsBx (-128) = true := by decide
      have hc : cast_int (-128) = -128 := by decide
      simp only [hf, hc, if_true]
    have h := codeorder_reg_right { open_func 0 with freereg := 1, nactvar := 1 } fs2 _ OP_LT
      ⟨.VNONRELOC, 0, 0, .negzero, 0, 0, -1, -1, 0⟩
      ⟨.VKINT, 0, -128, .negzero, 0, 0, -1, -1, 0⟩ rfl (by decide) rfl (by decide)
      (by decide) h2 h3
    have hpc3 : (luaK_codeAsBx fs2 OP_LOADI 1 (-128)).1.pc = 1 := by
      simp [luaK_codeAsBx, hpc2]
    have hcode3 : (luaK_codeAsBx fs2 OP_LOADI 1 (-128)).1.code 0
        = CREATE_ABx OP_LOADI 1 (-128 + (OFFSET_sBx : Int)) := by
      simp only [luaK_codeAsBx, luaK_code_code, hpc2, setAt_same]
    obtain ⟨⟨e1, e2, e3, e4, e5, e6, e7, e8, -, -⟩, -⟩ :=
      condjump_emits (freeexps (luaK_codeAsBx fs2 OP_LOADI 1 (-128)).1
          ⟨.VNONRELOC, 0, 0, .negzero, 0, 0, -1, -1, 0⟩
          { (⟨.VKINT, 0, -128, .negzero, 0, 0, -1, -1, 0⟩ : expdesc) with f := NO_JUMP, t := NO_JUMP, info := (fs2.freereg : Int) - 1, k := .VNONRELOC })
        (luaK_codeAsBx fs2 OP_LOADI 1 (-128)).1 OP_LT 0 ((fs2.freereg : Int) - 1) 0 1
        (by simp) (by simp) (by simp) (by simp) (by decide) (by decide)
        (by rw [hfr2]; decide) (by decide) (by decide)
    rw [hpc3] at e1 e2 e3 e4 e5 e6 e7 e8
    refine ⟨_, _, _, h, e1, ?_, ?_, ?_, e2, e3, ?_, e7⟩
    · rw [e8 0 (by decide), hcode3, GET_OPCODE_CREATE_ABx]
      rfl
    · rw [e8 0 (by decide), hcode3, GETARG_A_CREATE_ABx]
      rfl
    · rw [e8 0 (by decide), hcode3]
      exact GETARG_sBx_CREATE_ABx _ _ _ (by decide) (by decide)
    · rw [e4, hfr2]

/-- C13 (amended): in a comparison (codeorder for <, <=, >, >= and codeeq for
==, ~=) of a value in a register against an integer literal i, the immediate
opcode variant (LTI, LEI, GTI, GEI or EQI, with operand i + OFFSET_sC in
[0, MAXARG_C]) is used when -OFFSET_sC <= i <= MAXARG_C - OFFSET_sC, that is
-127 <= i <= 128; for every literal outside that range codeorder places the
literal in a register (with luaK_int, when a register is free) and emits a
register-register comparison, and codeeq emits EQK with the constant-pool
index of the literal when that index is at most MAXINDEXRK, and otherwise
places the literal in a register and emits EQ. -/
theorem comparison_immediate_iff_fits_sC (fs : FuncState) (x lit : expdesc) (op : OpCode)
    (opr : BinOpr) (hx : x.k = .VNONRELOC) (hxj : hasjumps x = false)
    (hxr : 0 ≤ x.info ∧ x.info ≤ (MAXARG_A : Int))
    (hl : lit.k = .VKINT) (hlj : hasjumps lit = false)
    (hop : op = OP_LT ∨ op = OP_LE) :
    (-(OFFSET_sC : Int) ≤ lit.ival ∧ lit.ival ≤ (MAXARG_C : Int) - OFFSET_sC →
      (0 ≤ lit.ival + OFFSET_sC ∧ lit.ival + OFFSET_sC ≤ (MAXARG_C : Int)) ∧
      (∃ fs1 e1, codeorder fs op x lit = .ok (fs1, e1, lit) ∧ e1.k = .VJMP ∧
        e1.info = (fs.pc : Int) + 1 ∧
        EmitsComparison fs fs1 (if op = OP_LT then OP_LTI else OP_LEI) x.info
          (lit.ival + OFFSET_sC) 0 1) ∧
      (∃ fs1 e1, codeorder fs op lit x = .ok (fs1, e1, x) ∧ e1.k = .VJMP ∧
        e1.info = (fs.pc : Int) + 1 ∧
        EmitsComparison fs fs1 (if op = OP_LT then OP_GTI else OP_GEI) x.info
          (lit.ival + OFFSET_sC) 0 1) ∧
      (∃ fs1 e1, codeeq fs opr x lit = .ok (fs1, e1, lit) ∧ e1.k = .VJMP ∧
        e1.info = (fs.pc : Int) + 1 ∧
        EmitsComparison fs fs1 OP_EQI x.info (lit.ival + OFFSET_sC) 0
          (if opr = .OPR_EQ then 1 else 0))) ∧
    (¬ (-(OFFSET_sC : Int) ≤ lit.ival ∧ lit.ival ≤ (MAXARG_C : Int) - OFFSET_sC) →
      fs.freereg + 1 < MAXREGS →
      ∃ fs2 fs3, luaK_reserveregs fs 1 = .ok fs2 ∧
        luaK_int fs2 fs.freereg lit.ival = .ok fs3 ∧
        (∃ fs1 e1 e2, codeorder fs op x lit = .ok (fs1, e1, e2) ∧
          e2.k = .VNONRELOC ∧ e2.info = fs.freereg ∧
          EmitsComparison fs3 fs1 op x.info fs.freereg 0 1) ∧
        (∃ fs1 e1, codeorder fs op lit x = .ok (fs1, e1, x) ∧
          EmitsComparison fs3 fs1 op fs.freereg x.info 0 1)) ∧
    (¬ (-(OFFSET_sC : Int) ≤ lit.ival ∧ lit.ival ≤ (MAXARG_C : Int) - OFFSET_sC) →
      ∃ fsk idx, luaK_intK fs lit.ival = .ok (fsk, idx) ∧ fsk.k idx = .integer lit.ival ∧
        fsk.pc = fs.pc ∧ fsk.code = fs.code ∧
        (idx ≤ MAXINDEXRK →
          ∃ fs1 e1 e2, codeeq fs opr x lit = .ok (fs1, e1, e2) ∧
            e2.k = .VK ∧ e2.info = idx ∧
            EmitsComparison fsk fs1 OP_EQK x.info idx 0 (if opr = .OPR_EQ then 1 else 0)) ∧
        (MAXINDEXRK < idx → fs.freereg + 1 < MAXREGS →
          ∃ fs2 fs3 fs1 e1 e2, luaK_reserveregs fsk 1 = .ok fs2 ∧
            luaK_int fs2 fs.freereg lit.ival = .ok fs3 ∧
            codeeq fs opr x lit = .ok (fs1, e1, e2) ∧
            e2.k = .VNONRELOC ∧ e2.info = fs.freereg ∧
            EmitsComparison fs3 fs1 OP_EQ x.info fs.freereg 0
              (if opr = .OPR_EQ then 1 else 0))) ∧
    codeeq fs opr lit x = codeeq fs opr x lit := by
  have hkbit : (if opr = BinOpr.OPR_EQ then (1 : Int) else 0) = 0 ∨
      (if opr = BinOpr.OPR_EQ then (1 : Int) else 0) = 1 := by
    split <;> simp
  have hxr2 : 0 ≤ x.info ∧ x.info ≤ 255 := hxr
  have hopI : (op - OP_LT + OP_LTI : Nat) = if op = OP_LT then OP_LTI else OP_LEI := by
    rcases hop with h | h <;> subst h <;> decide
  have hopG : (if op = OP_LT then OP_GTI else OP_GEI) < 128 := by
    split <;> decide
  have hopL : (if op = OP_LT then OP_LTI else OP_LEI) < 128 := by
    split <;> decide
  have hop128 : op < 128 := by
    rcases hop with h | h <;> subst h <;> decide
  refine ⟨?_, ?_, ?_, codeeq_swap fs opr x lit hx hl⟩
  · intro hin
    have hfit : fitsC lit.ival = true := by simpa [fitsC] using hin
    unfold OFFSET_sC MAXARG_C at hin ⊢
    have hr : 0 ≤ lit.ival + ((127 : Nat) : Int) ∧ lit.ival + ((127 : Nat) : Int) ≤ 255 := by
      omega
    have hcast : cast_int (lit.ival + ((127 : Nat) : Int)) = lit.ival + ((127 : Nat) : Int) := by
      unfold cast_int
      simp only [Nat.reducePow, Int.reducePow]
      omega
    refine ⟨by omega, ?_, ?_, ?_⟩
    · have h := codeorder_imm_right fs op x lit hx hxj hl hlj hfit
      unfold OFFSET_sC at h
      rw [hcast, hopI] at h
      obtain ⟨hc1, hc2⟩ := condjump_emits (freeexps fs x lit) fs
        (if op = OP_LT then OP_LTI else OP_LEI) x.info
        (lit.ival + ((127 : Nat) : Int)) 0 1 (by simp) (by simp) (by simp) (by simp) hopL hxr2 hr
        (by decide) (by decide)
      exact ⟨_, _, h, rfl, hc2, hc1⟩
    · have h := codeorder_imm_left fs op x lit hx hxj hl hlj hfit
      unfold OFFSET_sC at h
      rw [hcast] at h
      obtain ⟨hc1, hc2⟩ := condjump_emits (freeexps fs lit x) fs
        (if op = OP_LT then OP_GTI else OP_GEI) x.info
        (lit.ival + ((127 : Nat) : Int)) 0 1 (by simp) (by simp) (by simp) (by simp) hopG hxr2 hr
        (by decide) (by decide)
      exact ⟨_, _, h, rfl, hc2, hc1⟩
    · have h := codeeq_imm fs opr x lit hx hxj hl hlj hfit
      unfold OFFSET_sC at h
      rw [hcast] at h
      obtain ⟨hc1, hc2⟩ := condjump_emits (freeexps fs x lit) fs OP_EQI x.info
        (lit.ival + ((127 : Nat) : Int)) 0 (if opr = .OPR_EQ then 1 else 0)
        (by simp) (by simp) (by simp) (by simp) (by decide) hxr2 hr (by decide) hkbit
      exact ⟨_, _, h, rfl, hc2, hc1⟩
  · intro hout hfree
    have hfit : fitsC lit.ival = false := by simpa [fitsC] using hout
    obtain ⟨fs2, h2, hfr, -⟩ := luaK_reserveregs_one fs hfree
    have hfr2 : (fs2.freereg : Int) - 1 = fs.freereg := by
      rw [hfr]
      push_cast
      omega
    obtain ⟨fs3, h3⟩ := luaK_int_ok fs2 ((fs2.freereg : Int) - 1) lit.ival
    have hb : 0 ≤ (fs.freereg : Int) ∧ (fs.freereg : Int) ≤ 255 := by
      unfold MAXREGS at hfree
      omega
    refine ⟨fs2, fs3, h2, by rw [← hfr2]; exact h3, ?_, ?_⟩
    · have h := codeorder_reg_right fs fs2 fs3 op x lit hx hxj hl hlj hfit h2 h3
      rw [hfr2] at h
      obtain ⟨hc1, -⟩ := condjump_emits (freeexps fs3 x { lit with f := NO_JUMP, t := NO_JUMP, info := (fs.freereg : Int), k := .VNONRELOC }) fs3 op x.info
        (fs.freereg : Int) 0 1 (by simp) (by simp) (by simp) (by simp) hop128 hxr2 hb
        (by decide) (by decide)
      exact ⟨_, _, _, h, rfl, rfl, hc1⟩
    · have h := codeorder_reg_left fs fs2 fs3 op x lit hx hxj hl hlj hfit h2 h3
      rw [hfr2] at h
      obtain ⟨hc1, -⟩ := condjump_emits (freeexps fs3 { lit with f := NO_JUMP, t := NO_JUMP, info := (fs.freereg : Int), k := .VNONRELOC } x) fs3 op
        (fs.freereg : Int) x.info 0 1 (by simp) (by simp) (by simp) (by simp) hop128 hb hxr2
        (by decide) (by decide)
      exact ⟨_, _, h, hc1⟩
  · intro hout
    have hfit : fitsC lit.ival = false := by simpa [fitsC] using hout
    obtain ⟨fsk, idx, hk, hkk, -, -, -, -, hcode, hpc, -, hfk, -⟩ := luaK_intK_spec fs lit.ival
    refine ⟨fsk, idx, hk, hkk, hpc, hcode, ?_, ?_⟩
    · intro hidx
      have hidx2 : (idx : Int) ≤ (MAXINDEXRK : Int) := by exact_mod_cast hidx
      have h := codeeq_K fs fsk idx opr x lit hx hxj hl hlj hfit hk hidx2
      have hb : 0 ≤ (idx : Int) ∧ (idx : Int) ≤ 255 := by
        unfold MAXINDEXRK at hidx
        omega
      obtain ⟨hc1, -⟩ := condjump_emits (freeexps fsk x { lit with k := .VK, info := (idx : Int) }) fsk OP_EQK x.info
        (idx : Int) 0 (if opr = .OPR_EQ then 1 else 0) (by simp) (by simp) (by simp) (by simp)
        (by decide) hxr2 hb (by decide) hkbit
      exact ⟨_, _, _, h, rfl, rfl, hc1⟩
    · intro hidx hfree
      have hidx2 : ¬ (idx : Int) ≤ (MAXINDEXRK : Int) := by
        have : ¬ idx ≤ MAXINDEXRK := by omega
        exact_mod_cast this
      obtain ⟨fs2, h2, hfr, -⟩ := luaK_reserveregs_one fsk (by rw [hfk]; exact hfree)
      have hfr2 : (fs2.freereg : Int) - 1 = fs.freereg := by
        rw [hfr, hfk]
        push_cast
        omega
      obtain ⟨fs3, h3⟩ := luaK_int_ok fs2 ((fs2.freereg : Int) - 1) lit.ival
      have hb : 0 ≤ (fs.freereg : Int) ∧ (fs.freereg : Int) ≤ 255 := by
        unfold MAXREGS at hfree
        omega
      have h := codeeq_reg fs fsk fs2 fs3 idx opr x lit hx hxj hl hlj hfit hk hidx2 h2 h3
      rw [hfr2] at h
      obtain ⟨hc1, -⟩ := condjump_emits (freeexps fs3 x { lit with f := NO_JUMP, t := NO_JUMP, info := (fs.freereg : Int), k := .VNONRELOC }) fs3 OP_EQ x.info
        (fs.freereg : Int) 0 (if opr = .OPR_EQ then 1 else 0) (by simp) (by simp) (by simp)
        (by simp) (by decide) hxr2 hb (by decide) hkbit
      exact ⟨fs2, fs3, _, _, _, h2, by rw [← hfr2]; exact h3, h, rfl, rfl, hc1⟩

/-- Witness for C13 (amended): x < 128 and x == 128, with x in register 0 of
the fresh state, use LTI and EQI with operand 255. -/
theorem comparison_immediate_iff_fits_sC_witness :
    (∃ fs1 e1, codeorder (open_func 0) OP_LT ⟨.VNONRELOC, 0, 0, .negzero, 0, 0, -1, -1, 0⟩
        ⟨.VKINT, 0, 128, .negzero, 0, 0, -1, -1, 0⟩
        = .ok (fs1, e1, ⟨.VKINT, 0, 128, .negzero, 0, 0, -1, -1, 0⟩) ∧
      EmitsComparison (open_func 0) fs1 OP_LTI 0 255 0 1) ∧
    (∃ fs1 e1, codeeq (open_func 0) .OPR_EQ ⟨.VNONRELOC, 0, 0, .negzero, 0, 0, -1, -1, 0⟩
        ⟨.VKINT, 0, 128, .negzero, 0, 0, -1, -1, 0⟩
        = .ok (fs1, e1, ⟨.VKINT, 0, 128, .negzero, 0, 0, -1, -1, 0⟩) ∧
      EmitsComparison (open_func 0) fs1 OP_EQI 0 255 0 1) := by
  have h := (comparison_immediate_iff_fits_sC (open_func 0)
    ⟨.VNONRELOC, 0, 0, .negzero, 0, 0, -1, -1, 0⟩
    ⟨.VKINT, 0, 128, .negzero, 0, 0, -1, -1, 0⟩ OP_LT .OPR_EQ rfl (by decide) (by decide) rfl
    (by decide) (Or.inl rfl)).1 (by decide)
  obtain ⟨-, ⟨fs1, e1, h1, -, -, h2⟩, -, ⟨fs1', e1', h3, -, -, h4⟩⟩ := h
  exact ⟨⟨fs1, e1, h1, h2⟩, ⟨fs1', e1', h3, h4⟩⟩

/-! ## Constant folding -/

theorem luaK_tonumeral_VKINT (fs : FuncState) (e : expdesc) (b : Bool) (hk : e.k = .VKINT)
    (hj : hasjumps e = false) : luaK_tonumeral fs e b = some (.integer e.ival) := by
  unfold luaK_tonumeral
  simp [hk, hj]

theorem luaK_dischargevars_VKINT (fs : FuncState) (e : expdesc) (hk : e.k = .VKINT) :
    luaK_dischargevars fs e = (fs, e) := by
  unfold luaK_dischargevars
  simp [hk]

theorem constfolding_integers (luaO_rawarith : Nat → TValue → TValue → TValue)
    (fs : FuncState) (op : Nat) (e1 e2 : expdesc) (r : Int)
    (hop : op = LUA_OPADD ∨ op = LUA_OPSUB ∨ op = LUA_OPMUL)
    (h1 : e1.k = .VKINT) (h1j : hasjumps e1 = false)
    (h2 : e2.k = .VKINT) (h2j : hasjumps e2 = false)
    (hr : luaO_rawarith op (.integer e1.ival) (.integer e2.ival) = .integer r) :
    constfolding luaO_rawarith fs op e1 e2 = ({ e1 with k := .VKINT, ival := r }, true) := by
  have hv : validop op (.integer e1.ival) (.integer e2.ival) = true := by
    rcases hop with h | h | h <;> subst h <;> rfl
  unfold constfolding
  simp only [luaK_tonumeral_VKINT fs e1 true h1 h1j, luaK_tonumeral_VKINT fs e2 true h2 h2j,
    hv, hr, not_true_eq_false, if_false]

/-- C20: for all integer literals a and b without pending jumps and op in
{+, -, *}, luaK_posfix(op, e1 = a, e2 = b) replaces e1 by the integer literal
VKINT whose value is a op b in wrap-around 64-bit arithmetic (the arithmetic
of the runtime is assumed to wrap integers around), leaves e2 alone, and
returns the state it was given: no instruction is emitted and nothing is added
to the constant pool. For 1 + 2 the result is VKINT 3, and putting it in a
register when register 0 is the first free one emits the single instruction
LOADI 0, 3 and adds no constant. -/
theorem luaK_posfix_folds_integer_literals
    (luaO_rawarith : Nat → TValue → TValue → TValue) (hraw : WrapsIntegers luaO_rawarith)
    (fs : FuncState) (e1 e2 : expdesc) (line : Int)
    (h1 : e1.k = .VKINT) (h1j : hasjumps e1 = false)
    (h2 : e2.k = .VKINT) (h2j : hasjumps e2 = false) :
    luaK_posfix luaO_rawarith fs .OPR_ADD e1 e2 line
      = .ok (fs, { e1 with k := .VKINT, ival := wrap64 (e1.ival + e2.ival) }, e2) ∧
    luaK_posfix luaO_rawarith fs .OPR_SUB e1 e2 line
      = .ok (fs, { e1 with k := .VKINT, ival := wrap64 (e1.ival - e2.ival) }, e2) ∧
    luaK_posfix luaO_rawarith fs .OPR_MUL e1 e2 line
      = .ok (fs, { e1 with k := .VKINT, ival := wrap64 (e1.ival * e2.ival) }, e2) ∧
    (e1.ival = 1 → e2.ival = 2 → fs.freereg = 0 →
      ∃ e fs1 e', luaK_posfix luaO_rawarith fs .OPR_ADD e1 e2 line = .ok (fs, e, e2) ∧
        e.k = .VKINT ∧ e.ival = 3 ∧ hasjumps e = false ∧
        luaK_exp2anyreg fs e = .ok (fs1, e') ∧
        e'.k = .VNONRELOC ∧ e'.info = 0 ∧
        fs1.pc = fs.pc + 1 ∧ (∀ j, j ≠ fs.pc → fs1.code j = fs.code j) ∧
        GET_OPCODE (fs1.code fs.pc) = OP_LOADI ∧ GETARG_A (fs1.code fs.pc) = 0 ∧
        GETARG_sBx (fs1.code fs.pc) = 3 ∧
        fs1.k = fs.k ∧ fs1.nk = fs.nk) := by
  obtain ⟨ha, hs, hm⟩ := hraw e1.ival e2.ival
  have hd := luaK_dischargevars_VKINT fs e2 h2
  have hadd : luaK_posfix luaO_rawarith fs .OPR_ADD e1 e2 line
      = .ok (fs, { e1 with k := .VKINT, ival := wrap64 (e1.ival + e2.ival) }, e2) := by
    have hc := constfolding_integers luaO_rawarith fs LUA_OPADD e1 e2 _ (Or.inl rfl)
      h1 h1j h2 h2j ha
    unfold luaK_posfix
    simp only [hd]
    have e : BinOpr.OPR_ADD.toNat + LUA_OPADD = LUA_OPADD := rfl
    simp only [e, hc, if_true]
  have hsub : luaK_posfix luaO_rawarith fs .OPR_SUB e1 e2 line
      = .ok (fs, { e1 with k := .VKINT, ival := wrap64 (e1.ival - e2.ival) }, e2) := by
    have hc := constfolding_integers luaO_rawarith fs LUA_OPSUB e1 e2 _ (Or.inr (Or.inl rfl))
      h1 h1j h2 h2j hs
    unfold luaK_posfix
    simp only [hd]
    have e : BinOpr.OPR_SUB.toNat + LUA_OPADD = LUA_OPSUB := rfl
    simp only [e, hc, if_true]
  have hmul : luaK_posfix luaO_rawarith fs .OPR_MUL e1 e2 line
      = .ok (fs, { e1 with k := .VKINT, ival := wrap64 (e1.ival * e2.ival) }, e2) := by
    have hc := constfolding_integers luaO_rawarith fs LUA_OPMUL e1 e2 _ (Or.inr (Or.inr rfl))
      h1 h1j h2 h2j hm
    unfold luaK_posfix
    simp only [hd]
    have e : BinOpr.OPR_MUL.toNat + LUA_OPADD = LUA_OPMUL := rfl
    simp only [e, hc, if_true]
  refine ⟨hadd, hsub, hmul, ?_⟩
  intro hi1 hi2 hfree
  have hw : wrap64 (e1.ival + e2.ival) = 3 := by
    rw [hi1, hi2]
    decide
  have hje : hasjumps { e1 with k := .VKINT, ival := wrap64 (e1.ival + e2.ival) } = false := h1j
  obtain ⟨fs2, hres, hfr, hcode, hpc, hk, hnk, -⟩ :=
    luaK_reserveregs_one fs (by rw [hfree]; decide)
  have hreg : (fs2.freereg : Int) - 1 = 0 := by
    rw [hfr, hfree]
    rfl
  have hint : luaK_int fs2 0 3 = .ok (luaK_codeAsBx fs2 OP_LOADI 0 3).1 := by
    unfold luaK_int
    have hf : fitsBx 3 = true := by decide
    have hc : cast_int 3 = 3 := by decide
    simp only [hf, hc, if_true]
  have hany := luaK_exp2anyreg_VKINT fs
    { e1 with k := .VKINT, ival := wrap64 (e1.ival + e2.ival) } rfl hje
  simp only [hres, hreg, hw, hint] at hany
  have hadd3 : luaK_posfix luaO_rawarith fs .OPR_ADD e1 e2 line
      = .ok (fs, { e1 with k := .VKINT, ival := 3 }, e2) := by
    rw [hadd, hw]
  refine ⟨_, _, _, hadd3, rfl, rfl, h1j, hany, rfl, rfl, ?_, ?_, ?_, ?_, ?_, ?_, ?_⟩
  · simp [luaK_codeAsBx, hpc]
  · intro j hj
    simp only [luaK_codeAsBx, luaK_code_code, hpc, hcode]
    exact setAt_other _ _ _ _ hj
  · simp only [luaK_codeAsBx, luaK_code_code, hpc, setAt_same]
    rw [GET_OPCODE_CREATE_ABx]
    rfl
  · simp only [luaK_codeAsBx, luaK_code_code, hpc, setAt_same]
    rw [GETARG_A_CREATE_ABx]
    rfl
  · simp only [luaK_codeAsBx, luaK_code_code, hpc, setAt_same]
    exact GETARG_sBx_CREATE_ABx _ _ _ (by decide) (by decide)
  · simp [luaK_codeAsBx, hk]
  · simp [luaK_codeAsBx, hnk]

theorem WrapsIntegers_integerArith : WrapsIntegers integerArith := by
  intro a b
  exact ⟨rfl, rfl, rfl⟩

/-- Witness for C20: 1 + 2 folds to the literal 3 in the fresh state, with the
integer arithmetic that wraps around. -/
theorem luaK_posfix_folds_integer_literals_witness :
    luaK_posfix integerArith (open_func 0) .OPR_ADD
        ⟨.VKINT, 0, 1, .negzero, 0, 0, -1, -1, 0⟩ ⟨.VKINT, 0, 2, .negzero, 0, 0, -1, -1, 0⟩ 1
      = .ok (open_func 0, ⟨.VKINT, 0, 3, .negzero, 0, 0, -1, -1, 0⟩,
          ⟨.VKINT, 0, 2, .negzero, 0, 0, -1, -1, 0⟩) :=
  (luaK_posfix_folds_integer_literals integerArith WrapsIntegers_integerArith (open_func 0)
    ⟨.VKINT, 0, 1, .negzero, 0, 0, -1, -1, 0⟩ ⟨.VKINT, 0, 2, .negzero, 0, 0, -1, -1, 0⟩ 1
    rfl (by decide) rfl (by decide)).1

/-! ## More instruction fields -/

theorem GET_OPCODE_SETARG_sJ (i : Instruction) (j : Int) :
    GET_OPCODE (SETARG_sJ i j) = GET_OPCODE i := by
  unfold GET_OPCODE SETARG_sJ setarg getarg
  simp only [Nat.reducePow, Int.reducePow]
  show @Eq Nat _ _
  omega

theorem GETARG_sJ_SETARG_sJ (i : Instruction) (j : Int) (h1 : -(OFFSET_sJ : Int) ≤ j)
    (h2 : j ≤ (MAXARG_sJ : Int) - OFFSET_sJ) :
    GETARG_sJ (SETARG_sJ i j) = j := by
  unfold GETARG_sJ SETARG_sJ setarg getarg
  unfold OFFSET_sJ MAXARG_sJ at *
  simp only [Nat.reducePow, Int.reducePow] at *
  omega

theorem GET_OPCODE_SET_OPCODE (i : Instruction) (o : OpCode) :
    GET_OPCODE (SET_OPCODE i o) = o % 128 := by
  unfold GET_OPCODE SET_OPCODE setarg getarg
  simp only [Nat.reducePow, Int.reducePow]
  show @Eq Nat _ _
  omega

theorem GETARG_A_SET_OPCODE (i : Instruction) (o : OpCode) :
    GETARG_A (SET_OPCODE i o) = GETARG_A i := by
  unfold GETARG_A SET_OPCODE setarg getarg
  simp only [Nat.reducePow, Int.reducePow]
  omega

theorem GETARG_B_SET_OPCODE (i : Instruction) (o : OpCode) :
    GETARG_B (SET_OPCODE i o) = GETARG_B i := by
  unfold GETARG_B SET_OPCODE setarg getarg
  simp only [Nat.reducePow, Int.reducePow]
  omega

theorem GET_OPCODE_SETARG_C (i : Instruction) (v : Int) :
    GET_OPCODE (SETARG_C i v) = GET_OPCODE i := by
  unfold GET_OPCODE SETARG_C setarg getarg
  simp only [Nat.reducePow, Int.reducePow]
  show @Eq Nat _ _
  omega

theorem GETARG_A_SETARG_C (i : Instruction) (v : Int) :
    GETARG_A (SETARG_C i v) = GETARG_A i := by
  unfold GETARG_A SETARG_C setarg getarg
  simp only [Nat.reducePow, Int.reducePow]
  omega

theorem GETARG_B_SETARG_C (i : Instruction) (v : Int) :
    GETARG_B (SETARG_C i v) = GETARG_B i := by
  unfold GETARG_B SETARG_C setarg getarg
  simp only [Nat.reducePow, Int.reducePow]
  omega

theorem GETARG_C_SETARG_C (i : Instruction) (v : Int) :
    GETARG_C (SETARG_C i v) = v % 256 := by
  unfold GETARG_C SETARG_C setarg getarg
  simp only [Nat.reducePow, Int.reducePow]
  omega

theorem GET_OPCODE_SETARG_k (i : Instruction) (v : Int) :
    GET_OPCODE (SETARG_k i v) = GET_OPCODE i := by
  unfold GET_OPCODE SETARG_k setarg getarg
  simp only [Nat.reducePow, Int.reducePow]
  show @Eq Nat _ _
  omega

theorem GETARG_A_SETARG_k (i : Instruction) (v : Int) :
    GETARG_A (SETARG_k i v) = GETARG_A i := by
  unfold GETARG_A SETARG_k setarg getarg
  simp only [Nat.reducePow, Int.reducePow]
  omega

theorem GETARG_B_SETARG_k (i : Instruction) (v : Int) :
    GETARG_B (SETARG_k i v) = GETARG_B i := by
  unfold GETARG_B SETARG_k setarg getarg
  simp only [Nat.reducePow, Int.reducePow]
  omega

theorem GETARG_C_SETARG_k (i : Instruction) (v : Int) :
    GETARG_C (SETARG_k i v) = GETARG_C i := by
  unfold GETARG_C SETARG_k setarg getarg
  simp only [Nat.reducePow, Int.reducePow]
  omega

theorem GETARG_k_SETARG_k (i : Instruction) (v : Int) :
    GETARG_k (SETARG_k i v) = v % 2 := by
  unfold GETARG_k SETARG_k setarg getarg
  simp only [Nat.reducePow, Int.reducePow]
  omega

/-- Writing the `k` bit twice leaves the last value; writing back the value
that was there restores the instruction. -/
theorem SETARG_k_SETARG_k (i : Instruction) (v : Int) :
    SETARG_k (SETARG_k i v) (GETARG_k i) = i := by
  unfold SETARG_k GETARG_k setarg getarg
  simp only [Nat.reducePow, Int.reducePow]
  show @Eq Nat _ _
  omega

/-! ## Jump lists -/

theorem JumpList_NO_JUMP {fs : FuncState} {ns : List Int} (h : JumpList fs NO_JUMP ns) :
    ns = [] := by
  cases ns with
  | nil => rfl
  | cons n ns =>
    unfold JumpList at h
    obtain ⟨h1, h2, -⟩ := h
    unfold NO_JUMP at h1
    omega

theorem JumpList_nodes {fs : FuncState} :
    ∀ {ns : List Int} {l : Int}, JumpList fs l ns → ∀ n ∈ ns, 0 ≤ n ∧ n < (fs.pc : Int) := by
  intro ns
  induction ns with
  | nil =>
    intro l _ n hn
    cases hn
  | cons m ns ih =>
    intro l h n hn
    unfold JumpList at h
    obtain ⟨-, h2, h3, h4⟩ := h
    rcases List.mem_cons.1 hn with e | e
    · subst e
      exact ⟨h2, h3⟩
    · exact ih h4 n e

theorem JumpList_length_le {fs : FuncState} {ns : List Int} {l : Int}
    (h : JumpList fs l ns) (hnd : ns.Nodup) : ns.length ≤ fs.pc := by
  have hsub : ns.toFinset ⊆ Finset.Ico (0 : Int) (fs.pc : Int) := by
    intro n hn
    have := JumpList_nodes h n (List.mem_toFinset.1 hn)
    exact Finset.mem_Ico.2 this
  have hc := Finset.card_le_card hsub
  rw [List.toFinset_card_of_nodup hnd, Int.card_Ico] at hc
  simpa using hc

theorem getjump_congr {fs fs1 : FuncState} {n : Int}
    (h : fs1.code n.toNat = fs.code n.toNat) : getjump fs1 n = getjump fs n := by
  unfold getjump
  rw [h]

theorem JumpList_congr {fs fs1 : FuncState} (hpc : fs1.pc = fs.pc) :
    ∀ {ns : List Int} {l : Int}, (∀ n ∈ ns, fs1.code n.toNat = fs.code n.toNat) →
      JumpList fs l ns → JumpList fs1 l ns := by
  intro ns
  induction ns with
  | nil =>
    intro l _ h
    exact h
  | cons m ns ih =>
    intro l hc h
    unfold JumpList at h ⊢
    obtain ⟨h1, h2, h3, h4⟩ := h
    refine ⟨h1, h2, by rw [hpc]; exact h3, ?_⟩
    rw [getjump_congr (hc m (List.mem_cons_self _ _))]
    exact ih (fun n hn => hc n (List.mem_cons_of_mem _ hn)) h4

theorem lastjump_spec {fs : FuncState} :
    ∀ {ns : List Int} {l : Int} (fuel : Nat) (hne : ns ≠ []), JumpList fs l ns →
      ns.length ≤ fuel → lastjump fs fuel l = some (ns.getLast hne) := by
  intro ns
  induction ns with
  | nil =>
    intro l fuel hne
    exact absurd rfl hne
  | cons m ns ih =>
    intro l fuel hne h hlen
    unfold JumpList at h
    obtain ⟨h1, h2, h3, h4⟩ := h
    subst h1
    cases fuel with
    | zero => simp at hlen
    | succ fuel =>
      unfold lastjump
      cases ns with
      | nil =>
        unfold JumpList at h4
        simp [h4]
      | cons m2 ns2 =>
        have hnext : getjump fs l ≠ NO_JUMP := by
          unfold JumpList at h4
          obtain ⟨e, e2, -⟩ := h4
          unfold NO_JUMP
          omega
        simp only [hnext, ne_eq, not_false_eq_true, if_true]
        rw [ih fuel (List.cons_ne_nil _ _) h4 (by simpa using hlen)]
        simp [List.getLast_cons]

theorem JumpList_append {fs fs1 : FuncState} {l2 : Int} {ns2 : List Int}
    (hpc : fs1.pc = fs.pc) (h2 : JumpList fs l2 ns2) :
    ∀ {ns1 : List Int} {l1 : Int} (hne : ns1 ≠ []), JumpList fs l1 ns1 →
      (ns1 ++ ns2).Nodup →
      (∀ j, j ≠ (ns1.getLast hne).toNat → fs1.code j = fs.code j) →
      getjump fs1 (ns1.getLast hne) = l2 → JumpList fs1 l1 (ns1 ++ ns2) := by
  intro ns1
  induction ns1 with
  | nil =>
    intro l1 hne
    exact absurd rfl hne
  | cons m ns ih =>
    intro l1 hne h1 hnd hcode hlast
    have hnodes1 := JumpList_nodes h1
    have hnodes2 := JumpList_nodes h2
    unfold JumpList at h1
    obtain ⟨e1, e2, e3, e4⟩ := h1
    cases ns with
    | nil =>
      simp only [List.getLast_singleton] at hcode hlast
      show JumpList fs1 l1 (m :: ns2)
      unfold JumpList
      refine ⟨e1, e2, by rw [hpc]; exact e3, ?_⟩
      rw [hlast]
      apply JumpList_congr hpc _ h2
      intro n hn
      apply hcode
      have hnm : n ≠ m := by
        intro e
        subst e
        have := (List.nodup_cons.1 hnd).1
        exact this (by simpa using hn)
      have := hnodes2 n hn
      omega
    | cons m2 ns2' =>
      have hl : (m :: m2 :: ns2').getLast hne = (m2 :: ns2').getLast (List.cons_ne_nil _ _) := by
        simp [List.getLast_cons]
      rw [hl] at hcode hlast
      show JumpList fs1 l1 (m :: ((m2 :: ns2') ++ ns2))
      unfold JumpList
      refine ⟨e1, e2, by rw [hpc]; exact e3, ?_⟩
      have hmem : (m2 :: ns2').getLast (List.cons_ne_nil _ _) ∈ m2 :: ns2' :=
        List.getLast_mem _
      have hm : m ≠ (m2 :: ns2').getLast (List.cons_ne_nil _ _) := by
        intro e
        have := (List.nodup_cons.1 hnd).1
        apply this
        rw [e]
        exact List.mem_append_left _ hmem
      have hlastr := hnodes1 _ (List.mem_cons_of_mem _ hmem)
      rw [getjump_congr (hcode _ (by omega))]
      exact ih (List.cons_ne_nil _ _) e4 (List.nodup_cons.1 hnd).2 hcode hlast

/-- C15: for every pair of well-formed jump lists l1 and l2 (each walked with
getjump through its nodes and ending with NO_JUMP) that are acyclic and
disjoint (no node occurs twice among the nodes of both) and whose link offset
is in the range of sJ, luaK_concat(&l1, l2) terminates and leaves in l1 a
well-formed list whose nodes are the nodes of the old l1 in order followed by
the nodes of l2 in order, len(l1) + len(l2) nodes in all; it changes nothing
but the instruction of the last node of the old l1, of which it keeps the
opcode and sets the sJ field, and with l2 = NO_JUMP, as with an empty l1, it
changes no instruction. -/
theorem luaK_concat_appends_lists (fs : FuncState) (l1 l2 : Int) (ns1 ns2 : List Int)
    (h1 : JumpList fs l1 ns1) (h2 : JumpList fs l2 ns2) (hnd : (ns1 ++ ns2).Nodup)
    (hrange : ∀ hne : ns1 ≠ [], ns2 ≠ [] →
      -(OFFSET_sJ : Int) ≤ l2 - (ns1.getLast hne + 1) ∧
      l2 - (ns1.getLast hne + 1) ≤ (MAXARG_sJ : Int) - OFFSET_sJ) :
    ∃ fs1 l, luaK_concat fs l1 l2 = .ok (fs1, l) ∧
      JumpList fs1 l (ns1 ++ ns2) ∧ (ns1 ++ ns2).length = ns1.length + ns2.length ∧
      CodeOnly fs fs1 ∧
      (∀ j, GET_OPCODE (fs1.code j) = GET_OPCODE (fs.code j)) ∧
      (∀ hne : ns1 ≠ [], ∀ j, j ≠ (ns1.getLast hne).toNat → fs1.code j = fs.code j) ∧
      (∀ hne : ns1 ≠ [], ns2 ≠ [] →
        fs1.code (ns1.getLast hne).toNat
          = SETARG_sJ (fs.code (ns1.getLast hne).toNat) (l2 - (ns1.getLast hne + 1)) ∧
        getjump fs1 (ns1.getLast hne) = l2) ∧
      (l2 = NO_JUMP → fs1 = fs ∧ l = l1) ∧ (ns1 = [] → fs1 = fs ∧ l = l2) := by
  by_cases hl2 : l2 = NO_JUMP
  · -- nothing to concatenate
    subst hl2
    have hns2 := JumpList_NO_JUMP h2
    subst hns2
    refine ⟨fs, l1, by simp [luaK_concat], by simpa using h1, by simp, CodeOnly.refl _,
      fun _ => rfl, fun _ _ _ => rfl, fun _ h => absurd rfl h, fun _ => ⟨rfl, rfl⟩, ?_⟩
    intro e
    subst e
    exact ⟨rfl, h1⟩
  · by_cases hl1 : l1 = NO_JUMP
    · -- no original value
      subst hl1
      have hns1 := JumpList_NO_JUMP h1
      subst hns1
      refine ⟨fs, l2, by simp [luaK_concat, hl2], by simpa using h2, by simp, CodeOnly.refl _,
        fun _ => rfl, fun _ _ _ => rfl, fun h => absurd rfl h, fun h => absurd h hl2,
        fun _ => ⟨rfl, rfl⟩⟩
    · have hne1 : ns1 ≠ [] := by
        intro e
        subst e
        exact hl1 h1
      have hne2 : ns2 ≠ [] := by
        intro e
        subst e
        exact hl2 h2
      have hnd1 : ns1.Nodup := (List.nodup_append.1 hnd).1
      have hlast := lastjump_spec fs.pc hne1 h1 (JumpList_length_le h1 hnd1)
      obtain ⟨hr1, hr2⟩ := hrange hne1 hne2
      have hmem : ns1.getLast hne1 ∈ ns1 := List.getLast_mem _
      have hlastr := JumpList_nodes h1 _ hmem
      have hfix : fixjump fs (ns1.getLast hne1) l2 = .ok { fs with
          code := setAt fs.code (ns1.getLast hne1).toNat
            (SETARG_sJ (fs.code (ns1.getLast hne1).toNat) (l2 - (ns1.getLast hne1 + 1))) } := by
        unfold fixjump
        simp [hr1, hr2]
      have hres : luaK_concat fs l1 l2 = .ok ({ fs with
          code := setAt fs.code (ns1.getLast hne1).toNat
            (SETARG_sJ (fs.code (ns1.getLast hne1).toNat) (l2 - (ns1.getLast hne1 + 1))) },
          l1) := by
        unfold luaK_concat
        simp only [hl2, hl1, if_false, hlast, hfix]
      -- the first node of l2 is not the last node of l1
      have hl2node : l2 ∈ ns2 := by
        cases ns2 with
        | nil => exact absurd rfl hne2
        | cons m ns =>
          unfold JumpList at h2
          rw [h2.1]
          exact List.mem_cons_self _ _
      have hdiff : l2 ≠ ns1.getLast hne1 := by
        intro e
        have hdis := (List.nodup_append.1 hnd).2.2
        exact hdis hmem (by rw [← e]; exact hl2node)
      have hget : getjump { fs with
          code := setAt fs.code (ns1.getLast hne1).toNat
            (SETARG_sJ (fs.code (ns1.getLast hne1).toNat) (l2 - (ns1.getLast hne1 + 1))) }
          (ns1.getLast hne1) = l2 := by
        unfold getjump
        simp only [setAt_same]
        rw [GETARG_sJ_SETARG_sJ _ _ hr1 hr2]
        have : ¬ (l2 - (ns1.getLast hne1 + 1) = NO_JUMP) := by
          unfold NO_JUMP
          omega
        simp only [this, if_false]
        omega
      refine ⟨_, _, hres, ?_, by simp, CodeOnly.setcode _ _, ?_, ?_, ?_,
        fun h => absurd h hl2, fun h => absurd h hne1⟩
      · refine JumpList_append ?_ h2 hne1 h1 hnd ?_ hget
        · rfl
        · intro j hj
          exact setAt_other _ _ _ _ hj
      · intro j
        by_cases hj : j = (ns1.getLast hne1).toNat
        · subst hj
          simp only [setAt_same]
          exact GET_OPCODE_SETARG_sJ _ _
        · simp only [setAt_other _ _ _ _ hj]
      · intro _ j hj
        exact setAt_other _ _ _ _ hj
      · intro _ _
        exact ⟨setAt_same _ _ _, hget⟩

/-- Witness for C15: in a state of two instructions that are both jumps
without target, the list of node 0 followed by the list of node 1. -/
theorem luaK_concat_appends_lists_witness :
    ∃ fs1 l, luaK_concat
        { open_func 0 with pc := 2, code := fun _ => CREATE_sJ OP_JMP (NO_JUMP + OFFSET_sJ) 0 }
        0 1 = .ok (fs1, l) ∧
      JumpList fs1 l [0, 1] := by
  have hj : ∀ n : Int, getjump
      { open_func 0 with pc := 2, code := fun _ => CREATE_sJ OP_JMP (NO_JUMP + OFFSET_sJ) 0 } n
      = NO_JUMP := by
    intro n
    unfold getjump
    simp only
    rw [GETARG_sJ_CREATE_sJ _ _ (by decide) (by decide)]
    simp
  obtain ⟨fs1, l, h, hl, -⟩ := luaK_concat_appends_lists
    { open_func 0 with pc := 2, code := fun _ => CREATE_sJ OP_JMP (NO_JUMP + OFFSET_sJ) 0 }
    0 1 [0] [1]
    (by
      unfold JumpList
      refine ⟨rfl, by decide, by decide, ?_⟩
      rw [hj]
      rfl)
    (by
      unfold JumpList
      refine ⟨rfl, by decide, by decide, ?_⟩
      rw [hj]
      rfl)
    (by decide)
    (by
      intro _ _
      simp only [List.getLast_singleton]
      decide)
  exact ⟨fs1, l, h, hl⟩

/-! ## Patching a jump list -/

theorem testTMode_TESTSET : testTMode OP_TESTSET = true := by decide

/-- With no register to put the value in, `patchtestreg` on a jump changes the
instruction before the jump to a `TEST` when it is a `TESTSET`, and nothing
otherwise. -/
theorem patchtestreg_NO_REG (fs : FuncState) (n : Int)
    (hjmp : GET_OPCODE (fs.code n.toNat) = OP_JMP) :
    patchtestreg fs n NO_REG =
      if 1 ≤ n ∧ GET_OPCODE (fs.code (n - 1).toNat) = OP_TESTSET then
        ({ fs with code := setAt fs.code (n - 1).toNat (CREATE_ABCk OP_TEST (GETARG_B (fs.code (n - 1).toNat)) 0 0 (GETARG_k (fs.code (n - 1).toNat))) }, true)
      else (fs, false) := by
  have hne : GET_OPCODE (fs.code n.toNat) ≠ OP_TESTSET := by
    rw [hjmp]
    decide
  unfold patchtestreg
  dsimp only
  by_cases h : 1 ≤ n ∧ GET_OPCODE (fs.code (n - 1).toNat) = OP_TESTSET
  · have hp : getjumpcontrol fs n = n - 1 := by
      unfold getjumpcontrol
      exact if_pos ⟨h.1, by rw [h.2]; decide⟩
    have hn : ¬ (NO_REG ≠ NO_REG ∧ NO_REG ≠ GETARG_B (fs.code (n - 1).toNat)) := by
      simp
    rw [hp, if_neg (not_not.2 h.2), if_neg hn, if_pos h]
  · have hop : GET_OPCODE (fs.code (getjumpcontrol fs n).toNat) ≠ OP_TESTSET := by
      unfold getjumpcontrol
      split
      · rename_i h1
        exact fun e => h ⟨h1.1, e⟩
      · exact hne
    rw [if_pos hop, if_neg h]

theorem patchlistauxLoop_spec (target : Int) :
    ∀ (ns : List Int) (fs : FuncState) (l : Int) (fuel : Nat),
      JumpList fs l ns → ns.Nodup →
      (∀ n ∈ ns, GET_OPCODE (fs.code n.toNat) = OP_JMP) →
      (∀ n ∈ ns, -(OFFSET_sJ : Int) ≤ target - (n + 1) ∧
        target - (n + 1) ≤ (MAXARG_sJ : Int) - OFFSET_sJ) →
      ns.length ≤ fuel →
      ∃ fs1, patchlistauxLoop fuel fs l target NO_REG target = .ok fs1 ∧ CodeOnly fs fs1 ∧
        ∀ j : Nat, fs1.code j =
          if (j : Int) ∈ ns then SETARG_sJ (fs.code j) (target - ((j : Int) + 1))
          else if (j : Int) + 1 ∈ ns ∧ GET_OPCODE (fs.code j) = OP_TESTSET then
            CREATE_ABCk OP_TEST (GETARG_B (fs.code j)) 0 0 (GETARG_k (fs.code j))
          else fs.code j := by
  intro ns
  induction ns with
  | nil =>
    intro fs l fuel hl _ _ _ _
    have hl' : l = NO_JUMP := hl
    refine ⟨fs, ?_, CodeOnly.refl _, ?_⟩
    · unfold patchlistauxLoop
      simp [hl']
    · intro j
      simp
  | cons n ns ih =>
    intro fs l fuel hl hnd hjmp hrange hfuel
    have hnodes := JumpList_nodes hl
    unfold JumpList at hl
    obtain ⟨e1, e2, e3, e4⟩ := hl
    subst e1
    obtain ⟨hnn, hnd'⟩ := List.nodup_cons.1 hnd
    have hjn := hjmp l (List.mem_cons_self _ _)
    obtain ⟨hr1, hr2⟩ := hrange l (List.mem_cons_self _ _)
    cases fuel with
    | zero => simp at hfuel
    | succ fuel =>
      have hlne : l ≠ NO_JUMP := by
        unfold NO_JUMP
        omega
      -- the state after `patchtestreg`
      obtain ⟨fsm, hm, hmcode, hmn, hmother⟩ : ∃ fsm, patchtestreg fs l NO_REG =
            (fsm, decide (1 ≤ l ∧ GET_OPCODE (fs.code (l - 1).toNat) = OP_TESTSET)) ∧
          CodeOnly fs fsm ∧ fsm.code l.toNat = fs.code l.toNat ∧
          (∀ j : Nat, fsm.code j =
            if (j : Int) + 1 = l ∧ GET_OPCODE (fs.code j) = OP_TESTSET then
              CREATE_ABCk OP_TEST (GETARG_B (fs.code j)) 0 0 (GETARG_k (fs.code j))
            else fs.code j) := by
        rw [patchtestreg_NO_REG fs l hjn]
        by_cases h : 1 ≤ l ∧ GET_OPCODE (fs.code (l - 1).toNat) = OP_TESTSET
        · simp only [h, and_self, if_true, decide_True]
          refine ⟨_, rfl, CodeOnly.setcode _ _, ?_, ?_⟩
          · exact setAt_other _ _ _ _ (by omega)
          · intro j
            by_cases hj : j = (l - 1).toNat
            · subst hj
              have : (((l - 1).toNat : Nat) : Int) + 1 = l := by omega
              simp only [setAt_same, this, h.2, and_self, if_true]
            · have : ¬ ((j : Int) + 1 = l) := by omega
              simp only [setAt_other _ _ _ _ hj, this, false_and, if_false]
        · simp only [h, if_false, decide_False]
          refine ⟨_, rfl, CodeOnly.refl _, rfl, ?_⟩
          intro j
          by_cases hj : (j : Int) + 1 = l
          · have hj2 : j = (l - 1).toNat := by omega
            have : ¬ GET_OPCODE (fs.code j) = OP_TESTSET := by
              intro e
              apply h
              refine ⟨by omega, ?_⟩
              rw [← hj2]
              exact e
            simp only [this, and_false, if_false]
          · simp only [hj, false_and, if_false]
      -- the state after `fixjump`
      have hfix : ∀ t : Int, t = target → fixjump fsm l t = .ok { fsm with
          code := setAt fsm.code l.toNat (SETARG_sJ (fs.code l.toNat) (target - (l + 1))) } := by
        intro t ht
        subst ht
        unfold fixjump
        simp [hr1, hr2, hmn]
      have hcode2 : ∀ m ∈ ns, (setAt fsm.code l.toNat
          (SETARG_sJ (fs.code l.toNat) (target - (l + 1)))) m.toNat = fs.code m.toNat := by
        intro m hmem
        have hmr := hnodes m (List.mem_cons_of_mem _ hmem)
        have hml : m ≠ l := fun e => hnn (e ▸ hmem)
        rw [setAt_other _ _ _ _ (by omega), hmother]
        have hjm := hjmp m (List.mem_cons_of_mem _ hmem)
        have : ¬ GET_OPCODE (fs.code m.toNat) = OP_TESTSET := by
          rw [hjm]
          decide
        simp only [this, and_false, if_false]
      obtain ⟨fs1, hrec, hco, hfinal⟩ := ih
        { fsm with code := setAt fsm.code l.toNat (SETARG_sJ (fs.code l.toNat) (target - (l + 1))) }
        (getjump fs l) fuel
        (JumpList_congr (by exact hmcode.pc) hcode2 e4) hnd'
        (fun m hmem => by
          show GET_OPCODE ((setAt fsm.code l.toNat _) m.toNat) = OP_JMP
          rw [hcode2 m hmem]
          exact hjmp m (List.mem_cons_of_mem _ hmem))
        (fun m hmem => hrange m (List.mem_cons_of_mem _ hmem))
        (by simpa using hfuel)
      refine ⟨fs1, ?_, ?_, ?_⟩
      · unfold patchlistauxLoop
        simp only [hlne, if_false, hm, ite_self, hfix target rfl]
        exact hrec
      · exact (hmcode.trans (CodeOnly.setcode _ _)).trans hco
      · intro j
        rw [hfinal j]
        show (if (j : Int) ∈ ns then SETARG_sJ ((setAt fsm.code l.toNat
              (SETARG_sJ (fs.code l.toNat) (target - (l + 1)))) j) (target - ((j : Int) + 1))
            else if (j : Int) + 1 ∈ ns ∧ GET_OPCODE ((setAt fsm.code l.toNat
              (SETARG_sJ (fs.code l.toNat) (target - (l + 1)))) j) = OP_TESTSET then
              CREATE_ABCk OP_TEST (GETARG_B ((setAt fsm.code l.toNat
                (SETARG_sJ (fs.code l.toNat) (target - (l + 1)))) j)) 0 0
                (GETARG_k ((setAt fsm.code l.toNat
                  (SETARG_sJ (fs.code l.toNat) (target - (l + 1)))) j))
            else (setAt fsm.code l.toNat
              (SETARG_sJ (fs.code l.toNat) (target - (l + 1)))) j) = _
        by_cases hjl : (j : Int) = l
        · -- the node itself
          have hj : j = l.toNat := by omega
          subst hj
          have hnot : ¬ (((l.toNat : Nat) : Int) ∈ ns) := by
            rw [hjl]
            exact hnn
          have hop : ¬ GET_OPCODE (SETARG_sJ (fs.code l.toNat) (target - (l + 1)))
              = OP_TESTSET := by
            rw [GET_OPCODE_SETARG_sJ, hjn]
            decide
          simp only [setAt_same, hnot, hnn, if_false, hop, and_false, List.mem_cons, hjl,
            true_or, if_true]
        · have hj : j ≠ l.toNat := by omega
          simp only [setAt_other _ _ _ _ hj, List.mem_cons, hjl, false_or]
          rw [hmother j]
          by_cases hmem : (j : Int) ∈ ns
          · have hjm := hjmp (j : Int) (List.mem_cons_of_mem _ hmem)
            have hjm2 : GET_OPCODE (fs.code j) = OP_JMP := by simpa using hjm
            have : ¬ GET_OPCODE (fs.code j) = OP_TESTSET := by
              rw [hjm2]
              decide
            simp only [hmem, if_true, this, and_false, if_false]
          · simp only [hmem, if_false]
            by_cases hjl1 : (j : Int) + 1 = l
            · by_cases hts : GET_OPCODE (fs.code j) = OP_TESTSET
              · have hnot : ¬ ((j : Int) + 1 ∈ ns) := by
                  rw [hjl1]
                  exact hnn
                have hop : ¬ GET_OPCODE (CREATE_ABCk OP_TEST (GETARG_B (fs.code j)) 0 0
                    (GETARG_k (fs.code j))) = OP_TESTSET := by
                  rw [GET_OPCODE_CREATE_ABCk]
                  decide
                simp only [hjl1, hts, and_self, if_true, hnot, hnn, false_and, if_false,
                  true_or]
              · simp only [hts, and_false, if_false]
            · simp only [hjl1, false_and, if_false, false_or]

theorem GETARG_B_range (i : Instruction) : 0 ≤ GETARG_B i ∧ GETARG_B i ≤ 255 := by
  unfold GETARG_B getarg
  simp only [Nat.reducePow]
  omega

theorem GETARG_k_range (i : Instruction) : 0 ≤ GETARG_k i ∧ GETARG_k i ≤ 1 := by
  unfold GETARG_k getarg
  simp only [Nat.reducePow]
  omega

/-- C16: for every well-formed jump list (walked with getjump through its
nodes, which are distinct JMP instructions, and ending with NO_JUMP) and every
target <= pc within jump range of every node, luaK_patchlist(list, target)
returns, and afterwards every JMP that was in the list has its sJ offset equal
to target - (node + 1), that is, it jumps to target; every TESTSET controlling
a node of the list (the instruction just before the node) has been rewritten
to a plain TEST on the same register (its A is the B of the TESTSET, B and C
are 0) with the same k bit; and no instruction other than the jumps of the
list and their controlling TESTSETs is modified. -/
theorem luaK_patchlist_patches_every_jump (fs : FuncState) (list target : Int)
    (ns : List Int) (hl : JumpList fs list ns) (hnd : ns.Nodup)
    (hjmp : ∀ n ∈ ns, GET_OPCODE (fs.code n.toNat) = OP_JMP)
    (_htarget : target ≤ (fs.pc : Int))
    (hrange : ∀ n ∈ ns, -(OFFSET_sJ : Int) ≤ target - (n + 1) ∧
      target - (n + 1) ≤ (MAXARG_sJ : Int) - OFFSET_sJ) :
    ∃ fs1, luaK_patchlist fs list target = .ok fs1 ∧ CodeOnly fs fs1 ∧
      (∀ n ∈ ns, GET_OPCODE (fs1.code n.toNat) = OP_JMP ∧
        GETARG_sJ (fs1.code n.toNat) = target - (n + 1)) ∧
      (∀ n ∈ ns, 1 ≤ n → GET_OPCODE (fs.code (n - 1).toNat) = OP_TESTSET →
        GET_OPCODE (fs1.code (n - 1).toNat) = OP_TEST ∧
        GETARG_A (fs1.code (n - 1).toNat) = GETARG_B (fs.code (n - 1).toNat) ∧
        GETARG_k (fs1.code (n - 1).toNat) = GETARG_k (fs.code (n - 1).toNat) ∧
        GETARG_B (fs1.code (n - 1).toNat) = 0 ∧ GETARG_C (fs1.code (n - 1).toNat) = 0) ∧
      (∀ j : Nat, (j : Int) ∉ ns →
        ¬ ((j : Int) + 1 ∈ ns ∧ GET_OPCODE (fs.code j) = OP_TESTSET) →
        fs1.code j = fs.code j) := by
  obtain ⟨fs1, h1, h2, h3⟩ := patchlistauxLoop_spec target ns fs list fs.pc hl hnd hjmp hrange
    (JumpList_length_le hl hnd)
  have hnodes := JumpList_nodes hl
  refine ⟨fs1, h1, h2, ?_, ?_, ?_⟩
  · intro n hn
    have hr := hnodes n hn
    have hcast : ((n.toNat : Nat) : Int) = n := by omega
    rw [h3 n.toNat]
    simp only [hcast, hn, if_true]
    obtain ⟨r1, r2⟩ := hrange n hn
    exact ⟨by rw [GET_OPCODE_SETARG_sJ]; exact hjmp n hn, GETARG_sJ_SETARG_sJ _ _ r1 r2⟩
  · intro n hn h1n hts
    have hcast : (((n - 1).toNat : Nat) : Int) = n - 1 := by omega
    have hnot : ¬ ((((n - 1).toNat : Nat) : Int) ∈ ns) := by
      intro hmem
      have := hjmp _ hmem
      simp only [Int.toNat_ofNat] at this
      rw [this] at hts
      exact absurd hts (by decide)
    have hsucc : (((n - 1).toNat : Nat) : Int) + 1 ∈ ns := by
      rw [hcast]
      simpa using hn
    rw [h3 (n - 1).toNat]
    simp only [hnot, if_false, hsucc, hts, and_self, if_true]
    have hb := GETARG_B_range (fs.code (n - 1).toNat)
    have hk := GETARG_k_range (fs.code (n - 1).toNat)
    rw [GET_OPCODE_CREATE_ABCk, GETARG_A_CREATE_ABCk, GETARG_k_CREATE_ABCk,
      GETARG_B_CREATE_ABCk, GETARG_C_CREATE_ABCk]
    refine ⟨rfl, by omega, by omega, rfl, rfl⟩
  · intro j hj1 hj2
    rw [h3 j]
    simp only [hj1, if_false, hj2]

/-- Witness for C16: the list of the single jump at position 1, controlled by
a TESTSET at position 0, patched to target 2. -/
theorem luaK_patchlist_patches_every_jump_witness :
    ∃ fs1, luaK_patchlist
        { open_func 0 with pc := 2, code := fun j => if j = 0 then CREATE_ABCk OP_TESTSET 255 3 0 1 else CREATE_sJ OP_JMP (NO_JUMP + OFFSET_sJ) 0 }
        1 2 = .ok fs1 ∧
      GET_OPCODE (fs1.code 1) = OP_JMP ∧ GETARG_sJ (fs1.code 1) = 0 ∧
      GET_OPCODE (fs1.code 0) = OP_TEST ∧ GETARG_A (fs1.code 0) = 3 ∧
      GETARG_k (fs1.code 0) = 1 := by
  have hj : GET_OPCODE (CREATE_sJ OP_JMP (NO_JUMP + OFFSET_sJ) 0) = OP_JMP := by
    rw [GET_OPCODE_CREATE_sJ]
    rfl
  have ht : GET_OPCODE (CREATE_ABCk OP_TESTSET 255 3 0 1) = OP_TESTSET := by
    rw [GET_OPCODE_CREATE_ABCk]
    rfl
  have hb : GETARG_B (CREATE_ABCk OP_TESTSET 255 3 0 1) = 3 := by
    rw [GETARG_B_CREATE_ABCk]
    rfl
  have hk : GETARG_k (CREATE_ABCk OP_TESTSET 255 3 0 1) = 1 := by
    rw [GETARG_k_CREATE_ABCk]
    rfl
  obtain ⟨fs1, h1, -, h2, h3, -⟩ := luaK_patchlist_patches_every_jump
    { open_func 0 with pc := 2, code := fun j => if j = 0 then CREATE_ABCk OP_TESTSET 255 3 0 1 else CREATE_sJ OP_JMP (NO_JUMP + OFFSET_sJ) 0 }
    1 2 [1]
    (by
      unfold JumpList
      refine ⟨rfl, by decide, by decide, ?_⟩
      have : getjump { open_func 0 with pc := 2, code := fun j => if j = 0 then CREATE_ABCk OP_TESTSET 255 3 0 1 else CREATE_sJ OP_JMP (NO_JUMP + OFFSET_sJ) 0 } 1 = NO_JUMP := by
        unfold getjump
        simp only [Int.toNat_one, one_ne_zero, if_false]
        rw [GETARG_sJ_CREATE_sJ _ _ (by decide) (by decide)]
        simp
      rw [this]
      rfl)
    (by decide)
    (by
      intro n hn
      simp only [List.mem_singleton] at hn
      subst hn
      exact hj)
    (by decide)
    (by
      intro n hn
      simp only [List.mem_singleton] at hn
      subst hn
      decide)
  have a := h2 1 (by simp)
  have b := h3 1 (by simp) (by decide) ht
  simp only [Int.toNat_one, sub_self, Int.toNat_zero, ↓reduceIte, hb, hk] at a b
  exact ⟨fs1, h1, a.1, by simpa using a.2, b.1, b.2.1, b.2.2.1⟩

/-! ## Negation -/

theorem OnlyTestsets.unchanged (fs : FuncState) : OnlyTestsets fs fs :=
  ⟨CodeOnly.refl fs, fun _ _ => rfl⟩

theorem OnlyTestsets.both {fs fs1 fs2 : FuncState} (h1 : OnlyTestsets fs fs1)
    (h2 : OnlyTestsets fs1 fs2) : OnlyTestsets fs fs2 := by
  refine ⟨h1.1.trans h2.1, ?_⟩
  intro j hj
  have e1 := h1.2 j hj
  rw [h2.2 j (by rw [e1]; exact hj), e1]

theorem OnlyTestsets.jumpList {fs fs1 : FuncState} (h : OnlyTestsets fs fs1)
    {ns : List Int} {l : Int} (hl : JumpList fs l ns)
    (hjmp : ∀ n ∈ ns, GET_OPCODE (fs.code n.toNat) = OP_JMP) :
    JumpList fs1 l ns ∧ ∀ n ∈ ns, GET_OPCODE (fs1.code n.toNat) = OP_JMP := by
  have hc : ∀ n ∈ ns, fs1.code n.toNat = fs.code n.toNat := by
    intro n hn
    apply h.2
    rw [hjmp n hn]
    decide
  refine ⟨JumpList_congr h.1.pc hc hl, ?_⟩
  intro n hn
  rw [hc n hn]
  exact hjmp n hn

theorem patchtestreg_OnlyTestsets (fs : FuncState) (n : Int)
    (hjmp : GET_OPCODE (fs.code n.toNat) = OP_JMP) :
    OnlyTestsets fs (patchtestreg fs n NO_REG).1 := by
  rw [patchtestreg_NO_REG fs n hjmp]
  split
  · rename_i h
    refine ⟨CodeOnly.setcode _ _, ?_⟩
    intro j hj
    apply setAt_other
    intro e
    subst e
    exact hj h.2
  · exact OnlyTestsets.unchanged _

theorem removevaluesLoop_spec :
    ∀ (ns : List Int) (fs : FuncState) (l : Int) (fuel : Nat),
      JumpList fs l ns → (∀ n ∈ ns, GET_OPCODE (fs.code n.toNat) = OP_JMP) →
      ns.length ≤ fuel →
      ∃ fs1, removevaluesLoop fuel fs l = some fs1 ∧ OnlyTestsets fs fs1 := by
  intro ns
  induction ns with
  | nil =>
    intro fs l fuel hl _ _
    have hl' : l = NO_JUMP := hl
    refine ⟨fs, ?_, OnlyTestsets.unchanged _⟩
    unfold removevaluesLoop
    simp [hl']
  | cons n ns ih =>
    intro fs l fuel hl hjmp hfuel
    unfold JumpList at hl
    obtain ⟨e1, e2, e3, e4⟩ := hl
    subst e1
    have hjn := hjmp l (List.mem_cons_self _ _)
    cases fuel with
    | zero => simp at hfuel
    | succ fuel =>
      have hlne : l ≠ NO_JUMP := by
        unfold NO_JUMP
        omega
      have hot := patchtestreg_OnlyTestsets fs l hjn
      have hsame : (patchtestreg fs l NO_REG).1.code l.toNat = fs.code l.toNat := by
        apply hot.2
        rw [hjn]
        decide
      obtain ⟨hl2, hj2⟩ := hot.jumpList e4
        (fun m hm => hjmp m (List.mem_cons_of_mem _ hm))
      obtain ⟨fs1, hrec, hco⟩ := ih (patchtestreg fs l NO_REG).1 (getjump fs l) fuel hl2 hj2
        (by simpa using hfuel)
      refine ⟨fs1, ?_, hot.both hco⟩
      unfold removevaluesLoop
      simp only [hlne, if_false]
      rw [getjump_congr hsame]
      exact hrec

theorem removevalues_spec {fs : FuncState} {ns : List Int} {l : Int}
    (hl : JumpList fs l ns) (hnd : ns.Nodup)
    (hjmp : ∀ n ∈ ns, GET_OPCODE (fs.code n.toNat) = OP_JMP) :
    ∃ fs1, removevalues fs l = .ok fs1 ∧ OnlyTestsets fs fs1 := by
  obtain ⟨fs1, h1, h2⟩ := removevaluesLoop_spec ns fs l fs.pc hl hjmp
    (JumpList_length_le hl hnd)
  refine ⟨fs1, ?_, h2⟩
  unfold removevalues
  rw [h1]

@[simp]
theorem luaK_dischargevars_t (fs : FuncState) (e : expdesc) :
    (luaK_dischargevars fs e).2.t = e.t := by
  unfold luaK_dischargevars luaK_setoneret const2exp
  split <;> try rfl
  · dsimp only
    split
    · rfl
    · split <;> rfl
  · split_ifs
    all_goals rfl
  · split_ifs
    all_goals rfl

@[simp]
theorem luaK_dischargevars_f (fs : FuncState) (e : expdesc) :
    (luaK_dischargevars fs e).2.f = e.f := by
  unfold luaK_dischargevars luaK_setoneret const2exp
  split <;> try rfl
  · dsimp only
    split
    · rfl
    · split <;> rfl
  · split_ifs
    all_goals rfl
  · split_ifs
    all_goals rfl

theorem discharge2reg_tf {fs fs1 : FuncState} {e e1 : expdesc} {reg : Int}
    (h : discharge2reg fs e reg = .ok (fs1, e1)) : e1.t = e.t ∧ e1.f = e.f := by
  unfold discharge2reg at h
  dsimp only at h
  have ht := luaK_dischargevars_t fs e
  have hf := luaK_dischargevars_f fs e
  split at h
  all_goals first
    | (injection h with h
       injection h with _ h
       subst h
       exact ⟨ht, hf⟩)
    | skip
  · split at h
    · cases h
    · injection h with h
      injection h with _ h
      subst h
      exact ⟨ht, hf⟩
  · split at h
    · cases h
    · injection h with h
      injection h with _ h
      subst h
      exact ⟨ht, hf⟩
  · split at h
    all_goals
      injection h with h
      injection h with _ h
      subst h
      exact ⟨ht, hf⟩

theorem discharge2anyreg_tf {fs fs1 : FuncState} {e e1 : expdesc}
    (h : discharge2anyreg fs e = .ok (fs1, e1)) : e1.t = e.t ∧ e1.f = e.f := by
  unfold discharge2anyreg at h
  split at h
  · split at h
    · cases h
    · exact discharge2reg_tf h
  · injection h with h
    injection h with _ h
    subst h
    exact ⟨rfl, rfl⟩

/-- Every `codenot` that returns has interchanged the two jump lists. -/
theorem codenot_swaps {fs fs1 : FuncState} {e e1 : expdesc}
    (h : codenot fs e = .ok (fs1, e1)) : e1.t = e.f ∧ e1.f = e.t := by
  unfold codenot at h
  dsimp only at h
  split at h
  · cases h
  · rename_i fsa ea hsw
    have hea : ea.t = e.t ∧ ea.f = e.f := by
      have ht := luaK_dischargevars_t fs e
      have hf := luaK_dischargevars_f fs e
      split at hsw
      all_goals first
        | (injection hsw with hsw
           injection hsw with _ hsw
           subst hsw
           exact ⟨ht, hf⟩)
        | skip
      all_goals
        split at hsw
        · cases hsw
        · rename_i hd
          injection hsw with hsw
          injection hsw with _ hsw
          subst hsw
          obtain ⟨a, b⟩ := discharge2anyreg_tf hd
          exact ⟨by rw [← ht]; exact a, by rw [← hf]; exact b⟩
    split at h
    · cases h
    · split at h
      · cases h
      · injection h with h
        injection h with _ h
        subst h
        exact ⟨hea.2, hea.1⟩

theorem GETARG_k_flip (i : Instruction) :
    ((((GETARG_k i).toNat ^^^ 1 : Nat) : Int)) = 1 - GETARG_k i := by
  have h := GETARG_k_range i
  have h2 : GETARG_k i = 0 ∨ GETARG_k i = 1 := by omega
  rcases h2 with e | e <;> rw [e] <;> rfl

theorem testTMode_not_JMP {o : OpCode} (h : testTMode o = true) : o ≠ OP_JMP := by
  intro e
  subst e
  exact absurd h (by decide)

/-- What `codenot` does to a comparison whose jump lists are well formed: it
flips the `k` bit of the comparison, interchanges the lists, and rewrites at
most `TESTSET` instructions besides. -/
theorem codenot_VJMP (fs : FuncState) (e : expdesc) (nst nsf : List Int)
    (hk : e.k = .VJMP) (h1 : 1 ≤ e.info)
    (hcmp : testTMode (GET_OPCODE (fs.code (e.info - 1).toNat)) = true)
    (hnts : GET_OPCODE (fs.code (e.info - 1).toNat) ≠ OP_TESTSET)
    (ht : JumpList fs e.t nst) (hf : JumpList fs e.f nsf)
    (hndt : nst.Nodup) (hndf : nsf.Nodup)
    (hjt : ∀ n ∈ nst, GET_OPCODE (fs.code n.toNat) = OP_JMP)
    (hjf : ∀ n ∈ nsf, GET_OPCODE (fs.code n.toNat) = OP_JMP) :
    ∃ fs1, codenot fs e = .ok (fs1, { e with f := e.t, t := e.f }) ∧ fs1.pc = fs.pc ∧
      fs1.code (e.info - 1).toNat
        = SETARG_k (fs.code (e.info - 1).toNat) (1 - GETARG_k (fs.code (e.info - 1).toNat)) ∧
      JumpList fs1 e.t nst ∧ JumpList fs1 e.f nsf ∧
      (∀ n ∈ nst, GET_OPCODE (fs1.code n.toNat) = OP_JMP) ∧
      (∀ n ∈ nsf, GET_OPCODE (fs1.code n.toNat) = OP_JMP) ∧
      (∀ j, GET_OPCODE (fs.code j) ≠ OP_TESTSET → j ≠ (e.info - 1).toNat →
        fs1.code j = fs.code j) := by
  have hd : luaK_dischargevars fs e = (fs, e) := by
    unfold luaK_dischargevars
    simp [hk]
  have hp : getjumpcontrol fs e.info = e.info - 1 := by
    unfold getjumpcontrol
    exact if_pos ⟨h1, hcmp⟩
  have hneg : negatecondition fs e = { fs with code := setAt fs.code (e.info - 1).toNat (SETARG_k (fs.code (e.info - 1).toNat) (1 - GETARG_k (fs.code (e.info - 1).toNat))) } := by
    unfold negatecondition
    simp only [hp, GETARG_k_flip]
  -- the state after `negatecondition`
  have hnj : GET_OPCODE (fs.code (e.info - 1).toNat) ≠ OP_JMP := testTMode_not_JMP hcmp
  have hcodeN : ∀ n : Int, GET_OPCODE (fs.code n.toNat) = OP_JMP →
      (negatecondition fs e).code n.toNat = fs.code n.toNat := by
    intro n hn
    rw [hneg]
    apply setAt_other
    intro e'
    rw [e'] at hn
    exact hnj hn
  have htN : JumpList (negatecondition fs e) e.t nst :=
    JumpList_congr (by rw [hneg]) (fun n hn => hcodeN n (hjt n hn)) ht
  have hfN : JumpList (negatecondition fs e) e.f nsf :=
    JumpList_congr (by rw [hneg]) (fun n hn => hcodeN n (hjf n hn)) hf
  have hjtN : ∀ n ∈ nst, GET_OPCODE ((negatecondition fs e).code n.toNat) = OP_JMP := by
    intro n hn
    rw [hcodeN n (hjt n hn)]
    exact hjt n hn
  have hjfN : ∀ n ∈ nsf, GET_OPCODE ((negatecondition fs e).code n.toNat) = OP_JMP := by
    intro n hn
    rw [hcodeN n (hjf n hn)]
    exact hjf n hn
  -- the two calls of `removevalues`, on the new `f` (the old `t`) and the new `t`
  obtain ⟨fs2, hr2, ho2⟩ := removevalues_spec htN hndt hjtN
  obtain ⟨hf2, hjf2⟩ := ho2.jumpList hfN hjfN
  obtain ⟨ht2, hjt2⟩ := ho2.jumpList htN hjtN
  obtain ⟨fs3, hr3, ho3⟩ := removevalues_spec hf2 hndf hjf2
  obtain ⟨hf3, hjf3⟩ := ho3.jumpList hf2 hjf2
  obtain ⟨ht3, hjt3⟩ := ho3.jumpList ht2 hjt2
  have ho := ho2.both ho3
  have hop : GET_OPCODE ((negatecondition fs e).code (e.info - 1).toNat) ≠ OP_TESTSET := by
    rw [hneg]
    simp only [setAt_same]
    rw [GET_OPCODE_SETARG_k]
    exact hnts
  refine ⟨fs3, ?_, ?_, ?_, ht3, hf3, hjt3, hjf3, ?_⟩
  · unfold codenot
    simp only [hd, hk, hr2, hr3]
  · rw [ho.1.pc, hneg]
  · rw [ho.2 _ hop, hneg]
    simp only [setAt_same]
  · intro j hj hjp
    have hsame : (negatecondition fs e).code j = fs.code j := by
      rw [hneg]
      exact setAt_other _ _ _ _ hjp
    rw [ho.2 j (by rw [hsame]; exact hj), hsame]

theorem removevalues_NO_JUMP (fs : FuncState) : removevalues fs NO_JUMP = .ok fs := by
  unfold removevalues removevaluesLoop
  cases fs.pc <;> simp

theorem codenot_VNONRELOC (fs : FuncState) (e : expdesc) (hk : e.k = .VNONRELOC)
    (ht : e.t = NO_JUMP) (hf : e.f = NO_JUMP) :
    codenot fs e = .ok ((luaK_codeABC (freeexp fs e) OP_NOT 0 e.info 0).1,
      { e with info := (luaK_codeABC (freeexp fs e) OP_NOT 0 e.info 0).2, k := .VRELOC }) := by
  have hd : luaK_dischargevars fs e = (fs, e) := by
    unfold luaK_dischargevars
    simp [hk]
  have hany : discharge2anyreg fs e = .ok (fs, e) := by
    unfold discharge2anyreg
    simp [hk]
  unfold codenot
  simp only [hd, hk, hany, ht, hf, removevalues_NO_JUMP]

theorem codenot_VRELOC (fs fs2 : FuncState) (e : expdesc) (hk : e.k = .VRELOC)
    (ht : e.t = NO_JUMP) (hf : e.f = NO_JUMP) (h2 : luaK_reserveregs fs 1 = .ok fs2) :
    codenot fs e = .ok
      ((luaK_codeABC (freeexp (setinstruction fs2 e (SETARG_A (getinstruction fs2 e) ((fs2.freereg : Int) - 1))) { e with info := (fs2.freereg : Int) - 1, k := .VNONRELOC }) OP_NOT 0 ((fs2.freereg : Int) - 1) 0).1,
      { e with info := (luaK_codeABC (freeexp (setinstruction fs2 e (SETARG_A (getinstruction fs2 e) ((fs2.freereg : Int) - 1))) { e with info := (fs2.freereg : Int) - 1, k := .VNONRELOC }) OP_NOT 0 ((fs2.freereg : Int) - 1) 0).2, k := .VRELOC }) := by
  have hd : luaK_dischargevars fs e = (fs, e) := by
    unfold luaK_dischargevars
    simp [hk]
  have hd2 : luaK_dischargevars fs2 e = (fs2, e) := by
    unfold luaK_dischargevars
    simp [hk]
  have hany : discharge2anyreg fs e = .ok (setinstruction fs2 e (SETARG_A (getinstruction fs2 e) ((fs2.freereg : Int) - 1)), { e with info := (fs2.freereg : Int) - 1, k := .VNONRELOC }) := by
    unfold discharge2anyreg discharge2reg
    simp [hk, h2, hd2]
  unfold codenot
  simp only [hd, hk, hany, ht, hf, removevalues_NO_JUMP]

@[simp]
theorem freeexp_code (fs : FuncState) (e : expdesc) : (freeexp fs e).code = fs.code := by
  unfold freeexp
  split <;> simp

@[simp]
theorem freeexp_pc (fs : FuncState) (e : expdesc) : (freeexp fs e).pc = fs.pc := by
  unfold freeexp
  split <;> simp

@[simp]
theorem luaK_codeABC_pc (fs : FuncState) (o : OpCode) (a b c : Int) :
    (luaK_codeABC fs o a b c).1.pc = fs.pc + 1 := by
  simp [luaK_codeABC, luaK_codeABCk]

@[simp]
theorem luaK_codeABC_code (fs : FuncState) (o : OpCode) (a b c : Int) :
    (luaK_codeABC fs o a b c).1.code = setAt fs.code fs.pc (CREATE_ABCk o a b c 0) := by
  simp [luaK_codeABC, luaK_codeABCk]

@[simp]
theorem luaK_codeABC_freereg (fs : FuncState) (o : OpCode) (a b c : Int) :
    (luaK_codeABC fs o a b c).1.freereg = fs.freereg := by
  simp [luaK_codeABC, luaK_codeABCk]

/-- C19: applying codenot twice leaves the jump-list heads e.t and e.f equal
to their original values, for every expression e for which both calls return
(the first call interchanges them, the second interchanges them back). When e
is a VJMP whose controlling instruction, just before the jump, is a comparison
(a test-mode instruction other than TESTSET) and whose two lists are well
formed lists of distinct JMP instructions, both calls do return, the second
one gives back e itself (so e.k and e.u.info too), the k bit of the comparison
is flipped by the first call and the comparison is restored by the second, pc
is unchanged (no instruction is emitted), and no instruction other than the
comparison and TESTSET instructions is changed. When e is a local variable in
its register (VNONRELOC below nactvar) without jumps and a register is free,
both calls return too and each emits one NOT. -/
theorem codenot_twice_restores_lists (fs : FuncState) (e : expdesc) :
    (∀ fs1 e1 fs2 e2, codenot fs e = .ok (fs1, e1) → codenot fs1 e1 = .ok (fs2, e2) →
      e1.t = e.f ∧ e1.f = e.t ∧ e2.t = e.t ∧ e2.f = e.f) ∧
    (∀ nst nsf : List Int, e.k = .VJMP → 1 ≤ e.info →
      testTMode (GET_OPCODE (fs.code (e.info - 1).toNat)) = true →
      GET_OPCODE (fs.code (e.info - 1).toNat) ≠ OP_TESTSET →
      JumpList fs e.t nst → JumpList fs e.f nsf → nst.Nodup → nsf.Nodup →
      (∀ n ∈ nst, GET_OPCODE (fs.code n.toNat) = OP_JMP) →
      (∀ n ∈ nsf, GET_OPCODE (fs.code n.toNat) = OP_JMP) →
      ∃ fs1 e1 fs2, codenot fs e = .ok (fs1, e1) ∧ codenot fs1 e1 = .ok (fs2, e) ∧
        e1.k = .VJMP ∧ e1.info = e.info ∧ e1.t = e.f ∧ e1.f = e.t ∧
        fs1.pc = fs.pc ∧ fs2.pc = fs.pc ∧
        GET_OPCODE (fs1.code (e.info - 1).toNat)
          = GET_OPCODE (fs.code (e.info - 1).toNat) ∧
        GETARG_k (fs1.code (e.info - 1).toNat)
          = 1 - GETARG_k (fs.code (e.info - 1).toNat) ∧
        fs2.code (e.info - 1).toNat = fs.code (e.info - 1).toNat ∧
        (∀ j, GET_OPCODE (fs.code j) ≠ OP_TESTSET → j ≠ (e.info - 1).toNat →
          fs1.code j = fs.code j ∧ fs2.code j = fs.code j)) ∧
    (e.k = .VNONRELOC → e.t = NO_JUMP → e.f = NO_JUMP → e.info < (fs.nactvar : Int) →
      fs.freereg + 1 < MAXREGS →
      ∃ fs1 e1 fs2 e2, codenot fs e = .ok (fs1, e1) ∧ codenot fs1 e1 = .ok (fs2, e2) ∧
        e1.k = .VRELOC ∧ e2.k = .VRELOC ∧ e2.t = e.t ∧ e2.f = e.f ∧
        fs1.pc = fs.pc + 1 ∧ fs2.pc = fs.pc + 2 ∧
        GET_OPCODE (fs2.code fs.pc) = OP_NOT ∧ GET_OPCODE (fs2.code (fs.pc + 1)) = OP_NOT ∧
        (∀ j, j < fs.pc → fs2.code j = fs.code j)) := by
  refine ⟨?_, ?_, ?_⟩
  · intro fs1 e1 fs2 e2 h1 h2
    obtain ⟨a1, a2⟩ := codenot_swaps h1
    obtain ⟨b1, b2⟩ := codenot_swaps h2
    exact ⟨a1, a2, by rw [b1, a2], by rw [b2, a1]⟩
  · intro nst nsf hk h1 hcmp hnts ht hf hndt hndf hjt hjf
    obtain ⟨fs1, hc1, hpc1, hcode1, ht1, hf1, hjt1, hjf1, hother1⟩ :=
      codenot_VJMP fs e nst nsf hk h1 hcmp hnts ht hf hndt hndf hjt hjf
    have hop1 : GET_OPCODE (fs1.code (e.info - 1).toNat)
        = GET_OPCODE (fs.code (e.info - 1).toNat) := by
      rw [hcode1, GET_OPCODE_SETARG_k]
    have hkr := GETARG_k_range (fs.code (e.info - 1).toNat)
    have hk1 : GETARG_k (fs1.code (e.info - 1).toNat)
        = 1 - GETARG_k (fs.code (e.info - 1).toNat) := by
      rw [hcode1, GETARG_k_SETARG_k]
      omega
    obtain ⟨fs2, hc2, hpc2, hcode2, -, -, -, -, hother2⟩ :=
      codenot_VJMP fs1 { e with f := e.t, t := e.f } nsf nst hk h1
        (by rw [hop1]; exact hcmp) (by rw [hop1]; exact hnts) hf1 ht1 hndf hndt hjf1 hjt1
    have hback : fs2.code (e.info - 1).toNat = fs.code (e.info - 1).toNat := by
      have e2 : fs2.code (e.info - 1).toNat
          = SETARG_k (fs1.code (e.info - 1).toNat)
              (1 - GETARG_k (fs1.code (e.info - 1).toNat)) := hcode2
      rw [e2, hk1, hcode1]
      have : (1 : Int) - (1 - GETARG_k (fs.code (e.info - 1).toNat))
          = GETARG_k (fs.code (e.info - 1).toNat) := by omega
      rw [this]
      exact SETARG_k_SETARG_k _ _
    refine ⟨fs1, _, fs2, hc1, hc2, hk, rfl, rfl, rfl, hpc1, by rw [hpc2, hpc1], hop1, hk1,
      hback, ?_⟩
    intro j hj hjp
    have a := hother1 j hj hjp
    refine ⟨a, ?_⟩
    have b := hother2 j (by rw [a]; exact hj) hjp
    rw [b, a]
  · intro hk ht hf hloc hfree
    have h1 := codenot_VNONRELOC fs e hk ht hf
    have hfe : freeexp fs e = fs := by
      unfold freeexp freereg
      simp only [hk, if_true]
      rw [if_neg (by omega)]
    rw [hfe] at h1
    obtain ⟨fsr, hres, hfr, hcode, hpc, -⟩ := luaK_reserveregs_one
      (luaK_codeABC fs OP_NOT 0 e.info 0).1 (by simpa using hfree)
    have h2 := codenot_VRELOC (luaK_codeABC fs OP_NOT 0 e.info 0).1 fsr
      { e with info := (luaK_codeABC fs OP_NOT 0 e.info 0).2, k := .VRELOC } rfl ht hf hres
    have hpcr : fsr.pc = fs.pc + 1 := by
      rw [hpc]
      simp
    have hinfo : (luaK_codeABC fs OP_NOT 0 e.info 0).2 = (fs.pc : Int) := by
      simp [luaK_codeABC, luaK_codeABCk]
    refine ⟨_, _, _, _, h1, h2, rfl, rfl, rfl, rfl, by simp, ?_, ?_, ?_, ?_⟩
    · simp [setinstruction, hpcr]
    · simp only [luaK_codeABC_code, freeexp_code, freeexp_pc, setinstruction, getinstruction,
        hinfo, hpcr, hcode, Int.toNat_ofNat]
      rw [setAt_other _ _ _ _ (by omega), setAt_same, GET_OPCODE_SETARG_A, setAt_same,
        GET_OPCODE_CREATE_ABCk]
      rfl
    · simp only [luaK_codeABC_code, freeexp_code, freeexp_pc, setinstruction, hpcr, setAt_same]
      rw [GET_OPCODE_CREATE_ABCk]
      rfl
    · intro j hj
      simp only [luaK_codeABC_code, freeexp_code, freeexp_pc, setinstruction, getinstruction,
        hinfo, hpcr, hcode, Int.toNat_ofNat]
      rw [setAt_other _ _ _ _ (by omega), setAt_other _ _ _ _ (by omega),
        setAt_other _ _ _ _ (by omega)]

/-- Witness for C19: the comparison LT 0 1 with k = 1 at position 0, followed
by its jump at position 1, negated twice. -/
theorem codenot_twice_restores_lists_witness :
    ∃ fs1 e1 fs2, codenot
        { open_func 0 with pc := 2, code := fun j => if j = 0 then CREATE_ABCk OP_LT 0 1 0 1 else CREATE_sJ OP_JMP (NO_JUMP + OFFSET_sJ) 0 }
        ⟨.VJMP, 1, 0, .negzero, 0, 0, -1, -1, 0⟩ = .ok (fs1, e1) ∧
      codenot fs1 e1 = .ok (fs2, ⟨.VJMP, 1, 0, .negzero, 0, 0, -1, -1, 0⟩) ∧
      GETARG_k (fs1.code 0) = 0 ∧ fs2.code 0 = CREATE_ABCk OP_LT 0 1 0 1 := by
  have ho : GET_OPCODE (CREATE_ABCk OP_LT 0 1 0 1) = OP_LT := by
    rw [GET_OPCODE_CREATE_ABCk]
    rfl
  have hk : GETARG_k (CREATE_ABCk OP_LT 0 1 0 1) = 1 := by
    rw [GETARG_k_CREATE_ABCk]
    rfl
  obtain ⟨fs1, e1, fs2, h1, h2, -, -, -, -, -, -, -, h3, h4, -⟩ :=
    (codenot_twice_restores_lists
      { open_func 0 with pc := 2, code := fun j => if j = 0 then CREATE_ABCk OP_LT 0 1 0 1 else CREATE_sJ OP_JMP (NO_JUMP + OFFSET_sJ) 0 }
      ⟨.VJMP, 1, 0, .negzero, 0, 0, -1, -1, 0⟩).2.1 [] [] rfl (by decide)
      (by
        simp only [sub_self, Int.toNat_zero, ↓reduceIte]
        rw [ho]
        decide)
      (by
        simp only [sub_self, Int.toNat_zero, ↓reduceIte]
        rw [ho]
        decide)
      rfl rfl (by decide) (by decide) (by simp) (by simp)
  simp only [sub_self, Int.toNat_zero, ↓reduceIte, hk] at h3 h4
  exact ⟨fs1, e1, fs2, h1, h2, h3, h4⟩

/-! ## The final pass -/

theorem finishReturn_congr {fs fs1 : FuncState} (h : CodeOnly fs fs1) (pc : Instruction) :
    finishReturn fs1 pc = finishReturn fs pc := by
  have e := h.eq
  rw [e]
  rfl

theorem finishReturn_JMP (fs : FuncState) (pc : Instruction) :
    GET_OPCODE (finishReturn fs pc) = OP_JMP ↔ GET_OPCODE pc = OP_JMP := by
  unfold finishReturn
  dsimp only
  split_ifs
  all_goals first
    | rfl
    | (rw [GET_OPCODE_SETARG_k, GET_OPCODE_SETARG_C, GET_OPCODE_SET_OPCODE]
       constructor
       · intro e
         exact absurd e (by decide)
       · intro e
         rcases ‹GET_OPCODE pc = OP_RETURN0 ∨ GET_OPCODE pc = OP_RETURN1› with h | h <;>
           rw [h] at e <;> exact absurd e (by decide))
    | rw [GET_OPCODE_SETARG_k, GET_OPCODE_SETARG_C]

/-- One step of the final pass changes the instruction it visits and nothing
else: a jump gets the offset to its final target, any other instruction is
rewritten by the cases of returns. -/
theorem finishInstruction_spec {fs fs1 : FuncState} {i : Nat}
    (h : finishInstruction fs i = .ok fs1) :
    CodeOnly fs fs1 ∧ (∀ j, j ≠ i → fs1.code j = fs.code j) ∧
    (GET_OPCODE (fs.code i) ≠ OP_JMP → fs1.code i = finishReturn fs (fs.code i)) ∧
    (GET_OPCODE (fs.code i) = OP_JMP →
      fs1.code i = SETARG_sJ (fs.code i) (finaltarget fs.code i - ((i : Int) + 1)) ∧
      -(OFFSET_sJ : Int) ≤ finaltarget fs.code i - ((i : Int) + 1) ∧
      finaltarget fs.code i - ((i : Int) + 1) ≤ (MAXARG_sJ : Int) - OFFSET_sJ) ∧
    (GET_OPCODE (fs1.code i) = OP_JMP ↔ GET_OPCODE (fs.code i) = OP_JMP) := by
  unfold finishInstruction at h
  dsimp only at h
  split at h
  · rename_i hj
    unfold fixjump at h
    dsimp only at h
    split at h
    · cases h
    · rename_i hr
      injection h with h
      subst h
      have hr2 : -(OFFSET_sJ : Int) ≤ finaltarget fs.code i - ((i : Int) + 1) ∧
          finaltarget fs.code i - ((i : Int) + 1) ≤ (MAXARG_sJ : Int) - OFFSET_sJ := by
        simpa using hr
      refine ⟨CodeOnly.setcode _ _, fun j hji => ?_, fun hn => absurd hj hn, fun _ => ⟨?_, hr2⟩,
        ?_⟩
      · simp only [Int.toNat_ofNat]
        exact setAt_other _ _ _ _ hji
      · simp only [Int.toNat_ofNat, setAt_same]
      · simp only [Int.toNat_ofNat, setAt_same]
        rw [GET_OPCODE_SETARG_sJ]
  · rename_i hj
    injection h with h
    subst h
    refine ⟨CodeOnly.setcode _ _, fun j hji => setAt_other _ _ _ _ hji,
      fun _ => setAt_same _ _ _, fun e => absurd e hj, ?_⟩
    simp only [setAt_same]
    exact finishReturn_JMP fs (fs.code i)

/-- The final pass, whenever it returns: it changes nothing but the code,
visits the instructions from `i` to `i + n`, keeps the jumps jumps and the
other instructions other instructions, and rewrites every instruction that is
not a jump by the cases of returns. -/
theorem finishFrom_spec (n : Nat) :
    ∀ (i : Nat) (fs fs1 : FuncState), finishFrom n i fs = .ok fs1 →
      CodeOnly fs fs1 ∧ (∀ j, j < i ∨ i + n ≤ j → fs1.code j = fs.code j) ∧
      (∀ j, i ≤ j → j < i + n → GET_OPCODE (fs.code j) ≠ OP_JMP →
        fs1.code j = finishReturn fs (fs.code j)) ∧
      (∀ j, GET_OPCODE (fs1.code j) = OP_JMP ↔ GET_OPCODE (fs.code j) = OP_JMP) := by
  induction n with
  | zero =>
    intro i fs fs1 h
    unfold finishFrom at h
    injection h with h
    subst h
    exact ⟨CodeOnly.refl _, fun _ _ => rfl, fun j h1 h2 => absurd h2 (by omega), fun _ => Iff.rfl⟩
  | succ n ih =>
    intro i fs fs1 h
    unfold finishFrom at h
    split at h
    · cases h
    · rename_i fsm hm
      obtain ⟨s1, s2, s3, -, s5⟩ := finishInstruction_spec hm
      obtain ⟨r1, r2, r3, r4⟩ := ih (i + 1) fsm fs1 h
      refine ⟨s1.trans r1, ?_, ?_, ?_⟩
      · intro j hj
        rw [r2 j (by omega), s2 j (by omega)]
      · intro j h1 h2 hnj
        by_cases hji : j = i
        · subst hji
          rw [r2 j (by omega)]
          exact s3 hnj
        · have e := s2 j hji
          rw [r3 j (by omega) (by omega) (by rw [e]; exact hnj), e]
          exact finishReturn_congr s1 _
      · intro j
        rw [r4 j]
        by_cases hji : j = i
        · subst hji
          exact s5
        · rw [s2 j hji]

theorem finaltargetLoop_stop (c : Nat → Instruction) (n : Nat) (x : Int)
    (h : GET_OPCODE (c x.toNat) ≠ OP_JMP) : finaltargetLoop c n x = x := by
  cases n with
  | zero => rfl
  | succ n =>
    unfold finaltargetLoop
    simp only [h, ne_eq, not_false_eq_true, if_true]

theorem finaltargetLoop_more (c : Nat → Instruction) (m : Nat) :
    ∀ (x : Int), GET_OPCODE (c (finaltargetLoop c m x).toNat) ≠ OP_JMP →
      ∀ k, finaltargetLoop c (m + k) x = finaltargetLoop c m x := by
  induction m with
  | zero =>
    intro x h k
    have hx : finaltargetLoop c 0 x = x := rfl
    rw [hx] at h ⊢
    rw [Nat.zero_add]
    exact finaltargetLoop_stop c k x h
  | succ m ih =>
    intro x h k
    have e : m + 1 + k = (m + k) + 1 := by omega
    rw [e]
    unfold finaltargetLoop at h ⊢
    dsimp only at h ⊢
    split
    · rfl
    · rename_i hj
      simp only [hj, if_false] at h
      exact ih _ h k

theorem finaltargetLoop_inside (c : Nat → Instruction) (pc : Nat) (hin : JumpsInside c pc)
    (n : Nat) : ∀ (x : Int), 0 ≤ x → x < (pc : Int) →
      0 ≤ finaltargetLoop c n x ∧ finaltargetLoop c n x < (pc : Int) := by
  induction n with
  | zero =>
    intro x h1 h2
    exact ⟨h1, h2⟩
  | succ n ih =>
    intro x h1 h2
    unfold finaltargetLoop
    dsimp only
    split
    · exact ⟨h1, h2⟩
    · rename_i hj
      have hj2 : GET_OPCODE (c x.toNat) = OP_JMP := by simpa using hj
      have := hin x.toNat (by omega) hj2
      have hx : ((x.toNat : Nat) : Int) = x := by omega
      rw [hx] at this
      exact ih _ this.1 this.2

/-- While the final pass is at instruction `i`, the code `c` agrees with the
original code `c0` from `i` on, has jumps where `c0` has them, all inside the
code, and every jump before `i` whose chain in `c0` leaves the jumps within
100 steps goes straight to the end of that chain. Then the chains of `c` and
of `c0` that leave the jumps within `n ≤ 100` steps end at the same place. -/
theorem finaltargetLoop_agree (c0 c : Nat → Instruction) (pc i : Nat)
    (h1 : ∀ j, i ≤ j → c j = c0 j)
    (h2 : ∀ j, GET_OPCODE (c j) = OP_JMP ↔ GET_OPCODE (c0 j) = OP_JMP)
    (h3 : JumpsInside c0 pc)
    (h4 : ∀ j, j < i → GET_OPCODE (c0 j) = OP_JMP →
      GET_OPCODE (c0 (finaltarget c0 j).toNat) ≠ OP_JMP →
      (j : Int) + (GETARG_sJ (c j) + 1) = finaltarget c0 j)
    (n : Nat) : n ≤ 100 → ∀ (x : Int), 0 ≤ x → x < (pc : Int) →
      GET_OPCODE (c0 (finaltargetLoop c0 n x).toNat) ≠ OP_JMP →
      finaltargetLoop c n x = finaltargetLoop c0 n x := by
  induction n with
  | zero =>
    intro _ x _ _ _
    rfl
  | succ n ih =>
    intro hn x hx1 hx2 hexit
    have hxc : ((x.toNat : Nat) : Int) = x := by omega
    by_cases hj : GET_OPCODE (c0 x.toNat) = OP_JMP
    · have hjc : GET_OPCODE (c x.toNat) = OP_JMP := (h2 _).2 hj
      have hstep0 : finaltargetLoop c0 (n + 1) x
          = finaltargetLoop c0 n (x + (GETARG_sJ (c0 x.toNat) + 1)) := by
        rw [finaltargetLoop]
        simp only [hj, ne_eq, not_true_eq_false, if_false]
      have hstep : finaltargetLoop c (n + 1) x
          = finaltargetLoop c n (x + (GETARG_sJ (c x.toNat) + 1)) := by
        rw [finaltargetLoop]
        simp only [hjc, ne_eq, not_true_eq_false, if_false]
      rw [hstep0] at hexit
      rw [hstep, hstep0]
      have hin := h3 x.toNat (by omega) hj
      rw [hxc] at hin
      by_cases hxi : i ≤ x.toNat
      · rw [h1 _ hxi]
        exact ih (by omega) _ hin.1 hin.2 hexit
      · -- a jump already visited goes straight to the end of its chain
        have hfin : finaltarget c0 x.toNat = finaltargetLoop c0 (n + 1) x := by
          unfold finaltarget
          rw [hxc]
          have := finaltargetLoop_more c0 (n + 1) x (by rw [hstep0]; exact hexit) (100 - (n + 1))
          rw [← this]
          congr 1
          omega
        have hto := h4 x.toNat (by omega) hj (by rw [hfin, hstep0]; exact hexit)
        rw [hxc] at hfin
        rw [hxc, hfin, hstep0] at hto
        rw [hto]
        apply finaltargetLoop_stop
        intro e
        exact hexit ((h2 _).1 e)
    · have hjc : GET_OPCODE (c x.toNat) ≠ OP_JMP := fun e => hj ((h2 _).1 e)
      rw [finaltargetLoop_stop c _ x hjc, finaltargetLoop_stop c0 _ x hj]

/-- The final pass returns when every jump has its target inside the code and
the code is short enough for every offset; it keeps the invariant of
`finaltargetLoop_agree`. -/
theorem finishFrom_total (fs0 : FuncState) (hin0 : JumpsInside fs0.code fs0.pc)
    (hpc : fs0.pc ≤ OFFSET_sJ) (n : Nat) :
    ∀ (i : Nat) (fs : FuncState), i + n = fs0.pc → CodeOnly fs0 fs →
      (∀ j, i ≤ j → fs.code j = fs0.code j) →
      (∀ j, GET_OPCODE (fs.code j) = OP_JMP ↔ GET_OPCODE (fs0.code j) = OP_JMP) →
      JumpsInside fs.code fs0.pc →
      (∀ j, j < i → GET_OPCODE (fs0.code j) = OP_JMP →
        GET_OPCODE (fs0.code (finaltarget fs0.code j).toNat) ≠ OP_JMP →
        (j : Int) + (GETARG_sJ (fs.code j) + 1) = finaltarget fs0.code j) →
      ∃ fs1, finishFrom n i fs = .ok fs1 ∧
        (∀ j, j < fs0.pc → GET_OPCODE (fs0.code j) = OP_JMP →
          GET_OPCODE (fs0.code (finaltarget fs0.code j).toNat) ≠ OP_JMP →
          (j : Int) + (GETARG_sJ (fs1.code j) + 1) = finaltarget fs0.code j) := by
  induction n with
  | zero =>
    intro i fs hi _ _ _ _ h4
    refine ⟨fs, rfl, ?_⟩
    intro j hj
    exact h4 j (by omega)
  | succ n ih =>
    intro i fs hi hco h1 h2 h3 h4
    have hilt : i < fs0.pc := by omega
    have hci : fs.code i = fs0.code i := h1 i (le_refl _)
    by_cases hj : GET_OPCODE (fs0.code i) = OP_JMP
    · -- a jump: its final target is inside the code, so the offset fits
      have hjc : GET_OPCODE (fs.code i) = OP_JMP := (h2 i).2 hj
      have hr := finaltargetLoop_inside fs.code fs0.pc h3 100 (i : Int) (by omega)
        (by exact_mod_cast hilt)
      have hr1 : -(OFFSET_sJ : Int) ≤ finaltarget fs.code i - ((i : Int) + 1) := by
        unfold finaltarget
        have : (fs0.pc : Int) ≤ (OFFSET_sJ : Int) := by exact_mod_cast hpc
        omega
      have hr2 : finaltarget fs.code i - ((i : Int) + 1) ≤ (MAXARG_sJ : Int) - OFFSET_sJ := by
        unfold finaltarget
        have : (fs0.pc : Int) ≤ (OFFSET_sJ : Int) := by exact_mod_cast hpc
        have e : ((MAXARG_sJ : Nat) : Int) - ((OFFSET_sJ : Nat) : Int) = (OFFSET_sJ : Int) + 1 := by
          decide
        omega
      have hstep : finishInstruction fs i = .ok { fs with code := setAt fs.code i (SETARG_sJ (fs.code i) (finaltarget fs.code i - ((i : Int) + 1))) } := by
        unfold finishInstruction fixjump
        simp [hjc, hr1, hr2]
      have hsJ : GETARG_sJ (SETARG_sJ (fs.code i) (finaltarget fs.code i - ((i : Int) + 1)))
          = finaltarget fs.code i - ((i : Int) + 1) := GETARG_sJ_SETARG_sJ _ _ hr1 hr2
      obtain ⟨fs1, hrec, hfin⟩ := ih (i + 1)
        { fs with code := setAt fs.code i (SETARG_sJ (fs.code i) (finaltarget fs.code i - ((i : Int) + 1))) }
        (by omega) (hco.trans (CodeOnly.setcode _ _))
        (fun j hji => by
          show setAt fs.code i _ j = fs0.code j
          rw [setAt_other _ _ _ _ (by omega)]
          exact h1 j (by omega))
        (fun j => by
          show GET_OPCODE (setAt fs.code i _ j) = OP_JMP ↔ _
          by_cases hji : j = i
          · subst hji
            rw [setAt_same, GET_OPCODE_SETARG_sJ]
            exact h2 j
          · rw [setAt_other _ _ _ _ hji]
            exact h2 j)
        (fun j hjlt hjj => by
          show 0 ≤ (j : Int) + (GETARG_sJ (setAt fs.code i _ j) + 1) ∧
            (j : Int) + (GETARG_sJ (setAt fs.code i _ j) + 1) < (fs0.pc : Int)
          have hjj' : GET_OPCODE (setAt fs.code i (SETARG_sJ (fs.code i)
              (finaltarget fs.code i - ((i : Int) + 1))) j) = OP_JMP := hjj
          by_cases hji : j = i
          · subst hji
            rw [setAt_same, hsJ]
            unfold finaltarget
            omega
          · rw [setAt_other _ _ _ _ hji] at hjj' ⊢
            exact h3 j hjlt hjj')
        (fun j hjlt hjj hexit => by
          show (j : Int) + (GETARG_sJ (setAt fs.code i _ j) + 1) = _
          by_cases hji : j = i
          · subst hji
            rw [setAt_same, hsJ]
            have hag := finaltargetLoop_agree fs0.code fs.code fs0.pc j h1 h2 hin0 h4 100
              (le_refl _) (j : Int) (by omega) (by exact_mod_cast hilt) hexit
            unfold finaltarget
            rw [hag]
            omega
          · rw [setAt_other _ _ _ _ hji]
            exact h4 j (by omega) hjj hexit)
      refine ⟨fs1, ?_, hfin⟩
      unfold finishFrom
      simp only [hstep]
      exact hrec
    · -- any other instruction
      have hjc : GET_OPCODE (fs.code i) ≠ OP_JMP := fun e => hj ((h2 i).1 e)
      have hstep : finishInstruction fs i = .ok { fs with code := setAt fs.code i (finishReturn fs (fs.code i)) } := by
        unfold finishInstruction
        simp [hjc]
      have hnew : GET_OPCODE (finishReturn fs (fs.code i)) ≠ OP_JMP := fun e =>
        hjc ((finishReturn_JMP fs (fs.code i)).1 e)
      obtain ⟨fs1, hrec, hfin⟩ := ih (i + 1)
        { fs with code := setAt fs.code i (finishReturn fs (fs.code i)) }
        (by omega) (hco.trans (CodeOnly.setcode _ _))
        (fun j hji => by
          show setAt fs.code i _ j = fs0.code j
          rw [setAt_other _ _ _ _ (by omega)]
          exact h1 j (by omega))
        (fun j => by
          show GET_OPCODE (setAt fs.code i _ j) = OP_JMP ↔ _
          by_cases hji : j = i
          · subst hji
            rw [setAt_same]
            exact ⟨fun e => absurd e hnew, fun e => absurd e hj⟩
          · rw [setAt_other _ _ _ _ hji]
            exact h2 j)
        (fun j hjlt hjj => by
          show 0 ≤ (j : Int) + (GETARG_sJ (setAt fs.code i _ j) + 1) ∧
            (j : Int) + (GETARG_sJ (setAt fs.code i _ j) + 1) < (fs0.pc : Int)
          have hjj' : GET_OPCODE (setAt fs.code i (finishReturn fs (fs.code i)) j) = OP_JMP :=
            hjj
          by_cases hji : j = i
          · subst hji
            rw [setAt_same] at hjj'
            exact absurd hjj' hnew
          · rw [setAt_other _ _ _ _ hji] at hjj' ⊢
            exact h3 j hjlt hjj')
        (fun j hjlt hjj hexit => by
          show (j : Int) + (GETARG_sJ (setAt fs.code i _ j) + 1) = _
          by_cases hji : j = i
          · subst hji
            exact absurd hjj hj
          · rw [setAt_other _ _ _ _ hji]
            exact h4 j (by omega) hjj hexit)
      refine ⟨fs1, ?_, hfin⟩
      unfold finishFrom
      simp only [hstep]
      exact hrec

theorem finaltargetLoop_self (c : Nat → Instruction) (x : Int)
    (hs : GETARG_sJ (c x.toNat) = -1) : ∀ n, finaltargetLoop c n x = x := by
  intro n
  induction n with
  | zero => rfl
  | succ n ih =>
    unfold finaltargetLoop
    dsimp only
    split
    · rfl
    · rw [hs]
      simpa using ih

/-- C17 counterexample: the code of `while true do end`, a jump to itself
followed by a return. After luaK_finish the JMP at position 0 still has
offset -1: the instruction at 0 + 1 + sJ(0) = 0 is that JMP itself. -/
theorem luaK_finish_keeps_jump_to_itself :
    ∃ fs1, luaK_finish
        { open_func 0 with pc := 2, code := fun j => if j = 0 then CREATE_sJ OP_JMP (-1 + OFFSET_sJ) 0 else CREATE_ABCk OP_RETURN0 0 1 0 0 }
        = .ok fs1 ∧
      fs1.pc = 2 ∧ GET_OPCODE (fs1.code 0) = OP_JMP ∧
      GET_OPCODE (fs1.code ((0 : Int) + 1 + GETARG_sJ (fs1.code 0)).toNat) = OP_JMP := by
  have hj : GET_OPCODE (CREATE_sJ OP_JMP (-1 + OFFSET_sJ) 0) = OP_JMP := by
    rw [GET_OPCODE_CREATE_sJ]
    rfl
  have hs : GETARG_sJ (CREATE_sJ OP_JMP (-1 + OFFSET_sJ) 0) = -1 :=
    GETARG_sJ_CREATE_sJ _ _ (by decide) (by decide)
  have hr : GET_OPCODE (CREATE_ABCk OP_RETURN0 0 1 0 0) = OP_RETURN0 := by
    rw [GET_OPCODE_CREATE_ABCk]
    rfl
  have hft : finaltarget (fun j => if j = 0 then CREATE_sJ OP_JMP (-1 + OFFSET_sJ) 0 else CREATE_ABCk OP_RETURN0 0 1 0 0) 0 = 0 := by
    unfold finaltarget
    apply finaltargetLoop_self
    simp only [Int.toNat_zero, ↓reduceIte]
    exact hs
  have hstep0 : finishInstruction
      { open_func 0 with pc := 2, code := fun j => if j = 0 then CREATE_sJ OP_JMP (-1 + OFFSET_sJ) 0 else CREATE_ABCk OP_RETURN0 0 1 0 0 } 0
      = .ok { open_func 0 with pc := 2, code := setAt (fun j => if j = 0 then CREATE_sJ OP_JMP (-1 + OFFSET_sJ) 0 else CREATE_ABCk OP_RETURN0 0 1 0 0) 0 (SETARG_sJ (CREATE_sJ OP_JMP (-1 + OFFSET_sJ) 0) (-1)) } := by
    unfold finishInstruction
    simp only [↓reduceIte, hj, Nat.cast_zero, hft]
    unfold fixjump
    simp only [Int.toNat_zero, ↓reduceIte]
    have : (-(OFFSET_sJ : Int) ≤ 0 - (0 + 1) ∧ (0 : Int) - (0 + 1) ≤ (MAXARG_sJ : Int) - OFFSET_sJ) := by
      decide
    simp only [this, not_true_eq_false, if_false]
    rfl
  have hstep1 : finishInstruction
      { open_func 0 with pc := 2, code := setAt (fun j => if j = 0 then CREATE_sJ OP_JMP (-1 + OFFSET_sJ) 0 else CREATE_ABCk OP_RETURN0 0 1 0 0) 0 (SETARG_sJ (CREATE_sJ OP_JMP (-1 + OFFSET_sJ) 0) (-1)) } 1
      = .ok { open_func 0 with pc := 2, code := setAt (setAt (fun j => if j = 0 then CREATE_sJ OP_JMP (-1 + OFFSET_sJ) 0 else CREATE_ABCk OP_RETURN0 0 1 0 0) 0 (SETARG_sJ (CREATE_sJ OP_JMP (-1 + OFFSET_sJ) 0) (-1))) 1 (CREATE_ABCk OP_RETURN0 0 1 0 0) } := by
    have hc : setAt (fun j => if j = 0 then CREATE_sJ OP_JMP (-1 + OFFSET_sJ) 0 else CREATE_ABCk OP_RETURN0 0 1 0 0) 0 (SETARG_sJ (CREATE_sJ OP_JMP (-1 + OFFSET_sJ) 0) (-1)) 1 = CREATE_ABCk OP_RETURN0 0 1 0 0 := by
      rw [setAt_other _ _ _ _ (by decide)]
      rfl
    have hnj : ¬ GET_OPCODE (CREATE_ABCk OP_RETURN0 0 1 0 0) = OP_JMP := by
      rw [hr]
      decide
    have hfr : ∀ fs : FuncState, fs.needclose = 0 → fs.is_vararg = 0 →
        finishReturn fs (CREATE_ABCk OP_RETURN0 0 1 0 0) = CREATE_ABCk OP_RETURN0 0 1 0 0 := by
      intro fs h1 h2
      unfold finishReturn
      simp [hr, h1, h2]
    unfold finishInstruction
    simp only [hc, hnj, if_false]
    rw [hfr _ rfl rfl]
  have hfin : luaK_finish
      { open_func 0 with pc := 2, code := fun j => if j = 0 then CREATE_sJ OP_JMP (-1 + OFFSET_sJ) 0 else CREATE_ABCk OP_RETURN0 0 1 0 0 }
      = .ok { open_func 0 with pc := 2, code := setAt (setAt (fun j => if j = 0 then CREATE_sJ OP_JMP (-1 + OFFSET_sJ) 0 else CREATE_ABCk OP_RETURN0 0 1 0 0) 0 (SETARG_sJ (CREATE_sJ OP_JMP (-1 + OFFSET_sJ) 0) (-1))) 1 (CREATE_ABCk OP_RETURN0 0 1 0 0) } := by
    unfold luaK_finish
    show finishFrom 2 0 _ = _
    rw [finishFrom]
    simp only [hstep0]
    rw [finishFrom]
    simp only [hstep1]
    rfl
  have hc0 : ∀ (f : Nat → Instruction) (X Y : Instruction),
      setAt (setAt f 0 X) 1 Y 0 = X := by
    intro f X Y
    rw [setAt_other _ _ _ _ (by decide), setAt_same]
  have hsJ : GETARG_sJ (SETARG_sJ (CREATE_sJ OP_JMP (-1 + OFFSET_sJ) 0) (-1)) = -1 :=
    GETARG_sJ_SETARG_sJ _ _ (by decide) (by decide)
  refine ⟨_, hfin, rfl, ?_, ?_⟩
  · dsimp only
    rw [hc0, GET_OPCODE_SETARG_sJ]
    exact hj
  · dsimp only
    rw [hc0, hsJ]
    have : ((0 : Int) + 1 + -1).toNat = 0 := by decide
    rw [this, hc0, GET_OPCODE_SETARG_sJ]
    exact hj

/-- The final pass leaves a jump to itself as it is: its final target is its
own position, so the offset written is -1 again. -/
theorem finishFrom_self_jump (n : Nat) :
    ∀ (i : Nat) (fs fs1 : FuncState), finishFrom n i fs = .ok fs1 →
      ∀ j, GET_OPCODE (fs.code j) = OP_JMP → GETARG_sJ (fs.code j) = -1 →
        GETARG_sJ (fs1.code j) = -1 := by
  induction n with
  | zero =>
    intro i fs fs1 h j _ hs
    unfold finishFrom at h
    injection h with h
    subst h
    exact hs
  | succ n ih =>
    intro i fs fs1 h j hj hs
    unfold finishFrom at h
    split at h
    · cases h
    · rename_i fsm hm
      obtain ⟨-, s2, -, s4, s5⟩ := finishInstruction_spec hm
      by_cases hji : j = i
      · subst hji
        obtain ⟨e, -, -⟩ := s4 hj
        have hft : finaltarget fs.code (j : Int) = (j : Int) := by
          unfold finaltarget
          apply finaltargetLoop_self
          simpa using hs
        have hm1 : GETARG_sJ (fsm.code j) = -1 := by
          rw [e, hft]
          have e1 : (j : Int) - ((j : Int) + 1) = -1 := by omega
          rw [e1]
          exact GETARG_sJ_SETARG_sJ _ _ (by decide) (by decide)
        exact ih (j + 1) fsm fs1 h j (s5.2 hj) hm1
      · have e := s2 j hji
        exact ih (i + 1) fsm fs1 h j (by rw [e]; exact hj) (by rw [e]; exact hs)

/-- C17 (amended): when every jump of the code has its target inside the code
and the code has at most OFFSET_sJ instructions, luaK_finish returns, keeps pc
and keeps the jumps jumps; for every i < pc with opcode OP_JMP whose chain of
jumps in the code given to luaK_finish reaches an instruction that is not an
OP_JMP within the 100 steps that finaltarget follows, the instruction at
i + 1 + sJ(i) is that instruction, the end of the chain, and is not an OP_JMP;
and a jump to itself (offset -1 in the code given) is left a jump to itself,
so that it still targets a JMP. -/
theorem luaK_finish_collapses_jump_chains (fs : FuncState)
    (hin : JumpsInside fs.code fs.pc) (hpc : fs.pc ≤ OFFSET_sJ) :
    ∃ fs1, luaK_finish fs = .ok fs1 ∧ fs1.pc = fs.pc ∧
      (∀ j, GET_OPCODE (fs1.code j) = OP_JMP ↔ GET_OPCODE (fs.code j) = OP_JMP) ∧
      (∀ i, i < fs.pc → GET_OPCODE (fs1.code i) = OP_JMP →
        GET_OPCODE (fs.code (finaltarget fs.code i).toNat) ≠ OP_JMP →
        (i : Int) + 1 + GETARG_sJ (fs1.code i) = finaltarget fs.code i ∧
        GET_OPCODE (fs1.code ((i : Int) + 1 + GETARG_sJ (fs1.code i)).toNat) ≠ OP_JMP) ∧
      ∀ i, i < fs.pc → GET_OPCODE (fs.code i) = OP_JMP → GETARG_sJ (fs.code i) = -1 →
        GET_OPCODE (fs1.code i) = OP_JMP ∧ (i : Int) + 1 + GETARG_sJ (fs1.code i) = i ∧
        GET_OPCODE (fs1.code ((i : Int) + 1 + GETARG_sJ (fs1.code i)).toNat) = OP_JMP := by
  obtain ⟨fs1, h1, h2⟩ := finishFrom_total fs hin hpc fs.pc 0 fs (by omega) (CodeOnly.refl _)
    (fun _ _ => rfl) (fun _ => Iff.rfl) hin (fun j hj => absurd hj (by omega))
  obtain ⟨s1, -, -, s4⟩ := finishFrom_spec fs.pc 0 fs fs1 h1
  refine ⟨fs1, h1, s1.pc, s4, ?_, ?_⟩
  · intro i hi hj hexit
    have e := h2 i hi ((s4 i).1 hj) hexit
    have e2 : (i : Int) + 1 + GETARG_sJ (fs1.code i) = finaltarget fs.code i := by
      rw [← e]
      ring
    refine ⟨e2, ?_⟩
    rw [e2]
    intro hc
    exact hexit ((s4 _).1 hc)
  · intro i _ hj hs
    have hs1 := finishFrom_self_jump fs.pc 0 fs fs1 h1 i hj hs
    have hj1 : GET_OPCODE (fs1.code i) = OP_JMP := (s4 i).2 hj
    have e : (i : Int) + 1 + GETARG_sJ (fs1.code i) = i := by
      rw [hs1]
      omega
    refine ⟨hj1, e, ?_⟩
    rw [e]
    simpa using hj1

/-- Witness for C17 (amended): a jump to a jump to a return; after the final
pass the first jump goes to the return. -/
theorem luaK_finish_collapses_jump_chains_witness :
    ∃ fs1, luaK_finish
        { open_func 0 with pc := 3, code := fun j => if j < 2 then CREATE_sJ OP_JMP (OFFSET_sJ : Int) 0 else CREATE_ABCk OP_RETURN0 0 1 0 0 }
        = .ok fs1 ∧
      (0 : Int) + 1 + GETARG_sJ (fs1.code 0) = 2 ∧ GET_OPCODE (fs1.code 2) ≠ OP_JMP := by
  have hj : GET_OPCODE (CREATE_sJ OP_JMP (OFFSET_sJ : Int) 0) = OP_JMP := by
    rw [GET_OPCODE_CREATE_sJ]
    rfl
  have hs : GETARG_sJ (CREATE_sJ OP_JMP (OFFSET_sJ : Int) 0) = 0 := by
    have := GETARG_sJ_CREATE_sJ OP_JMP 0 (by decide) (by decide)
    simpa using this
  have hr : GET_OPCODE (CREATE_ABCk OP_RETURN0 0 1 0 0) = OP_RETURN0 := by
    rw [GET_OPCODE_CREATE_ABCk]
    rfl
  have hft : finaltarget (fun j => if j < 2 then CREATE_sJ OP_JMP (OFFSET_sJ : Int) 0 else CREATE_ABCk OP_RETURN0 0 1 0 0) ((0 : Nat) : Int) = 2 := by
    have step : ∀ (c : Nat → Instruction) (n : Nat) (x : Int),
        GET_OPCODE (c x.toNat) = OP_JMP →
        finaltargetLoop c (n + 1) x = finaltargetLoop c n (x + (GETARG_sJ (c x.toNat) + 1)) := by
      intro c n x h
      rw [finaltargetLoop]
      simp only [h, ne_eq, not_true_eq_false, if_false]
    unfold finaltarget
    rw [step _ 99 _ (by simpa using hj)]
    have e1 : ((0 : Nat) : Int) + (GETARG_sJ ((fun j => if j < 2 then CREATE_sJ OP_JMP (OFFSET_sJ : Int) 0 else CREATE_ABCk OP_RETURN0 0 1 0 0) (((0 : Nat) : Int)).toNat) + 1) = 1 := by
      simp [hs]
    rw [e1, step _ 98 _ (by simpa using hj)]
    have e2 : (1 : Int) + (GETARG_sJ ((fun j => if j < 2 then CREATE_sJ OP_JMP (OFFSET_sJ : Int) 0 else CREATE_ABCk OP_RETURN0 0 1 0 0) ((1 : Int)).toNat) + 1) = 2 := by
      simp [hs]
    rw [e2]
    apply finaltargetLoop_stop
    have e3 : (2 : Int).toNat = 2 := by decide
    rw [e3]
    simp only [lt_self_iff_false, if_false, hr]
    decide
  obtain ⟨fs1, h1, -, h3, h4, -⟩ := luaK_finish_collapses_jump_chains
    { open_func 0 with pc := 3, code := fun j => if j < 2 then CREATE_sJ OP_JMP (OFFSET_sJ : Int) 0 else CREATE_ABCk OP_RETURN0 0 1 0 0 }
    (by
      intro i hi hjmp
      have hi3 : i < 3 := hi
      by_cases h2 : i < 2
      · simp only [h2, ↓reduceIte, hs]
        have : (3 : Int) = ((3 : Nat) : Int) := rfl
        show 0 ≤ (i : Int) + (0 + 1) ∧ (i : Int) + (0 + 1) < ((3 : Nat) : Int)
        omega
      · simp only [h2, ↓reduceIte, hr] at hjmp
        exact absurd hjmp (by decide))
    (by decide)
  have hexit : GET_OPCODE ((fun j => if j < 2 then CREATE_sJ OP_JMP (OFFSET_sJ : Int) 0 else CREATE_ABCk OP_RETURN0 0 1 0 0) (finaltarget (fun j => if j < 2 then CREATE_sJ OP_JMP (OFFSET_sJ : Int) 0 else CREATE_ABCk OP_RETURN0 0 1 0 0) ((0 : Nat) : Int)).toNat) ≠ OP_JMP := by
    rw [hft]
    have h2 : ((2 : Int)).toNat = 2 := by decide
    simp only [h2, lt_self_iff_false, ↓reduceIte, hr]
    decide
  have hj0 : GET_OPCODE (fs1.code 0) = OP_JMP := by
    rw [h3 0]
    simp only [Nat.ofNat_pos, ↓reduceIte]
    exact hj
  obtain ⟨a, b⟩ := h4 0 (by decide) hj0 hexit
  rw [hft] at a
  have a' : (0 : Int) + 1 + GETARG_sJ (fs1.code 0) = 2 := a
  refine ⟨fs1, h1, a', ?_⟩
  have b' : GET_OPCODE (fs1.code ((0 : Int) + 1 + GETARG_sJ (fs1.code 0)).toNat) ≠ OP_JMP := b
  rw [a'] at b'
  exact b'

/-- C18: luaK_finish, whenever it returns, keeps pc and rewrites the returns
as follows (numparams + 1 fits operand C). When the function needs a close or
is vararg, every RETURN0 and RETURN1 becomes a RETURN with its A and B
unchanged, and every RETURN and TAILCALL keeps its opcode, A and B; all of
them get C = numparams + 1 if the function is vararg and C = 0 otherwise, and
k = 1. When the function neither needs a close nor is vararg, every RETURN0,
RETURN1, RETURN and TAILCALL is left unchanged. In both cases every
instruction that is not a return, tail call or JMP is unchanged. It does
return when every jump has its target inside the code and the code has at
most OFFSET_sJ instructions. -/
theorem luaK_finish_rewrites_returns (fs : FuncState)
    (hnp : fs.numparams + 1 ≤ MAXARG_C) :
    (∀ fs1, luaK_finish fs = .ok fs1 →
      fs1.pc = fs.pc ∧
      ∀ i, i < fs.pc →
        ((fs.needclose ≠ 0 ∨ fs.is_vararg ≠ 0) →
          ((GET_OPCODE (fs.code i) = OP_RETURN0 ∨ GET_OPCODE (fs.code i) = OP_RETURN1) →
            GET_OPCODE (fs1.code i) = OP_RETURN ∧
            GETARG_A (fs1.code i) = GETARG_A (fs.code i) ∧
            GETARG_B (fs1.code i) = GETARG_B (fs.code i) ∧
            GETARG_C (fs1.code i)
              = (if fs.is_vararg ≠ 0 then (fs.numparams : Int) + 1 else 0) ∧
            GETARG_k (fs1.code i) = 1) ∧
          ((GET_OPCODE (fs.code i) = OP_RETURN ∨ GET_OPCODE (fs.code i) = OP_TAILCALL) →
            GET_OPCODE (fs1.code i) = GET_OPCODE (fs.code i) ∧
            GETARG_A (fs1.code i) = GETARG_A (fs.code i) ∧
            GETARG_B (fs1.code i) = GETARG_B (fs.code i) ∧
            GETARG_C (fs1.code i)
              = (if fs.is_vararg ≠ 0 then (fs.numparams : Int) + 1 else 0) ∧
            GETARG_k (fs1.code i) = 1)) ∧
        (¬ (fs.needclose ≠ 0 ∨ fs.is_vararg ≠ 0) →
          (GET_OPCODE (fs.code i) = OP_RETURN0 ∨ GET_OPCODE (fs.code i) = OP_RETURN1 ∨
            GET_OPCODE (fs.code i) = OP_RETURN ∨ GET_OPCODE (fs.code i) = OP_TAILCALL) →
          fs1.code i = fs.code i) ∧
        (GET_OPCODE (fs.code i) ≠ OP_RETURN0 → GET_OPCODE (fs.code i) ≠ OP_RETURN1 →
          GET_OPCODE (fs.code i) ≠ OP_RETURN → GET_OPCODE (fs.code i) ≠ OP_TAILCALL →
          GET_OPCODE (fs.code i) ≠ OP_JMP → fs1.code i = fs.code i)) ∧
    (JumpsInside fs.code fs.pc → fs.pc ≤ OFFSET_sJ → ∃ fs1, luaK_finish fs = .ok fs1) := by
  constructor
  · intro fs1 h
    obtain ⟨s1, -, s3, -⟩ := finishFrom_spec fs.pc 0 fs fs1 h
    refine ⟨s1.pc, ?_⟩
    intro i hi
    have hC : ((if fs.is_vararg ≠ 0 then (fs.numparams : Int) + 1 else 0) : Int) % 256
        = (if fs.is_vararg ≠ 0 then (fs.numparams : Int) + 1 else 0) := by
      unfold MAXARG_C at hnp
      split <;> omega
    refine ⟨?_, ?_, ?_⟩
    · intro hextra
      have hx : decide (fs.needclose ≠ 0 ∨ fs.is_vararg ≠ 0) = true := by simpa using hextra
      constructor
      · intro hop
        have hnj : GET_OPCODE (fs.code i) ≠ OP_JMP := by
          rcases hop with e | e <;> rw [e] <;> decide
        rw [s3 i (by omega) (by omega) hnj]
        unfold finishReturn
        simp only [hop, if_true, hx, not_true_eq_false, if_false]
        rw [GET_OPCODE_SETARG_k, GET_OPCODE_SETARG_C, GET_OPCODE_SET_OPCODE,
          GETARG_A_SETARG_k, GETARG_A_SETARG_C, GETARG_A_SET_OPCODE,
          GETARG_B_SETARG_k, GETARG_B_SETARG_C, GETARG_B_SET_OPCODE,
          GETARG_C_SETARG_k, GETARG_C_SETARG_C, GETARG_k_SETARG_k, hC]
        exact ⟨rfl, rfl, rfl, rfl, rfl⟩
      · intro hop
        have hnj : GET_OPCODE (fs.code i) ≠ OP_JMP := by
          rcases hop with e | e <;> rw [e] <;> decide
        have hn01 : ¬ (GET_OPCODE (fs.code i) = OP_RETURN0 ∨
            GET_OPCODE (fs.code i) = OP_RETURN1) := by
          rcases hop with e | e <;> rw [e] <;> decide
        rw [s3 i (by omega) (by omega) hnj]
        unfold finishReturn
        simp only [hn01, if_false, hop, if_true, hx]
        rw [GET_OPCODE_SETARG_k, GET_OPCODE_SETARG_C,
          GETARG_A_SETARG_k, GETARG_A_SETARG_C,
          GETARG_B_SETARG_k, GETARG_B_SETARG_C,
          GETARG_C_SETARG_k, GETARG_C_SETARG_C, GETARG_k_SETARG_k, hC]
        exact ⟨rfl, rfl, rfl, rfl, rfl⟩
    · intro hextra hop
      have hx : decide (fs.needclose ≠ 0 ∨ fs.is_vararg ≠ 0) = false := by simpa using hextra
      have hnj : GET_OPCODE (fs.code i) ≠ OP_JMP := by
        rcases hop with e | e | e | e <;> rw [e] <;> decide
      rw [s3 i (by omega) (by omega) hnj]
      unfold finishReturn
      simp only [hx, Bool.false_eq_true, not_false_eq_true, if_true, if_false, ite_self]
    · intro h0 h1 h2 h3 hnj
      rw [s3 i (by omega) (by omega) hnj]
      unfold finishReturn
      simp only [h0, h1, h2, h3, or_self, if_false]
  · intro hin hpc
    obtain ⟨fs1, h1, -⟩ := finishFrom_total fs hin hpc fs.pc 0 fs (by omega) (CodeOnly.refl _)
      (fun _ _ => rfl) (fun _ => Iff.rfl) hin (fun j hj => absurd hj (by omega))
    exact ⟨fs1, h1⟩

/-- Witness for C18: a vararg function with two parameters whose code is the
single instruction RETURN0. -/
theorem luaK_finish_rewrites_returns_witness :
    ∃ fs1, luaK_finish
        { open_func 0 with pc := 1, is_vararg := 1, numparams := 2, code := fun _ => CREATE_ABCk OP_RETURN0 0 1 0 0 }
        = .ok fs1 ∧
      GET_OPCODE (fs1.code 0) = OP_RETURN ∧ GETARG_C (fs1.code 0) = 3 ∧
      GETARG_k (fs1.code 0) = 1 := by
  have hr : GET_OPCODE (CREATE_ABCk OP_RETURN0 0 1 0 0) = OP_RETURN0 := by
    rw [GET_OPCODE_CREATE_ABCk]
    rfl
  have h := luaK_finish_rewrites_returns
    { open_func 0 with pc := 1, is_vararg := 1, numparams := 2, code := fun _ => CREATE_ABCk OP_RETURN0 0 1 0 0 }
    (by decide)
  obtain ⟨fs1, h1⟩ := h.2
    (by
      intro i _ hj
      have hj' : GET_OPCODE (CREATE_ABCk OP_RETURN0 0 1 0 0) = OP_JMP := hj
      rw [hr] at hj'
      exact absurd hj' (by decide))
    (by decide)
  obtain ⟨-, h2⟩ := h.1 fs1 h1
  obtain ⟨a, -, -, b, c⟩ := ((h2 0 (by decide)).1 (Or.inr (by decide))).1 (Or.inl hr)
  exact ⟨fs1, h1, a, b, c⟩

/-! ## Freeing registers -/

theorem freeregAssert_fst (fs : FuncState) (reg : Int) :
    (freeregAssert fs reg).1 = freereg fs reg := by
  unfold freeregAssert freereg
  split <;> rfl

theorem freeregsAssert_fst (fs : FuncState) (r1 r2 : Int) :
    (freeregsAssert fs r1 r2).1 = freeregs fs r1 r2 := by
  unfold freeregsAssert freeregs
  split
  · show (freeregAssert (freeregAssert fs r1).1 r2).1 = _
    rw [freeregAssert_fst, freeregAssert_fst]
  · show (freeregAssert (freeregAssert fs r2).1 r1).1 = _
    rw [freeregAssert_fst, freeregAssert_fst]

theorem freeexpsAssert_fst (fs : FuncState) (e1 e2 : expdesc) :
    (freeexpsAssert fs e1 e2).1 = freeexps fs e1 e2 := by
  unfold freeexpsAssert freeexps
  exact freeregsAssert_fst _ _ _

theorem freeregAssert_local (fs : FuncState) (reg : Int) (h : reg < (fs.nactvar : Int)) :
    freeregAssert fs reg = (fs, true) := by
  unfold freeregAssert
  rw [if_neg (by omega)]

theorem freeregAssert_nactvar (fs : FuncState) (reg : Int) :
    (freeregAssert fs reg).1.nactvar = fs.nactvar := by
  unfold freeregAssert
  split <;> rfl

theorem freeregAssert_temporary (fs : FuncState) (reg : Int) (h : (fs.nactvar : Int) ≤ reg)
    (h1 : 1 ≤ fs.freereg) (hb : fs.freereg ≤ 255) :
    freeregAssert fs reg
      = ({ fs with freereg := fs.freereg - 1 }, decide (reg = (fs.freereg : Int) - 1)) := by
  unfold freeregAssert
  rw [if_pos (by omega)]
  have e : (fs.freereg + 255) % 256 = fs.freereg - 1 := by omega
  simp only [e]
  have e2 : ((fs.freereg - 1 : Nat) : Int) = (fs.freereg : Int) - 1 := by omega
  rw [e2]

/-- The calls of `freeregs`, with their assertions: the larger register is
freed first, then the smaller one. -/
theorem freeregsAssert_order (fs : FuncState) (r1 r2 : Int) :
    freeregsAssert fs r1 r2
      = ((freeregAssert (freeregAssert fs (max r1 r2)).1 (min r1 r2)).1,
          (freeregAssert fs (max r1 r2)).2 &&
            (freeregAssert (freeregAssert fs (max r1 r2)).1 (min r1 r2)).2) := by
  unfold freeregsAssert
  by_cases h : r1 > r2
  · rw [if_pos h, max_eq_left (by omega), min_eq_right (by omega)]
  · rw [if_neg h, max_eq_right (by omega), min_eq_left (by omega)]

theorem freeregsAssert_local_left (fs : FuncState) (r1 r2 : Int)
    (h : r1 < (fs.nactvar : Int)) : freeregsAssert fs r1 r2 = freeregAssert fs r2 := by
  unfold freeregsAssert
  by_cases hc : r1 > r2
  · rw [if_pos hc]
    simp only [freeregAssert_local fs r1 h, freeregAssert_local fs r2 (by omega), Bool.and_self]
  · rw [if_neg hc]
    have e : freeregAssert (freeregAssert fs r2).1 r1 = ((freeregAssert fs r2).1, true) :=
      freeregAssert_local _ _ (by rw [freeregAssert_nactvar]; exact h)
    simp only [e, Bool.and_true]

theorem freeregsAssert_local_right (fs : FuncState) (r1 r2 : Int)
    (h : r2 < (fs.nactvar : Int)) : freeregsAssert fs r1 r2 = freeregAssert fs r1 := by
  unfold freeregsAssert
  by_cases hc : r1 > r2
  · rw [if_pos hc]
    have e : freeregAssert (freeregAssert fs r1).1 r2 = ((freeregAssert fs r1).1, true) :=
      freeregAssert_local _ _ (by rw [freeregAssert_nactvar]; exact h)
    simp only [e, Bool.and_true]
  · rw [if_neg hc]
    simp only [freeregAssert_local fs r1 (by omega), freeregAssert_local fs r2 h, Bool.and_self]

/-- C24: with the assertion of freereg executed (freeregAssert, freeregsAssert
and freeexpsAssert give the states of freereg, freeregs and freeexps and tell
whether lua_assert(reg == fs->freereg) held at every call made): freereg(reg)
leaves the state unchanged, reaching no assertion, when reg < nactvar, and
decrements the free-register pointer by exactly one, changing nothing else and
satisfying its assertion, when reg = freereg - 1 >= nactvar. freeregs(r1, r2)
calls freereg on the larger register first and then on the smaller one. For
two registers that are the two topmost temporaries (freereg - 1 and
freereg - 2, both at least nactvar, given in either argument order) the
assertion holds at both calls and the pointer drops by 2, whereas a first call
of freereg on the smaller of the two would fail its assertion. When one
argument is below nactvar, as is the -1 that freeexps passes for an expression
that holds no register, only the other is freed. The pointer is a byte
(freereg <= 255). -/
theorem freeregs_frees_larger_first (fs : FuncState) (reg r1 r2 : Int) (e1 e2 : expdesc)
    (hb : fs.freereg ≤ 255) :
    ((freeregAssert fs reg).1 = freereg fs reg ∧
      (freeregsAssert fs r1 r2).1 = freeregs fs r1 r2 ∧
      (freeexpsAssert fs e1 e2).1 = freeexps fs e1 e2) ∧
    (reg < (fs.nactvar : Int) → freeregAssert fs reg = (fs, true) ∧ freereg fs reg = fs) ∧
    (reg = (fs.freereg : Int) - 1 → (fs.nactvar : Int) ≤ reg →
      freeregAssert fs reg = ({ fs with freereg := fs.freereg - 1 }, true) ∧
      freereg fs reg = { fs with freereg := fs.freereg - 1 } ∧
      ((freereg fs reg).freereg : Int) = (fs.freereg : Int) - 1 ∧
      ((freereg fs reg).freereg : Int) = reg) ∧
    freeregsAssert fs r1 r2
      = ((freeregAssert (freeregAssert fs (max r1 r2)).1 (min r1 r2)).1,
          (freeregAssert fs (max r1 r2)).2 &&
            (freeregAssert (freeregAssert fs (max r1 r2)).1 (min r1 r2)).2) ∧
    (((r1 = (fs.freereg : Int) - 1 ∧ r2 = (fs.freereg : Int) - 2) ∨
        (r1 = (fs.freereg : Int) - 2 ∧ r2 = (fs.freereg : Int) - 1)) →
      (fs.nactvar : Int) ≤ (fs.freereg : Int) - 2 →
      freeregsAssert fs r1 r2 = ({ fs with freereg := fs.freereg - 2 }, true) ∧
      (freeregAssert fs (max r1 r2)).2 = true ∧
      (freeregAssert (freeregAssert fs (max r1 r2)).1 (min r1 r2)).2 = true ∧
      freeregs fs r1 r2 = { fs with freereg := fs.freereg - 2 } ∧
      ((freeregs fs r1 r2).freereg : Int) = (fs.freereg : Int) - 2 ∧
      (freeregAssert fs (min r1 r2)).2 = false) ∧
    (r1 < (fs.nactvar : Int) →
      freeregsAssert fs r1 r2 = freeregAssert fs r2 ∧ freeregs fs r1 r2 = freereg fs r2) ∧
    (r2 < (fs.nactvar : Int) →
      freeregsAssert fs r1 r2 = freeregAssert fs r1 ∧ freeregs fs r1 r2 = freereg fs r1) ∧
    (e1.k ≠ .VNONRELOC →
      freeexpsAssert fs e1 e2 = freeexpAssert fs e2 ∧ freeexps fs e1 e2 = freeexp fs e2) ∧
    (e2.k ≠ .VNONRELOC →
      freeexpsAssert fs e1 e2 = freeexpAssert fs e1 ∧ freeexps fs e1 e2 = freeexp fs e1) := by
  have hneg : (-1 : Int) < (fs.nactvar : Int) := by omega
  have hfst : ∀ r, freereg fs r = (freeregAssert fs r).1 := fun r => (freeregAssert_fst fs r).symm
  refine ⟨⟨freeregAssert_fst fs reg, freeregsAssert_fst fs r1 r2, freeexpsAssert_fst fs e1 e2⟩,
    ?_, ?_, freeregsAssert_order fs r1 r2, ?_, ?_, ?_, ?_, ?_⟩
  · intro h
    have e := freeregAssert_local fs reg h
    exact ⟨e, by rw [hfst, e]⟩
  · intro hreg hge
    have e := freeregAssert_temporary fs reg hge (by omega) hb
    have hd : decide (reg = (fs.freereg : Int) - 1) = true := by simpa using hreg
    rw [hd] at e
    refine ⟨e, by rw [hfst, e], ?_, ?_⟩
    · rw [hfst, e]
      show ((fs.freereg - 1 : Nat) : Int) = (fs.freereg : Int) - 1
      omega
    · rw [hfst, e]
      show ((fs.freereg - 1 : Nat) : Int) = reg
      omega
  · intro hr hge
    have hmax : max r1 r2 = (fs.freereg : Int) - 1 := by
      rcases hr with ⟨a, b⟩ | ⟨a, b⟩ <;> rw [a, b] <;> omega
    have hmin : min r1 r2 = (fs.freereg : Int) - 2 := by
      rcases hr with ⟨a, b⟩ | ⟨a, b⟩ <;> rw [a, b] <;> omega
    have ea : freeregAssert fs (max r1 r2) = ({ fs with freereg := fs.freereg - 1 }, true) := by
      have e := freeregAssert_temporary fs (max r1 r2) (by omega) (by omega) hb
      have hd : decide (max r1 r2 = (fs.freereg : Int) - 1) = true := by simpa using hmax
      rw [hd] at e
      exact e
    have eb : freeregAssert { fs with freereg := fs.freereg - 1 } (min r1 r2)
        = ({ fs with freereg := fs.freereg - 2 }, true) := by
      have e := freeregAssert_temporary { fs with freereg := fs.freereg - 1 } (min r1 r2)
        (by show (fs.nactvar : Int) ≤ min r1 r2; omega)
        (by show 1 ≤ fs.freereg - 1; omega) (by show fs.freereg - 1 ≤ 255; omega)
      have hd : decide (min r1 r2
          = ((({ fs with freereg := fs.freereg - 1 } : FuncState).freereg : Nat) : Int) - 1)
          = true := by
        have : ((({ fs with freereg := fs.freereg - 1 } : FuncState).freereg : Nat) : Int)
            = (fs.freereg : Int) - 1 := by
          show ((fs.freereg - 1 : Nat) : Int) = _
          omega
        rw [this]
        simpa using (by omega : min r1 r2 = (fs.freereg : Int) - 1 - 1)
      rw [hd] at e
      rw [e]
      show (({ fs with freereg := fs.freereg - 1 - 1 } : FuncState), true) = _
      have : fs.freereg - 1 - 1 = fs.freereg - 2 := by omega
      rw [this]
    have es : freeregsAssert fs r1 r2 = ({ fs with freereg := fs.freereg - 2 }, true) := by
      rw [freeregsAssert_order, ea]
      simp only [eb, Bool.and_self]
    have ec : freeregAssert fs (min r1 r2)
        = ({ fs with freereg := fs.freereg - 1 }, false) := by
      have e := freeregAssert_temporary fs (min r1 r2) (by omega) (by omega) hb
      have hd : decide (min r1 r2 = (fs.freereg : Int) - 1) = false := by
        simpa using (by omega : ¬ min r1 r2 = (fs.freereg : Int) - 1)
      rw [hd] at e
      exact e
    have est : freeregs fs r1 r2 = { fs with freereg := fs.freereg - 2 } := by
      rw [← freeregsAssert_fst, es]
    refine ⟨es, by rw [ea], by rw [ea]; simp only [eb], est, ?_, by rw [ec]⟩
    rw [est]
    show ((fs.freereg - 2 : Nat) : Int) = (fs.freereg : Int) - 2
    omega
  · intro h
    have e := freeregsAssert_local_left fs r1 r2 h
    exact ⟨e, by rw [← freeregsAssert_fst, e, freeregAssert_fst]⟩
  · intro h
    have e := freeregsAssert_local_right fs r1 r2 h
    exact ⟨e, by rw [← freeregsAssert_fst, e, freeregAssert_fst]⟩
  · intro h
    have e : freeexpsAssert fs e1 e2 = freeexpAssert fs e2 := by
      unfold freeexpsAssert freeexpAssert
      simp only [h, if_false]
      rw [freeregsAssert_local_left fs _ _ hneg]
      by_cases h2 : e2.k = .VNONRELOC
      · simp only [h2, if_true]
      · simp only [h2, if_false]
        exact freeregAssert_local fs _ hneg
    refine ⟨e, ?_⟩
    rw [← freeexpsAssert_fst, e]
    unfold freeexpAssert freeexp
    split
    · exact freeregAssert_fst _ _
    · rfl
  · intro h
    have e : freeexpsAssert fs e1 e2 = freeexpAssert fs e1 := by
      unfold freeexpsAssert freeexpAssert
      simp only [h, if_false]
      rw [freeregsAssert_local_right fs _ _ hneg]
      by_cases h1 : e1.k = .VNONRELOC
      · simp only [h1, if_true]
      · simp only [h1, if_false]
        exact freeregAssert_local fs _ hneg
    refine ⟨e, ?_⟩
    rw [← freeexpsAssert_fst, e]
    unfold freeexpAssert freeexp
    split
    · exact freeregAssert_fst _ _
    · rfl

/-- Witness for C24: with one local variable and the temporaries 1 and 2,
freeregs(1, 2) and freeregs(2, 1) both satisfy the assertion at their two
calls and leave the first free register at 1; freeing register 1 first would
fail the assertion. -/
theorem freeregs_frees_larger_first_witness :
    (freeregsAssert { open_func 0 with nactvar := 1, freereg := 3 } 1 2).2 = true ∧
    ((freeregs { open_func 0 with nactvar := 1, freereg := 3 } 1 2).freereg : Int) = 1 ∧
    (freeregsAssert { open_func 0 with nactvar := 1, freereg := 3 } 2 1).2 = true ∧
    ((freeregs { open_func 0 with nactvar := 1, freereg := 3 } 2 1).freereg : Int) = 1 ∧
    (freeregAssert { open_func 0 with nactvar := 1, freereg := 3 } 1).2 = false := by
  have h12 := (freeregs_frees_larger_first { open_func 0 with nactvar := 1, freereg := 3 } 0 1 2
    ⟨.VNIL, 0, 0, .negzero, 0, 0, -1, -1, 0⟩ ⟨.VNIL, 0, 0, .negzero, 0, 0, -1, -1, 0⟩
    (by decide)).2.2.2.2.1 (Or.inr ⟨by decide, by decide⟩) (by decide)
  have h21 := (freeregs_frees_larger_first { open_func 0 with nactvar := 1, freereg := 3 } 0 2 1
    ⟨.VNIL, 0, 0, .negzero, 0, 0, -1, -1, 0⟩ ⟨.VNIL, 0, 0, .negzero, 0, 0, -1, -1, 0⟩
    (by decide)).2.2.2.2.1 (Or.inl ⟨by decide, by decide⟩) (by decide)
  obtain ⟨a1, -, -, -, a2, a3⟩ := h12
  obtain ⟨b1, -, -, -, b2, -⟩ := h21
  exact ⟨by rw [a1], a2, by rw [b1], b2, a3⟩

/-! ## Loading a constant -/

/-- C25: luaK_codek(reg, k), for a register reg that fits operand A and a
pool index k that fits operand Ax, emits exactly one instruction, LOADK reg, k,
when k <= MAXARG_Bx, and otherwise exactly two instructions, LOADKX reg, 0
immediately followed by EXTRAARG k; in both cases it returns the position of
the first instruction emitted, changes no earlier instruction and leaves the
constant pool alone. -/
theorem luaK_codek_emits_LOADK_or_LOADKX (fs : FuncState) (reg k : Int)
    (hreg : 0 ≤ reg ∧ reg ≤ (MAXARG_A : Int)) (hk : 0 ≤ k ∧ k ≤ (MAXARG_Ax : Int)) :
    (k ≤ (MAXARG_Bx : Int) →
      (luaK_codek fs reg k).2 = fs.pc ∧ (luaK_codek fs reg k).1.pc = fs.pc + 1 ∧
      GET_OPCODE ((luaK_codek fs reg k).1.code fs.pc) = OP_LOADK ∧
      GETARG_A ((luaK_codek fs reg k).1.code fs.pc) = reg ∧
      GETARG_Bx ((luaK_codek fs reg k).1.code fs.pc) = k ∧
      (∀ j, j ≠ fs.pc → (luaK_codek fs reg k).1.code j = fs.code j)) ∧
    ((MAXARG_Bx : Int) < k →
      (luaK_codek fs reg k).2 = fs.pc ∧ (luaK_codek fs reg k).1.pc = fs.pc + 2 ∧
      GET_OPCODE ((luaK_codek fs reg k).1.code fs.pc) = OP_LOADKX ∧
      GETARG_A ((luaK_codek fs reg k).1.code fs.pc) = reg ∧
      GETARG_Bx ((luaK_codek fs reg k).1.code fs.pc) = 0 ∧
      GET_OPCODE ((luaK_codek fs reg k).1.code (fs.pc + 1)) = OP_EXTRAARG ∧
      GETARG_Ax ((luaK_codek fs reg k).1.code (fs.pc + 1)) = k ∧
      (∀ j, j ≠ fs.pc → j ≠ fs.pc + 1 → (luaK_codek fs reg k).1.code j = fs.code j)) ∧
    (luaK_codek fs reg k).1.k = fs.k ∧ (luaK_codek fs reg k).1.nk = fs.nk := by
  unfold MAXARG_A at hreg
  unfold MAXARG_Ax at hk
  simp only [Nat.reducePow, Nat.reduceSub, Nat.cast_ofNat] at hreg hk
  refine ⟨?_, ?_, luaK_codek_k fs reg k, ?_⟩
  · intro h
    have hc : luaK_codek fs reg k = luaK_codeABx fs OP_LOADK reg k := by
      unfold luaK_codek
      rw [if_pos h]
    unfold MAXARG_Bx at h
    simp only [Nat.reducePow, Nat.reduceSub, Nat.cast_ofNat] at h
    rw [hc]
    unfold luaK_codeABx
    simp only [luaK_code_code, luaK_code_pc, luaK_code_snd, setAt_same]
    refine ⟨trivial, trivial, ?_, ?_, ?_, ?_⟩
    · rw [GET_OPCODE_CREATE_ABx]
      rfl
    · rw [GETARG_A_CREATE_ABx]
      omega
    · rw [GETARG_Bx_CREATE_ABx]
      omega
    · intro j hj
      exact setAt_other _ _ _ _ hj
  · intro h
    have hc : luaK_codek fs reg k
        = ((codeextraarg (luaK_codeABx fs OP_LOADKX reg 0).1 k).1,
            (luaK_codeABx fs OP_LOADKX reg 0).2) := by
      unfold luaK_codek
      rw [if_neg (by omega)]
    rw [hc]
    unfold codeextraarg luaK_codeABx
    simp only [luaK_code_code, luaK_code_pc, luaK_code_snd, setAt_same]
    refine ⟨trivial, trivial, ?_, ?_, ?_, ?_, ?_, ?_⟩
    · rw [setAt_other _ _ _ _ (by omega), setAt_same, GET_OPCODE_CREATE_ABx]
      rfl
    · rw [setAt_other _ _ _ _ (by omega), setAt_same, GETARG_A_CREATE_ABx]
      omega
    · rw [setAt_other _ _ _ _ (by omega), setAt_same, GETARG_Bx_CREATE_ABx]
      rfl
    · rw [GET_OPCODE_CREATE_Ax]
      rfl
    · rw [GETARG_Ax_CREATE_Ax]
      omega
    · intro j h1 h2
      rw [setAt_other _ _ _ _ h2, setAt_other _ _ _ _ h1]
  · unfold luaK_codek
    split
    · simp [luaK_codeABx]
    · simp [luaK_codeABx, codeextraarg]

/-- Witness for C25: in the fresh state, loading the constant 131072 (the
first index that does not fit Bx) into register 3 emits LOADKX 3 and
EXTRAARG 131072 and returns position 0. -/
theorem luaK_codek_emits_LOADK_or_LOADKX_witness :
    (luaK_codek (open_func 0) 3 131072).2 = 0 ∧
    (luaK_codek (open_func 0) 3 131072).1.pc = 2 ∧
    GET_OPCODE ((luaK_codek (open_func 0) 3 131072).1.code 0) = OP_LOADKX ∧
    GETARG_A ((luaK_codek (open_func 0) 3 131072).1.code 0) = 3 ∧
    GET_OPCODE ((luaK_codek (open_func 0) 3 131072).1.code 1) = OP_EXTRAARG ∧
    GETARG_Ax ((luaK_codek (open_func 0) 3 131072).1.code 1) = 131072 := by
  obtain ⟨a, b, c, d, -, e, f, -⟩ :=
    (luaK_codek_emits_LOADK_or_LOADKX (open_func 0) 3 131072 (by decide) (by decide)).2.1
      (by decide)
  exact ⟨a, b, c, d, e, f⟩

/-! ## Reading and writing a jump -/

/-- C27: fixjump and getjump are inverse on ordinary targets: for every
position pc and every dest with dest - (pc + 1) in the range of sJ, fixjump(pc,
dest) returns, and afterwards getjump(pc) returns dest when dest != pc; a jump
fixed to its own position reads back as NO_JUMP, and so does a freshly created
jump (luaK_jump), which is a JMP at the old pc. -/
theorem fixjump_then_getjump (fs : FuncState) (pc dest : Int)
    (hr : -(OFFSET_sJ : Int) ≤ dest - (pc + 1) ∧
      dest - (pc + 1) ≤ (MAXARG_sJ : Int) - OFFSET_sJ) :
    (∃ fs1, fixjump fs pc dest = .ok fs1 ∧
      (dest ≠ pc → getjump fs1 pc = dest) ∧
      (dest = pc → getjump fs1 pc = NO_JUMP)) ∧
    (luaK_jump fs).2 = fs.pc ∧ (luaK_jump fs).1.pc = fs.pc + 1 ∧
    GET_OPCODE ((luaK_jump fs).1.code fs.pc) = OP_JMP ∧
    getjump (luaK_jump fs).1 (luaK_jump fs).2 = NO_JUMP := by
  constructor
  · refine ⟨{ fs with code := setAt fs.code pc.toNat (SETARG_sJ (fs.code pc.toNat) (dest - (pc + 1))) }, ?_, ?_, ?_⟩
    · unfold fixjump
      simp only [hr, and_self, not_true_eq_false, if_false]
    · intro hne
      unfold getjump
      simp only [setAt_same]
      rw [GETARG_sJ_SETARG_sJ _ _ hr.1 hr.2]
      have : ¬ (dest - (pc + 1) = NO_JUMP) := by
        unfold NO_JUMP
        omega
      rw [if_neg this]
      ring
    · intro he
      unfold getjump
      simp only [setAt_same]
      rw [GETARG_sJ_SETARG_sJ _ _ hr.1 hr.2]
      have : dest - (pc + 1) = NO_JUMP := by
        unfold NO_JUMP
        omega
      rw [if_pos this]
  · have hs : GETARG_sJ (CREATE_sJ OP_JMP (NO_JUMP + OFFSET_sJ) 0) = NO_JUMP :=
      GETARG_sJ_CREATE_sJ OP_JMP NO_JUMP (by decide) (by decide)
    unfold luaK_jump codesJ
    simp only [luaK_code_code, luaK_code_pc, luaK_code_snd]
    refine ⟨trivial, trivial, ?_, ?_⟩
    · rw [setAt_same, GET_OPCODE_CREATE_sJ]
      rfl
    · unfold getjump
      simp only [Int.toNat_ofNat, luaK_code_code, setAt_same, hs, if_true]

/-- Witness for C27: the jump at position 4 fixed to position 10 reads back
as 10, and fixed to position 4 reads back as NO_JUMP. -/
theorem fixjump_then_getjump_witness :
    (∃ fs1, fixjump (open_func 0) 4 10 = .ok fs1 ∧ getjump fs1 4 = 10) ∧
    (∃ fs1, fixjump (open_func 0) 4 4 = .ok fs1 ∧ getjump fs1 4 = NO_JUMP) := by
  obtain ⟨⟨fs1, a, b, -⟩, -⟩ := fixjump_then_getjump (open_func 0) 4 10 (by decide)
  obtain ⟨⟨fs2, c, -, d⟩, -⟩ := fixjump_then_getjump (open_func 0) 4 4 (by decide)
  exact ⟨⟨fs1, a, b (by decide)⟩, ⟨fs2, c, d rfl⟩⟩

/-- The two embeddings of `fixjump` agree: `fixjump` is `fixjumpRaise` without
the state of the error. -/
theorem fixjump_eq_fixjumpRaise (fs : FuncState) (pc dest : Int) :
    fixjump fs pc dest = (fixjumpRaise fs pc dest).mapError Prod.fst := by
  unfold fixjump fixjumpRaise
  dsimp only
  split <;> rfl

/-- C28: fixjump(pc, dest) raises the syntax error "control structure too
long" if and only if the offset dest - (pc + 1) lies outside
[-OFFSET_sJ, MAXARG_sJ - OFFSET_sJ], and returns otherwise; when it raises, the
state is the one it was given, so no instruction has been modified; when it
returns, only the instruction at pc differs, it keeps its opcode, and its sJ
field is the offset. -/
theorem fixjump_raises_iff_offset_out_of_range (fs : FuncState) (pc dest : Int) :
    (fixjump fs pc dest = .error "control structure too long" ↔
      ¬ (-(OFFSET_sJ : Int) ≤ dest - (pc + 1) ∧
        dest - (pc + 1) ≤ (MAXARG_sJ : Int) - OFFSET_sJ)) ∧
    ((∃ fs1, fixjump fs pc dest = .ok fs1) ↔
      (-(OFFSET_sJ : Int) ≤ dest - (pc + 1) ∧
        dest - (pc + 1) ≤ (MAXARG_sJ : Int) - OFFSET_sJ)) ∧
    fixjump fs pc dest = (fixjumpRaise fs pc dest).mapError Prod.fst ∧
    (∀ msg fsr, fixjumpRaise fs pc dest = .error (msg, fsr) →
      msg = "control structure too long" ∧ fsr = fs) ∧
    (∀ fs1, fixjump fs pc dest = .ok fs1 →
      CodeOnly fs fs1 ∧ (∀ j, j ≠ pc.toNat → fs1.code j = fs.code j) ∧
      fs1.code pc.toNat = SETARG_sJ (fs.code pc.toNat) (dest - (pc + 1)) ∧
      GET_OPCODE (fs1.code pc.toNat) = GET_OPCODE (fs.code pc.toNat) ∧
      GETARG_sJ (fs1.code pc.toNat) = dest - (pc + 1)) := by
  by_cases hr : (-(OFFSET_sJ : Int) ≤ dest - (pc + 1) ∧
      dest - (pc + 1) ≤ (MAXARG_sJ : Int) - OFFSET_sJ)
  · have hfix : fixjump fs pc dest = .ok { fs with code := setAt fs.code pc.toNat (SETARG_sJ (fs.code pc.toNat) (dest - (pc + 1))) } := by
      unfold fixjump
      simp only [hr, and_self, not_true_eq_false, if_false]
    have hraise : fixjumpRaise fs pc dest = .ok { fs with code := setAt fs.code pc.toNat (SETARG_sJ (fs.code pc.toNat) (dest - (pc + 1))) } := by
      unfold fixjumpRaise
      simp only [hr, and_self, not_true_eq_false, if_false]
    refine ⟨?_, ?_, fixjump_eq_fixjumpRaise fs pc dest, ?_, ?_⟩
    · rw [hfix]
      constructor
      · intro h
        cases h
      · intro h
        exact absurd hr h
    · exact ⟨fun _ => hr, fun _ => ⟨_, hfix⟩⟩
    · intro msg fsr h
      rw [hraise] at h
      cases h
    · intro fs1 h
      rw [hfix] at h
      injection h with h
      subst h
      refine ⟨CodeOnly.setcode _ _, ?_, ?_, ?_, ?_⟩
      · intro j hj
        exact setAt_other _ _ _ _ hj
      · exact setAt_same _ _ _
      · show GET_OPCODE (setAt fs.code pc.toNat _ pc.toNat) = _
        rw [setAt_same, GET_OPCODE_SETARG_sJ]
      · show GETARG_sJ (setAt fs.code pc.toNat _ pc.toNat) = _
        rw [setAt_same, GETARG_sJ_SETARG_sJ _ _ hr.1 hr.2]
  · have hfix : fixjump fs pc dest = .error "control structure too long" := by
      unfold fixjump
      rw [if_pos hr]
    have hraise : fixjumpRaise fs pc dest = .error ("control structure too long", fs) := by
      unfold fixjumpRaise
      rw [if_pos hr]
    refine ⟨⟨fun _ => hr, fun _ => hfix⟩, ?_, fixjump_eq_fixjumpRaise fs pc dest, ?_, ?_⟩
    · constructor
      · rintro ⟨fs1, h⟩
        rw [hfix] at h
        cases h
      · intro h
        exact absurd h hr
    · intro msg fsr h
      rw [hraise] at h
      injection h with h
      injection h with h1 h2
      exact ⟨h1.symm, h2.symm⟩
    · intro fs1 h
      rw [hfix] at h
      cases h

/-- Witness for C28: a jump at position 0 to position 16777218 (offset
2^24 + 1, one more than MAXARG_sJ - OFFSET_sJ) raises the error, and a jump to
position 16777217 is written. -/
theorem fixjump_raises_iff_offset_out_of_range_witness :
    fixjump (open_func 0) 0 16777218 = .error "control structure too long" ∧
    (∃ fs1, fixjump (open_func 0) 0 16777217 = .ok fs1) :=
  ⟨(fixjump_raises_iff_offset_out_of_range (open_func 0) 0 16777218).1.2 (by decide),
   (fixjump_raises_iff_offset_out_of_range (open_func 0) 0 16777217).2.1.2 (by decide)⟩

/-! ## Patching a test -/

/-- C29: patchtestreg(node, reg), with i the instruction controlling the jump
at node (the one at getjumpcontrol): if i is not a TESTSET it returns 0 and
changes nothing; if it is a TESTSET with source register s = B it returns 1,
changes no other instruction and nothing but the code, and either sets only
the A field of i (to reg, for a reg that fits the field) when reg != NO_REG and
reg != s, keeping opcode, B, C and k, or replaces i by TEST with A = s, B = 0,
C = 0 and the same k bit when reg = NO_REG or reg = s. -/
theorem patchtestreg_patches_TESTSET_only (fs : FuncState) (node reg : Int) :
    (GET_OPCODE (fs.code (getjumpcontrol fs node).toNat) ≠ OP_TESTSET →
      patchtestreg fs node reg = (fs, false)) ∧
    (GET_OPCODE (fs.code (getjumpcontrol fs node).toNat) = OP_TESTSET →
      (patchtestreg fs node reg).2 = true ∧
      CodeOnly fs (patchtestreg fs node reg).1 ∧
      (∀ j, j ≠ (getjumpcontrol fs node).toNat →
        (patchtestreg fs node reg).1.code j = fs.code j) ∧
      (reg ≠ NO_REG ∧ reg ≠ GETARG_B (fs.code (getjumpcontrol fs node).toNat) →
        (patchtestreg fs node reg).1.code (getjumpcontrol fs node).toNat
          = SETARG_A (fs.code (getjumpcontrol fs node).toNat) reg ∧
        GET_OPCODE ((patchtestreg fs node reg).1.code (getjumpcontrol fs node).toNat)
          = OP_TESTSET ∧
        (0 ≤ reg ∧ reg ≤ (MAXARG_A : Int) →
          GETARG_A ((patchtestreg fs node reg).1.code (getjumpcontrol fs node).toNat) = reg) ∧
        GETARG_B ((patchtestreg fs node reg).1.code (getjumpcontrol fs node).toNat)
          = GETARG_B (fs.code (getjumpcontrol fs node).toNat) ∧
        GETARG_C ((patchtestreg fs node reg).1.code (getjumpcontrol fs node).toNat)
          = GETARG_C (fs.code (getjumpcontrol fs node).toNat) ∧
        GETARG_k ((patchtestreg fs node reg).1.code (getjumpcontrol fs node).toNat)
          = GETARG_k (fs.code (getjumpcontrol fs node).toNat)) ∧
      (reg = NO_REG ∨ reg = GETARG_B (fs.code (getjumpcontrol fs node).toNat) →
        GET_OPCODE ((patchtestreg fs node reg).1.code (getjumpcontrol fs node).toNat)
          = OP_TEST ∧
        GETARG_A ((patchtestreg fs node reg).1.code (getjumpcontrol fs node).toNat)
          = GETARG_B (fs.code (getjumpcontrol fs node).toNat) ∧
        GETARG_B ((patchtestreg fs node reg).1.code (getjumpcontrol fs node).toNat) = 0 ∧
        GETARG_C ((patchtestreg fs node reg).1.code (getjumpcontrol fs node).toNat) = 0 ∧
        GETARG_k ((patchtestreg fs node reg).1.code (getjumpcontrol fs node).toNat)
          = GETARG_k (fs.code (getjumpcontrol fs node).toNat))) := by
  constructor
  · intro h
    unfold patchtestreg
    simp only [h, ne_eq, not_false_eq_true, if_true]
  · intro h
    have hB := GETARG_B_range (fs.code (getjumpcontrol fs node).toNat)
    have hk := GETARG_k_range (fs.code (getjumpcontrol fs node).toNat)
    refine ⟨?_, patchtestreg_CodeOnly fs node reg, ?_, ?_, ?_⟩
    · unfold patchtestreg
      simp only [h, ne_eq, not_true_eq_false, if_false]
      split <;> rfl
    · intro j hj
      unfold patchtestreg
      simp only [h, ne_eq, not_true_eq_false, if_false]
      split <;> exact setAt_other _ _ _ _ hj
    · intro hreg
      have hc : (patchtestreg fs node reg).1.code (getjumpcontrol fs node).toNat
          = SETARG_A (fs.code (getjumpcontrol fs node).toNat) reg := by
        unfold patchtestreg
        simp only [h, ne_eq, not_true_eq_false, if_false]
        rw [if_pos hreg]
        exact setAt_same _ _ _
      rw [hc, GET_OPCODE_SETARG_A, GETARG_A_SETARG_A, GETARG_B_SETARG_A, GETARG_C_SETARG_A,
        GETARG_k_SETARG_A]
      refine ⟨rfl, h, ?_, rfl, rfl, rfl⟩
      intro hr
      unfold MAXARG_A at hr
      omega
    · intro hreg
      have hn : ¬ (reg ≠ NO_REG ∧ reg ≠ GETARG_B (fs.code (getjumpcontrol fs node).toNat)) := by
        rcases hreg with e | e
        · exact fun c => c.1 e
        · exact fun c => c.2 e
      have hc : (patchtestreg fs node reg).1.code (getjumpcontrol fs node).toNat
          = CREATE_ABCk OP_TEST (GETARG_B (fs.code (getjumpcontrol fs node).toNat)) 0 0
              (GETARG_k (fs.code (getjumpcontrol fs node).toNat)) := by
        unfold patchtestreg
        simp only [h, ne_eq, not_true_eq_false, if_false]
        rw [if_neg hn]
        exact setAt_same _ _ _
      rw [hc, GET_OPCODE_CREATE_ABCk, GETARG_A_CREATE_ABCk, GETARG_B_CREATE_ABCk,
        GETARG_C_CREATE_ABCk, GETARG_k_CREATE_ABCk]
      refine ⟨rfl, ?_, rfl, rfl, ?_⟩ <;> omega

/-- Witness for C29: the jump at position 1 is controlled by TESTSET 255 4 with
k = 1 at position 0; patching it with register 7 makes it TESTSET 7 4, and
patching it with NO_REG makes it TEST 4 with k = 1. -/
theorem patchtestreg_patches_TESTSET_only_witness :
    GETARG_A ((patchtestreg { open_func 0 with pc := 2, code := fun j => if j = 0 then CREATE_ABCk OP_TESTSET 255 4 0 1 else CREATE_sJ OP_JMP (OFFSET_sJ - 1 : Int) 0 } 1 7).1.code 0) = 7 ∧
    GET_OPCODE ((patchtestreg { open_func 0 with pc := 2, code := fun j => if j = 0 then CREATE_ABCk OP_TESTSET 255 4 0 1 else CREATE_sJ OP_JMP (OFFSET_sJ - 1 : Int) 0 } 1 NO_REG).1.code 0) = OP_TEST := by
  have hts : GET_OPCODE (CREATE_ABCk OP_TESTSET 255 4 0 1) = OP_TESTSET := by
    rw [GET_OPCODE_CREATE_ABCk]
    rfl
  have hB : GETARG_B (CREATE_ABCk OP_TESTSET 255 4 0 1) = 4 := by
    rw [GETARG_B_CREATE_ABCk]
    rfl
  have hp : ∀ fs : FuncState, fs.code 0 = CREATE_ABCk OP_TESTSET 255 4 0 1 →
      getjumpcontrol fs 1 = 0 := by
    intro fs h
    unfold getjumpcontrol
    have : ((1 : Int) - 1).toNat = 0 := by decide
    rw [this, h, hts, testTMode_TESTSET]
    simp
  have hp1 := hp { open_func 0 with pc := 2, code := fun j => if j = 0 then CREATE_ABCk OP_TESTSET 255 4 0 1 else CREATE_sJ OP_JMP (OFFSET_sJ - 1 : Int) 0 } rfl
  have h7 := (patchtestreg_patches_TESTSET_only { open_func 0 with pc := 2, code := fun j => if j = 0 then CREATE_ABCk OP_TESTSET 255 4 0 1 else CREATE_sJ OP_JMP (OFFSET_sJ - 1 : Int) 0 } 1 7).2
  have hN := (patchtestreg_patches_TESTSET_only { open_func 0 with pc := 2, code := fun j => if j = 0 then CREATE_ABCk OP_TESTSET 255 4 0 1 else CREATE_sJ OP_JMP (OFFSET_sJ - 1 : Int) 0 } 1 NO_REG).2
  rw [hp1] at h7 hN
  have h0 : ((0 : Int)).toNat = 0 := rfl
  rw [h0] at h7 hN
  have hc0 : ({ open_func 0 with pc := 2, code := fun j => if j = 0 then CREATE_ABCk OP_TESTSET 255 4 0 1 else CREATE_sJ OP_JMP (OFFSET_sJ - 1 : Int) 0 } : FuncState).code 0 = CREATE_ABCk OP_TESTSET 255 4 0 1 := rfl
  rw [hc0] at h7 hN
  obtain ⟨-, -, -, a, -⟩ := h7 hts
  obtain ⟨-, -, -, -, b⟩ := hN hts
  refine ⟨(a ⟨by decide, by rw [hB]; decide⟩).2.2.1 (by decide), (b (Or.inl rfl)).1⟩

/-! ## Loading nil at a jump target -/

/-- When the current position is a jump target (`pc <= lasttarget`),
`luaK_nil` emits a new `LOADNIL`, whatever the previous instruction. -/
theorem luaK_nil_at_target (s : FuncState) (frm n : Int)
    (hfrm : 0 ≤ frm ∧ frm ≤ (MAXARG_A : Int)) (hn : 1 ≤ n ∧ n - 1 ≤ (MAXARG_B : Int))
    (h : (s.pc : Int) ≤ s.lasttarget) :
    luaK_nil s frm n = (luaK_codeABC s OP_LOADNIL frm (n - 1) 0).1 ∧
    (luaK_nil s frm n).pc = s.pc + 1 ∧
    (∀ j, j ≠ s.pc → (luaK_nil s frm n).code j = s.code j) ∧
    GET_OPCODE ((luaK_nil s frm n).code s.pc) = OP_LOADNIL ∧
    GETARG_A ((luaK_nil s frm n).code s.pc) = frm ∧
    GETARG_B ((luaK_nil s frm n).code s.pc) = n - 1 := by
  have hp : previousinstruction s = invalidinstruction := by
    unfold previousinstruction
    rw [if_neg (by omega)]
  have e : luaK_nil s frm n = (luaK_codeABC s OP_LOADNIL frm (n - 1) 0).1 := by
    unfold luaK_nil
    simp only [hp, GET_OPCODE_invalidinstruction, if_false]
  unfold MAXARG_A at hfrm
  unfold MAXARG_B at hn
  rw [e]
  simp only [luaK_codeABC_pc, luaK_codeABC_code, setAt_same]
  refine ⟨trivial, trivial, ?_, ?_, ?_, ?_⟩
  · intro j hj
    exact setAt_other _ _ _ _ hj
  · rw [GET_OPCODE_CREATE_ABCk]
    rfl
  · rw [GETARG_A_CREATE_ABCk]
    omega
  · rw [GETARG_B_CREATE_ABCk]
    omega

/-- C26: once the current position has been marked as a jump target, by
luaK_getlabel or by luaK_patchtohere (both set lasttarget = pc and emit
nothing), and no instruction has been emitted since, luaK_nil(from, n) over
registers (0 <= from <= MAXARG_A, 1 <= n, n - 1 <= MAXARG_B) never merges into
the preceding instruction: it emits the new instruction LOADNIL from, n-1 at pc
and leaves the preceding instruction, like every other one, unchanged,
whatever that instruction is; this holds in every state with pc <= lasttarget.
luaK_patchtohere of the empty list returns. -/
theorem luaK_nil_emits_after_label (fs : FuncState) (frm n : Int)
    (hfrm : 0 ≤ frm ∧ frm ≤ (MAXARG_A : Int)) (hn : 1 ≤ n ∧ n - 1 ≤ (MAXARG_B : Int)) :
    ((fs.pc : Int) ≤ fs.lasttarget →
      (luaK_nil fs frm n).pc = fs.pc + 1 ∧
      (∀ j, j ≠ fs.pc → (luaK_nil fs frm n).code j = fs.code j) ∧
      GET_OPCODE ((luaK_nil fs frm n).code fs.pc) = OP_LOADNIL ∧
      GETARG_A ((luaK_nil fs frm n).code fs.pc) = frm ∧
      GETARG_B ((luaK_nil fs frm n).code fs.pc) = n - 1) ∧
    ((luaK_getlabel fs).2 = fs.pc ∧ (luaK_getlabel fs).1.lasttarget = fs.pc ∧
      (luaK_getlabel fs).1.pc = fs.pc ∧ (luaK_getlabel fs).1.code = fs.code ∧
      (luaK_nil (luaK_getlabel fs).1 frm n).pc = fs.pc + 1 ∧
      (∀ j, j ≠ fs.pc → (luaK_nil (luaK_getlabel fs).1 frm n).code j = fs.code j) ∧
      GET_OPCODE ((luaK_nil (luaK_getlabel fs).1 frm n).code fs.pc) = OP_LOADNIL ∧
      GETARG_A ((luaK_nil (luaK_getlabel fs).1 frm n).code fs.pc) = frm ∧
      GETARG_B ((luaK_nil (luaK_getlabel fs).1 frm n).code fs.pc) = n - 1) ∧
    (∀ list fs1, luaK_patchtohere fs list = .ok fs1 →
      fs1.lasttarget = fs.pc ∧ fs1.pc = fs.pc ∧
      (luaK_nil fs1 frm n).pc = fs.pc + 1 ∧
      (∀ j, j ≠ fs.pc → (luaK_nil fs1 frm n).code j = fs1.code j) ∧
      GET_OPCODE ((luaK_nil fs1 frm n).code fs.pc) = OP_LOADNIL ∧
      GETARG_A ((luaK_nil fs1 frm n).code fs.pc) = frm ∧
      GETARG_B ((luaK_nil fs1 frm n).code fs.pc) = n - 1) ∧
    luaK_patchtohere fs NO_JUMP = .ok (luaK_getlabel fs).1 := by
  refine ⟨?_, ?_, ?_, ?_⟩
  · intro h
    exact (luaK_nil_at_target fs frm n hfrm hn h).2
  · obtain ⟨-, a, b, c, d, e⟩ := luaK_nil_at_target (luaK_getlabel fs).1 frm n hfrm hn
      (le_of_eq rfl)
    exact ⟨rfl, rfl, rfl, rfl, a, b, c, d, e⟩
  · intro list fs1 h
    have hco := luaK_patchtohere_CodeOnly h
    have hpc : fs1.pc = fs.pc := hco.pc
    have hlt : fs1.lasttarget = fs.pc := hco.lasttarget
    obtain ⟨-, a, b, c, d, e⟩ := luaK_nil_at_target fs1 frm n hfrm hn
      (by rw [hpc, hlt])
    rw [hpc] at a b c d e
    exact ⟨hlt, hpc, a, b, c, d, e⟩
  · unfold luaK_patchtohere luaK_patchlist patchlistaux patchlistauxLoop
    simp

/-- Witness for C26: after LOADNIL 0, 0 has been emitted and the position 1
has been marked as a jump target, luaK_nil(1, 1) emits LOADNIL 1, 0 at
position 1 and leaves the LOADNIL at position 0 as it is. -/
theorem luaK_nil_emits_after_label_witness :
    (luaK_nil (luaK_getlabel (luaK_nil (open_func 0) 0 1)).1 1 1).pc
      = (luaK_nil (open_func 0) 0 1).pc + 1 ∧
    (luaK_nil (luaK_getlabel (luaK_nil (open_func 0) 0 1)).1 1 1).code 0
      = (luaK_nil (open_func 0) 0 1).code 0 ∧
    GETARG_A ((luaK_nil (luaK_getlabel (luaK_nil (open_func 0) 0 1)).1 1 1).code
      (luaK_nil (open_func 0) 0 1).pc) = 1 := by
  obtain ⟨-, -, -, -, a, b, -, c, -⟩ :=
    (luaK_nil_emits_after_label (luaK_nil (open_func 0) 0 1) 1 1 (by decide) (by decide)).2.1
  have hpc : (luaK_nil (open_func 0) 0 1).pc = 1 := by
    simp [luaK_nil, previousinstruction, open_func, GET_OPCODE_invalidinstruction,
      luaK_codeABC, luaK_codeABCk]
  refine ⟨a, b 0 ?_, c⟩
  rw [hpc]
  decide

/-! ## Refusals of constant folding -/

/-- C30 counterexample: the first operand is an upvalue, not a numeric literal,
whose variable is a compile-time constant of value 3; constfolding does not
refuse x + 1 but folds it to the integer literal 4. -/
theorem constfolding_folds_constant_upvalue :
    (⟨.VUPVAL, 0, 0, .negzero, 0, 0, -1, -1, 0⟩ : expdesc).k = .VUPVAL ∧
    (constfolding integerArith { open_func 0 with vardesc := fun _ => some (.integer 3) }
      LUA_OPADD ⟨.VUPVAL, 0, 0, .negzero, 0, 0, -1, -1, 0⟩
      ⟨.VKINT, 0, 1, .negzero, 0, 0, -1, -1, 0⟩).2 = true ∧
    (constfolding integerArith { open_func 0 with vardesc := fun _ => some (.integer 3) }
      LUA_OPADD ⟨.VUPVAL, 0, 0, .negzero, 0, 0, -1, -1, 0⟩
      ⟨.VKINT, 0, 1, .negzero, 0, 0, -1, -1, 0⟩).1.k = .VKINT ∧
    (constfolding integerArith { open_func 0 with vardesc := fun _ => some (.integer 3) }
      LUA_OPADD ⟨.VUPVAL, 0, 0, .negzero, 0, 0, -1, -1, 0⟩
      ⟨.VKINT, 0, 1, .negzero, 0, 0, -1, -1, 0⟩).1.ival = 4 := by
  refine ⟨rfl, ?_, ?_, ?_⟩ <;> decide

/-- What makes `luaK_tonumeral` fail: pending jumps, or a kind that is neither
`VKINT` nor `VKFLT` nor an upvalue with a compile-time constant. -/
theorem luaK_tonumeral_none (fs : FuncState) (e : expdesc)
    (h : hasjumps e = true ∨ (e.k ≠ .VKINT ∧ e.k ≠ .VKFLT ∧
      (e.k = .VUPVAL → fs.vardesc e.var_idx = none ∨ fs.vardesc e.var_idx = some .nil))) :
    luaK_tonumeral fs e true = none := by
  unfold luaK_tonumeral
  rcases h with h | ⟨h1, h2, h3⟩
  · rw [if_pos h]
  · split
    · rfl
    · split
      · exact absurd (by assumption) h1
      · exact absurd (by assumption) h2
      · rename_i hk
        rcases h3 hk with h | h <;> rw [h]
        simp
      · rfl

/-- When `luaK_tonumeral` fails on an operand, `constfolding` refuses. -/
theorem constfolding_none (luaO_rawarith : Nat → TValue → TValue → TValue) (fs : FuncState)
    (op : Nat) (e1 e2 : expdesc)
    (h : luaK_tonumeral fs e1 true = none ∨ luaK_tonumeral fs e2 true = none) :
    constfolding luaO_rawarith fs op e1 e2 = (e1, false) := by
  unfold constfolding
  rcases h with h | h
  · rw [h]
  · rw [h]
    cases luaK_tonumeral fs e1 true <;> rfl

/-- C30 (amended): constfolding takes the state only to read it, and when it
accepts, its callers luaK_prefix and luaK_posfix return the state in which they
called it (for luaK_posfix the state after luaK_dischargevars of the second
operand), so the fold emits no instruction and adds no constant; whenever it
refuses it leaves e1 unchanged; it refuses whenever the divisor is zero (the
integer literal 0 or a float literal zero) for DIV, IDIV or MOD, whatever the
first operand, whenever an operand has pending jump lists, and whenever an
operand is neither a numeric literal (VKINT, VKFLT) nor an upvalue whose
variable is a compile-time constant other than nil. -/
theorem constfolding_refuses_without_effect
    (luaO_rawarith : Nat → TValue → TValue → TValue) (fs : FuncState) (op : Nat)
    (e1 e2 : expdesc) (line : Int) :
    ((constfolding luaO_rawarith fs op e1 e2).2 = false →
      (constfolding luaO_rawarith fs op e1 e2).1 = e1) ∧
    ((op = LUA_OPDIV ∨ op = LUA_OPIDIV ∨ op = LUA_OPMOD) →
      ((e2.k = .VKINT ∧ e2.ival = 0) ∨
        (e2.k = .VKFLT ∧ (e2.nval = .fin 0 ∨ e2.nval = .negzero))) →
      constfolding luaO_rawarith fs op e1 e2 = (e1, false)) ∧
    ((hasjumps e1 = true ∨ hasjumps e2 = true) →
      constfolding luaO_rawarith fs op e1 e2 = (e1, false)) ∧
    (∀ e, (e = e1 ∨ e = e2) → e.k ≠ .VKINT → e.k ≠ .VKFLT →
      (e.k = .VUPVAL → fs.vardesc e.var_idx = none ∨ fs.vardesc e.var_idx = some .nil) →
      constfolding luaO_rawarith fs op e1 e2 = (e1, false)) ∧
    (∀ uop : UnOpr, (uop = .OPR_MINUS ∨ uop = .OPR_BNOT) →
      (constfolding luaO_rawarith fs (uop.toNat + LUA_OPUNM) e1
        ⟨.VKINT, 0, 0, .fin 0, 0, 0, NO_JUMP, NO_JUMP, 0⟩).2 = true →
      luaK_prefix luaO_rawarith fs uop e1 line
        = .ok (fs, (constfolding luaO_rawarith fs (uop.toNat + LUA_OPUNM) e1
            ⟨.VKINT, 0, 0, .fin 0, 0, 0, NO_JUMP, NO_JUMP, 0⟩).1)) ∧
    (∀ opr : BinOpr, opr.toNat ≤ BinOpr.OPR_SHR.toNat →
      (constfolding luaO_rawarith (luaK_dischargevars fs e2).1 (opr.toNat + LUA_OPADD) e1
        (luaK_dischargevars fs e2).2).2 = true →
      luaK_posfix luaO_rawarith fs opr e1 e2 line
        = .ok ((luaK_dischargevars fs e2).1,
            (constfolding luaO_rawarith (luaK_dischargevars fs e2).1 (opr.toNat + LUA_OPADD) e1
              (luaK_dischargevars fs e2).2).1,
            (luaK_dischargevars fs e2).2)) := by
  refine ⟨?_, ?_, ?_, ?_, ?_, ?_⟩
  · intro h
    unfold constfolding at h ⊢
    split
    · rename_i v1 v2 h1 h2
      simp only [h1, h2] at h
      split
      · rfl
      · rename_i hv
        simp only [hv, if_false] at h
        split
        · rename_i i hi
          simp only [hi] at h
          cases h
        · rename_i n hn
          simp only [hn] at h
          split
          · rfl
          · rename_i hz
            simp only [hz, if_false] at h
            cases h
        · rfl
    · rfl
  · intro hop hz
    by_cases hj : hasjumps e2 = true
    · exact constfolding_none _ _ _ _ _ (Or.inr (luaK_tonumeral_none fs e2 (Or.inl hj)))
    · have hj' : hasjumps e2 = false := by simpa using hj
      unfold constfolding
      cases h1 : luaK_tonumeral fs e1 true with
      | none => rfl
      | some v1 =>
        have hv : ∀ v2, luaK_tonumeral fs e2 true = some v2 → validop op v1 v2 = false := by
          intro v2 h2
          unfold luaK_tonumeral at h2
          simp only [hj', Bool.false_eq_true, if_false] at h2
          have hnb : ¬ (op = LUA_OPBAND ∨ op = LUA_OPBOR ∨ op = LUA_OPBXOR ∨ op = LUA_OPSHL
              ∨ op = LUA_OPSHR ∨ op = LUA_OPBNOT) := by
            rcases hop with e | e | e <;> rw [e] <;> decide
          unfold validop
          rw [if_neg hnb, if_pos hop]
          rcases hz with ⟨hk, hi⟩ | ⟨hk, hn⟩
          · simp only [hk] at h2
            injection h2 with h2
            rw [← h2, hi]
            rfl
          · simp only [hk] at h2
            injection h2 with h2
            rw [← h2]
            rcases hn with e | e <;> rw [e] <;> rfl
        cases h2 : luaK_tonumeral fs e2 true with
        | none => rfl
        | some v2 =>
          simp only [hv v2 h2, Bool.false_eq_true, not_false_eq_true, if_true]
  · intro h
    rcases h with h | h
    · exact constfolding_none _ _ _ _ _ (Or.inl (luaK_tonumeral_none fs e1 (Or.inl h)))
    · exact constfolding_none _ _ _ _ _ (Or.inr (luaK_tonumeral_none fs e2 (Or.inl h)))
  · intro e he h1 h2 h3
    rcases he with he | he
    · subst he
      exact constfolding_none _ _ _ _ _ (Or.inl (luaK_tonumeral_none fs e (Or.inr ⟨h1, h2, h3⟩)))
    · subst he
      exact constfolding_none _ _ _ _ _ (Or.inr (luaK_tonumeral_none fs e (Or.inr ⟨h1, h2, h3⟩)))
  · intro uop hu h
    unfold luaK_prefix
    rcases hu with e | e <;> subst e <;> simp only [h, if_true]
  · intro opr hle h
    unfold luaK_posfix
    cases opr <;> first
      | (exfalso; revert hle; decide)
      | (simp only [h, if_true]; done)
      | (have e : BinOpr.OPR_SHL.toNat + LUA_OPADD = LUA_OPSHL := rfl
         rw [e] at h ⊢
         simp only [h, if_true])
      | (have e : BinOpr.OPR_SHR.toNat + LUA_OPADD = LUA_OPSHR := rfl
         rw [e] at h ⊢
         simp only [h, if_true])

/-- Witness for C30 (amended): 7 // 0 on integer literals is refused and the
first operand stays the literal 7. -/
theorem constfolding_refuses_without_effect_witness :
    constfolding integerArith (open_func 0) LUA_OPIDIV
        ⟨.VKINT, 0, 7, .negzero, 0, 0, -1, -1, 0⟩ ⟨.VKINT, 0, 0, .negzero, 0, 0, -1, -1, 0⟩
      = (⟨.VKINT, 0, 7, .negzero, 0, 0, -1, -1, 0⟩, false) :=
  (constfolding_refuses_without_effect integerArith (open_func 0) LUA_OPIDIV
    ⟨.VKINT, 0, 7, .negzero, 0, 0, -1, -1, 0⟩ ⟨.VKINT, 0, 0, .negzero, 0, 0, -1, -1, 0⟩ 0).2.1
    (Or.inr (Or.inl rfl)) (Or.inl ⟨rfl, rfl⟩)

/-! ## Going through when true -/

theorem luaK_patchtohere_NO_JUMP (fs : FuncState) :
    luaK_patchtohere fs NO_JUMP = .ok { fs with lasttarget := fs.pc } := by
  unfold luaK_patchtohere luaK_patchlist patchlistaux patchlistauxLoop luaK_getlabel
  simp

/-- What `luaK_patchtohere` does to a well-formed list of distinct jumps: every
jump of the list goes to the current position, every `TESTSET` controlling one
becomes a `TEST`, and the position is marked as a jump target. -/
theorem luaK_patchtohere_spec (fs : FuncState) (l : Int) (ns : List Int)
    (hl : JumpList fs l ns) (hnd : ns.Nodup)
    (hjmp : ∀ n ∈ ns, GET_OPCODE (fs.code n.toNat) = OP_JMP) (hpc : fs.pc ≤ OFFSET_sJ) :
    ∃ fs1, luaK_patchtohere fs l = .ok fs1 ∧ CodeOnly { fs with lasttarget := fs.pc } fs1 ∧
      ∀ j : Nat, fs1.code j =
        if (j : Int) ∈ ns then SETARG_sJ (fs.code j) ((fs.pc : Int) - ((j : Int) + 1))
        else if (j : Int) + 1 ∈ ns ∧ GET_OPCODE (fs.code j) = OP_TESTSET then
          CREATE_ABCk OP_TEST (GETARG_B (fs.code j)) 0 0 (GETARG_k (fs.code j))
        else fs.code j := by
  have hl' : JumpList { fs with lasttarget := fs.pc } l ns :=
    @JumpList_congr fs { fs with lasttarget := fs.pc } rfl ns l (fun _ _ => rfl) hl
  have hnodes := JumpList_nodes hl
  have hrange : ∀ n ∈ ns, -(OFFSET_sJ : Int) ≤ (fs.pc : Int) - (n + 1) ∧
      (fs.pc : Int) - (n + 1) ≤ (MAXARG_sJ : Int) - OFFSET_sJ := by
    intro n hn
    have := hnodes n hn
    unfold OFFSET_sJ at hpc ⊢
    unfold MAXARG_sJ
    simp only [Nat.reducePow, Nat.reduceSub, Nat.cast_ofNat] at hpc ⊢
    omega
  obtain ⟨fs1, h1, h2, h3⟩ := patchlistauxLoop_spec (fs.pc : Int) ns
    { fs with lasttarget := fs.pc } l fs.pc hl' hnd hjmp hrange (JumpList_length_le hl hnd)
  exact ⟨fs1, h1, h2, h3⟩

/-- On a statically true literal, `luaK_goiftrue` only patches the true list
to the current position. -/
theorem luaK_goiftrue_literal (fs : FuncState) (e : expdesc)
    (hk : e.k = .VK ∨ e.k = .VKFLT ∨ e.k = .VKINT ∨ e.k = .VTRUE) :
    luaK_goiftrue fs e =
      match luaK_patchtohere fs e.t with
      | .error msg => .error msg
      | .ok fs3 => .ok (fs3, { e with t := NO_JUMP }) := by
  have hd : luaK_dischargevars fs e = (fs, e) := by
    unfold luaK_dischargevars
    rcases hk with h | h | h | h <;> simp [h]
  have hc : luaK_concat fs e.f NO_JUMP = .ok (fs, e.f) := by
    unfold luaK_concat
    rw [if_pos rfl]
  unfold luaK_goiftrue
  rcases hk with h | h | h | h <;> simp only [hd, h, hc]

/-- The true list is empty when `luaK_goiftrue` returns. -/
theorem luaK_goiftrue_t {fs fs1 : FuncState} {e e1 : expdesc}
    (h : luaK_goiftrue fs e = .ok (fs1, e1)) : e1.t = NO_JUMP := by
  unfold luaK_goiftrue at h
  dsimp only at h
  split at h
  · cases h
  · split at h
    · cases h
    · split at h
      · cases h
      · injection h with h
        injection h with h1 h2
        rw [← h2]

/-- C21 counterexample: in `(x or 1) and ...`, with x the local in register 0,
the first operand of `and` is the integer literal 1 (kind VKINT) with the true
list holding the jump at position 1, emitted for `x or`. luaK_goiftrue on it
keeps pc = 2 but changes the code: the jump at position 1 has offset -1 before
and 0 after, and the TESTSET at position 0 becomes a TEST. -/
theorem luaK_goiftrue_patches_jumps_of_true_literal :
    (match luaK_infix { open_func 0 with nactvar := 1, freereg := 1 } .OPR_OR
        ⟨.VLOCAL, 0, 0, .negzero, 0, 0, -1, -1, 0⟩ with
      | .ok (fs1, e1) =>
        match luaK_posfix integerArith fs1 .OPR_OR e1
            ⟨.VKINT, 0, 1, .negzero, 0, 0, -1, -1, 0⟩ 1 with
        | .ok (fs2, e2, _) =>
          match luaK_goiftrue fs2 e2 with
          | .ok (fs3, _) =>
            some (e2.k, e2.t, fs2.pc, fs3.pc, GETARG_sJ (fs2.code 1), GETARG_sJ (fs3.code 1),
              GET_OPCODE (fs2.code 0), GET_OPCODE (fs3.code 0))
          | .error _ => none
        | .error _ => none
      | .error _ => none)
    = some (.VKINT, 1, 2, 2, -1, 0, OP_TESTSET, OP_TEST) := by
  rfl

/-- C21 (amended): for every expression e that is a statically true literal
(kind VK, VKINT, VKFLT or VTRUE), luaK_goiftrue, whenever it returns, emits no
instruction (pc is unchanged and only the code and lasttarget can differ), adds
no jump to e.f and changes e only by emptying e.t; when e.t is NO_JUMP it
returns with the code unchanged; when e.t is a well-formed list of distinct
jumps, in a code of at most OFFSET_sJ instructions, it returns and modifies the
jumps of that list, which it patches to the current position, and their
controlling TESTSETs, which become TESTs, and no other instruction. For every
expression kind, e.t is NO_JUMP when luaK_goiftrue returns, so the assertion
e1->t == NO_JUMP made by luaK_posfix for 'and' holds after
luaK_infix(OPR_AND, e1). -/
theorem luaK_goiftrue_on_true_literal (fs : FuncState) (e : expdesc) :
    ((e.k = .VK ∨ e.k = .VKFLT ∨ e.k = .VKINT ∨ e.k = .VTRUE) →
      (∀ fs1 e1, luaK_goiftrue fs e = .ok (fs1, e1) →
        fs1.pc = fs.pc ∧ CodeOnly { fs with lasttarget := fs.pc } fs1 ∧
        e1 = { e with t := NO_JUMP } ∧ e1.f = e.f ∧ e1.k = e.k) ∧
      (e.t = NO_JUMP →
        luaK_goiftrue fs e = .ok ({ fs with lasttarget := fs.pc }, e)) ∧
      (∀ ns : List Int, JumpList fs e.t ns → ns.Nodup →
        (∀ n ∈ ns, GET_OPCODE (fs.code n.toNat) = OP_JMP) → fs.pc ≤ OFFSET_sJ →
        ∃ fs1, luaK_goiftrue fs e = .ok (fs1, { e with t := NO_JUMP }) ∧
          fs1.pc = fs.pc ∧
          ∀ j : Nat, fs1.code j =
            if (j : Int) ∈ ns then SETARG_sJ (fs.code j) ((fs.pc : Int) - ((j : Int) + 1))
            else if (j : Int) + 1 ∈ ns ∧ GET_OPCODE (fs.code j) = OP_TESTSET then
              CREATE_ABCk OP_TEST (GETARG_B (fs.code j)) 0 0 (GETARG_k (fs.code j))
            else fs.code j)) ∧
    (∀ fs1 e1, luaK_goiftrue fs e = .ok (fs1, e1) → e1.t = NO_JUMP) ∧
    (∀ fs1 e1, luaK_infix fs .OPR_AND e = .ok (fs1, e1) → e1.t = NO_JUMP) := by
  refine ⟨?_, fun fs1 e1 h => luaK_goiftrue_t h, ?_⟩
  · intro hk
    have hlit := luaK_goiftrue_literal fs e hk
    refine ⟨?_, ?_, ?_⟩
    · intro fs1 e1 h
      rw [hlit] at h
      cases hp : luaK_patchtohere fs e.t with
      | error msg =>
        rw [hp] at h
        cases h
      | ok fs3 =>
        rw [hp] at h
        injection h with h
        injection h with h1 h2
        subst h1
        subst h2
        have hco := luaK_patchtohere_CodeOnly hp
        exact ⟨hco.pc, hco, rfl, rfl, rfl⟩
    · intro ht
      rw [hlit, ht, luaK_patchtohere_NO_JUMP]
      have : ({ e with t := NO_JUMP } : expdesc) = e := by
        cases e
        simp only at ht
        subst ht
        rfl
      simp only [this]
    · intro ns hl hnd hjmp hpc
      obtain ⟨fs1, h1, h2, h3⟩ := luaK_patchtohere_spec fs e.t ns hl hnd hjmp hpc
      refine ⟨fs1, ?_, h2.pc, h3⟩
      rw [hlit, h1]
  · intro fs1 e1 h
    have : luaK_infix fs .OPR_AND e
        = luaK_goiftrue (luaK_dischargevars fs e).1 (luaK_dischargevars fs e).2 := rfl
    rw [this] at h
    exact luaK_goiftrue_t h

/-- Witness for C21 (amended): on the string constant 0 without jumps,
luaK_goiftrue returns the constant and only marks the position as a jump
target. -/
theorem luaK_goiftrue_on_true_literal_witness :
    luaK_goiftrue (open_func 0) ⟨.VK, 0, 0, .negzero, 0, 0, -1, -1, 0⟩
      = .ok ({ open_func 0 with lasttarget := (open_func 0).pc },
          ⟨.VK, 0, 0, .negzero, 0, 0, -1, -1, 0⟩) :=
  ((luaK_goiftrue_on_true_literal (open_func 0) ⟨.VK, 0, 0, .negzero, 0, 0, -1, -1, 0⟩).1
    (Or.inl rfl)).2.1 rfl

/-! ## Arithmetic operators -/

theorem luaK_fixline_frame (fs : FuncState) (line : Int) :
    (luaK_fixline fs line).code = fs.code ∧ (luaK_fixline fs line).pc = fs.pc ∧
    (luaK_fixline fs line).k = fs.k ∧ (luaK_fixline fs line).nk = fs.nk ∧
    (luaK_fixline fs line).freereg = fs.freereg ∧
    (luaK_fixline fs line).nactvar = fs.nactvar ∧
    (luaK_fixline fs line).maxstacksize = fs.maxstacksize := by
  have hs := savelineinfo_frame (removelastlineinfo fs) line
  obtain ⟨a, b, c, d, -, e, f, g, -⟩ := hs
  unfold luaK_fixline
  rw [a, b, c, d, e, f, g]
  unfold removelastlineinfo
  dsimp only
  split <;> exact ⟨rfl, rfl, rfl, rfl, rfl, rfl, rfl⟩

/-- What `finishbinexpval` emits once the first operand is in a register: the
instruction `op 0 v1 v2 k`, with `v1` that register. -/
theorem finishbinexpval_emits {fs fs1 : FuncState} {e1 e1a : expdesc} (e2 : expdesc)
    (op : OpCode) (v2 k line : Int) (h : luaK_exp2anyreg fs e1 = .ok (fs1, e1a)) :
    finishbinexpval fs e1 e2 op v2 k line
      = .ok (luaK_fixline (freeexps (luaK_codeABCk fs1 op 0 e1a.info v2 k).1 e1a e2) line,
          { e1a with info := fs1.pc, k := .VRELOC }) ∧
    (luaK_fixline (freeexps (luaK_codeABCk fs1 op 0 e1a.info v2 k).1 e1a e2) line).pc
      = fs1.pc + 1 ∧
    (luaK_fixline (freeexps (luaK_codeABCk fs1 op 0 e1a.info v2 k).1 e1a e2) line).code
      = setAt fs1.code fs1.pc (CREATE_ABCk op 0 e1a.info v2 k) ∧
    (luaK_fixline (freeexps (luaK_codeABCk fs1 op 0 e1a.info v2 k).1 e1a e2) line).k
      = fs1.k ∧
    (luaK_fixline (freeexps (luaK_codeABCk fs1 op 0 e1a.info v2 k).1 e1a e2) line).nk
      = fs1.nk := by
  obtain ⟨a, b, c, d, -⟩ := luaK_fixline_frame
    (freeexps (luaK_codeABCk fs1 op 0 e1a.info v2 k).1 e1a e2) line
  refine ⟨?_, ?_, ?_, ?_, ?_⟩
  · unfold finishbinexpval
    simp only [h]
    have : (luaK_codeABCk fs1 op 0 e1a.info v2 k).2 = (fs1.pc : Int) := by
      simp [luaK_codeABCk, luaK_code_snd]
    rw [this]
  · rw [b, freeexps_pc]
    simp [luaK_codeABCk]
  · rw [a, freeexps_code]
    simp [luaK_codeABCk]
  · rw [c, freeexps_k]
    simp [luaK_codeABCk]
  · rw [d, freeexps_nk]
    simp [luaK_codeABCk]

theorem isSCint_iff (e : expdesc) :
    isSCint e = true ↔ (e.k = .VKINT ∧ hasjumps e = false ∧
      -(OFFSET_sC : Int) ≤ e.ival ∧ e.ival ≤ (MAXARG_C : Int) - OFFSET_sC) := by
  unfold isSCint luaK_isKint fitsC
  simp only [Bool.and_eq_true, decide_eq_true_eq, Bool.not_eq_true]
  tauto

theorem cast_int_of_fitsC (i : Int)
    (h : -(OFFSET_sC : Int) ≤ i ∧ i ≤ (MAXARG_C : Int) - OFFSET_sC) : cast_int i = i := by
  unfold OFFSET_sC MAXARG_C at h
  unfold cast_int
  simp only [Nat.cast_ofNat] at h
  omega

/-- The immediate form of `codearith`: the second operand is an integer literal
that fits `sC`. -/
theorem codearith_imm {fs fs1 : FuncState} {e1 e1a : expdesc} (e2 : expdesc) (op : OpCode)
    (flip line : Int) (h2 : isSCint e2 = true)
    (h : luaK_exp2anyreg fs e1 = .ok (fs1, e1a)) :
    ∃ fs2, codearith fs op e1 e2 flip line
        = .ok (fs2, { e1a with info := fs1.pc, k := .VRELOC }, e2) ∧
      fs2.pc = fs1.pc + 1 ∧
      fs2.code = setAt fs1.code fs1.pc
        (CREATE_ABCk (op - OP_ADD + OP_ADDI) 0 e1a.info (e2.ival + OFFSET_sC) flip) ∧
      fs2.k = fs1.k ∧ fs2.nk = fs1.nk := by
  obtain ⟨-, -, r1, r2⟩ := (isSCint_iff e2).1 h2
  obtain ⟨a, b, c, d, e⟩ := finishbinexpval_emits e2 (op - OP_ADD + OP_ADDI)
    (cast_int e2.ival + OFFSET_sC) flip line h
  rw [cast_int_of_fitsC _ ⟨r1, r2⟩] at a b c d e
  refine ⟨_, ?_, b, c, d, e⟩
  unfold codearith codebini
  rw [cast_int_of_fitsC _ ⟨r1, r2⟩]
  simp only [h2, if_true, a]

/-- The register form of `codearith`: the second operand is neither an
immediate nor a K operand; the operands are taken in their original order. -/
theorem codearith_reg {fs fsK fs1 fs2 : FuncState} {e1 e2 e2K fst snd fsta snda : expdesc}
    (op : OpCode) (flip line : Int) (h2 : isSCint e2 = false)
    (hK : (if (luaK_tonumeral fs e2 false).isSome then luaK_exp2K fs e2
      else .ok (fs, e2, false)) = .ok (fsK, e2K, false))
    (hord : (flip ≠ 0 ∧ fst = e2K ∧ snd = e1) ∨ (flip = 0 ∧ fst = e1 ∧ snd = e2K))
    (hs : luaK_exp2anyreg fsK snd = .ok (fs1, snda))
    (hf : luaK_exp2anyreg fs1 fst = .ok (fs2, fsta)) :
    ∃ fs3, codearith fs op e1 e2 flip line
        = .ok (fs3, { fsta with info := fs2.pc, k := .VRELOC }, snda) ∧
      fs3.pc = fs2.pc + 1 ∧
      fs3.code = setAt fs2.code fs2.pc (CREATE_ABCk op 0 fsta.info snda.info 0) ∧
      fs3.k = fs2.k ∧ fs3.nk = fs2.nk := by
  obtain ⟨a, b, c, d, e⟩ := finishbinexpval_emits snda op snda.info 0 line hf
  refine ⟨_, ?_, b, c, d, e⟩
  have hcb : codebinexpval fsK op fst snd line
      = .ok (luaK_fixline (freeexps (luaK_codeABCk fs2 op 0 fsta.info snda.info 0).1 fsta snda) line,
          { fsta with info := fs2.pc, k := .VRELOC }, snda) := by
    unfold codebinexpval
    simp only [hs, a]
  unfold codearith
  simp only [h2, Bool.false_eq_true, if_false, hK]
  rcases hord with ⟨h0, hfst, hsnd⟩ | ⟨h0, hfst, hsnd⟩
  · rw [if_pos h0, ← hfst, ← hsnd]
    exact hcb
  · rw [if_neg (by rw [h0]; decide), ← hfst, ← hsnd]
    exact hcb

/-- For an arithmetic operator whose operands do not fold, `luaK_posfix` is
`codecommutative` (for `+` and `*`) or `codearith`, after the second operand
has been discharged. -/
theorem luaK_posfix_arith (luaO_rawarith : Nat → TValue → TValue → TValue) (fs : FuncState)
    (opr : BinOpr) (e1 e2 : expdesc) (line : Int)
    (hop : opr.toNat ≤ BinOpr.OPR_IDIV.toNat)
    (hfold : (constfolding luaO_rawarith (luaK_dischargevars fs e2).1 (opr.toNat + LUA_OPADD)
      e1 (luaK_dischargevars fs e2).2).2 = false) :
    luaK_posfix luaO_rawarith fs opr e1 e2 line =
      if (opr = .OPR_ADD ∨ opr = .OPR_MUL) ∧
          (luaK_tonumeral (luaK_dischargevars fs e2).1 e1 false).isSome = true then
        codearith (luaK_dischargevars fs e2).1 (opr.toNat + OP_ADD)
          (luaK_dischargevars fs e2).2 e1 1 line
      else
        codearith (luaK_dischargevars fs e2).1 (opr.toNat + OP_ADD) e1
          (luaK_dischargevars fs e2).2 0 line := by
  unfold luaK_posfix
  cases opr <;> first
    | (exfalso; revert hop; decide)
    | (simp only [hfold, Bool.false_eq_true, if_false, codecommutative, true_or, or_true,
        true_and]
       done)
    | simp only [hfold, Bool.false_eq_true, if_false, reduceCtorEq, or_self, false_and]
/-- Decoding an instruction packed from operands that fit their fields. -/
theorem CREATE_ABCk_fields (o : OpCode) (b c k : Int) (ho : o < 128)
    (hc : 0 ≤ c ∧ c ≤ (MAXARG_C : Int)) (hk : k = 0 ∨ k = 1) :
    GET_OPCODE (CREATE_ABCk o 0 b c k) = o ∧ GETARG_A (CREATE_ABCk o 0 b c k) = 0 ∧
    (0 ≤ b ∧ b ≤ (MAXARG_B : Int) → GETARG_B (CREATE_ABCk o 0 b c k) = b) ∧
    GETARG_C (CREATE_ABCk o 0 b c k) = c ∧ GETARG_k (CREATE_ABCk o 0 b c k) = k := by
  unfold MAXARG_C at hc
  rw [GET_OPCODE_CREATE_ABCk, GETARG_A_CREATE_ABCk, GETARG_B_CREATE_ABCk,
    GETARG_C_CREATE_ABCk, GETARG_k_CREATE_ABCk]
  refine ⟨?_, rfl, ?_, ?_, ?_⟩
  · exact Nat.mod_eq_of_lt ho
  · intro hb
    unfold MAXARG_B at hb
    omega
  · omega
  · rcases hk with e | e <;> rw [e] <;> rfl

/-- C22: luaK_posfix with an arithmetic operator (+, -, *, /, //, %, ^) whose
operands do not constant-fold, the second operand having been discharged. The
operands are swapped exactly when the operator is + or * and the first operand
is a numeric literal. If the second operand after that swap is an integer
literal fitting sC, then, once the other operand is in its register, exactly
one instruction is emitted, the immediate variant of the operator with A = 0,
B = the register of the other operand, C = literal + OFFSET_sC and k = flip,
where flip is 1 when the swap happened and 0 otherwise, and the constant pool
is left alone. When the second operand after the swap is neither an immediate
nor, after the attempt to make it a K operand, a K operand, then, once both
operands are in registers (the second operand of the source first), exactly one
instruction is emitted, the register-register instruction of the operator with
B and C the registers of the first and of the second operand of the source and
k = 0. -/
theorem luaK_posfix_arith_operand_forms (luaO_rawarith : Nat → TValue → TValue → TValue)
    (fs fsd : FuncState) (opr : BinOpr) (e1 e2 e2d : expdesc) (line : Int)
    (hd : luaK_dischargevars fs e2 = (fsd, e2d))
    (hop : opr.toNat ≤ BinOpr.OPR_IDIV.toNat)
    (hfold : (constfolding luaO_rawarith fsd (opr.toNat + LUA_OPADD) e1 e2d).2 = false) :
    (¬ ((opr = .OPR_ADD ∨ opr = .OPR_MUL) ∧ (luaK_tonumeral fsd e1 false).isSome = true) →
      isSCint e2d = true →
      ∀ fs1 xa, luaK_exp2anyreg fsd e1 = .ok (fs1, xa) →
        ∃ fs2, luaK_posfix luaO_rawarith fs opr e1 e2 line
            = .ok (fs2, { xa with info := fs1.pc, k := .VRELOC }, e2d) ∧
          fs2.pc = fs1.pc + 1 ∧ (∀ j, j ≠ fs1.pc → fs2.code j = fs1.code j) ∧
          fs2.k = fs1.k ∧ fs2.nk = fs1.nk ∧
          fs2.code fs1.pc
            = CREATE_ABCk (opr.toNat + OP_ADDI) 0 xa.info (e2d.ival + OFFSET_sC) 0 ∧
          GET_OPCODE (fs2.code fs1.pc) = opr.toNat + OP_ADDI ∧
          GETARG_A (fs2.code fs1.pc) = 0 ∧
          (0 ≤ xa.info ∧ xa.info ≤ (MAXARG_B : Int) → GETARG_B (fs2.code fs1.pc) = xa.info) ∧
          GETARG_C (fs2.code fs1.pc) = e2d.ival + OFFSET_sC ∧
          GETARG_k (fs2.code fs1.pc) = 0) ∧
    (((opr = .OPR_ADD ∨ opr = .OPR_MUL) ∧ (luaK_tonumeral fsd e1 false).isSome = true) →
      isSCint e1 = true →
      ∀ fs1 xa, luaK_exp2anyreg fsd e2d = .ok (fs1, xa) →
        ∃ fs2, luaK_posfix luaO_rawarith fs opr e1 e2 line
            = .ok (fs2, { xa with info := fs1.pc, k := .VRELOC }, e1) ∧
          fs2.pc = fs1.pc + 1 ∧ (∀ j, j ≠ fs1.pc → fs2.code j = fs1.code j) ∧
          fs2.k = fs1.k ∧ fs2.nk = fs1.nk ∧
          fs2.code fs1.pc
            = CREATE_ABCk (opr.toNat + OP_ADDI) 0 xa.info (e1.ival + OFFSET_sC) 1 ∧
          GET_OPCODE (fs2.code fs1.pc) = opr.toNat + OP_ADDI ∧
          GETARG_A (fs2.code fs1.pc) = 0 ∧
          (0 ≤ xa.info ∧ xa.info ≤ (MAXARG_B : Int) → GETARG_B (fs2.code fs1.pc) = xa.info) ∧
          GETARG_C (fs2.code fs1.pc) = e1.ival + OFFSET_sC ∧
          GETARG_k (fs2.code fs1.pc) = 1) ∧
    (¬ ((opr = .OPR_ADD ∨ opr = .OPR_MUL) ∧ (luaK_tonumeral fsd e1 false).isSome = true) →
      isSCint e2d = false →
      ∀ fsK e2K fs1 e2a fs2 e1a,
        (if (luaK_tonumeral fsd e2d false).isSome then luaK_exp2K fsd e2d
          else .ok (fsd, e2d, false)) = .ok (fsK, e2K, false) →
        luaK_exp2anyreg fsK e2K = .ok (fs1, e2a) →
        luaK_exp2anyreg fs1 e1 = .ok (fs2, e1a) →
        ∃ fs3, luaK_posfix luaO_rawarith fs opr e1 e2 line
            = .ok (fs3, { e1a with info := fs2.pc, k := .VRELOC }, e2a) ∧
          fs3.pc = fs2.pc + 1 ∧ (∀ j, j ≠ fs2.pc → fs3.code j = fs2.code j) ∧
          fs3.k = fs2.k ∧ fs3.nk = fs2.nk ∧
          fs3.code fs2.pc = CREATE_ABCk (opr.toNat + OP_ADD) 0 e1a.info e2a.info 0 ∧
          GET_OPCODE (fs3.code fs2.pc) = opr.toNat + OP_ADD ∧
          (0 ≤ e1a.info ∧ e1a.info ≤ (MAXARG_B : Int) →
            GETARG_B (fs3.code fs2.pc) = e1a.info) ∧
          (0 ≤ e2a.info ∧ e2a.info ≤ (MAXARG_C : Int) →
            GETARG_C (fs3.code fs2.pc) = e2a.info) ∧
          GETARG_k (fs3.code fs2.pc) = 0) ∧
    (((opr = .OPR_ADD ∨ opr = .OPR_MUL) ∧ (luaK_tonumeral fsd e1 false).isSome = true) →
      isSCint e1 = false →
      ∀ fsK e1K fs1 e2a fs2 e1a,
        (if (luaK_tonumeral fsd e1 false).isSome then luaK_exp2K fsd e1
          else .ok (fsd, e1, false)) = .ok (fsK, e1K, false) →
        luaK_exp2anyreg fsK e2d = .ok (fs1, e2a) →
        luaK_exp2anyreg fs1 e1K = .ok (fs2, e1a) →
        ∃ fs3, luaK_posfix luaO_rawarith fs opr e1 e2 line
            = .ok (fs3, { e1a with info := fs2.pc, k := .VRELOC }, e2a) ∧
          fs3.pc = fs2.pc + 1 ∧ (∀ j, j ≠ fs2.pc → fs3.code j = fs2.code j) ∧
          fs3.k = fs2.k ∧ fs3.nk = fs2.nk ∧
          fs3.code fs2.pc = CREATE_ABCk (opr.toNat + OP_ADD) 0 e1a.info e2a.info 0 ∧
          GET_OPCODE (fs3.code fs2.pc) = opr.toNat + OP_ADD ∧
          (0 ≤ e1a.info ∧ e1a.info ≤ (MAXARG_B : Int) →
            GETARG_B (fs3.code fs2.pc) = e1a.info) ∧
          (0 ≤ e2a.info ∧ e2a.info ≤ (MAXARG_C : Int) →
            GETARG_C (fs3.code fs2.pc) = e2a.info) ∧
          GETARG_k (fs3.code fs2.pc) = 0) := by
  have hpos := luaK_posfix_arith luaO_rawarith fs opr e1 e2 line hop (by rw [hd]; exact hfold)
  rw [hd] at hpos
  have h6 : opr.toNat ≤ 6 := hop
  have hI : opr.toNat + OP_ADD - OP_ADD + OP_ADDI = opr.toNat + OP_ADDI := by
    rw [Nat.add_sub_cancel]
  have hoI : opr.toNat + OP_ADDI < 128 := by
    unfold OP_ADDI
    omega
  have hoR : opr.toNat + OP_ADD < 128 := by
    unfold OP_ADD
    omega
  have hCr : ∀ e : expdesc, isSCint e = true →
      0 ≤ e.ival + OFFSET_sC ∧ e.ival + OFFSET_sC ≤ (MAXARG_C : Int) := by
    intro e he
    obtain ⟨-, -, r1, r2⟩ := (isSCint_iff e).1 he
    omega
  refine ⟨?_, ?_, ?_, ?_⟩
  · intro hsw h2 fs1 xa hx
    obtain ⟨fs2, a, b, c, d, e⟩ := codearith_imm e2d (opr.toNat + OP_ADD) 0 line h2 hx
    rw [hI] at c
    obtain ⟨f1, f2, f3, f4, f5⟩ := CREATE_ABCk_fields (opr.toNat + OP_ADDI) xa.info
      (e2d.ival + OFFSET_sC) 0 hoI (hCr e2d h2) (Or.inl rfl)
    have hc : fs2.code fs1.pc
        = CREATE_ABCk (opr.toNat + OP_ADDI) 0 xa.info (e2d.ival + OFFSET_sC) 0 := by
      rw [c, setAt_same]
    refine ⟨fs2, ?_, b, ?_, d, e, hc, ?_, ?_, ?_, ?_, ?_⟩
    · rw [hpos, if_neg hsw]
      exact a
    · intro j hj
      rw [c]
      exact setAt_other _ _ _ _ hj
    all_goals rw [hc]
    · exact f1
    · exact f2
    · exact f3
    · exact f4
    · exact f5
  · intro hsw h2 fs1 xa hx
    obtain ⟨fs2, a, b, c, d, e⟩ := codearith_imm e1 (opr.toNat + OP_ADD) 1 line h2 hx
    rw [hI] at c
    obtain ⟨f1, f2, f3, f4, f5⟩ := CREATE_ABCk_fields (opr.toNat + OP_ADDI) xa.info
      (e1.ival + OFFSET_sC) 1 hoI (hCr e1 h2) (Or.inr rfl)
    have hc : fs2.code fs1.pc
        = CREATE_ABCk (opr.toNat + OP_ADDI) 0 xa.info (e1.ival + OFFSET_sC) 1 := by
      rw [c, setAt_same]
    refine ⟨fs2, ?_, b, ?_, d, e, hc, ?_, ?_, ?_, ?_, ?_⟩
    · rw [hpos, if_pos hsw]
      exact a
    · intro j hj
      rw [c]
      exact setAt_other _ _ _ _ hj
    all_goals rw [hc]
    · exact f1
    · exact f2
    · exact f3
    · exact f4
    · exact f5
  · intro hsw h2 fsK e2K fs1 e2a fs2 e1a hK hs hf
    obtain ⟨fs3, a, b, c, d, e⟩ := codearith_reg (opr.toNat + OP_ADD) 0 line h2 hK
      (Or.inr ⟨rfl, rfl, rfl⟩) hs hf
    have hc : fs3.code fs2.pc = CREATE_ABCk (opr.toNat + OP_ADD) 0 e1a.info e2a.info 0 := by
      rw [c, setAt_same]
    refine ⟨fs3, ?_, b, ?_, d, e, hc, ?_, ?_, ?_, ?_⟩
    · rw [hpos, if_neg hsw]
      exact a
    · intro j hj
      rw [c]
      exact setAt_other _ _ _ _ hj
    all_goals rw [hc]
    · rw [GET_OPCODE_CREATE_ABCk]
      exact Nat.mod_eq_of_lt hoR
    · intro hb
      unfold MAXARG_B at hb
      rw [GETARG_B_CREATE_ABCk]
      omega
    · intro hb
      unfold MAXARG_C at hb
      rw [GETARG_C_CREATE_ABCk]
      omega
    · rw [GETARG_k_CREATE_ABCk]
      rfl
  · intro hsw h2 fsK e1K fs1 e2a fs2 e1a hK hs hf
    obtain ⟨fs3, a, b, c, d, e⟩ := codearith_reg (opr.toNat + OP_ADD) 1 line h2 hK
      (Or.inl ⟨by decide, rfl, rfl⟩) hs hf
    have hc : fs3.code fs2.pc = CREATE_ABCk (opr.toNat + OP_ADD) 0 e1a.info e2a.info 0 := by
      rw [c, setAt_same]
    refine ⟨fs3, ?_, b, ?_, d, e, hc, ?_, ?_, ?_, ?_⟩
    · rw [hpos, if_pos hsw]
      exact a
    · intro j hj
      rw [c]
      exact setAt_other _ _ _ _ hj
    all_goals rw [hc]
    · rw [GET_OPCODE_CREATE_ABCk]
      exact Nat.mod_eq_of_lt hoR
    · intro hb
      unfold MAXARG_B at hb
      rw [GETARG_B_CREATE_ABCk]
      omega
    · intro hb
      unfold MAXARG_C at hb
      rw [GETARG_C_CREATE_ABCk]
      omega
    · rw [GETARG_k_CREATE_ABCk]
      rfl

/-! ## Compiling `1 + x` -/

/-- The state in which the immediate form of `codearith` leaves the function. -/
theorem codearith_imm_state {fs fs1 : FuncState} {e1 e1a : expdesc} (e2 : expdesc)
    (op : OpCode) (flip line : Int) (h2 : isSCint e2 = true)
    (h : luaK_exp2anyreg fs e1 = .ok (fs1, e1a)) :
    codearith fs op e1 e2 flip line
      = .ok (luaK_fixline (freeexps (luaK_codeABCk fs1 (op - OP_ADD + OP_ADDI) 0 e1a.info
            (e2.ival + OFFSET_sC) flip).1 e1a e2) line,
          { e1a with info := fs1.pc, k := .VRELOC }, e2) := by
  obtain ⟨-, -, r1, r2⟩ := (isSCint_iff e2).1 h2
  obtain ⟨a, -⟩ := finishbinexpval_emits e2 (op - OP_ADD + OP_ADDI)
    (cast_int e2.ival + OFFSET_sC) flip line h
  rw [cast_int_of_fitsC _ ⟨r1, r2⟩] at a
  unfold codearith codebini
  rw [cast_int_of_fitsC _ ⟨r1, r2⟩]
  simp only [h2, if_true, a]

/-- Compiling `1 + x`, for `x` the local variable in register 0 and register 1
the first free register: the code emitted and the expressions on the way. -/
theorem compile_one_plus_local (luaO_rawarith : Nat → TValue → TValue → TValue)
    (fs : FuncState) (e1 x : expdesc) (line : Int)
    (hnact : fs.nactvar = 1) (hfree : fs.freereg = 1)
    (h1k : e1.k = .VKINT) (h1i : e1.ival = 1) (h1j : hasjumps e1 = false)
    (hxk : x.k = .VLOCAL) (hxv : x.var_idx = 0) (hxj : hasjumps x = false) :
    ∃ fs2 e fs3 e3,
      luaK_infix fs .OPR_ADD e1 = .ok (fs, e1) ∧
      luaK_posfix luaO_rawarith fs .OPR_ADD e1 x line = .ok (fs2, e, e1) ∧
      luaK_exp2nextreg fs2 e = .ok (fs3, e3) ∧
      e3.k = .VNONRELOC ∧ e3.info = 1 ∧
      fs3.pc = fs.pc + 1 ∧ (∀ j, j ≠ fs.pc → fs3.code j = fs.code j) ∧
      GET_OPCODE (fs3.code fs.pc) = OP_ADDI ∧ GETARG_A (fs3.code fs.pc) = 1 ∧
      GETARG_B (fs3.code fs.pc) = 0 ∧ GETARG_C (fs3.code fs.pc) = 1 + OFFSET_sC ∧
      GETARG_k (fs3.code fs.pc) = 1 ∧ fs3.k = fs.k ∧ fs3.nk = fs.nk := by
  -- the first operand is kept as a numeral
  have hfirst : luaK_infix fs .OPR_ADD e1 = .ok (fs, e1) := by
    unfold luaK_infix
    simp only [luaK_dischargevars_VKINT fs e1 h1k, luaK_tonumeral_VKINT fs e1 false h1k h1j,
      Option.isSome_some, not_true_eq_false, if_false]
  -- the second operand is the register 0
  have hd : luaK_dischargevars fs x = (fs, { x with info := 0, k := .VNONRELOC }) := by
    unfold luaK_dischargevars
    simp only [hxk, hxv]
    rfl
  have hxdj : hasjumps ({ x with info := 0, k := .VNONRELOC } : expdesc) = false := hxj
  have hfold : (constfolding luaO_rawarith fs (BinOpr.OPR_ADD.toNat + LUA_OPADD) e1
      { x with info := 0, k := .VNONRELOC }).2 = false := by
    rw [constfolding_none _ _ _ _ _ (Or.inr (luaK_tonumeral_none fs _
      (Or.inr ⟨by simp, by simp, by simp⟩)))]
  have hsc : isSCint e1 = true := by
    rw [isSCint_iff]
    refine ⟨h1k, h1j, ?_, ?_⟩ <;> rw [h1i] <;> decide
  have hany : luaK_exp2anyreg fs { x with info := 0, k := .VNONRELOC }
      = .ok (fs, { x with info := 0, k := .VNONRELOC }) :=
    luaK_exp2anyreg_VNONRELOC fs _ rfl hxdj
  have hpos := luaK_posfix_arith luaO_rawarith fs .OPR_ADD e1 x line (by decide)
    (by rw [hd]; exact hfold)
  rw [hd] at hpos
  have hnum : (luaK_tonumeral fs e1 false).isSome = true := by
    rw [luaK_tonumeral_VKINT fs e1 false h1k h1j]
    rfl
  rw [if_pos ⟨Or.inl rfl, hnum⟩,
    codearith_imm_state e1 (BinOpr.OPR_ADD.toNat + OP_ADD) 1 line hsc hany] at hpos
  have hop : BinOpr.OPR_ADD.toNat + OP_ADD - OP_ADD + OP_ADDI = OP_ADDI := rfl
  rw [hop, h1i] at hpos
  -- the state after the instruction: freeing the operands frees nothing
  have hfreeexps : freeexps (luaK_codeABCk fs OP_ADDI 0 0 (1 + OFFSET_sC) 1).1
      { x with info := 0, k := .VNONRELOC } e1
      = (luaK_codeABCk fs OP_ADDI 0 0 (1 + OFFSET_sC) 1).1 := by
    have hn : (luaK_codeABCk fs OP_ADDI 0 0 (1 + OFFSET_sC) 1).1.nactvar = 1 := by
      simp [luaK_codeABCk, hnact]
    unfold freeexps freeregs freereg
    simp [h1k, hn]
  rw [hfreeexps] at hpos
  obtain ⟨f1, f2, f3, f4, f5, f6, -⟩ :=
    luaK_fixline_frame (luaK_codeABCk fs OP_ADDI 0 0 (1 + OFFSET_sC) 1).1 line
  have g1 : (luaK_fixline (luaK_codeABCk fs OP_ADDI 0 0 (1 + OFFSET_sC) 1).1 line).code
      = setAt fs.code fs.pc (CREATE_ABCk OP_ADDI 0 0 (1 + OFFSET_sC) 1) := by
    rw [f1]
    simp [luaK_codeABCk]
  have g2 : (luaK_fixline (luaK_codeABCk fs OP_ADDI 0 0 (1 + OFFSET_sC) 1).1 line).pc
      = fs.pc + 1 := by
    rw [f2]
    simp [luaK_codeABCk]
  have g3 : (luaK_fixline (luaK_codeABCk fs OP_ADDI 0 0 (1 + OFFSET_sC) 1).1 line).k = fs.k := by
    rw [f3]
    simp [luaK_codeABCk]
  have g4 : (luaK_fixline (luaK_codeABCk fs OP_ADDI 0 0 (1 + OFFSET_sC) 1).1 line).nk
      = fs.nk := by
    rw [f4]
    simp [luaK_codeABCk]
  have g5 : (luaK_fixline (luaK_codeABCk fs OP_ADDI 0 0 (1 + OFFSET_sC) 1).1 line).freereg
      = 1 := by
    rw [f5]
    simp [luaK_codeABCk, hfree]
  -- putting the result in the next free register
  obtain ⟨fsr, r1, r2, r3, r4, r5, r6, -⟩ := luaK_reserveregs_one
    (luaK_fixline (luaK_codeABCk fs OP_ADDI 0 0 (1 + OFFSET_sC) 1).1 line)
    (by rw [g5]; decide)
  rw [g5] at r2
  rw [g1] at r3
  rw [g2] at r4
  rw [g3] at r5
  rw [g4] at r6
  have hnext : luaK_exp2nextreg
      (luaK_fixline (luaK_codeABCk fs OP_ADDI 0 0 (1 + OFFSET_sC) 1).1 line)
      { x with info := fs.pc, k := .VRELOC }
      = .ok ({ fsr with code := setAt fsr.code fs.pc (SETARG_A (fsr.code fs.pc) 1) },
          { x with f := NO_JUMP, t := NO_JUMP, info := 1, k := .VNONRELOC }) := by
    have hdv : ∀ s : FuncState, luaK_dischargevars s { x with info := fs.pc, k := .VRELOC }
        = (s, { x with info := fs.pc, k := .VRELOC }) := by
      intro s
      unfold luaK_dischargevars
      rfl
    have hreg : (fsr.freereg : Int) - 1 = 1 := by
      rw [r2]
      rfl
    have hj2 : hasjumps ({ x with info := 1, k := .VNONRELOC } : expdesc) = false := hxj
    unfold luaK_exp2nextreg
    simp only [hdv, freeexp, reduceCtorEq, if_false, r1, hreg]
    unfold exp2reg discharge2reg
    simp only [hdv, setinstruction, getinstruction, Int.toNat_ofNat, reduceCtorEq, if_false, hj2,
      Bool.false_eq_true]
  have hcode : ({ fsr with code := setAt fsr.code fs.pc (SETARG_A (fsr.code fs.pc) 1) } : FuncState).code fs.pc
      = SETARG_A (CREATE_ABCk OP_ADDI 0 0 (1 + OFFSET_sC) 1) 1 := by
    show setAt fsr.code fs.pc _ fs.pc = _
    rw [setAt_same, r3, setAt_same]
  refine ⟨_, _, _, _, hfirst, hpos, hnext, rfl, rfl, ?_, ?_, ?_, ?_, ?_, ?_, ?_, ?_, ?_⟩
  · exact r4
  · intro j hj
    show setAt fsr.code fs.pc _ j = fs.code j
    rw [setAt_other _ _ _ _ hj, r3, setAt_other _ _ _ _ hj]
  · rw [hcode, GET_OPCODE_SETARG_A, GET_OPCODE_CREATE_ABCk]
    rfl
  · rw [hcode, GETARG_A_SETARG_A]
    rfl
  · rw [hcode, GETARG_B_SETARG_A, GETARG_B_CREATE_ABCk]
    rfl
  · rw [hcode, GETARG_C_SETARG_A, GETARG_C_CREATE_ABCk]
    rfl
  · rw [hcode, GETARG_k_SETARG_A, GETARG_k_CREATE_ABCk]
    rfl
  · exact r5
  · exact r6
/-- C23 counterexample: compiling 1 + x in the fresh state with the local x in
register 0 (luaK_infix, luaK_posfix, then luaK_exp2nextreg into register 1)
emits the one instruction ADDI with A = 1, B = 0, C = 128 and no constant, but
its k bit is 1, not 0: the operands were swapped. -/
theorem one_plus_local_sets_k :
    (match luaK_infix { open_func 0 with nactvar := 1, freereg := 1 } .OPR_ADD
        ⟨.VKINT, 0, 1, .negzero, 0, 0, -1, -1, 0⟩ with
      | .ok (fs1, e1) =>
        match luaK_posfix integerArith fs1 .OPR_ADD e1
            ⟨.VLOCAL, 0, 0, .negzero, 0, 0, -1, -1, 0⟩ 1 with
        | .ok (fs2, e, _) =>
          match luaK_exp2nextreg fs2 e with
          | .ok (fs3, e3) =>
            some (fs3.pc, fs3.nk, e3.info, GET_OPCODE (fs3.code 0), GETARG_A (fs3.code 0),
              GETARG_B (fs3.code 0), GETARG_C (fs3.code 0), GETARG_k (fs3.code 0))
          | .error _ => none
        | .error _ => none
      | .error _ => none)
    = some (1, 0, 1, OP_ADDI, 1, 0, 128, 1) := by
  rfl

/-- C23 (amended): compiling 1 + x, where x is the local in register 0 and
register 1 is the first free register (luaK_infix then luaK_posfix for OPR_ADD
with e1 the integer literal 1 and e2 the local, then luaK_exp2nextreg on the
result), succeeds at every step and emits exactly one instruction, ADDI with
A = 1, B = 0, C = 1 + OFFSET_sC and k = 1, at the old pc, changes no other
instruction and adds nothing to the constant pool; the result is in
register 1. -/
theorem one_plus_local_compiles_to_ADDI (luaO_rawarith : Nat → TValue → TValue → TValue)
    (fs : FuncState) (e1 x : expdesc) (line : Int)
    (hnact : fs.nactvar = 1) (hfree : fs.freereg = 1)
    (h1k : e1.k = .VKINT) (h1i : e1.ival = 1) (h1j : hasjumps e1 = false)
    (hxk : x.k = .VLOCAL) (hxv : x.var_idx = 0) (hxj : hasjumps x = false) :
    ∃ fs2 e fs3 e3,
      luaK_infix fs .OPR_ADD e1 = .ok (fs, e1) ∧
      luaK_posfix luaO_rawarith fs .OPR_ADD e1 x line = .ok (fs2, e, e1) ∧
      luaK_exp2nextreg fs2 e = .ok (fs3, e3) ∧
      e3.k = .VNONRELOC ∧ e3.info = 1 ∧
      fs3.pc = fs.pc + 1 ∧ (∀ j, j ≠ fs.pc → fs3.code j = fs.code j) ∧
      GET_OPCODE (fs3.code fs.pc) = OP_ADDI ∧ GETARG_A (fs3.code fs.pc) = 1 ∧
      GETARG_B (fs3.code fs.pc) = 0 ∧ GETARG_C (fs3.code fs.pc) = 1 + OFFSET_sC ∧
      GETARG_k (fs3.code fs.pc) = 1 ∧ fs3.k = fs.k ∧ fs3.nk = fs.nk :=
  compile_one_plus_local luaO_rawarith fs e1 x line hnact hfree h1k h1i h1j hxk hxv hxj

/-- Witness for C23 (amended): the fresh state with one local variable. -/
theorem one_plus_local_compiles_to_ADDI_witness :
    ∃ fs2 e fs3 e3,
      luaK_posfix integerArith { open_func 0 with nactvar := 1, freereg := 1 } .OPR_ADD
        ⟨.VKINT, 0, 1, .negzero, 0, 0, -1, -1, 0⟩ ⟨.VLOCAL, 0, 0, .negzero, 0, 0, -1, -1, 0⟩ 1
        = .ok (fs2, e, ⟨.VKINT, 0, 1, .negzero, 0, 0, -1, -1, 0⟩) ∧
      luaK_exp2nextreg fs2 e = .ok (fs3, e3) ∧
      GET_OPCODE (fs3.code 0) = OP_ADDI ∧ GETARG_k (fs3.code 0) = 1 := by
  obtain ⟨fs2, e, fs3, e3, -, a, b, -, -, -, -, c, -, -, -, d, -⟩ :=
    one_plus_local_compiles_to_ADDI integerArith { open_func 0 with nactvar := 1, freereg := 1 }
      ⟨.VKINT, 0, 1, .negzero, 0, 0, -1, -1, 0⟩ ⟨.VLOCAL, 0, 0, .negzero, 0, 0, -1, -1, 0⟩ 1
      rfl rfl rfl rfl (by decide) rfl rfl (by decide)
  exact ⟨fs2, e, fs3, e3, a, b, c, d⟩

/-- Witness for C22: 1 + x with x the local in register 0; the operands are
swapped and the instruction emitted is ADDI 0 0 128 with k = 1. -/
theorem luaK_posfix_arith_operand_forms_witness :
    ∃ fs2 e, luaK_posfix integerArith { open_func 0 with nactvar := 1, freereg := 1 } .OPR_ADD
        ⟨.VKINT, 0, 1, .negzero, 0, 0, -1, -1, 0⟩ ⟨.VLOCAL, 0, 0, .negzero, 0, 0, -1, -1, 0⟩ 1
        = .ok (fs2, e, ⟨.VKINT, 0, 1, .negzero, 0, 0, -1, -1, 0⟩) ∧
      GET_OPCODE (fs2.code 0) = OP_ADDI ∧ GETARG_B (fs2.code 0) = 0 ∧
      GETARG_C (fs2.code 0) = 128 ∧ GETARG_k (fs2.code 0) = 1 := by
  obtain ⟨fs2, a, -, -, -, -, -, b, -, c, d, e⟩ :=
    (luaK_posfix_arith_operand_forms integerArith
      { open_func 0 with nactvar := 1, freereg := 1 }
      { open_func 0 with nactvar := 1, freereg := 1 } .OPR_ADD
      ⟨.VKINT, 0, 1, .negzero, 0, 0, -1, -1, 0⟩ ⟨.VLOCAL, 0, 0, .negzero, 0, 0, -1, -1, 0⟩
      ⟨.VNONRELOC, 0, 0, .negzero, 0, 0, -1, -1, 0⟩ 1 rfl (by decide) rfl).2.1
      ⟨Or.inl rfl, rfl⟩ rfl { open_func 0 with nactvar := 1, freereg := 1 }
      ⟨.VNONRELOC, 0, 0, .negzero, 0, 0, -1, -1, 0⟩ rfl
  exact ⟨fs2, _, a, b, c (by decide), d, e⟩

/-! ## The absolute line entries -/

theorem ABSLINEINFO_eq : ABSLINEINFO = -128 := rfl

/-- The last absolute entry is the entry of the last instruction, when the
byte of that instruction is `ABSLINEINFO`. -/
theorem AbsInv_last {fs : FuncState} (h : AbsInv fs.pc fs) (hpc : 0 < fs.pc)
    (habs : fs.lineinfo (fs.pc - 1) = ABSLINEINFO) :
    0 < fs.nabslineinfo ∧ (fs.abslineinfo (fs.nabslineinfo - 1)).pc = fs.pc - 1 := by
  obtain ⟨ha, hb, hc⟩ := h
  obtain ⟨j, hj, hjp⟩ := hc (fs.pc - 1) (by omega) habs
  refine ⟨by omega, ?_⟩
  by_cases hjm : j = fs.nabslineinfo - 1
  · rw [← hjm]
    exact hjp
  · have h1 := hb j (fs.nabslineinfo - 1) (by omega) (by omega)
    have h2 := (ha (fs.nabslineinfo - 1) (by omega)).1
    omega

theorem AbsInv_savelineinfo (fs : FuncState) (line : Int) (hpc : 0 < fs.pc)
    (h : AbsInv (fs.pc - 1) fs) : AbsInv fs.pc (savelineinfo fs line) := by
  obtain ⟨ha, hb, hc⟩ := h
  by_cases hfar : 128 ≤ |line - fs.previousline| ∨ 120 < fs.iwthabs
  · rw [savelineinfo_abs fs line hfar]
    refine ⟨?_, ?_, ?_⟩
    · intro j hj
      have hj' : j < fs.nabslineinfo + 1 := hj
      show (setAt fs.abslineinfo fs.nabslineinfo ⟨fs.pc - 1, line⟩ j).pc < fs.pc ∧
        setAt fs.lineinfo (fs.pc - 1) ABSLINEINFO
          (setAt fs.abslineinfo fs.nabslineinfo ⟨fs.pc - 1, line⟩ j).pc = ABSLINEINFO
      by_cases hjn : j = fs.nabslineinfo
      · rw [hjn, setAt_same]
        exact ⟨by show fs.pc - 1 < fs.pc; omega, setAt_same _ _ _⟩
      · rw [setAt_other _ _ _ _ hjn]
        obtain ⟨a1, a2⟩ := ha j (by omega)
        refine ⟨by omega, ?_⟩
        rw [setAt_other _ _ _ _ (by omega)]
        exact a2
    · intro j k hjk hk
      have hk' : k < fs.nabslineinfo + 1 := hk
      show (setAt fs.abslineinfo fs.nabslineinfo ⟨fs.pc - 1, line⟩ j).pc
        < (setAt fs.abslineinfo fs.nabslineinfo ⟨fs.pc - 1, line⟩ k).pc
      rw [setAt_other _ _ _ _ (by omega : j ≠ fs.nabslineinfo)]
      by_cases hkn : k = fs.nabslineinfo
      · rw [hkn, setAt_same]
        exact (ha j (by omega)).1
      · rw [setAt_other _ _ _ _ hkn]
        exact hb j k hjk (by omega)
    · intro i hi hli
      have hli' : setAt fs.lineinfo (fs.pc - 1) ABSLINEINFO i = ABSLINEINFO := hli
      show ∃ j, j < fs.nabslineinfo + 1 ∧
        (setAt fs.abslineinfo fs.nabslineinfo ⟨fs.pc - 1, line⟩ j).pc = i
      by_cases hip : i = fs.pc - 1
      · refine ⟨fs.nabslineinfo, by omega, ?_⟩
        rw [setAt_same, hip]
      · rw [setAt_other _ _ _ _ hip] at hli'
        obtain ⟨j, hj, hjp⟩ := hc i (by omega) hli'
        refine ⟨j, by omega, ?_⟩
        rw [setAt_other _ _ _ _ (by omega)]
        exact hjp
  · have h1 : |line - fs.previousline| < 128 := by omega
    have h2 : fs.iwthabs ≤ 120 := by omega
    have hne : line - fs.previousline ≠ ABSLINEINFO := by
      rw [ABSLINEINFO_eq]
      intro e
      rw [e] at h1
      exact absurd h1 (by decide)
    rw [savelineinfo_rel fs line h1 h2]
    refine ⟨?_, ?_, ?_⟩
    · intro j hj
      have hj' : j < fs.nabslineinfo := hj
      show (fs.abslineinfo j).pc < fs.pc ∧
        setAt fs.lineinfo (fs.pc - 1) (line - fs.previousline) (fs.abslineinfo j).pc
          = ABSLINEINFO
      obtain ⟨a1, a2⟩ := ha j hj'
      refine ⟨by omega, ?_⟩
      rw [setAt_other _ _ _ _ (by omega)]
      exact a2
    · exact hb
    · intro i hi hli
      have hli' : setAt fs.lineinfo (fs.pc - 1) (line - fs.previousline) i = ABSLINEINFO := hli
      show ∃ j, j < fs.nabslineinfo ∧ (fs.abslineinfo j).pc = i
      by_cases hip : i = fs.pc - 1
      · rw [hip, setAt_same] at hli'
        exact absurd hli' hne
      · rw [setAt_other _ _ _ _ hip] at hli'
        exact hc i (by omega) hli'

theorem removelastlineinfo_pc (fs : FuncState) : (removelastlineinfo fs).pc = fs.pc := by
  unfold removelastlineinfo
  dsimp only
  split <;> rfl

theorem AbsInv_removelastlineinfo (fs : FuncState) (hpc : 0 < fs.pc)
    (h : AbsInv fs.pc fs) : AbsInv (fs.pc - 1) (removelastlineinfo fs) := by
  by_cases habs : fs.lineinfo (fs.pc - 1) = ABSLINEINFO
  · obtain ⟨hn, hlast⟩ := AbsInv_last h hpc habs
    obtain ⟨ha, hb, hc⟩ := h
    have hrm : removelastlineinfo fs
        = { fs with nabslineinfo := fs.nabslineinfo - 1, iwthabs := (MAXIWTHABS + 1) % 256 } := by
      unfold removelastlineinfo
      simp only [habs, ne_eq, not_true_eq_false, if_false]
    rw [hrm]
    refine ⟨?_, ?_, ?_⟩
    · intro j hj
      have hj' : j < fs.nabslineinfo - 1 := hj
      show (fs.abslineinfo j).pc < fs.pc - 1 ∧ fs.lineinfo (fs.abslineinfo j).pc = ABSLINEINFO
      have := hb j (fs.nabslineinfo - 1) hj' (by omega)
      exact ⟨by omega, (ha j (by omega)).2⟩
    · intro j k hjk hk
      have hk' : k < fs.nabslineinfo - 1 := hk
      exact hb j k hjk (by omega)
    · intro i hi hli
      show ∃ j, j < fs.nabslineinfo - 1 ∧ (fs.abslineinfo j).pc = i
      obtain ⟨j, hj, hjp⟩ := hc i (by omega) hli
      refine ⟨j, ?_, hjp⟩
      by_cases hjm : j = fs.nabslineinfo - 1
      · rw [hjm] at hjp
        omega
      · omega
  · obtain ⟨ha, hb, hc⟩ := h
    have hrm : removelastlineinfo fs
        = { fs with previousline := fs.previousline - fs.lineinfo (fs.pc - 1), iwthabs := (fs.iwthabs + 255) % 256 } := by
      unfold removelastlineinfo
      simp only [habs, ne_eq, not_false_eq_true, if_true]
    rw [hrm]
    refine ⟨?_, hb, ?_⟩
    · intro j hj
      have hj' : j < fs.nabslineinfo := hj
      show (fs.abslineinfo j).pc < fs.pc - 1 ∧ fs.lineinfo (fs.abslineinfo j).pc = ABSLINEINFO
      obtain ⟨a1, a2⟩ := ha j hj'
      refine ⟨?_, a2⟩
      have : (fs.abslineinfo j).pc ≠ fs.pc - 1 := by
        intro e
        rw [e] at a2
        exact habs a2
      omega
    · intro i hi hli
      exact hc i (by omega) hli

/-- The invariant holds in every state reachable by the functions that write
line information. -/
theorem LineReachable_AbsInv {linedefined : Int} {fs : FuncState}
    (hr : LineReachable linedefined fs) : AbsInv fs.pc fs := by
  induction hr with
  | fresh =>
    refine ⟨?_, ?_, ?_⟩
    · intro j hj
      exact absurd hj (Nat.not_lt_zero _)
    · intro j k _ hk
      exact absurd hk (Nat.not_lt_zero _)
    · intro i hi
      exact absurd hi (Nat.not_lt_zero _)
  | code fs lastline i _ ih =>
    have h1 := AbsInv_savelineinfo { fs with code := setAt fs.code fs.pc i, pc := fs.pc + 1 }
      lastline (Nat.succ_pos _) ih
    rw [luaK_code_pc]
    exact h1
  | fixline fs line _ hpc ih =>
    have h1 := AbsInv_removelastlineinfo fs hpc ih
    have h2 := AbsInv_savelineinfo (removelastlineinfo fs) line
      (by rw [removelastlineinfo_pc]; exact hpc) (by rw [removelastlineinfo_pc]; exact h1)
    rw [removelastlineinfo_pc] at h2
    have hp : (luaK_fixline fs line).pc = fs.pc := (luaK_fixline_frame fs line).2.1
    rw [hp]
    exact h2
  | removelast fs _ hpc ih =>
    have h1 := AbsInv_removelastlineinfo fs hpc ih
    have hp : (removelastinstruction fs).pc = fs.pc - 1 := by
      unfold removelastinstruction
      show (removelastlineinfo fs).pc - 1 = fs.pc - 1
      rw [removelastlineinfo_pc]
    rw [hp]
    exact h1

/-- C35: in every state reachable from a fresh function state by luaK_code,
luaK_fixline and removelastinstruction, whenever there is a last instruction
and its lineinfo byte is ABSLINEINFO, so that removelastlineinfo takes its
absolute branch, there is an absolute entry, the last one, which is the one
removed (removelastlineinfo only decrements nabslineinfo and leaves the array
alone), and its pc field already equals the index of the last instruction,
fs->pc - 1, also when that index is 0: the equality that the assertion was
meant to check holds. -/
theorem removelastlineinfo_removes_entry_of_last_instruction (linedefined : Int)
    (fs : FuncState) (hr : LineReachable linedefined fs) (hpc : 0 < fs.pc)
    (habs : fs.lineinfo (fs.pc - 1) = ABSLINEINFO) :
    0 < fs.nabslineinfo ∧
    (removelastlineinfo fs).nabslineinfo = fs.nabslineinfo - 1 ∧
    (removelastlineinfo fs).abslineinfo = fs.abslineinfo ∧
    (fs.abslineinfo (removelastlineinfo fs).nabslineinfo).pc = fs.pc - 1 ∧
    (fs.abslineinfo (fs.nabslineinfo - 1)).pc = fs.pc - 1 := by
  obtain ⟨hn, hlast⟩ := AbsInv_last (LineReachable_AbsInv hr) hpc habs
  have hrm : removelastlineinfo fs
      = { fs with nabslineinfo := fs.nabslineinfo - 1, iwthabs := (MAXIWTHABS + 1) % 256 } := by
    unfold removelastlineinfo
    simp only [habs, ne_eq, not_true_eq_false, if_false]
  rw [hrm]
  exact ⟨hn, rfl, rfl, hlast, hlast⟩

/-- Witness for C35: the first instruction of a function defined at line 0 is
on line 200, so its line information is absolute; the entry removed is the
one of index 0, whose pc field is 0. -/
theorem removelastlineinfo_removes_entry_of_last_instruction_witness :
    ((luaK_code (open_func 0) 200 0).1.abslineinfo
      ((luaK_code (open_func 0) 200 0).1.nabslineinfo - 1)).pc = 0 :=
  (removelastlineinfo_removes_entry_of_last_instruction 0 (luaK_code (open_func 0) 200 0).1
    (LineReachable.code _ 200 0 LineReachable.fresh) (by decide) (by decide)).2.2.2.2

/-! ## A comparison put in a register -/

/-- C34: for every comparison expression e (kind VJMP, its jump at position
j = e.u.info still open, that is with offset NO_JUMP, the instruction at j - 1 a
test-mode instruction other than TESTSET, and empty t and f lists) in a code of
at most OFFSET_sJ instructions, and every register r, exp2reg(e, r) returns
and emits exactly two instructions, LOADBOOL r, 0 with skip = 1 followed by
LOADBOOL r, 1 with skip = 0; it patches the jump at j, which keeps its opcode,
to target the second one, the load of true; it changes no other instruction,
marks the position after the two loads as a jump target, leaves the constant
pool alone, and leaves e as VNONRELOC in register r with both jump lists equal
to NO_JUMP. -/
theorem exp2reg_of_comparison (fs : FuncState) (e : expdesc) (reg : Int)
    (hk : e.k = .VJMP) (ht : e.t = NO_JUMP) (hf : e.f = NO_JUMP)
    (hj1 : 1 ≤ e.info) (hj2 : e.info < (fs.pc : Int))
    (hopen : GETARG_sJ (fs.code e.info.toNat) = NO_JUMP)
    (hcmp : testTMode (GET_OPCODE (fs.code (e.info - 1).toNat)) = true)
    (hnts : GET_OPCODE (fs.code (e.info - 1).toNat) ≠ OP_TESTSET)
    (hreg : 0 ≤ reg ∧ reg ≤ (MAXARG_A : Int)) (hpc : fs.pc ≤ OFFSET_sJ) :
    ∃ fs1, exp2reg fs e reg
        = .ok (fs1, { e with f := NO_JUMP, t := NO_JUMP, info := reg, k := .VNONRELOC }) ∧
      fs1.pc = fs.pc + 2 ∧
      GET_OPCODE (fs1.code fs.pc) = OP_LOADBOOL ∧ GETARG_A (fs1.code fs.pc) = reg ∧
      GETARG_B (fs1.code fs.pc) = 0 ∧ GETARG_C (fs1.code fs.pc) = 1 ∧
      GET_OPCODE (fs1.code (fs.pc + 1)) = OP_LOADBOOL ∧
      GETARG_A (fs1.code (fs.pc + 1)) = reg ∧
      GETARG_B (fs1.code (fs.pc + 1)) = 1 ∧ GETARG_C (fs1.code (fs.pc + 1)) = 0 ∧
      GET_OPCODE (fs1.code e.info.toNat) = GET_OPCODE (fs.code e.info.toNat) ∧
      e.info + 1 + GETARG_sJ (fs1.code e.info.toNat) = (fs.pc : Int) + 1 ∧
      getjump fs1 e.info = (fs.pc : Int) + 1 ∧
      (∀ i, i < fs.pc → i ≠ e.info.toNat → fs1.code i = fs.code i) ∧
      fs1.lasttarget = (fs.pc : Int) + 2 ∧ fs1.k = fs.k ∧ fs1.nk = fs.nk ∧
      fs1.freereg = fs.freereg := by
  have hne : e.info ≠ NO_JUMP := by
    unfold NO_JUMP
    omega
  have hjn : e.info.toNat < fs.pc := by omega
  have hjc : ((e.info.toNat : Nat) : Int) = e.info := by omega
  -- the expression itself is left alone, and its jump goes to the true list
  have hd : discharge2reg fs e reg = .ok (fs, e) := by
    unfold discharge2reg luaK_dischargevars
    simp [hk]
  have hc : luaK_concat fs e.t e.info = .ok (fs, e.info) := by
    unfold luaK_concat
    rw [if_neg hne, ht, if_pos rfl]
  have hhj : hasjumps ({ e with t := e.info } : expdesc) = true := by
    unfold hasjumps
    simp only [decide_eq_true_eq]
    rw [hf]
    exact hne
  -- the jump needs a value
  have hctl : ∀ s : FuncState, s.code (e.info - 1).toNat = fs.code (e.info - 1).toNat →
      getjumpcontrol s e.info = e.info - 1 := by
    intro s hs
    unfold getjumpcontrol
    rw [hs]
    exact if_pos ⟨hj1, hcmp⟩
  have hnv : need_value fs e.info = .ok true := by
    obtain ⟨n, hn⟩ : ∃ n, fs.pc = n + 1 := ⟨fs.pc - 1, by omega⟩
    unfold need_value
    rw [hn]
    unfold need_valueLoop
    simp only [hne, if_false, hctl fs rfl, hnts, ne_eq, not_false_eq_true, if_true]
  -- the state after the two loads and the label
  have hF : ∃ F : FuncState,
      F = (luaK_getlabel { (code_loadbool (code_loadbool fs reg 0 1).1 reg 1 0).1 with lasttarget := (code_loadbool (code_loadbool fs reg 0 1).1 reg 1 0).1.pc }).1 ∧
      F.pc = fs.pc + 2 ∧
      F.code = setAt (setAt fs.code fs.pc (CREATE_ABCk OP_LOADBOOL reg 0 1 0)) (fs.pc + 1) (CREATE_ABCk OP_LOADBOOL reg 1 0 0) ∧
      F.lasttarget = (fs.pc : Int) + 2 ∧ F.k = fs.k ∧ F.nk = fs.nk ∧ F.freereg = fs.freereg := by
    refine ⟨_, rfl, ?_, ?_, ?_, ?_, ?_, ?_⟩
    · simp [luaK_getlabel, code_loadbool, luaK_codeABC, luaK_codeABCk]
    · simp [luaK_getlabel, code_loadbool, luaK_codeABC, luaK_codeABCk]
    · simp only [luaK_getlabel, code_loadbool, luaK_codeABC, luaK_codeABCk, luaK_code_pc]
      push_cast
      ring
    · simp [luaK_getlabel, code_loadbool, luaK_codeABC, luaK_codeABCk]
    · simp [luaK_getlabel, code_loadbool, luaK_codeABC, luaK_codeABCk]
    · simp [luaK_getlabel, code_loadbool, luaK_codeABC, luaK_codeABCk]
  obtain ⟨F, hFdef, hFpc, hFcode, hFlt, hFk, hFnk, hFfree⟩ := hF
  have hp1 : (code_loadbool fs reg 0 1).2 = (fs.pc : Int) := by
    simp [luaK_getlabel, code_loadbool, luaK_codeABC, luaK_codeABCk]
  have hp2 : (code_loadbool (code_loadbool fs reg 0 1).1 reg 1 0).2 = (fs.pc : Int) + 1 := by
    simp [luaK_getlabel, code_loadbool, luaK_codeABC, luaK_codeABCk]
  have hFj : F.code e.info.toNat = fs.code e.info.toNat := by
    rw [hFcode, setAt_other _ _ _ _ (by omega), setAt_other _ _ _ _ (by omega)]
  have hFj1 : F.code (e.info - 1).toNat = fs.code (e.info - 1).toNat := by
    rw [hFcode, setAt_other _ _ _ _ (by omega), setAt_other _ _ _ _ (by omega)]
  have hrange : -(OFFSET_sJ : Int) ≤ (fs.pc : Int) + 1 - (e.info + 1) ∧
      (fs.pc : Int) + 1 - (e.info + 1) ≤ (MAXARG_sJ : Int) - OFFSET_sJ := by
    unfold OFFSET_sJ at hpc ⊢
    unfold MAXARG_sJ
    simp only [Nat.reducePow, Nat.reduceSub, Nat.cast_ofNat] at hpc ⊢
    omega
  have hpl1 : ∀ a b : Int, patchlistaux F NO_JUMP a reg b = .ok F := by
    intro a b
    unfold patchlistaux patchlistauxLoop
    simp
  have hpl2 : patchlistaux F e.info ((fs.pc : Int) + 2) reg ((fs.pc : Int) + 1)
      = .ok { F with code := setAt F.code e.info.toNat (SETARG_sJ (F.code e.info.toNat) ((fs.pc : Int) + 1 - (e.info + 1))) } := by
    have hgj : getjump F e.info = NO_JUMP := by
      unfold getjump
      rw [hFj, hopen]
      simp
    have hpt : patchtestreg F e.info reg = (F, false) := by
      unfold patchtestreg
      simp only [hctl F hFj1, hFj1, hnts, ne_eq, not_false_eq_true, if_true]
    have hfx : fixjump F e.info ((fs.pc : Int) + 1)
        = .ok { F with code := setAt F.code e.info.toNat (SETARG_sJ (F.code e.info.toNat) ((fs.pc : Int) + 1 - (e.info + 1))) } := by
      unfold fixjump
      simp only [hrange, and_self, not_true_eq_false, if_false]
    have hloop : ∀ n : Nat, patchlistauxLoop (n + 1) F e.info ((fs.pc : Int) + 2) reg ((fs.pc : Int) + 1)
        = .ok { F with code := setAt F.code e.info.toNat (SETARG_sJ (F.code e.info.toNat) ((fs.pc : Int) + 1 - (e.info + 1))) } := by
      intro n
      unfold patchlistauxLoop
      simp only [hne, if_false, hgj, hpt, Bool.false_eq_true, hfx]
      unfold patchlistauxLoop
      simp
    unfold patchlistaux
    exact Eq.trans (congrArg (fun n => patchlistauxLoop n F e.info ((fs.pc : Int) + 2) reg ((fs.pc : Int) + 1)) hFpc) (hloop (fs.pc + 1))
  have hjumps : exp2regJumps fs { e with t := e.info } reg
      = .ok { F with code := setAt F.code e.info.toNat (SETARG_sJ (F.code e.info.toNat) ((fs.pc : Int) + 1 - (e.info + 1))) } := by
    unfold exp2regJumps
    simp only [hnv, if_true, hk, luaK_patchtohere_NO_JUMP, hf, ← hFdef]
    have hfin : (luaK_getlabel { (code_loadbool (code_loadbool fs reg 0 1).1 reg 1 0).1 with lasttarget := (code_loadbool (code_loadbool fs reg 0 1).1 reg 1 0).1.pc }).2 = (fs.pc : Int) + 2 := by
      simp only [luaK_getlabel, code_loadbool, luaK_codeABC, luaK_codeABCk, luaK_code_pc]
      push_cast
      ring
    simp only [hfin, hp1, hp2, hpl1, hpl2]
  have hexp : exp2reg fs e reg
      = .ok ({ F with code := setAt F.code e.info.toNat (SETARG_sJ (F.code e.info.toNat) ((fs.pc : Int) + 1 - (e.info + 1))) },
          { e with f := NO_JUMP, t := NO_JUMP, info := reg, k := .VNONRELOC }) := by
    unfold exp2reg
    simp only [hd, if_pos hk, hc, hhj, if_true, hjumps]
  have hcj : ({ F with code := setAt F.code e.info.toNat (SETARG_sJ (F.code e.info.toNat) ((fs.pc : Int) + 1 - (e.info + 1))) } : FuncState).code e.info.toNat
      = SETARG_sJ (fs.code e.info.toNat) ((fs.pc : Int) + 1 - (e.info + 1)) := by
    show setAt F.code e.info.toNat _ e.info.toNat = _
    rw [setAt_same, hFj]
  have hother : ∀ i, i ≠ e.info.toNat →
      ({ F with code := setAt F.code e.info.toNat (SETARG_sJ (F.code e.info.toNat) ((fs.pc : Int) + 1 - (e.info + 1))) } : FuncState).code i
        = setAt (setAt fs.code fs.pc (CREATE_ABCk OP_LOADBOOL reg 0 1 0)) (fs.pc + 1) (CREATE_ABCk OP_LOADBOOL reg 1 0 0) i := by
    intro i hi
    show setAt F.code e.info.toNat _ i = _
    rw [setAt_other _ _ _ _ hi, hFcode]
  have hc0 := hother fs.pc (by omega)
  rw [setAt_other _ _ _ _ (by omega), setAt_same] at hc0
  have hc1 := hother (fs.pc + 1) (by omega)
  rw [setAt_same] at hc1
  have hsj : GETARG_sJ (SETARG_sJ (fs.code e.info.toNat) ((fs.pc : Int) + 1 - (e.info + 1)))
      = (fs.pc : Int) + 1 - (e.info + 1) := GETARG_sJ_SETARG_sJ _ _ hrange.1 hrange.2
  unfold MAXARG_A at hreg
  refine ⟨_, hexp, hFpc, ?_, ?_, ?_, ?_, ?_, ?_, ?_, ?_, ?_, ?_, ?_, ?_, hFlt, hFk, hFnk, hFfree⟩
  · rw [hc0, GET_OPCODE_CREATE_ABCk]
    rfl
  · rw [hc0, GETARG_A_CREATE_ABCk]
    omega
  · rw [hc0, GETARG_B_CREATE_ABCk]
    rfl
  · rw [hc0, GETARG_C_CREATE_ABCk]
    rfl
  · rw [hc1, GET_OPCODE_CREATE_ABCk]
    rfl
  · rw [hc1, GETARG_A_CREATE_ABCk]
    omega
  · rw [hc1, GETARG_B_CREATE_ABCk]
    rfl
  · rw [hc1, GETARG_C_CREATE_ABCk]
    rfl
  · rw [hcj, GET_OPCODE_SETARG_sJ]
  · rw [hcj, hsj]
    ring
  · unfold getjump
    rw [hcj, hsj]
    have : ¬ ((fs.pc : Int) + 1 - (e.info + 1) = NO_JUMP) := by
      unfold NO_JUMP
      omega
    rw [if_neg this]
    ring
  · intro i hi hij
    rw [hother i hij, setAt_other _ _ _ _ (by omega), setAt_other _ _ _ _ (by omega)]

/-- Witness for C34: the comparison LT 0 1 at position 0 with its jump at
position 1, put in register 2: the two loads are at positions 2 and 3 and the
jump goes to position 3. -/
theorem exp2reg_of_comparison_witness :
    ∃ fs1, exp2reg { open_func 0 with pc := 2, code := fun j => if j = 0 then CREATE_ABCk OP_LT 0 1 0 1 else CREATE_sJ OP_JMP (NO_JUMP + OFFSET_sJ) 0 }
        ⟨.VJMP, 1, 0, .negzero, 0, 0, -1, -1, 0⟩ 2
        = .ok (fs1, ⟨.VNONRELOC, 2, 0, .negzero, 0, 0, -1, -1, 0⟩) ∧
      fs1.pc = 4 ∧ GET_OPCODE (fs1.code 3) = OP_LOADBOOL ∧ GETARG_B (fs1.code 3) = 1 ∧
      getjump fs1 1 = 3 := by
  obtain ⟨fs1, a, b, -, -, -, -, c, -, d, -, -, -, e, -⟩ :=
    exp2reg_of_comparison
      { open_func 0 with pc := 2, code := fun j => if j = 0 then CREATE_ABCk OP_LT 0 1 0 1 else CREATE_sJ OP_JMP (NO_JUMP + OFFSET_sJ) 0 }
      ⟨.VJMP, 1, 0, .negzero, 0, 0, -1, -1, 0⟩ 2 rfl rfl rfl (by decide) (by decide)
      (by rfl) (by rfl) (by decide) (by decide) (by decide)
  exact ⟨fs1, a, b, c, d, e⟩

/-! ## Order comparisons through `luaK_posfix` -/

theorem isSCnumber_fst (e : expdesc) (i f : Int) :
    (isSCnumber e i f).1 = (isSCnumber e 0 0).1 := by
  unfold isSCnumber
  by_cases hk : e.k = .VKINT
  · simp only [hk, if_true]
    split <;> rfl
  · by_cases hf : e.k = .VKFLT
    · simp only [hf, reduceCtorEq, if_false, if_true]
      cases luaV_flttointeger e.nval with
      | none => rfl
      | some fi =>
        simp only
        cases hb : fitsBx fi with
        | true => simp only [if_true]
        | false => rfl
    · simp only [hk, hf, if_false]

theorem isSCnumber_flag (e : expdesc) (i f : Int) :
    (isSCnumber e i f).2.2 = f ∨ (isSCnumber e i f).2.2 = 1 := by
  unfold isSCnumber
  by_cases hk : e.k = .VKINT
  · simp only [hk, if_true]
    split <;> exact Or.inl rfl
  · by_cases hf : e.k = .VKFLT
    · simp only [hf, reduceCtorEq, if_false, if_true]
      cases luaV_flttointeger e.nval with
      | none => exact Or.inl rfl
      | some fi =>
        simp only
        cases hb : fitsBx fi with
        | true =>
          simp only [if_true]
          split <;> exact Or.inr rfl
        | false => exact Or.inl rfl
    · exact Or.inl (by simp only [hk, hf, if_false])

/-- The register form of `codeorder`: neither operand is accepted by
`isSCnumber`, both are brought to registers. -/
theorem codeorder_regs {fs fs1 fs2 : FuncState} {a b ra rb : expdesc} (op : OpCode)
    (ha : (isSCnumber a 0 0).1 = false) (hb : (isSCnumber b 0 0).1 = false)
    (h1 : luaK_exp2anyreg fs a = .ok (fs1, ra)) (h2 : luaK_exp2anyreg fs1 b = .ok (fs2, rb)) :
    ∃ c : Int, (c = 0 ∨ c = 1) ∧ codeorder fs op a b = .ok
      ((condjump (freeexps fs2 ra rb) op ra.info rb.info c 1).1,
        { ra with info := (condjump (freeexps fs2 ra rb) op ra.info rb.info c 1).2, k := .VJMP },
        rb) := by
  have ha2 : (isSCnumber a (isSCnumber b 0 0).2.1 (isSCnumber b 0 0).2.2).1 = false := by
    rw [isSCnumber_fst, ha]
  refine ⟨(isSCnumber a (isSCnumber b 0 0).2.1 (isSCnumber b 0 0).2.2).2.2, ?_, ?_⟩
  · rcases isSCnumber_flag a (isSCnumber b 0 0).2.1 (isSCnumber b 0 0).2.2 with h | h
    · rw [h]
      rcases isSCnumber_flag b 0 0 with h' | h'
      · exact Or.inl h'
      · exact Or.inr h'
    · exact Or.inr h
  · unfold codeorder
    simp only [ha2, hb, h1, h2, Bool.false_eq_true, if_false, bind, Except.bind, pure,
      Except.pure]

theorem luaK_dischargevars_VNONRELOC (fs : FuncState) (e : expdesc) (hk : e.k = .VNONRELOC) :
    luaK_dischargevars fs e = (fs, e) := by
  unfold luaK_dischargevars
  simp [hk]

theorem luaK_posfix_LT (luaO_rawarith : Nat → TValue → TValue → TValue) (fs : FuncState)
    (e1 e2 : expdesc) (line : Int) :
    luaK_posfix luaO_rawarith fs .OPR_LT e1 e2 line
      = codeorder (luaK_dischargevars fs e2).1 OP_LT e1 (luaK_dischargevars fs e2).2 := rfl

theorem luaK_posfix_LE (luaO_rawarith : Nat → TValue → TValue → TValue) (fs : FuncState)
    (e1 e2 : expdesc) (line : Int) :
    luaK_posfix luaO_rawarith fs .OPR_LE e1 e2 line
      = codeorder (luaK_dischargevars fs e2).1 OP_LE e1 (luaK_dischargevars fs e2).2 := rfl

theorem luaK_posfix_GT (luaO_rawarith : Nat → TValue → TValue → TValue) (fs : FuncState)
    (e1 e2 : expdesc) (line : Int) :
    luaK_posfix luaO_rawarith fs .OPR_GT e1 e2 line
      = codeorder (luaK_dischargevars fs e2).1 OP_LT (luaK_dischargevars fs e2).2 e1 := rfl

theorem luaK_posfix_GE (luaO_rawarith : Nat → TValue → TValue → TValue) (fs : FuncState)
    (e1 e2 : expdesc) (line : Int) :
    luaK_posfix luaO_rawarith fs .OPR_GE e1 e2 line
      = codeorder (luaK_dischargevars fs e2).1 OP_LE (luaK_dischargevars fs e2).2 e1 := rfl

/-- The immediate form of `codeorder` with the literal on the right. -/
theorem codeorder_imm_right_emits (fs : FuncState) (op : OpCode) (x lit : expdesc)
    (hop : op = OP_LT ∨ op = OP_LE)
    (hx : x.k = .VNONRELOC) (hxj : hasjumps x = false)
    (hxr : 0 ≤ x.info ∧ x.info ≤ (MAXARG_A : Int))
    (hl : lit.k = .VKINT) (hlj : hasjumps lit = false)
    (hn : -127 ≤ lit.ival ∧ lit.ival ≤ 128) :
    ∃ fs1 a, codeorder fs op x lit = .ok (fs1, a, lit) ∧ a.k = .VJMP ∧
      a.info = (fs.pc : Int) + 1 ∧
      EmitsComparison fs fs1 (if op = OP_LT then OP_LTI else OP_LEI) x.info
        (lit.ival + OFFSET_sC) 0 1 := by
  have hfit : fitsC lit.ival = true := by
    unfold fitsC OFFSET_sC MAXARG_C
    simp only [decide_eq_true_eq]
    omega
  have hopI : (op - OP_LT + OP_LTI : Nat) = if op = OP_LT then OP_LTI else OP_LEI := by
    rcases hop with h | h <;> subst h <;> decide
  have hopL : (if op = OP_LT then OP_LTI else OP_LEI) < 128 := by
    split <;> decide
  have hxr2 : 0 ≤ x.info ∧ x.info ≤ 255 := hxr
  unfold OFFSET_sC
  have hr : 0 ≤ lit.ival + ((127 : Nat) : Int) ∧ lit.ival + ((127 : Nat) : Int) ≤ 255 := by
    omega
  have hcast : cast_int (lit.ival + ((127 : Nat) : Int)) = lit.ival + ((127 : Nat) : Int) := by
    unfold cast_int
    simp only [Nat.reducePow, Int.reducePow]
    omega
  have h := codeorder_imm_right fs op x lit hx hxj hl hlj hfit
  unfold OFFSET_sC at h
  rw [hcast, hopI] at h
  obtain ⟨hc1, hc2⟩ := condjump_emits (freeexps fs x lit) fs
    (if op = OP_LT then OP_LTI else OP_LEI) x.info
    (lit.ival + ((127 : Nat) : Int)) 0 1 (by simp) (by simp) (by simp) (by simp) hopL hxr2 hr
    (by decide) (by decide)
  exact ⟨_, _, h, rfl, hc2, hc1⟩

/-- The immediate form of `codeorder` with the literal on the left. -/
theorem codeorder_imm_left_emits (fs : FuncState) (op : OpCode) (x lit : expdesc)
    (hx : x.k = .VNONRELOC) (hxj : hasjumps x = false)
    (hxr : 0 ≤ x.info ∧ x.info ≤ (MAXARG_A : Int))
    (hl : lit.k = .VKINT) (hlj : hasjumps lit = false)
    (hn : -127 ≤ lit.ival ∧ lit.ival ≤ 128) :
    ∃ fs1 a, codeorder fs op lit x = .ok (fs1, a, x) ∧ a.k = .VJMP ∧
      a.info = (fs.pc : Int) + 1 ∧
      EmitsComparison fs fs1 (if op = OP_LT then OP_GTI else OP_GEI) x.info
        (lit.ival + OFFSET_sC) 0 1 := by
  have hfit : fitsC lit.ival = true := by
    unfold fitsC OFFSET_sC MAXARG_C
    simp only [decide_eq_true_eq]
    omega
  have hopG : (if op = OP_LT then OP_GTI else OP_GEI) < 128 := by
    split <;> decide
  have hxr2 : 0 ≤ x.info ∧ x.info ≤ 255 := hxr
  unfold OFFSET_sC
  have hr : 0 ≤ lit.ival + ((127 : Nat) : Int) ∧ lit.ival + ((127 : Nat) : Int) ≤ 255 := by
    omega
  have hcast : cast_int (lit.ival + ((127 : Nat) : Int)) = lit.ival + ((127 : Nat) : Int) := by
    unfold cast_int
    simp only [Nat.reducePow, Int.reducePow]
    omega
  have h := codeorder_imm_left fs op x lit hx hxj hl hlj hfit
  unfold OFFSET_sC at h
  rw [hcast] at h
  obtain ⟨hc1, hc2⟩ := condjump_emits (freeexps fs lit x) fs
    (if op = OP_LT then OP_GTI else OP_GEI) x.info
    (lit.ival + ((127 : Nat) : Int)) 0 1 (by simp) (by simp) (by simp) (by simp) hopG hxr2 hr
    (by decide) (by decide)
  exact ⟨_, _, h, rfl, hc2, hc1⟩

/-- The register form of `codeorder`, with what it emits. -/
theorem codeorder_regs_emits {fs fs1 fs2 : FuncState} {a b ra rb : expdesc} (op : OpCode)
    (hop : op = OP_LT ∨ op = OP_LE)
    (ha : (isSCnumber a 0 0).1 = false) (hb : (isSCnumber b 0 0).1 = false)
    (h1 : luaK_exp2anyreg fs a = .ok (fs1, ra)) (h2 : luaK_exp2anyreg fs1 b = .ok (fs2, rb))
    (hra : 0 ≤ ra.info ∧ ra.info ≤ (MAXARG_A : Int))
    (hrb : 0 ≤ rb.info ∧ rb.info ≤ (MAXARG_B : Int)) :
    ∃ c fs3 j, codeorder fs op a b = .ok (fs3, j, rb) ∧ j.k = .VJMP ∧
      j.info = (fs2.pc : Int) + 1 ∧ ra.k = .VNONRELOC ∧ rb.k = .VNONRELOC ∧
      EmitsComparison fs2 fs3 op ra.info rb.info c 1 := by
  obtain ⟨c, hc, h⟩ := codeorder_regs op ha hb h1 h2
  have hop128 : op < 128 := by
    rcases hop with h | h <;> subst h <;> decide
  have hc2 : 0 ≤ c ∧ c ≤ 255 := by
    rcases hc with h | h <;> subst h <;> decide
  obtain ⟨hc1, hc3⟩ := condjump_emits (freeexps fs2 ra rb) fs2 op ra.info rb.info c 1
    (by simp) (by simp) (by simp) (by simp) hop128 hra hrb hc2 (by decide)
  exact ⟨c, _, _, h, rfl, hc3, (luaK_exp2anyreg_spec h1).1, (luaK_exp2anyreg_spec h2).1, hc1⟩

/-- C32 counterexample: in x < 2.0, with x the local in register 0, neither
operand is an integer literal, yet luaK_posfix does not emit LT over two
registers: isSCnumber accepts the float literal 2.0, whose value is the
integer 2, and the comparison emitted is the immediate LTI with A = 0,
immediate 2 + OFFSET_sC and C = 1, followed by a jump; no register is
loaded. -/
theorem float_literal_compared_as_immediate :
    (match luaK_posfix integerArith { open_func 0 with freereg := 1, nactvar := 1 } .OPR_LT
        ⟨.VNONRELOC, 0, 0, .negzero, 0, 0, -1, -1, 0⟩
        ⟨.VKFLT, 0, 0, .fin 2, 0, 0, -1, -1, 0⟩ 1 with
      | .ok (fs1, e1, e2) =>
        some (fs1.pc, GET_OPCODE (fs1.code 0), GETARG_A (fs1.code 0), GETARG_B (fs1.code 0),
          GETARG_C (fs1.code 0), GETARG_k (fs1.code 0), GET_OPCODE (fs1.code 1), e1.k, e2.k,
          fs1.freereg)
      | .error _ => none)
      = some (2, OP_LTI, 0, 2 + (OFFSET_sC : Int), 1, 1, OP_JMP, .VJMP, .VKFLT, 1) ∧
    OP_LTI ≠ OP_LT ∧ OP_LTI ≠ OP_LE :=
  ⟨rfl, by decide, by decide⟩

/-- C32 (amended): order comparisons keep their meaning through operand
swapping. For each of the operators <, <=, >, >= and an integer literal n with
-127 <= n <= 128 compared with a value in register r, luaK_posfix emits
an immediate comparison followed by a jump, with A = r, immediate
n + OFFSET_sC and k = 1: LTI, LEI, GTI, GEI for r < n, r <= n, r > n, r >= n and
GTI, GEI, LTI, LEI for n < r, n <= r, n > r, n >= r; its relation, read as
r < n, r <= n, r > n, r >= n, is the source comparison over the integers. When
neither operand is accepted by isSCnumber (a numeric literal without pending
jumps, integer or float, whose value is an integer from -127 to 128) and
luaK_exp2anyreg brings both into registers, it emits LT or LE over the two
registers, in the order of the operands for < and <= and exchanged for > and
>=, again the source comparison. -/
theorem order_comparisons_keep_meaning (luaO_rawarith : Nat → TValue → TValue → TValue)
    (fs fs1 fs2 fs3 fs4 : FuncState) (x lit e1 e2 r1 r2 r3 r4 : expdesc) (line : Int)
    (hx : x.k = .VNONRELOC) (hxj : hasjumps x = false)
    (hxr : 0 ≤ x.info ∧ x.info ≤ (MAXARG_A : Int))
    (hl : lit.k = .VKINT) (hlj : hasjumps lit = false)
    (hn : -127 ≤ lit.ival ∧ lit.ival ≤ 128)
    (hs1 : (isSCnumber e1 0 0).1 = false)
    (hs2 : (isSCnumber (luaK_dischargevars fs e2).2 0 0).1 = false)
    (h1 : luaK_exp2anyreg (luaK_dischargevars fs e2).1 e1 = .ok (fs1, r1))
    (h2 : luaK_exp2anyreg fs1 (luaK_dischargevars fs e2).2 = .ok (fs2, r2))
    (h3 : luaK_exp2anyreg (luaK_dischargevars fs e2).1 (luaK_dischargevars fs e2).2
      = .ok (fs3, r3))
    (h4 : luaK_exp2anyreg fs3 e1 = .ok (fs4, r4))
    (hr1 : 0 ≤ r1.info ∧ r1.info ≤ (MAXARG_A : Int))
    (hr2 : 0 ≤ r2.info ∧ r2.info ≤ (MAXARG_B : Int))
    (hr3 : 0 ≤ r3.info ∧ r3.info ≤ (MAXARG_A : Int))
    (hr4 : 0 ≤ r4.info ∧ r4.info ≤ (MAXARG_B : Int)) :
    (∀ opr : BinOpr, opr = .OPR_LT ∨ opr = .OPR_LE ∨ opr = .OPR_GT ∨ opr = .OPR_GE →
      (∃ fsa a b, luaK_posfix luaO_rawarith fs opr x lit line = .ok (fsa, a, b) ∧
        a.k = .VJMP ∧ a.info = (fs.pc : Int) + 1 ∧
        EmitsComparison fs fsa
          (match opr with
            | .OPR_LT => OP_LTI | .OPR_LE => OP_LEI | .OPR_GT => OP_GTI | _ => OP_GEI)
          x.info (lit.ival + OFFSET_sC) 0 1 ∧
        ∀ v : Int,
          orderReading
            (match opr with
              | .OPR_LT => OP_LTI | .OPR_LE => OP_LEI | .OPR_GT => OP_GTI | _ => OP_GEI)
            v lit.ival = sourceOrder opr v lit.ival) ∧
      (∃ fsa a b, luaK_posfix luaO_rawarith fs opr lit x line = .ok (fsa, a, b) ∧
        a.k = .VJMP ∧ a.info = (fs.pc : Int) + 1 ∧
        EmitsComparison fs fsa
          (match opr with
            | .OPR_LT => OP_GTI | .OPR_LE => OP_GEI | .OPR_GT => OP_LTI | _ => OP_LEI)
          x.info (lit.ival + OFFSET_sC) 0 1 ∧
        ∀ v : Int,
          orderReading
            (match opr with
              | .OPR_LT => OP_GTI | .OPR_LE => OP_GEI | .OPR_GT => OP_LTI | _ => OP_LEI)
            v lit.ival = sourceOrder opr lit.ival v)) ∧
    (∀ opr : BinOpr, opr = .OPR_LT ∨ opr = .OPR_LE →
      ∃ c fsa a, luaK_posfix luaO_rawarith fs opr e1 e2 line = .ok (fsa, a, r2) ∧
        a.k = .VJMP ∧ a.info = (fs2.pc : Int) + 1 ∧
        r1.k = .VNONRELOC ∧ r2.k = .VNONRELOC ∧
        EmitsComparison fs2 fsa (if opr = .OPR_LT then OP_LT else OP_LE) r1.info r2.info c 1 ∧
        ∀ v1 v2 : Int,
          orderReading (if opr = .OPR_LT then OP_LT else OP_LE) v1 v2 = sourceOrder opr v1 v2) ∧
    (∀ opr : BinOpr, opr = .OPR_GT ∨ opr = .OPR_GE →
      ∃ c fsa a, luaK_posfix luaO_rawarith fs opr e1 e2 line = .ok (fsa, a, r4) ∧
        a.k = .VJMP ∧ a.info = (fs4.pc : Int) + 1 ∧
        r3.k = .VNONRELOC ∧ r4.k = .VNONRELOC ∧
        EmitsComparison fs4 fsa (if opr = .OPR_GT then OP_LT else OP_LE) r3.info r4.info c 1 ∧
        ∀ v1 v2 : Int,
          orderReading (if opr = .OPR_GT then OP_LT else OP_LE) v2 v1
            = sourceOrder opr v1 v2) := by
  have hdx : luaK_dischargevars fs x = (fs, x) := luaK_dischargevars_VNONRELOC fs x hx
  have hdl : luaK_dischargevars fs lit = (fs, lit) := luaK_dischargevars_VKINT fs lit hl
  have hRlt := codeorder_imm_right_emits fs OP_LT x lit (Or.inl rfl) hx hxj hxr hl hlj hn
  have hRle := codeorder_imm_right_emits fs OP_LE x lit (Or.inr rfl) hx hxj hxr hl hlj hn
  have hLlt := codeorder_imm_left_emits fs OP_LT x lit hx hxj hxr hl hlj hn
  have hLle := codeorder_imm_left_emits fs OP_LE x lit hx hxj hxr hl hlj hn
  refine ⟨?_, ?_, ?_⟩
  · intro opr hopr
    rcases hopr with h | h | h | h <;> subst h
    · refine ⟨?_, ?_⟩
      · obtain ⟨fsa, a, ha, hk, hi, he⟩ := hRlt
        refine ⟨fsa, a, lit, ?_, hk, hi, he, ?_⟩
        · rw [luaK_posfix_LT, hdl]
          exact ha
        · intro v
          rfl
      · obtain ⟨fsa, a, ha, hk, hi, he⟩ := hLlt
        refine ⟨fsa, a, x, ?_, hk, hi, he, ?_⟩
        · rw [luaK_posfix_LT, hdx]
          exact ha
        · intro v
          simp [orderReading, sourceOrder, OP_LT, OP_LTI, OP_LE, OP_LEI, OP_GTI, OP_GEI]
    · refine ⟨?_, ?_⟩
      · obtain ⟨fsa, a, ha, hk, hi, he⟩ := hRle
        refine ⟨fsa, a, lit, ?_, hk, hi, he, ?_⟩
        · rw [luaK_posfix_LE, hdl]
          exact ha
        · intro v
          rfl
      · obtain ⟨fsa, a, ha, hk, hi, he⟩ := hLle
        refine ⟨fsa, a, x, ?_, hk, hi, he, ?_⟩
        · rw [luaK_posfix_LE, hdx]
          exact ha
        · intro v
          simp [orderReading, sourceOrder, OP_LT, OP_LTI, OP_LE, OP_LEI, OP_GTI, OP_GEI]
    · refine ⟨?_, ?_⟩
      · obtain ⟨fsa, a, ha, hk, hi, he⟩ := hLlt
        refine ⟨fsa, a, x, ?_, hk, hi, he, ?_⟩
        · rw [luaK_posfix_GT, hdl]
          exact ha
        · intro v
          rfl
      · obtain ⟨fsa, a, ha, hk, hi, he⟩ := hRlt
        refine ⟨fsa, a, lit, ?_, hk, hi, he, ?_⟩
        · rw [luaK_posfix_GT, hdx]
          exact ha
        · intro v
          simp [orderReading, sourceOrder, OP_LT, OP_LTI, OP_LE, OP_LEI, OP_GTI, OP_GEI]
    · refine ⟨?_, ?_⟩
      · obtain ⟨fsa, a, ha, hk, hi, he⟩ := hLle
        refine ⟨fsa, a, x, ?_, hk, hi, he, ?_⟩
        · rw [luaK_posfix_GE, hdl]
          exact ha
        · intro v
          rfl
      · obtain ⟨fsa, a, ha, hk, hi, he⟩ := hRle
        refine ⟨fsa, a, lit, ?_, hk, hi, he, ?_⟩
        · rw [luaK_posfix_GE, hdx]
          exact ha
        · intro v
          simp [orderReading, sourceOrder, OP_LT, OP_LTI, OP_LE, OP_LEI, OP_GTI, OP_GEI]
  · intro opr hopr
    rcases hopr with h | h <;> subst h
    · obtain ⟨c, fsa, j, hj, hk, hi, hk1, hk2, he⟩ :=
        codeorder_regs_emits OP_LT (Or.inl rfl) hs1 hs2 h1 h2 hr1 hr2
      refine ⟨c, fsa, j, ?_, hk, hi, hk1, hk2, he, ?_⟩
      · rw [luaK_posfix_LT]
        exact hj
      · intro v1 v2
        rfl
    · obtain ⟨c, fsa, j, hj, hk, hi, hk1, hk2, he⟩ :=
        codeorder_regs_emits OP_LE (Or.inr rfl) hs1 hs2 h1 h2 hr1 hr2
      refine ⟨c, fsa, j, ?_, hk, hi, hk1, hk2, he, ?_⟩
      · rw [luaK_posfix_LE]
        exact hj
      · intro v1 v2
        rfl
  · intro opr hopr
    rcases hopr with h | h <;> subst h
    · obtain ⟨c, fsa, j, hj, hk, hi, hk1, hk2, he⟩ :=
        codeorder_regs_emits OP_LT (Or.inl rfl) hs2 hs1 h3 h4 hr3 hr4
      refine ⟨c, fsa, j, ?_, hk, hi, hk1, hk2, he, ?_⟩
      · rw [luaK_posfix_GT]
        exact hj
      · intro v1 v2
        rfl
    · obtain ⟨c, fsa, j, hj, hk, hi, hk1, hk2, he⟩ :=
        codeorder_regs_emits OP_LE (Or.inr rfl) hs2 hs1 h3 h4 hr3 hr4
      refine ⟨c, fsa, j, ?_, hk, hi, hk1, hk2, he, ?_⟩
      · rw [luaK_posfix_GE]
        exact hj
      · intro v1 v2
        rfl
/-- Witness for C32 (amended): with two locals in registers 0 and 1, the
comparison 5 > x emits LTI 0 with immediate 5 + OFFSET_sC, x <= y emits
LE 0 1 and x >= y emits LE 1 0. -/
theorem order_comparisons_keep_meaning_witness :
    (∃ fsa a b, luaK_posfix integerArith { open_func 0 with freereg := 2, nactvar := 2 } .OPR_GT
        ⟨.VKINT, 0, 5, .negzero, 0, 0, -1, -1, 0⟩ ⟨.VNONRELOC, 0, 0, .negzero, 0, 0, -1, -1, 0⟩ 1
        = .ok (fsa, a, b) ∧ a.k = .VJMP ∧ a.info = 1 ∧
      EmitsComparison { open_func 0 with freereg := 2, nactvar := 2 } fsa OP_LTI 0
        (5 + (OFFSET_sC : Int)) 0 1 ∧
      ∀ v : Int, orderReading OP_LTI v 5 = sourceOrder .OPR_GT 5 v) ∧
    (∃ c fsa a, luaK_posfix integerArith { open_func 0 with freereg := 2, nactvar := 2 } .OPR_LE
        ⟨.VNONRELOC, 0, 0, .negzero, 0, 0, -1, -1, 0⟩ ⟨.VNONRELOC, 1, 0, .negzero, 0, 0, -1, -1, 0⟩ 1
        = .ok (fsa, a, ⟨.VNONRELOC, 1, 0, .negzero, 0, 0, -1, -1, 0⟩) ∧
      EmitsComparison { open_func 0 with freereg := 2, nactvar := 2 } fsa OP_LE 0 1 c 1 ∧
      ∀ v1 v2 : Int, orderReading OP_LE v1 v2 = sourceOrder .OPR_LE v1 v2) ∧
    (∃ c fsa a, luaK_posfix integerArith { open_func 0 with freereg := 2, nactvar := 2 } .OPR_GE
        ⟨.VNONRELOC, 0, 0, .negzero, 0, 0, -1, -1, 0⟩ ⟨.VNONRELOC, 1, 0, .negzero, 0, 0, -1, -1, 0⟩ 1
        = .ok (fsa, a, ⟨.VNONRELOC, 0, 0, .negzero, 0, 0, -1, -1, 0⟩) ∧
      EmitsComparison { open_func 0 with freereg := 2, nactvar := 2 } fsa OP_LE 1 0 c 1 ∧
      ∀ v1 v2 : Int, orderReading OP_LE v2 v1 = sourceOrder .OPR_GE v1 v2) := by
  have h := order_comparisons_keep_meaning integerArith
    { open_func 0 with freereg := 2, nactvar := 2 } { open_func 0 with freereg := 2, nactvar := 2 }
    { open_func 0 with freereg := 2, nactvar := 2 } { open_func 0 with freereg := 2, nactvar := 2 }
    { open_func 0 with freereg := 2, nactvar := 2 }
    ⟨.VNONRELOC, 0, 0, .negzero, 0, 0, -1, -1, 0⟩ ⟨.VKINT, 0, 5, .negzero, 0, 0, -1, -1, 0⟩
    ⟨.VNONRELOC, 0, 0, .negzero, 0, 0, -1, -1, 0⟩ ⟨.VNONRELOC, 1, 0, .negzero, 0, 0, -1, -1, 0⟩
    ⟨.VNONRELOC, 0, 0, .negzero, 0, 0, -1, -1, 0⟩ ⟨.VNONRELOC, 1, 0, .negzero, 0, 0, -1, -1, 0⟩
    ⟨.VNONRELOC, 1, 0, .negzero, 0, 0, -1, -1, 0⟩ ⟨.VNONRELOC, 0, 0, .negzero, 0, 0, -1, -1, 0⟩
    1 rfl (by decide) (by decide) rfl (by decide) (by decide) rfl rfl rfl rfl rfl rfl
    (by decide) (by decide) (by decide) (by decide)
  obtain ⟨fsa, a, b, h1, h2, h3, h4, h5⟩ := (h.1 .OPR_GT (Or.inr (Or.inr (Or.inl rfl)))).2
  obtain ⟨c, fsb, j, g1, -, -, -, -, g2, g3⟩ := h.2.1 .OPR_LE (Or.inr rfl)
  obtain ⟨d, fsc, l, k1, -, -, -, -, k2, k3⟩ := h.2.2 .OPR_GE (Or.inr rfl)
  exact ⟨⟨fsa, a, b, h1, h2, h3, h4, h5⟩, ⟨c, fsb, j, g1, g2, g3⟩, ⟨d, fsc, l, k1, k2, k3⟩⟩

/-! ## The `isfloat` flag of an immediate comparison -/

/-- C33: failing input 1 < 200.0 (both operands literals). The first call of
isSCnumber, on the float literal 200.0, sets isfloat to 1 and then rejects the
literal, because 200 does not fit sC; the second call, on the integer literal
1, accepts it and leaves the flag as it is. codeorder loads 200.0 into
register 0 and emits GTI with A = 0, immediate 1 + OFFSET_sC and C = 1,
although the immediate operand is the integer literal 1. -/
theorem integer_immediate_flagged_as_float
    (luaO_rawarith : Nat → TValue → TValue → TValue) :
    isSCnumber ⟨.VKFLT, 0, 0, .fin 200, 0, 0, -1, -1, 0⟩ 0 0 = (false, 200, 1) ∧
    isSCnumber ⟨.VKINT, 0, 1, .negzero, 0, 0, -1, -1, 0⟩ 200 1 = (true, 1 + (OFFSET_sC : Int), 1) ∧
    (match luaK_posfix luaO_rawarith (open_func 0) .OPR_LT
        ⟨.VKINT, 0, 1, .negzero, 0, 0, -1, -1, 0⟩
        ⟨.VKFLT, 0, 0, .fin 200, 0, 0, -1, -1, 0⟩ 1 with
      | .ok (fs1, e1, e2) =>
        some (fs1.pc, GET_OPCODE (fs1.code 0), GETARG_A (fs1.code 0), GETARG_sBx (fs1.code 0),
          GET_OPCODE (fs1.code 1), GETARG_A (fs1.code 1), GETARG_B (fs1.code 1),
          GETARG_C (fs1.code 1), GETARG_k (fs1.code 1), GET_OPCODE (fs1.code 2), e1.k, e2.k)
      | .error _ => none)
      = some (3, OP_LOADF, 0, 200, OP_GTI, 0, 1 + (OFFSET_sC : Int), 1, 1, OP_JMP, .VJMP,
          .VNONRELOC) :=
  ⟨rfl, rfl, rfl⟩

/-! ## A left shift by an immediate -/

/-- C31: failing input x << 128, where x is the local in register 0. The
literal 128 is accepted by isSCint, codeshift negates it to -128 and codebini
hands -128 + OFFSET_sC = -1 to the encoder as argument C: it is not in
[0, MAXARG_C]. The instruction emitted is SHRI with k = 1 and C field 255,
which decodes to the immediate 255 - OFFSET_sC = +128 and not to -128. -/
theorem shift_left_by_128_leaves_operand_range
    (luaO_rawarith : Nat → TValue → TValue → TValue) :
    isSCint ⟨.VKINT, 0, 128, .negzero, 0, 0, -1, -1, 0⟩ = true ∧
    isSCint ⟨.VNONRELOC, 0, 0, .negzero, 0, 0, -1, -1, 0⟩ = false ∧
    (match luaK_posfix luaO_rawarith { open_func 0 with freereg := 1, nactvar := 1 } .OPR_SHL
        ⟨.VNONRELOC, 0, 0, .negzero, 0, 0, -1, -1, 0⟩
        ⟨.VKINT, 0, 128, .negzero, 0, 0, -1, -1, 0⟩ 1 with
      | .ok (fs1, e1, e2) =>
        some (fs1.pc, fs1.code 0, GET_OPCODE (fs1.code 0), GETARG_B (fs1.code 0),
          GETARG_k (fs1.code 0), GETARG_C (fs1.code 0), e1.k, e2.ival)
      | .error _ => none)
      = some (1, CREATE_ABCk OP_SHRI 0 0 (cast_int (-128) + OFFSET_sC) 1, OP_SHRI, 0, 1, 255,
          .VRELOC, -128) ∧
    cast_int (-128) + (OFFSET_sC : Int) = -1 ∧
    ¬ (0 ≤ cast_int (-128) + (OFFSET_sC : Int)) ∧
    (255 : Int) - OFFSET_sC = 128 ∧ fitsC (-128) = false :=
  ⟨rfl, rfl, rfl, rfl, by decide, rfl, rfl⟩

end LCode
